import Mathlib

/-!
# DroidFakeCam: frame utilities and media reader

A shallow embedding of `module/jni/frame_utils.cpp` and `module/jni/media_reader.cpp`,
with theorems about it.

Conventions of the embedding

* A C++ `int` is a Lean `Int`; arithmetic is exact.  Signed overflow is undefined
  behaviour in C++, so the theorems about frames and files assume that the byte counts
  involved fit in an `int` (below `2^31`), the range in which exact arithmetic and the
  machine arithmetic agree.  Division and remainder of `int` are `Int.tdiv` and
  `Int.tmod` (rounding towards zero), `>>` is `Int.shiftRight` (rounding down).
* A byte is a `Nat`; a byte buffer (`uint8_t*` with its allocation) is
  `Option (List Nat)`: `none` is the null pointer, the list holds the allocated bytes.
* A call that reads or writes outside an allocation, blocks for ever or fails to
  allocate does not return a value: it is `Except.error` with the `Fault` that
  happened.  A normal return is `Except.ok`.
* An out-parameter `FrameData& dst` is an argument (the object before the call) and a
  component of the result (the object after it).  `src` and `dst` are distinct objects.
* `new uint8_t[n]` yields `n` bytes of indeterminate content; the content is the
  parameter `fresh`.
* A `float` is the rational number it denotes, and every operation rounds its exact
  result once to the nearest binary32 value (see the section on single-precision
  arithmetic).
* The files and the NDK media service are an argument `Env`.  A `std::mutex` is a flag
  in the object; `std::lock_guard` sets it on entry, clears it on return, and a call
  that meets the flag already set never returns.
-/

namespace DroidFakeCam

/-! ## Execution model -/

/-- Ways in which a call fails to return normally: an access outside an allocation, a
wait for a mutex that is never released, an allocation of impossible size, the end
of the step budget that bounds the decode loop of the model (the loop of the code has
no bound), and a `float` division by zero, whose infinities and NaNs the model does not
follow. -/
inductive Fault where
  | outOfBounds
  | deadlock
  | badAlloc
  | outOfFuel
  | nonFinite
  deriving DecidableEq

deriving instance DecidableEq for Except

/-- Outcome of a call: a value, or the fault that kept it from returning. -/
abbrev Exec := Except Fault

/-- The bytes of an allocation. -/
abbrev Buf := List Nat

/-- Byte `i` of a buffer (0 outside the buffer). -/
def peek (b : Buf) (i : Int) : Nat := b.getD i.toNat 0

/-- Buffer with byte `i` replaced. -/
def poke (b : Buf) (i : Int) (v : Nat) : Buf := b.set i.toNat v

/-- Read `p[i]`. -/
def loadByte (b : Buf) (i : Int) : Exec Nat :=
  if 0 ≤ i ∧ i < b.length then .ok (peek b i) else .error .outOfBounds

/-- Write `p[i] = v`. -/
def storeByte (b : Buf) (i : Int) (v : Nat) : Exec Buf :=
  if 0 ≤ i ∧ i < b.length then .ok (poke b i v) else .error .outOfBounds

/-- Iterations `i, i+1, ...` of a counting loop, `k` of them. -/
def loopFrom {σ : Type} (body : Int → σ → Exec σ) : Nat → Int → σ → Exec σ
  | 0, _, s => .ok s
  | k + 1, i, s =>
    match body i s with
    | .ok s' => loopFrom body k (i + 1) s'
    | .error e => .error e

/-- The loop `for (int i = 0; i < n; i++) body`. -/
def forRange {σ : Type} (n : Int) (body : Int → σ → Exec σ) (s : σ) : Exec σ :=
  loopFrom body n.toNat 0 s

/-- Conversion of an `int` to `size_t` (64 bit). -/
def toSizeT (x : Int) : Nat := (x % 2 ^ 64).toNat

/-- Result of `new uint8_t[n]`: `n` bytes of indeterminate content. -/
def newArray (fresh : Nat → Nat) (n : Nat) : Buf :=
  (List.range n).map (fun i => fresh i % 256)

/-- The call `memcpy(dst, src, n)`. -/
def memcpy (dst src : Buf) (n : Nat) : Exec Buf :=
  if n ≤ dst.length ∧ n ≤ src.length then .ok (src.take n ++ dst.drop n)
  else .error .outOfBounds

/-- The helper `clamp`: `max(0, min(255, val))` as a byte. -/
def clamp (val : Int) : Nat := (max 0 (min 255 val)).toNat

/-! ## Single-precision arithmetic

A `float` is the rational number it denotes.  Every operation computes the exact result
and rounds it once to the nearest `float` (IEEE 754 binary32, ties to even); there is
no fused multiply-add.  The exponent range is not bounded: the magnitudes that occur,
quotients and products of `int` values and of bytes, neither overflow nor underflow.
Division by zero is not modelled (see `Fault.nonFinite`). -/

/-- Nearest integer, a tie going to the even one. -/
def roundHalfEven (x : ℚ) : ℤ :=
  if x - ⌊x⌋ < 1 / 2 then ⌊x⌋
  else if 1 / 2 < x - ⌊x⌋ then ⌊x⌋ + 1
  else if ⌊x⌋ % 2 = 0 then ⌊x⌋ else ⌊x⌋ + 1

/-- Rounding to the nearest `float`: 24 significant bits. -/
def f32 (q : ℚ) : ℚ :=
  roundHalfEven (q / 2 ^ (Int.log 2 |q| - 23)) * 2 ^ (Int.log 2 |q| - 23)

/-- Conversion of an `int` to `float`. -/
def intToFloat (n : Int) : ℚ := f32 n

/-- Conversion `static_cast<int>(x)` of a `float`: the fraction is dropped. -/
def floatToInt (x : ℚ) : Int := if 0 ≤ x then ⌊x⌋ else ⌈x⌉

/-- Sum of two `float`s. -/
def fadd (a b : ℚ) : ℚ := f32 (a + b)

/-- Difference of two `float`s. -/
def fsub (a b : ℚ) : ℚ := f32 (a - b)

/-- Product of two `float`s. -/
def fmul (a b : ℚ) : ℚ := f32 (a * b)

/-- Quotient of two `float`s, the divisor not zero. -/
def fdiv (a b : ℚ) : ℚ := f32 (a / b)

/-- The call `memcpy(dst + dOff, src + sOff, n)` with `n` an `int` converted to
`size_t`. -/
def memcpyAt (dst : Buf) (dOff : Int) (src : Buf) (sOff : Int) (n : Int) : Exec Buf :=
  if 0 ≤ n ∧ 0 ≤ dOff ∧ dOff + n ≤ dst.length ∧ 0 ≤ sOff ∧ sOff + n ≤ src.length then
    .ok (dst.take dOff.toNat ++ (src.drop sOff.toNat).take n.toNat ++
      dst.drop (dOff.toNat + n.toNat))
  else .error .outOfBounds

/-! ## Frames -/

/-- The struct `FrameData`. -/
structure FrameData where
  data : Option Buf
  size : Nat
  width : Int
  height : Int
  format : Int
  stride : Int
  timestamp : Int
  deriving DecidableEq

/-- The default-constructed `FrameData()`. -/
def emptyFrame : FrameData :=
  { data := none, size := 0, width := 0, height := 0, format := 0, stride := 0, timestamp := 0 }

/-- Bytes per pixel of the packed formats (2 = RGBA32, otherwise RGB24). -/
def bytesPerPixel (format : Int) : Int := if format = 2 then 4 else 3

/-- The bytes `data` points to (none for the null pointer). -/
def FrameData.bytes (f : FrameData) : Buf := f.data.getD []

/-- Byte `c` of the pixel at column `x`, row `y` of a packed frame: rows are `stride`
bytes apart, pixels `bytesPerPixel` bytes apart. -/
def FrameData.pixelByte (f : FrameData) (x y c : Int) : Nat :=
  peek f.bytes (y * f.stride + x * bytesPerPixel f.format + c)

/-- A valid, tightly packed RGB24 or RGBA32 frame: non-null data of `size` bytes,
positive dimensions, `stride = width * bytesPerPixel`, `size = stride * height`, and a
byte count that fits in an `int`. -/
def ValidPacked (f : FrameData) : Prop :=
  f.data.isSome = true ∧ (f.format = 2 ∨ f.format = 3) ∧ 0 < f.width ∧ 0 < f.height ∧
  f.stride = f.width * bytesPerPixel f.format ∧ (f.size : Int) = f.stride * f.height ∧
  f.bytes.length = f.size ∧ f.size < 2 ^ 31

instance (f : FrameData) : Decidable (ValidPacked f) := by
  unfold ValidPacked; infer_instance

/-- Every byte of the frame is a byte. -/
def BytesOk (f : FrameData) : Prop := ∀ b ∈ f.bytes, b < 256

instance (f : FrameData) : Decidable (BytesOk f) := by
  unfold BytesOk; infer_instance

/-- A valid frame of any format: non-null data of `size > 0` bytes. -/
def ValidFrame (f : FrameData) : Prop :=
  f.data.isSome = true ∧ f.size ≠ 0 ∧ f.bytes.length = f.size

instance (f : FrameData) : Decidable (ValidFrame f) := by
  unfold ValidFrame; infer_instance

/-- A valid RGB24 or RGBA32 frame whose rows may be padded: non-null data of `size` bytes,
positive dimensions, `stride >= width * bytesPerPixel`, `size = stride * height`, and a
byte count that fits in an `int`. -/
def ValidPadded (f : FrameData) : Prop :=
  f.data.isSome = true ∧ (f.format = 2 ∨ f.format = 3) ∧ 0 < f.width ∧ 0 < f.height ∧
  f.width * bytesPerPixel f.format ≤ f.stride ∧ (f.size : Int) = f.stride * f.height ∧
  f.bytes.length = f.size ∧ f.size < 2 ^ 31

instance (f : FrameData) : Decidable (ValidPadded f) := by
  unfold ValidPadded; infer_instance

namespace FrameUtils

/-- The helper `calcNv21Size`. -/
def calcNv21Size (width height : Int) : Nat := toSizeT (Int.tdiv (width * height * 3) 2)

/-- The helper `calcYuv420Size`. -/
def calcYuv420Size (width height : Int) : Nat := toSizeT (Int.tdiv (width * height * 3) 2)

/-- The helper `calcRgbSize`. -/
def calcRgbSize (width height : Int) : Nat := toSizeT (width * height * 3)

/-- The call `std::swap(p[i], p[j])`. -/
def swapBytes (d : Buf) (i j : Int) : Exec Buf := do
  let a ← loadByte d i
  let b ← loadByte d j
  let d1 ← storeByte d i b
  storeByte d1 j a

/-- The function `flipHorizontal` (in place). -/
def flipHorizontal (frame : FrameData) : Exec (Bool × FrameData) :=
  match frame.data with
  | none => .ok (false, frame)
  | some fdata =>
    if frame.size = 0 then .ok (false, frame)
    else
      let bpp? : Option Int :=
        if frame.format = 2 then some 4
        else if frame.format = 0 ∨ frame.format = 1 then none
        else some 3
      match bpp? with
      | none => .ok (false, frame)
      | some bpp => do
        let d ← forRange frame.height (fun y d =>
          forRange (Int.tdiv frame.width 2) (fun x d =>
            let leftIdx := (y * frame.width + x) * bpp
            let rightIdx := (y * frame.width + (frame.width - 1 - x)) * bpp
            forRange bpp (fun c d => swapBytes d (leftIdx + c) (rightIdx + c)) d) d) fdata
        pure (true, { frame with data := some d })

/-- The function `rotate90CW`. -/
def rotate90CW (fresh : Nat → Nat) (src dst : FrameData) : Exec (Bool × FrameData) :=
  match src.data with
  | none => .ok (false, dst)
  | some sdata =>
    if src.size = 0 then .ok (false, dst)
    else
      let bpp? : Option Int :=
        if src.format = 2 then some 4
        else if src.format ≠ 3 then none
        else some 3
      match bpp? with
      | none => .ok (false, dst)
      | some bpp => do
        let dstWidth := src.height
        let dstHeight := src.width
        let dstStride := dstWidth * bpp
        let dstSize := toSizeT (dstStride * dstHeight)
        let ddata := newArray fresh dstSize
        let d ← forRange src.height (fun y d =>
          forRange src.width (fun x d =>
            let srcIdx := (y * src.width + x) * bpp
            let dstX := src.height - 1 - y
            let dstY := x
            let dstIdx := (dstY * dstWidth + dstX) * bpp
            forRange bpp (fun c d => do
              let v ← loadByte sdata (srcIdx + c)
              storeByte d (dstIdx + c) v) d) d) ddata
        pure (true, { dst with width := dstWidth, height := dstHeight, format := src.format,
                               stride := dstStride, size := dstSize, data := some d })

/-- The function `rotate90CCW`. -/
def rotate90CCW (fresh : Nat → Nat) (src dst : FrameData) : Exec (Bool × FrameData) :=
  match src.data with
  | none => .ok (false, dst)
  | some sdata =>
    if src.size = 0 then .ok (false, dst)
    else
      let bpp? : Option Int :=
        if src.format = 2 then some 4
        else if src.format ≠ 3 then none
        else some 3
      match bpp? with
      | none => .ok (false, dst)
      | some bpp => do
        let dstWidth := src.height
        let dstHeight := src.width
        let dstStride := dstWidth * bpp
        let dstSize := toSizeT (dstStride * dstHeight)
        let ddata := newArray fresh dstSize
        let d ← forRange src.height (fun y d =>
          forRange src.width (fun x d =>
            let srcIdx := (y * src.width + x) * bpp
            let dstX := y
            let dstY := src.width - 1 - x
            let dstIdx := (dstY * dstWidth + dstX) * bpp
            forRange bpp (fun c d => do
              let v ← loadByte sdata (srcIdx + c)
              storeByte d (dstIdx + c) v) d) d) ddata
        pure (true, { dst with width := dstWidth, height := dstHeight, format := src.format,
                               stride := dstStride, size := dstSize, data := some d })

/-- The function `rotate180` (in place). -/
def rotate180 (frame : FrameData) : Exec (Bool × FrameData) :=
  match frame.data with
  | none => .ok (false, frame)
  | some fdata =>
    if frame.size = 0 then .ok (false, frame)
    else
      let bpp? : Option Int :=
        if frame.format = 2 then some 4
        else if frame.format ≠ 3 then none
        else some 3
      match bpp? with
      | none => .ok (false, frame)
      | some bpp => do
        let totalPixels := frame.width * frame.height
        let d ← forRange (Int.tdiv totalPixels 2) (fun i d =>
          let j := totalPixels - 1 - i
          forRange bpp (fun c d => swapBytes d (i * bpp + c) (j * bpp + c)) d) fdata
        pure (true, { frame with data := some d })

/-- The function `rgbToNv21`; the result carries the buffer `nv21` points to. -/
def rgbToNv21 (rgb nv21 : Option Buf) (width height : Int) : Exec (Bool × Option Buf) :=
  match rgb, nv21 with
  | some rgbData, some nv21Data =>
    if width ≤ 0 ∨ height ≤ 0 then .ok (false, nv21)
    else do
      let ySize := width * height
      let out ← forRange height (fun j out =>
        forRange width (fun i out => do
          let rgbIdx := (j * width + i) * 3
          let r : Int := ← loadByte rgbData rgbIdx
          let g : Int := ← loadByte rgbData (rgbIdx + 1)
          let b : Int := ← loadByte rgbData (rgbIdx + 2)
          let y := ((66 * r + 129 * g + 25 * b + 128) >>> (8 : Nat)) + 16
          let out ← storeByte out (j * width + i) (clamp y)
          if Int.tmod j 2 = 0 ∧ Int.tmod i 2 = 0 then do
            let u := ((-38 * r - 74 * g + 112 * b + 128) >>> (8 : Nat)) + 128
            let v := ((112 * r - 94 * g - 18 * b + 128) >>> (8 : Nat)) + 128
            let uvIdx := (Int.tdiv j 2) * width + i
            let out ← storeByte out (ySize + uvIdx) (clamp v)
            storeByte out (ySize + (uvIdx + 1)) (clamp u)
          else pure out) out) nv21Data
      pure (true, some out)
  | _, _ => .ok (false, nv21)

/-- The function `nv21ToRgb`; the result carries the buffer `rgb` points to. -/
def nv21ToRgb (nv21 rgb : Option Buf) (width height : Int) : Exec (Bool × Option Buf) :=
  match nv21, rgb with
  | some nv21Data, some rgbData =>
    if width ≤ 0 ∨ height ≤ 0 then .ok (false, rgb)
    else do
      let ySize := width * height
      let out ← forRange height (fun j out =>
        forRange width (fun i out => do
          let y : Int := ← loadByte nv21Data (j * width + i)
          let uvIdx := (Int.tdiv j 2) * width + Int.land i (~~~ 1)
          let v : Int := (← loadByte nv21Data (ySize + uvIdx) : Nat) - 128
          let u : Int := (← loadByte nv21Data (ySize + (uvIdx + 1)) : Nat) - 128
          let c := y - 16
          let r := (298 * c + 409 * v + 128) >>> (8 : Nat)
          let g := (298 * c - 100 * u - 208 * v + 128) >>> (8 : Nat)
          let b := (298 * c + 516 * u + 128) >>> (8 : Nat)
          let rgbIdx := (j * width + i) * 3
          let out ← storeByte out rgbIdx (clamp r)
          let out ← storeByte out (rgbIdx + 1) (clamp g)
          storeByte out (rgbIdx + 2) (clamp b)) out) rgbData
      pure (true, some out)
  | _, _ => .ok (false, rgb)

/-- The function `rgbToYuv420`; the result carries the buffer `yuv420` points to. -/
def rgbToYuv420 (rgb yuv420 : Option Buf) (width height : Int) : Exec (Bool × Option Buf) :=
  match rgb, yuv420 with
  | some rgbData, some yuvData =>
    if width ≤ 0 ∨ height ≤ 0 then .ok (false, yuv420)
    else do
      let ySize := width * height
      let uSize := Int.tdiv (width * height) 4
      let out ← forRange height (fun j out =>
        forRange width (fun i out => do
          let rgbIdx := (j * width + i) * 3
          let r : Int := ← loadByte rgbData rgbIdx
          let g : Int := ← loadByte rgbData (rgbIdx + 1)
          let b : Int := ← loadByte rgbData (rgbIdx + 2)
          let y := ((66 * r + 129 * g + 25 * b + 128) >>> (8 : Nat)) + 16
          let out ← storeByte out (j * width + i) (clamp y)
          if Int.tmod j 2 = 0 ∧ Int.tmod i 2 = 0 then do
            let u := ((-38 * r - 74 * g + 112 * b + 128) >>> (8 : Nat)) + 128
            let v := ((112 * r - 94 * g - 18 * b + 128) >>> (8 : Nat)) + 128
            let uvIdx := (Int.tdiv j 2) * (Int.tdiv width 2) + (Int.tdiv i 2)
            let out ← storeByte out (ySize + uvIdx) (clamp u)
            storeByte out (ySize + uSize + uvIdx) (clamp v)
          else pure out) out) yuvData
      pure (true, some out)
  | _, _ => .ok (false, yuv420)

/-- The function `convertFormat`. -/
def convertFormat (fresh : Nat → Nat) (src dst : FrameData) (targetFormat : Int) :
    Exec (Bool × FrameData) :=
  match src.data with
  | none => .ok (false, dst)
  | some sdata =>
    if src.size = 0 then .ok (false, dst)
    else if src.format = targetFormat then do
      let dst := { dst with width := src.width, height := src.height, format := src.format,
                            stride := src.stride, size := src.size }
      let d ← memcpy (newArray fresh dst.size) sdata src.size
      pure (true, { dst with data := some d })
    else
      let dst := { dst with width := src.width, height := src.height, format := targetFormat }
      if src.format = 3 ∧ targetFormat = 0 then do
        let dst := { dst with size := calcNv21Size src.width src.height }
        let r ← rgbToNv21 src.data (some (newArray fresh dst.size)) src.width src.height
        pure (r.1, { dst with data := r.2 })
      else if src.format = 3 ∧ targetFormat = 1 then do
        let dst := { dst with size := calcYuv420Size src.width src.height }
        let r ← rgbToYuv420 src.data (some (newArray fresh dst.size)) src.width src.height
        pure (r.1, { dst with data := r.2 })
      else if src.format = 0 ∧ targetFormat = 3 then do
        let dst := { dst with size := calcRgbSize src.width src.height,
                              stride := src.width * 3 }
        let r ← nv21ToRgb src.data (some (newArray fresh dst.size)) src.width src.height
        pure (r.1, { dst with data := r.2 })
      else .ok (false, dst)

/-- The function `scaleFrame`.  A ratio whose divisor is 0 is never used: the loop over
that dimension has no iteration. -/
def scaleFrame (fresh : Nat → Nat) (src dst : FrameData) (targetWidth targetHeight : Int) :
    Exec (Bool × FrameData) :=
  match src.data with
  | none => .ok (false, dst)
  | some sdata =>
    if src.size = 0 then .ok (false, dst)
    else if src.format ≠ 2 ∧ src.format ≠ 3 then .ok (false, dst)
    else do
      let bpp : Int := if src.format = 2 then 4 else 3
      let dstStride := targetWidth * bpp
      let dstSize := toSizeT (dstStride * targetHeight)
      let ddata := newArray fresh dstSize
      let xRatio := fdiv (intToFloat src.width) (intToFloat targetWidth)
      let yRatio := fdiv (intToFloat src.height) (intToFloat targetHeight)
      let d ← forRange targetHeight (fun y d =>
        let srcY := fmul (intToFloat y) yRatio
        let srcY0 := floatToInt srcY
        let srcY1 := min (srcY0 + 1) (src.height - 1)
        let yFrac := fsub srcY (intToFloat srcY0)
        forRange targetWidth (fun x d =>
          let srcX := fmul (intToFloat x) xRatio
          let srcX0 := floatToInt srcX
          let srcX1 := min (srcX0 + 1) (src.width - 1)
          let xFrac := fsub srcX (intToFloat srcX0)
          let dstIdx := (y * targetWidth + x) * bpp
          forRange bpp (fun c d => do
            let srcIdx00 := (srcY0 * src.width + srcX0) * bpp + c
            let srcIdx01 := (srcY0 * src.width + srcX1) * bpp + c
            let srcIdx10 := (srcY1 * src.width + srcX0) * bpp + c
            let srcIdx11 := (srcY1 * src.width + srcX1) * bpp + c
            let v00 ← loadByte sdata srcIdx00
            let v01 ← loadByte sdata srcIdx01
            let v10 ← loadByte sdata srcIdx10
            let v11 ← loadByte sdata srcIdx11
            let val :=
              fadd (fadd (fadd
                (fmul (fmul (intToFloat v00) (fsub (intToFloat 1) xFrac))
                  (fsub (intToFloat 1) yFrac))
                (fmul (fmul (intToFloat v01) xFrac) (fsub (intToFloat 1) yFrac)))
                (fmul (fmul (intToFloat v10) (fsub (intToFloat 1) xFrac)) yFrac))
                (fmul (fmul (intToFloat v11) xFrac) yFrac)
            storeByte d (dstIdx + c) (clamp (floatToInt val))) d) d) ddata
      pure (true, { dst with width := targetWidth, height := targetHeight,
                             format := src.format, stride := dstStride, size := dstSize,
                             data := some d })

/-- The function `applyFrontCameraTransform`. -/
def applyFrontCameraTransform (freshFlipped freshDst : Nat → Nat) (src dst : FrameData) :
    Exec (Bool × FrameData) := do
  let copied ← memcpy (newArray freshFlipped src.size) src.bytes src.size
  let flipped : FrameData :=
    { emptyFrame with width := src.width, height := src.height, format := src.format,
                      stride := src.stride, size := src.size, data := some copied }
  let r ← flipHorizontal flipped
  if !r.1 then pure (false, dst)
  else rotate90CW freshDst r.2 dst

/-- The function `matchResolution`.  `memset(dst.data, 0, dst.size)` turns every byte of
the new buffer into 0.  An aspect ratio with divisor 0 is `Fault.nonFinite`. -/
def matchResolution (freshScaled freshDst : Nat → Nat) (src dst : FrameData)
    (targetWidth targetHeight : Int) (maintainAspect : Bool) : Exec (Bool × FrameData) :=
  match src.data with
  | none => .ok (false, dst)
  | some sdata =>
    if src.size = 0 then .ok (false, dst)
    else if src.width = targetWidth ∧ src.height = targetHeight then do
      let d ← memcpy (newArray freshDst src.size) sdata src.size
      pure (true, { dst with width := src.width, height := src.height, format := src.format,
                             stride := src.stride, size := src.size, data := some d })
    else if !maintainAspect then scaleFrame freshDst src dst targetWidth targetHeight
    else if src.height = 0 ∨ targetHeight = 0 then .error .nonFinite
    else
      let srcAspect := fdiv (intToFloat src.width) (intToFloat src.height)
      let dstAspect := fdiv (intToFloat targetWidth) (intToFloat targetHeight)
      if srcAspect > dstAspect ∧ srcAspect = 0 then .error .nonFinite
      else do
        let scaleWidth : Int :=
          if srcAspect > dstAspect then targetWidth
          else floatToInt (fmul (intToFloat targetHeight) srcAspect)
        let scaleHeight : Int :=
          if srcAspect > dstAspect then floatToInt (fdiv (intToFloat targetWidth) srcAspect)
          else targetHeight
        let sc ← scaleFrame freshScaled src emptyFrame scaleWidth scaleHeight
        if !sc.1 then pure (false, dst)
        else do
          let scaled := sc.2
          let bpp : Int := if src.format = 2 then 4 else 3
          let dstStride := targetWidth * bpp
          let dstSize := toSizeT (dstStride * targetHeight)
          let ddata : Buf := (newArray freshDst dstSize).map (fun _ => 0)
          let offsetX := Int.tdiv (targetWidth - scaleWidth) 2
          let offsetY := Int.tdiv (targetHeight - scaleHeight) 2
          let d ← forRange scaleHeight (fun y d =>
            let srcRow := y * scaleWidth * bpp
            let dstRow := ((y + offsetY) * targetWidth + offsetX) * bpp
            memcpyAt d dstRow scaled.bytes srcRow (scaleWidth * bpp)) ddata
          pure (true, { dst with width := targetWidth, height := targetHeight,
                                 format := src.format, stride := dstStride, size := dstSize,
                                 data := some d })

end FrameUtils

/-! ## The media reader: files and the BMP headers -/

/-- A file opened for reading: its bytes and the read position. -/
structure FileStream where
  content : List Nat
  pos : Nat
  deriving DecidableEq

/-- The call `fread(buf, 1, n, file)` (also `fread(buf, n, 1, file)`, which succeeds when
all `n` bytes arrive): the bytes read, fewer than `n` at the end of the file, and the
stream afterwards. -/
def fread (f : FileStream) (n : Nat) : List Nat × FileStream :=
  ((f.content.drop f.pos).take n, { f with pos := f.pos + ((f.content.drop f.pos).take n).length })

/-- The call `fseek(file, off, SEEK_SET)`. -/
def fseek (f : FileStream) (off : Nat) : FileStream := { f with pos := off }

/-- Unsigned little-endian value of a sequence of bytes. -/
def leUnsigned : List Nat → Nat
  | [] => 0
  | b :: bs => b + 256 * leUnsigned bs

/-- Signed (two's complement) little-endian value of four bytes. -/
def leSigned32 (bs : List Nat) : Int :=
  if leUnsigned bs < 2 ^ 31 then (leUnsigned bs : Int) else (leUnsigned bs : Int) - 2 ^ 32

/-- The `len` bytes at offset `off` of a packed struct. -/
def fieldBytes (bs : List Nat) (off len : Nat) : List Nat := (bs.drop off).take len

/-- The packed struct `BMPFileHeader` (14 bytes). -/
structure BMPFileHeader where
  signature : Nat
  fileSize : Nat
  reserved1 : Nat
  reserved2 : Nat
  dataOffset : Nat
  deriving DecidableEq

/-- The packed struct `BMPInfoHeader` (40 bytes). -/
structure BMPInfoHeader where
  headerSize : Nat
  width : Int
  height : Int
  planes : Nat
  bitsPerPixel : Nat
  compression : Nat
  imageSize : Nat
  xPixelsPerMeter : Int
  yPixelsPerMeter : Int
  colorsUsed : Nat
  colorsImportant : Nat
  deriving DecidableEq

/-- The 14 bytes read into a `BMPFileHeader` on a little-endian machine. -/
def readFileHeader (bs : List Nat) : BMPFileHeader :=
  { signature := leUnsigned (fieldBytes bs 0 2)
    fileSize := leUnsigned (fieldBytes bs 2 4)
    reserved1 := leUnsigned (fieldBytes bs 6 2)
    reserved2 := leUnsigned (fieldBytes bs 8 2)
    dataOffset := leUnsigned (fieldBytes bs 10 4) }

/-- The 40 bytes read into a `BMPInfoHeader` on a little-endian machine. -/
def readInfoHeader (bs : List Nat) : BMPInfoHeader :=
  { headerSize := leUnsigned (fieldBytes bs 0 4)
    width := leSigned32 (fieldBytes bs 4 4)
    height := leSigned32 (fieldBytes bs 8 4)
    planes := leUnsigned (fieldBytes bs 12 2)
    bitsPerPixel := leUnsigned (fieldBytes bs 14 2)
    compression := leUnsigned (fieldBytes bs 16 4)
    imageSize := leUnsigned (fieldBytes bs 20 4)
    xPixelsPerMeter := leSigned32 (fieldBytes bs 24 4)
    yPixelsPerMeter := leSigned32 (fieldBytes bs 28 4)
    colorsUsed := leUnsigned (fieldBytes bs 32 4)
    colorsImportant := leUnsigned (fieldBytes bs 36 4) }

/-- The constant `BMP_SIGNATURE`. -/
def BMP_SIGNATURE : Nat := 0x4D42

/-- The call `v.resize(n)` on a `std::vector<uint8_t>`: the first `n` elements are kept,
missing ones are zero. -/
def vectorResize (v : List Nat) (n : Nat) : List Nat := v.take n ++ List.replicate (n - v.length) 0

/-- Iterations `i, i+1, ...` of a counting loop whose body may leave the enclosing
function with `return false`: the body yields `false` to return, `true` to go on. -/
def loopFromRet {σ : Type} (body : Int → σ → Exec (Bool × σ)) : Nat → Int → σ → Exec (Bool × σ)
  | 0, _, s => .ok (true, s)
  | k + 1, i, s =>
    match body i s with
    | .ok (true, s') => loopFromRet body k (i + 1) s'
    | .ok (false, s') => .ok (false, s')
    | .error e => .error e

/-- The loop `for (int i = 0; i < n; i++) body` with `return false` inside the body. -/
def forRangeRet {σ : Type} (n : Int) (body : Int → σ → Exec (Bool × σ)) (s : σ) :
    Exec (Bool × σ) :=
  loopFromRet body n.toNat 0 s

/-! ## The media reader: the NDK media service -/

/-- An `AMediaFormat`: the keys the reader asks for, each present or absent. -/
structure MediaFormat where
  mime : Option String
  width : Option Int
  height : Option Int
  frameRate : Option Int
  duration : Option Int
  deriving DecidableEq

/-- What the codec and the extractor answer in one iteration of the decode loop. -/
structure CodecPoll where
  inputIndex : Int
  inputBuffer : Bool
  sampleSize : Int
  sampleTime : Int
  outputIndex : Int
  outSize : Int
  outTime : Int
  outputBuffer : Option (List Nat)
  outputFormat : Option MediaFormat
  deriving DecidableEq

/-- A call the reader makes on the extractor or the codec. -/
inductive ServiceCall where
  | selectTrack (index : Int)
  | queueInputBuffer (index : Int) (size : Int) (time : Int)
  | advance
  | seekTo (time : Int)
  | releaseOutputBuffer (index : Int)
  | codecStop
  | codecDelete
  | extractorDelete
  deriving DecidableEq

/-- The NDK media service, an external collaborator: what its calls return. -/
structure MediaService where
  extractorNew : Bool
  fstatOk : Bool
  tracks : List Nat → Option (List MediaFormat)
  createDecoder : Option String → Bool
  configureOk : Bool
  startOk : Bool
  polls : Nat → CodecPoll

/-- The world outside the reader: the files and the media service. -/
structure Env where
  files : String → Option (List Nat)
  media : MediaService

/-- The constant `AMEDIACODEC_INFO_OUTPUT_FORMAT_CHANGED` of the NDK header. -/
def AMEDIACODEC_INFO_OUTPUT_FORMAT_CHANGED : Int := -2

/-! ## The media reader: the class `MediaReader` -/

/-- The class `MediaReader`.  `m_mutex` is true while the mutex is held.  The handles
`m_mediaExtractor` and `m_mediaCodec` are null (`false`) or live (`true`); `svcCursor`
counts the polls of the codec so far and `svcCalls` records the calls made on the
service, latest first (both belong to the service, not to the C++ object).
`m_frameRate` is the `float` frame rate, which is always an `int` converted. -/
structure MediaReader where
  m_ready : Bool
  m_isVideo : Bool
  m_hasAudio : Bool
  m_path : String
  m_width : Int
  m_height : Int
  m_frameRate : Int
  m_duration : Int
  m_currentPosition : Int
  m_frameBuffer : List Nat
  m_frameFormat : Int
  m_mediaExtractor : Bool
  m_mediaCodec : Bool
  m_trackIndex : Int
  m_imageData : List Nat
  m_mutex : Bool
  svcCursor : Nat
  svcCalls : List ServiceCall
  deriving DecidableEq

namespace MediaReader

/-- The constructor `MediaReader::MediaReader()`. -/
def new : MediaReader :=
  { m_ready := false, m_isVideo := false, m_hasAudio := false, m_path := "",
    m_width := 0, m_height := 0, m_frameRate := 30, m_duration := 0,
    m_currentPosition := 0, m_frameBuffer := [], m_frameFormat := 3,
    m_mediaExtractor := false, m_mediaCodec := false, m_trackIndex := -1,
    m_imageData := [], m_mutex := false, svcCursor := 0, svcCalls := [] }

/-- The accessor `isReady()`. -/
def isReady (r : MediaReader) : Bool := r.m_ready

/-- The accessor `getWidth()`. -/
def getWidth (r : MediaReader) : Int := r.m_width

/-- The accessor `getHeight()`. -/
def getHeight (r : MediaReader) : Int := r.m_height

/-- The accessor `hasAudio()`. -/
def hasAudio (r : MediaReader) : Bool := r.m_hasAudio

/-- The accessor `getDuration()`. -/
def getDuration (r : MediaReader) : Int := r.m_duration

/-- The accessor `getCurrentPosition()`. -/
def getCurrentPosition (r : MediaReader) : Int := r.m_currentPosition

/-- The accessor `isVideo()`. -/
def isVideo (r : MediaReader) : Bool := r.m_isVideo

/-- The accessor `getFrameRate()`; the `float` is given as the `int` it was converted
from. -/
def getFrameRate (r : MediaReader) : Int := r.m_frameRate

/-- Records a call on the media service. -/
def call (r : MediaReader) (c : ServiceCall) : MediaReader :=
  { r with svcCalls := c :: r.svcCalls }

/-- Construction of `std::lock_guard<std::mutex> lock(m_mutex)`: a thread that locks a
`std::mutex` it already holds never gets past the lock. -/
def lockGuard (r : MediaReader) : Exec MediaReader :=
  if r.m_mutex then .error .deadlock else .ok { r with m_mutex := true }

/-- Destruction of the `std::lock_guard` when the function returns. -/
def unlockGuard (r : MediaReader) : MediaReader := { r with m_mutex := false }

/-- The function `close`. -/
def close (r : MediaReader) : Exec MediaReader := do
  let r ← lockGuard r
  let r := if r.m_mediaCodec then
      { (r.call .codecStop).call .codecDelete with m_mediaCodec := false }
    else r
  let r := if r.m_mediaExtractor then
      { r.call .extractorDelete with m_mediaExtractor := false }
    else r
  let r := { r with m_frameBuffer := [], m_imageData := [], m_ready := false, m_width := 0,
                    m_height := 0, m_duration := 0, m_currentPosition := 0,
                    m_trackIndex := -1 }
  pure (unlockGuard r)

/-- The function `decodeVideoFrame`: the loop `while (!gotFrame)`, at most `fuel`
iterations of it. -/
def decodeLoop (svc : MediaService) : Nat → MediaReader → Exec (Bool × MediaReader)
  | 0, _ => .error .outOfFuel
  | fuel + 1, r =>
    let p := svc.polls r.svcCursor
    let r := { r with svcCursor := r.svcCursor + 1 }
    -- input side
    let r :=
      if p.inputIndex ≥ 0 then
        if p.inputBuffer then
          if p.sampleSize ≥ 0 then
            (r.call (.queueInputBuffer p.inputIndex p.sampleSize p.sampleTime)).call .advance
          else
            (r.call (.seekTo 0)).call (.queueInputBuffer p.inputIndex 0 0)
        else r
      else r
    -- output side
    if p.outputIndex ≥ 0 then
      match (if p.outSize > 0 then p.outputBuffer else none) with
      | some outputBuffer =>
        match memcpy (vectorResize r.m_frameBuffer p.outSize.toNat) outputBuffer
            p.outSize.toNat with
        | .ok buf =>
          .ok (true, { r with m_frameBuffer := buf, m_currentPosition := p.outTime }.call
            (.releaseOutputBuffer p.outputIndex))
        | .error e => .error e
      | none => decodeLoop svc fuel (r.call (.releaseOutputBuffer p.outputIndex))
    else if p.outputIndex = AMEDIACODEC_INFO_OUTPUT_FORMAT_CHANGED then
      match p.outputFormat with
      | some format =>
        decodeLoop svc fuel { r with m_width := format.width.getD r.m_width,
                                     m_height := format.height.getD r.m_height }
      | none => decodeLoop svc fuel r
    else decodeLoop svc fuel r

/-- The function `decodeVideoFrame`. -/
def decodeVideoFrame (svc : MediaService) (fuel : Nat) (r : MediaReader) :
    Exec (Bool × MediaReader) :=
  if !r.m_mediaExtractor || !r.m_mediaCodec then .ok (false, r)
  else decodeLoop svc fuel r

/-- The test `strncmp(mime, pre, n) == 0` with `n` the length of `pre`: the first `n`
characters of `mime` are those of `pre`. -/
def strncmpEq (mime pre : String) : Bool := pre.toList.isPrefixOf mime.toList

/-- The track loop of `openVideo`, from track `i` on: the reader afterwards and the
format left in `format` (that of the video track found, or null). -/
def findVideoTrack : List MediaFormat → Int → MediaReader → MediaReader × Option MediaFormat
  | [], _, r => (r, none)
  | format :: rest, i, r =>
    match format.mime with
    | some mime =>
      if strncmpEq mime "video/" then
        let r := { r with m_trackIndex := i,
                          m_width := format.width.getD r.m_width,
                          m_height := format.height.getD r.m_height }
        let r := match format.frameRate with
          | some frameRate => { r with m_frameRate := frameRate }
          | none => r
        let r := match format.duration with
          | some duration => { r with m_duration := duration }
          | none => r
        (r, some format)
      else if strncmpEq mime "audio/" then
        findVideoTrack rest (i + 1) { r with m_hasAudio := true }
      else findVideoTrack rest (i + 1) r
    | none => findVideoTrack rest (i + 1) r

/-- The function `openVideo`. -/
def openVideo (env : Env) (fuel : Nat) (path : String) (r : MediaReader) :
    Exec (Bool × MediaReader) :=
  if !env.media.extractorNew then .ok (false, r)
  else
    match env.files path with
    | none => .ok (false, r.call .extractorDelete)
    | some bytes =>
      if !env.media.fstatOk then .ok (false, r.call .extractorDelete)
      else
        match env.media.tracks bytes with
        | none => .ok (false, r.call .extractorDelete)
        | some tracks =>
          let found := findVideoTrack tracks 0 { r with m_trackIndex := -1 }
          let r := found.1
          if r.m_trackIndex < 0 then .ok (false, r.call .extractorDelete)
          else
            let r := r.call (.selectTrack r.m_trackIndex)
            let mime := found.2.bind (fun format => format.mime)
            if !env.media.createDecoder mime then .ok (false, r.call .extractorDelete)
            else if !env.media.configureOk then
              .ok (false, (r.call .codecDelete).call .extractorDelete)
            else if !env.media.startOk then
              .ok (false, (r.call .codecDelete).call .extractorDelete)
            else
              let r := { r with m_mediaExtractor := true, m_mediaCodec := true,
                                m_isVideo := true, m_ready := true }
              match decodeVideoFrame env.media fuel r with
              | .ok res => .ok (true, res.2)
              | .error e => .error e

/-- The row loop of `loadBmpImage`, `for (int y = 0; y < m_height; y++)`, on the file and
on `m_imageData`: each row is read into `rowBuffer` and copied pixel by pixel; a short
read leaves the function with `return false`. -/
def loadBmpRows (width height bytesPerPixel rowSize : Int) (bottomUp : Bool)
    (file : FileStream) (imageData : Buf) : Exec (Bool × (FileStream × Buf)) :=
  forRangeRet height (fun y st =>
    let rd := fread st.1 rowSize.toNat
    if rd.1.length ≠ rowSize.toNat then .ok (false, (rd.2, st.2))
    else
      let rowBuffer := rd.1
      let outY := if bottomUp then height - 1 - y else y
      let outRow := outY * width * 3
      match forRange width (fun x img => do
          let inIdx := x * bytesPerPixel
          let outIdx := x * 3
          let img ← storeByte img (outRow + outIdx) (← loadByte rowBuffer (inIdx + 2))
          let img ← storeByte img (outRow + (outIdx + 1)) (← loadByte rowBuffer (inIdx + 1))
          storeByte img (outRow + (outIdx + 2)) (← loadByte rowBuffer inIdx)) st.2 with
      | .ok img => .ok (true, (rd.2, img))
      | .error e => .error e) (file, imageData)

/-- The function `loadBmpImage`. -/
def loadBmpImage (env : Env) (path : String) (r : MediaReader) : Exec (Bool × MediaReader) :=
  match env.files path with
  | none => .ok (false, r)
  | some content =>
    let file : FileStream := { content := content, pos := 0 }
    let rd := fread file 14
    if rd.1.length ≠ 14 then .ok (false, r)
    else
      let fileHeader := readFileHeader rd.1
      let file := rd.2
      if fileHeader.signature ≠ BMP_SIGNATURE then .ok (false, r)
      else
        let rd := fread file 40
        if rd.1.length ≠ 40 then .ok (false, r)
        else
          let infoHeader := readInfoHeader rd.1
          let file := rd.2
          let r := { r with m_width := infoHeader.width,
                            m_height := (Int.natAbs infoHeader.height : Int) }
          let bottomUp : Bool := infoHeader.height > 0
          if infoHeader.bitsPerPixel ≠ 24 ∧ infoHeader.bitsPerPixel ≠ 32 then .ok (false, r)
          else if infoHeader.compression ≠ 0 then .ok (false, r)
          else
            let file := fseek file fileHeader.dataOffset
            let bytesPerPixel : Int := Int.tdiv infoHeader.bitsPerPixel 8
            let rowSize : Int := Int.tdiv (r.m_width * bytesPerPixel + 3) 4 * 4
            if rowSize < 0 ∨ r.m_width * r.m_height * 3 < 0 then .error .badAlloc
            else
              let r := { r with
                m_imageData := vectorResize r.m_imageData (r.m_width * r.m_height * 3).toNat,
                m_frameFormat := 3 }
              match loadBmpRows r.m_width r.m_height bytesPerPixel rowSize bottomUp file
                  r.m_imageData with
              | .ok (true, st) =>
                .ok (true, { r with m_imageData := st.2, m_isVideo := false, m_ready := true })
              | .ok (false, st) => .ok (false, { r with m_imageData := st.2 })
              | .error e => .error e

/-- The function `loadImage`. -/
def loadImage (_path : String) (r : MediaReader) : Exec (Bool × MediaReader) :=
  .ok (false, r)

/-- The extension of `path` as `open` computes it: from the last dot on, in lower case;
none when there is no dot. -/
def extensionOf (path : String) : Option String :=
  if path.toList.contains '.' then
    some (String.mk ('.' :: ((path.toList.reverse.takeWhile (fun c => c ≠ '.')).reverse.map
      Char.toLower)))
  else none

/-- The function `open`. -/
def «open» (env : Env) (fuel : Nat) (path : String) (r : MediaReader) :
    Exec (Bool × MediaReader) := do
  let r ← lockGuard r
  let r ← close r
  let r := { r with m_path := path }
  match extensionOf path with
  | none => pure (false, unlockGuard r)
  | some ext =>
    if ext = ".mp4" ∨ ext = ".3gp" ∨ ext = ".mkv" ∨ ext = ".webm" then do
      let res ← openVideo env fuel path r
      pure (res.1, unlockGuard res.2)
    else if ext = ".bmp" then do
      let res ← loadBmpImage env path r
      pure (res.1, unlockGuard res.2)
    else if ext = ".jpg" ∨ ext = ".jpeg" ∨ ext = ".png" then do
      let res ← loadImage path r
      pure (res.1, unlockGuard res.2)
    else pure (false, unlockGuard r)

/-- The function `getPhotoFrame`. -/
def getPhotoFrame (fresh : Nat → Nat) (r : MediaReader) (frame : FrameData) :
    Exec (Bool × MediaReader × FrameData) := do
  let r ← lockGuard r
  if !r.m_ready || r.m_imageData.isEmpty then pure (false, unlockGuard r, frame)
  else do
    let size := r.m_imageData.length
    let d ← memcpy (newArray fresh size) r.m_imageData size
    pure (true, unlockGuard r,
      { frame with width := r.m_width, height := r.m_height, format := r.m_frameFormat,
                   stride := r.m_width * 3, size := size, data := some d, timestamp := 0 })

/-- The function `getNextFrame`. -/
def getNextFrame (env : Env) (fuel : Nat) (fresh : Nat → Nat) (r : MediaReader)
    (frame : FrameData) : Exec (Bool × MediaReader × FrameData) := do
  let r ← lockGuard r
  if !r.m_ready then pure (false, unlockGuard r, frame)
  else if r.m_isVideo then do
    let res ← decodeVideoFrame env.media fuel r
    if !res.1 then pure (false, unlockGuard res.2, frame)
    else do
      let r := res.2
      let size := r.m_frameBuffer.length
      let d ← memcpy (newArray fresh size) r.m_frameBuffer size
      pure (true, unlockGuard r,
        { frame with width := r.m_width, height := r.m_height, format := 1,
                     stride := r.m_width, size := size, data := some d,
                     timestamp := r.m_currentPosition })
  else do
    let res ← getPhotoFrame fresh r frame
    pure (res.1, unlockGuard res.2.1, res.2.2)

/-- The function `seek`. -/
def seek (timestampUs : Int) (r : MediaReader) : Exec (Bool × MediaReader) := do
  let r ← lockGuard r
  if !r.m_ready || !r.m_isVideo || !r.m_mediaExtractor then pure (false, unlockGuard r)
  else
    pure (true, unlockGuard { r.call (.seekTo timestampUs) with
      m_currentPosition := timestampUs })

/-- The function `reset`. -/
def reset (r : MediaReader) : Exec MediaReader := do
  let res ← seek 0 r
  pure res.2

end MediaReader

/-! ## BMP files -/

/-- Ceiling of `a / b` for positive `b`. -/
def ceilDiv (a b : Int) : Int := -((-a) / b)

/-- The file header at the start of a file. -/
def bmpFileHeader (content : List Nat) : BMPFileHeader := readFileHeader (content.take 14)

/-- The info header that follows the file header. -/
def bmpInfoHeader (content : List Nat) : BMPInfoHeader :=
  readInfoHeader ((content.drop 14).take 40)

/-- Bytes per pixel of a BMP file: `bitsPerPixel / 8`. -/
def bmpBytesPerPixel (content : List Nat) : Int := ((bmpInfoHeader content).bitsPerPixel : Int) / 8

/-- Bytes per stored row of a BMP file: `ceil(width * bytesPerPixel / 4) * 4`. -/
def bmpRowSize (content : List Nat) : Int :=
  ceilDiv ((bmpInfoHeader content).width * bmpBytesPerPixel content) 4 * 4

/-- A well-formed uncompressed BMP file with complete pixel data: both headers are
there, the signature is `BM`, the depth is 24 or 32 bits, there is no compression, the
width is positive, the height field is not zero, all `|height|` rows are in the file
from `dataOffset` on, and `dataOffset` and the pixel count are in the range of `int`
arithmetic. -/
def WellFormedBmp (content : List Nat) : Prop :=
  54 ≤ content.length ∧
  (bmpFileHeader content).signature = BMP_SIGNATURE ∧
  ((bmpInfoHeader content).bitsPerPixel = 24 ∨ (bmpInfoHeader content).bitsPerPixel = 32) ∧
  (bmpInfoHeader content).compression = 0 ∧
  0 < (bmpInfoHeader content).width ∧
  (bmpInfoHeader content).height ≠ 0 ∧
  ((bmpFileHeader content).dataOffset : Int) +
    ((bmpInfoHeader content).height.natAbs : Int) * bmpRowSize content ≤ content.length ∧
  (bmpInfoHeader content).width * ((bmpInfoHeader content).height.natAbs : Int) * 4 < 2 ^ 31 ∧
  (bmpFileHeader content).dataOffset < 2 ^ 31

instance (content : List Nat) : Decidable (WellFormedBmp content) := by
  unfold WellFormedBmp; infer_instance

/-- A valid NV21 frame of even dimensions: non-null data of `size = width*height*3/2`
bytes (a luma plane of `width*height` bytes, then the interleaved chroma plane), and an
RGB24 byte count `width*height*3` that fits in an `int`. -/
def ValidNv21 (f : FrameData) : Prop :=
  f.data.isSome = true ∧ f.format = 0 ∧ 0 < f.width ∧ 0 < f.height ∧
  f.width % 2 = 0 ∧ f.height % 2 = 0 ∧ 2 * (f.size : Int) = f.width * f.height * 3 ∧
  f.bytes.length = f.size ∧ f.width * f.height * 3 < 2 ^ 31

instance (f : FrameData) : Decidable (ValidNv21 f) := by
  unfold ValidNv21; infer_instance

/-! ## Formulas of the specification -/

/-- Luma as the specification writes it: `((66R + 129G + 25B + 128) >> 8) + 16`, the
shift being division by 256 rounded down. -/
def specY (r g b : Int) : Int := Int.fdiv (66 * r + 129 * g + 25 * b + 128) 256 + 16

/-- Chroma U as the specification writes it: `((-38R - 74G + 112B + 128) >> 8) + 128`. -/
def specU (r g b : Int) : Int := Int.fdiv (-38 * r - 74 * g + 112 * b + 128) 256 + 128

/-- Chroma V as the specification writes it: `((112R - 94G - 18B + 128) >> 8) + 128`. -/
def specV (r g b : Int) : Int := Int.fdiv (112 * r - 94 * g - 18 * b + 128) 256 + 128

/-- The scaled box as the specification states it, in exact arithmetic:
`(tw, floor(tw*h/w))` if `w/h > tw/th`, and `(floor(th*w/h), th)` otherwise. -/
def claimedBox (w h tw th : Int) : Int × Int :=
  if (w : ℚ) / h > (tw : ℚ) / th then (tw, ⌊((tw * h : Int) : ℚ) / w⌋)
  else (⌊((th * w : Int) : ℚ) / h⌋, th)

/-! ## Predicates used in the proofs -/

/-- State of the output buffer of `rgbToNv21` once pixel `(i, j)` has been handled. -/
def Nv21Done (rgb t : Buf) (w h i j : Int) : Prop :=
  (peek t (j * w + i) : Int) =
      specY (peek rgb ((j * w + i) * 3)) (peek rgb ((j * w + i) * 3 + 1))
        (peek rgb ((j * w + i) * 3 + 2)) ∧
  (i % 2 = 0 → j % 2 = 0 →
    (peek t (w * h + (j / 2 * w + i)) : Int) =
      specV (peek rgb ((j * w + i) * 3)) (peek rgb ((j * w + i) * 3 + 1))
        (peek rgb ((j * w + i) * 3 + 2)) ∧
    (peek t (w * h + (j / 2 * w + i + 1)) : Int) =
      specU (peek rgb ((j * w + i) * 3)) (peek rgb ((j * w + i) * 3 + 1))
        (peek rgb ((j * w + i) * 3 + 2)))

/-- State of the output buffer of `nv21ToRgb` once pixel `(i, j)` has been handled: its
three bytes hold the clamped values computed from `y`, `u`, `v`. -/
def RgbDone (t : Buf) (w i j : Int) (y u v : Int) : Prop :=
  peek t ((j * w + i) * 3) = clamp ((298 * (y - 16) + 409 * (v - 128) + 128) >>> (8 : Nat)) ∧
  peek t ((j * w + i) * 3 + 1) =
    clamp ((298 * (y - 16) - 100 * (u - 128) - 208 * (v - 128) + 128) >>> (8 : Nat)) ∧
  peek t ((j * w + i) * 3 + 2) = clamp ((298 * (y - 16) + 516 * (u - 128) + 128) >>> (8 : Nat))

/-- State of the output buffer of `rgbToYuv420` once pixel `(i, j)` has been handled. -/
def Yuv420Done (rgb t : Buf) (w h i j : Int) : Prop :=
  (peek t (j * w + i) : Int) =
      specY (peek rgb ((j * w + i) * 3)) (peek rgb ((j * w + i) * 3 + 1))
        (peek rgb ((j * w + i) * 3 + 2)) ∧
  (i % 2 = 0 → j % 2 = 0 →
    (peek t (w * h + (j / 2 * (w / 2) + i / 2)) : Int) =
      specU (peek rgb ((j * w + i) * 3)) (peek rgb ((j * w + i) * 3 + 1))
        (peek rgb ((j * w + i) * 3 + 2)) ∧
    (peek t (w * h + w * h / 4 + (j / 2 * (w / 2) + i / 2)) : Int) =
      specV (peek rgb ((j * w + i) * 3)) (peek rgb ((j * w + i) * 3 + 1))
        (peek rgb ((j * w + i) * 3 + 2)))

/-- The source coordinate `srcX0` (`srcY0`) that `scaleFrame` computes for the destination
coordinate `i`, for a source of `srcDim` and a target of `targetDim` pixels. -/
def srcCoord0 (srcDim targetDim i : Int) : Int :=
  floatToInt (fmul (intToFloat i) (fdiv (intToFloat srcDim) (intToFloat targetDim)))

/-- The source coordinate `srcX1` (`srcY1`) of `scaleFrame`. -/
def srcCoord1 (srcDim targetDim i : Int) : Int :=
  min (srcCoord0 srcDim targetDim i + 1) (srcDim - 1)

/-- The weight `xFrac` (`yFrac`) of `scaleFrame`. -/
def srcFrac (srcDim targetDim i : Int) : ℚ :=
  fsub (fmul (intToFloat i) (fdiv (intToFloat srcDim) (intToFloat targetDim)))
    (intToFloat (srcCoord0 srcDim targetDim i))

/-- The value `val` that `scaleFrame` blends from four samples. -/
def bilinear (v00 v01 v10 v11 : Nat) (xFrac yFrac : ℚ) : ℚ :=
  fadd (fadd (fadd
    (fmul (fmul (intToFloat v00) (fsub (intToFloat 1) xFrac)) (fsub (intToFloat 1) yFrac))
    (fmul (fmul (intToFloat v01) xFrac) (fsub (intToFloat 1) yFrac)))
    (fmul (fmul (intToFloat v10) (fsub (intToFloat 1) xFrac)) yFrac))
    (fmul (fmul (intToFloat v11) xFrac) yFrac)

/-- The byte `scaleFrame` stores for channel `c` of the destination pixel `(x, y)`. -/
def scaleSample (sdata : Buf) (w h bpp tw th x y c : Int) : Nat :=
  clamp (floatToInt (bilinear
    (peek sdata ((srcCoord0 h th y * w + srcCoord0 w tw x) * bpp + c))
    (peek sdata ((srcCoord0 h th y * w + srcCoord1 w tw x) * bpp + c))
    (peek sdata ((srcCoord1 h th y * w + srcCoord0 w tw x) * bpp + c))
    (peek sdata ((srcCoord1 h th y * w + srcCoord1 w tw x) * bpp + c))
    (srcFrac w tw x) (srcFrac h th y)))

/-- The scaled box `(scaleWidth, scaleHeight)` that `matchResolution` computes for a source
of `w` x `h` and a target of `tw` x `th` pixels. -/
def scaledBox (w h tw th : Int) : Int × Int :=
  let srcAspect := fdiv (intToFloat w) (intToFloat h)
  let dstAspect := fdiv (intToFloat tw) (intToFloat th)
  (if srcAspect > dstAspect then tw else floatToInt (fmul (intToFloat th) srcAspect),
   if srcAspect > dstAspect then floatToInt (fdiv (intToFloat tw) srcAspect) else th)

/-- The poll hands out an output buffer carrying data: an output index, a positive size
and a non-null buffer. -/
def CodecPoll.hasOutput (p : CodecPoll) : Prop :=
  p.outputIndex ≥ 0 ∧ p.outSize > 0 ∧ p.outputBuffer ≠ none

instance (p : CodecPoll) : Decidable p.hasOutput := by
  unfold CodecPoll.hasOutput; infer_instance

/-- The poll obtains an input slot and the demuxer reports the end of the stream. -/
def CodecPoll.endOfStream (p : CodecPoll) : Prop :=
  p.inputIndex ≥ 0 ∧ p.inputBuffer = true ∧ p.sampleSize < 0

instance (p : CodecPoll) : Decidable p.endOfStream := by
  unfold CodecPoll.endOfStream; infer_instance

/-- The input side of one iteration of the decode loop. -/
def inputSide (p : CodecPoll) (r : MediaReader) : MediaReader :=
  if p.inputIndex ≥ 0 then
    if p.inputBuffer then
      if p.sampleSize ≥ 0 then
        (r.call (.queueInputBuffer p.inputIndex p.sampleSize p.sampleTime)).call .advance
      else
        (r.call (.seekTo 0)).call (.queueInputBuffer p.inputIndex 0 0)
    else r
  else r

/-- The decode loop started in state `r` ended in state `r'` with the output of poll
number `k`: the first poll from the cursor of `r` on with output data; the frame buffer
holds the first `outSize` bytes of its buffer, the current position is its time, and for
every poll up to `k` that met the end of the stream the calls `seekTo(0)` and
`queueInputBuffer(index, 0, 0, 0, 0)` were made, in this order. -/
def DecodedAt (svc : MediaService) (r r' : MediaReader) (k : Nat) : Prop :=
  r.svcCursor ≤ k ∧ r'.svcCursor = k + 1 ∧ (svc.polls k).hasOutput ∧
  (∀ j, r.svcCursor ≤ j → j < k → ¬ (svc.polls j).hasOutput) ∧
  (∃ buf, (svc.polls k).outputBuffer = some buf ∧
    r'.m_frameBuffer = buf.take (svc.polls k).outSize.toNat) ∧
  r'.m_currentPosition = (svc.polls k).outTime ∧
  (∀ j, r.svcCursor ≤ j → j ≤ k → (svc.polls j).endOfStream →
    [ServiceCall.queueInputBuffer (svc.polls j).inputIndex 0 0, ServiceCall.seekTo 0] <:+:
      r'.svcCalls) ∧
  r.svcCalls <:+ r'.svcCalls

/-- The computed `float` `v` approximates the exact non-negative value `e` after `k`
roundings: `e * (1 - 2^-24)^k <= v <= e * (1 + 2^-24)^k`. -/
def Near (k : ℕ) (v e : ℚ) : Prop :=
  e * (1 - 1 / 2 ^ (24 : ℕ)) ^ k ≤ v ∧ v ≤ e * (1 + 1 / 2 ^ (24 : ℕ)) ^ k

/-- The four source samples that `scaleFrame` blends for channel `c` of the destination
pixel `(x, y)`. -/
def scaleNeighbours (src : FrameData) (tw th x y c : Int) : List Nat :=
  [src.pixelByte (srcCoord0 src.width tw x) (srcCoord0 src.height th y) c,
   src.pixelByte (srcCoord1 src.width tw x) (srcCoord0 src.height th y) c,
   src.pixelByte (srcCoord0 src.width tw x) (srcCoord1 src.height th y) c,
   src.pixelByte (srcCoord1 src.width tw x) (srcCoord1 src.height th y) c]

/-! ## Example inputs -/

/-- Example frame: 2x3 RGB. -/
def exFrame : FrameData :=
  { data := some (List.range 18), size := 18, width := 2, height := 3, format := 3,
    stride := 6, timestamp := 5 }

/-- Example frame: 3x2 RGBA. -/
def exFrameRgba : FrameData :=
  { data := some ((List.range 24).map (fun i => 10 * i % 256)), size := 24, width := 3,
    height := 2, format := 2, stride := 12, timestamp := 9 }

/-- Example frame: 2x2 RGB of the solid colour (200, 100, 50). -/
def exSolid : FrameData :=
  { data := some [200, 100, 50, 200, 100, 50, 200, 100, 50, 200, 100, 50], size := 12,
    width := 2, height := 2, format := 3, stride := 6, timestamp := 0 }

/-- Example frame: 2x2 RGB with four distinct corner colours. -/
def exCorners : FrameData :=
  { data := some [10, 20, 30, 40, 50, 60, 70, 80, 90, 100, 110, 120], size := 12,
    width := 2, height := 2, format := 3, stride := 6, timestamp := 0 }

/-- Example frame: 2x2 RGB with rows padded to 8 bytes (stride 8); the padding bytes are
99. -/
def exPadded : FrameData :=
  { data := some [1, 2, 3, 4, 5, 6, 99, 99, 7, 8, 9, 10, 11, 12, 99, 99], size := 16,
    width := 2, height := 2, format := 3, stride := 8, timestamp := 0 }

/-- Example frame: 1x1 RGB. -/
def exOdd : FrameData :=
  { data := some [200, 100, 50], size := 3, width := 1, height := 1, format := 3,
    stride := 3, timestamp := 0 }

/-- Example frame: 1x1 NV21, one luma byte (1*1*3/2 = 1). -/
def exOddNv21 : FrameData :=
  { data := some [123], size := 1, width := 1, height := 1, format := 0, stride := 1,
    timestamp := 0 }

/-- Example frame: 2x2 NV21 with luma 123 and chroma V = 175, U = 91. -/
def exNv21 : FrameData :=
  { data := some [123, 123, 123, 123, 175, 91], size := 6, width := 2, height := 2,
    format := 0, stride := 2, timestamp := 0 }

/-- Example frame: 100x50 RGB. -/
def exWide : FrameData :=
  { data := some ((List.range 15000).map (fun i => i % 256)), size := 15000, width := 100,
    height := 50, format := 3, stride := 300, timestamp := 0 }

/-- Example frame: 1x7 RGB, a column of seven pixels. -/
def exTall : FrameData :=
  { data := some [200, 100, 50, 201, 101, 51, 202, 102, 52, 203, 103, 53, 204, 104, 54,
                  205, 105, 55, 206, 106, 56],
    size := 21, width := 1, height := 7, format := 3, stride := 3, timestamp := 0 }

/-- Example frame: 2x1 RGB, a pixel of value 127 beside a pixel of value 128. -/
def exBlend : FrameData :=
  { data := some [127, 127, 127, 128, 128, 128], size := 6, width := 2, height := 1,
    format := 3, stride := 6, timestamp := 0 }

/-- Example frame: one row of 16777220 = 2^24 + 4 RGB pixels. -/
def exHuge : FrameData :=
  { data := some (List.replicate 50331660 0), size := 50331660, width := 16777220,
    height := 1, format := 3, stride := 50331660, timestamp := 0 }

/-- Example frame: 1x2 RGB, a column of two pixels. -/
def exPortrait : FrameData :=
  { data := some [10, 20, 30, 40, 50, 60], size := 6, width := 1, height := 2, format := 3,
    stride := 3, timestamp := 0 }

/-- Example frame: 1x1 RGB, one white pixel. -/
def exWhite : FrameData :=
  { data := some [255, 255, 255], size := 3, width := 1, height := 1, format := 3,
    stride := 3, timestamp := 0 }

/-- Example file: a bottom-up 2x2 BMP of 24 bits per pixel; rows are 8 bytes, the last
two of them padding. -/
def exBmp : List Nat :=
  [0x42, 0x4D, 70, 0, 0, 0, 0, 0, 0, 0, 54, 0, 0, 0,
   40, 0, 0, 0, 2, 0, 0, 0, 2, 0, 0, 0, 1, 0, 24, 0, 0, 0, 0, 0, 16, 0, 0, 0,
   0, 0, 0, 0, 0, 0, 0, 0, 0, 0, 0, 0, 0, 0, 0, 0,
   1, 2, 3, 4, 5, 6, 0, 0,
   7, 8, 9, 10, 11, 12, 0, 0]

/-- Example file: the same headers with the compression field set to 1. -/
def exCompressedBmp : List Nat :=
  [0x42, 0x4D, 70, 0, 0, 0, 0, 0, 0, 0, 54, 0, 0, 0,
   40, 0, 0, 0, 2, 0, 0, 0, 2, 0, 0, 0, 1, 0, 24, 0, 1, 0, 0, 0, 16, 0, 0, 0,
   0, 0, 0, 0, 0, 0, 0, 0, 0, 0, 0, 0, 0, 0, 0, 0,
   1, 2, 3, 4, 5, 6, 0, 0,
   7, 8, 9, 10, 11, 12, 0, 0]

/-- Example media service: no extractor, no decoder, a codec that never answers. -/
def exService : MediaService :=
  { extractorNew := false, fstatOk := true, tracks := fun _ => none,
    createDecoder := fun _ => false, configureOk := false, startOk := false,
    polls := fun _ =>
      { inputIndex := -1, inputBuffer := false, sampleSize := -1, sampleTime := 0,
        outputIndex := -1, outSize := 0, outTime := 0, outputBuffer := none,
        outputFormat := none } }

/-- Example world: the two files above. -/
def exEnv : Env :=
  { files := fun path =>
      if path = "photo.bmp" then some exBmp
      else if path = "compressed.bmp" then some exCompressedBmp
      else none,
    media := exService }

/-- Example file: the headers of `exBmp` followed by one row of pixel data instead of two. -/
def exTruncatedBmp : List Nat := exBmp.take 62

/-- Example world: the truncated file alone. -/
def exTruncatedEnv : Env :=
  { files := fun path => if path = "truncated.bmp" then some exTruncatedBmp else none,
    media := exService }

/-- Example reader: a Ready video source that holds a decoder, a demuxer and a frame. -/
def exVideoReader : MediaReader :=
  { MediaReader.new with m_ready := true, m_isVideo := true, m_width := 4, m_height := 2,
                         m_duration := 1000, m_currentPosition := 40,
                         m_frameBuffer := [1, 2, 3], m_mediaExtractor := true,
                         m_mediaCodec := true, m_trackIndex := 0 }

/-- Example reader: a Ready still-image source holding a 2x2 image. -/
def exStillReader : MediaReader :=
  { MediaReader.new with m_ready := true, m_isVideo := false, m_width := 2, m_height := 2,
                         m_imageData := [3, 2, 1, 6, 5, 4, 9, 8, 7, 12, 11, 10] }

/-- Example track formats: a video track and an audio track. -/
def exVideoFormat : MediaFormat :=
  { mime := some "video/avc", width := some 4, height := some 2, frameRate := some 25,
    duration := some 1000 }

/-- Example track format: an audio track. -/
def exAudioFormat : MediaFormat :=
  { mime := some "audio/mp4a-latm", width := none, height := none, frameRate := none,
    duration := none }

/-- Example media service: the container has a video track followed by an audio track;
the first poll of the codec meets the end of the stream and has no output, the second
reports a change of output format, the third delivers a frame of 3 bytes at time 80. -/
def exPlayService : MediaService :=
  { extractorNew := true, fstatOk := true,
    tracks := fun _ => some [exVideoFormat, exAudioFormat],
    createDecoder := fun _ => true, configureOk := true, startOk := true,
    polls := fun k =>
      if k = 0 then
        { inputIndex := 5, inputBuffer := true, sampleSize := -1, sampleTime := 0,
          outputIndex := -1, outSize := 0, outTime := 0, outputBuffer := none,
          outputFormat := none }
      else if k = 1 then
        { inputIndex := -1, inputBuffer := false, sampleSize := -1, sampleTime := 0,
          outputIndex := -2, outSize := 0, outTime := 0, outputBuffer := none,
          outputFormat := some exVideoFormat }
      else
        { inputIndex := 6, inputBuffer := true, sampleSize := 10, sampleTime := 80,
          outputIndex := 1, outSize := 3, outTime := 80, outputBuffer := some [7, 8, 9],
          outputFormat := none } }

/-- Example world: the file `clip.mp4` and the service above. -/
def exPlayEnv : Env :=
  { files := fun path => if path = "clip.mp4" then some [0] else none,
    media := exPlayService }

/-- Example track format: a video track that gives no frame rate. -/
def exBareVideoFormat : MediaFormat :=
  { mime := some "video/avc", width := some 8, height := some 6, frameRate := none,
    duration := some 500 }

/-- Example media service: the container with bytes `[1]` has an audio track followed by
a video track of 25 frames per second, every other container has one video track that
gives no frame rate; every poll of the codec delivers a frame of 3 bytes at time 0. -/
def exLibraryService : MediaService :=
  { extractorNew := true, fstatOk := true,
    tracks := fun bytes =>
      if bytes = [1] then some [exAudioFormat, exVideoFormat] else some [exBareVideoFormat],
    createDecoder := fun _ => true, configureOk := true, startOk := true,
    polls := fun _ =>
      { inputIndex := 6, inputBuffer := true, sampleSize := 10, sampleTime := 0,
        outputIndex := 1, outSize := 3, outTime := 0, outputBuffer := some [7, 8, 9],
        outputFormat := none } }

/-- Example world: the files `song.mp4` and `silent.mp4` and the service above. -/
def exLibraryEnv : Env :=
  { files := fun path =>
      if path = "song.mp4" then some [1]
      else if path = "silent.mp4" then some [2]
      else none,
    media := exLibraryService }

/-- Example file: the headers of a BMP of width 0 and height 2, 24 bits per pixel, and no
pixel data. -/
def exEmptyBmp : List Nat :=
  [0x42, 0x4D, 54, 0, 0, 0, 0, 0, 0, 0, 54, 0, 0, 0,
   40, 0, 0, 0, 0, 0, 0, 0, 2, 0, 0, 0, 1, 0, 24, 0, 0, 0, 0, 0, 0, 0, 0, 0,
   0, 0, 0, 0, 0, 0, 0, 0, 0, 0, 0, 0, 0, 0, 0, 0]

/-- Example world: the file `empty.bmp` alone. -/
def exEmptyBmpEnv : Env :=
  { files := fun path => if path = "empty.bmp" then some exEmptyBmp else none,
    media := exService }

/-- Example buffer: a 2x2 NV21 image with four luma bytes and the neutral chroma pair
V = 128, U = 128. -/
def exGreyNv21 : Buf := [100, 110, 120, 130, 128, 128]

/-! ## Buffers and loops: basic facts -/

theorem loadByte_ok {b : Buf} {i : Int} (h0 : 0 ≤ i) (h1 : i < b.length) :
    loadByte b i = .ok (peek b i) := by
  simp [loadByte, h0, h1]

theorem storeByte_ok {b : Buf} {i : Int} (v : Nat) (h0 : 0 ≤ i) (h1 : i < b.length) :
    storeByte b i v = .ok (poke b i v) := by
  simp [storeByte, h0, h1]

@[simp] theorem length_poke (b : Buf) (i : Int) (v : Nat) : (poke b i v).length = b.length := by
  simp [poke]

theorem peek_poke (b : Buf) (i k : Int) (v : Nat) (hi0 : 0 ≤ i) (hi : i < b.length)
    (hk : 0 ≤ k) : peek (poke b i v) k = if k = i then v else peek b k := by
  unfold peek poke
  rw [List.getD_eq_getElem?_getD, List.getD_eq_getElem?_getD, List.getElem?_set]
  by_cases h : k = i
  · subst h
    have : k.toNat < b.length := by omega
    simp [this]
  · have : i.toNat ≠ k.toNat := by omega
    simp [this, h]

theorem buf_ext (a b : Buf) (hlen : a.length = b.length)
    (h : ∀ k : Int, 0 ≤ k → k < a.length → peek a k = peek b k) : a = b := by
  apply List.ext_getElem hlen
  intro n h1 h2
  have := h (n : Int) (by omega) (by omega)
  simp only [peek, Int.toNat_ofNat, List.getD_eq_getElem?_getD] at this
  rw [List.getElem?_eq_getElem h1, List.getElem?_eq_getElem h2] at this
  simpa using this

theorem loopFrom_inv {σ : Type} (P : Int → σ → Prop) (body : Int → σ → Exec σ) :
    ∀ (k : Nat) (i : Int) (s : σ), P i s →
      (∀ j t, i ≤ j → j < i + k → P j t → ∃ t', body j t = .ok t' ∧ P (j + 1) t') →
      ∃ s', loopFrom body k i s = .ok s' ∧ P (i + k) s'
  | 0, i, s, h0, _ => ⟨s, rfl, by simpa using h0⟩
  | k + 1, i, s, h0, hs => by
    obtain ⟨t, ht, hP⟩ := hs i s (le_refl _) (by omega) h0
    obtain ⟨s', hs', hP'⟩ := loopFrom_inv P body k (i + 1) t hP
      (fun j u hj1 hj2 hPj => hs j u (by omega) (by push_cast; omega) hPj)
    refine ⟨s', ?_, ?_⟩
    · simp [loopFrom, ht, hs']
    · have : i + 1 + (k : Int) = i + ((k + 1 : Nat) : Int) := by push_cast; ring
      rw [← this]; exact hP'

theorem forRange_inv {σ : Type} (P : Int → σ → Prop) (n : Int) (hn : 0 ≤ n)
    (body : Int → σ → Exec σ) (s : σ) (h0 : P 0 s)
    (hs : ∀ j t, 0 ≤ j → j < n → P j t → ∃ t', body j t = .ok t' ∧ P (j + 1) t') :
    ∃ s', forRange n body s = .ok s' ∧ P n s' := by
  have hn' : ((n.toNat : Nat) : Int) = n := Int.toNat_of_nonneg hn
  obtain ⟨s', h1, h2⟩ := loopFrom_inv P body n.toNat 0 s h0
    (fun j t hj1 hj2 hP => hs j t hj1 (by omega) hP)
  refine ⟨s', h1, ?_⟩
  rw [hn', zero_add] at h2
  exact h2

theorem forRange2_inv {σ : Type} (P : Int → Int → σ → Prop) (H W : Int) (hH : 0 ≤ H)
    (hW : 0 ≤ W) (body : Int → Int → σ → Exec σ) (s : σ) (h0 : P 0 0 s)
    (hstep : ∀ y x t, 0 ≤ y → y < H → 0 ≤ x → x < W → P y x t →
      ∃ t', body y x t = .ok t' ∧ P y (x + 1) t')
    (hrow : ∀ y t, 0 ≤ y → y < H → P y W t → P (y + 1) 0 t) :
    ∃ s', forRange H (fun y t => forRange W (fun x t => body y x t) t) s = .ok s' ∧
      P H 0 s' := by
  apply forRange_inv (fun y t => P y 0 t) H hH _ s h0
  intro y t hy0 hy1 hP
  obtain ⟨t', h1, h2⟩ := forRange_inv (fun x t => P y x t) W hW (fun x t => body y x t) t hP
    (fun x u hx0 hx1 hPx => hstep y x u hy0 hy1 hx0 hx1 hPx)
  exact ⟨t', h1, hrow y t' hy0 hy1 h2⟩

/-- Copying `n` bytes one at a time from `sdata[si..]` to `d[di..]`. -/
theorem copyLoop (sdata d : Buf) (si di n : Int) (hn : 0 ≤ n) (hsi : 0 ≤ si)
    (hs : si + n ≤ sdata.length) (hdi : 0 ≤ di) (hd : di + n ≤ d.length) :
    ∃ d', forRange n (fun c d => do
        let v ← loadByte sdata (si + c)
        storeByte d (di + c) v) d = .ok d' ∧
      d'.length = d.length ∧
      ∀ k, 0 ≤ k → peek d' k =
        if di ≤ k ∧ k < di + n then peek sdata (si + (k - di)) else peek d k := by
  apply forRange_inv (fun c t => t.length = d.length ∧ ∀ k, 0 ≤ k → peek t k =
        if di ≤ k ∧ k < di + c then peek sdata (si + (k - di)) else peek d k) n hn
  · refine ⟨rfl, fun k _ => ?_⟩
    rw [if_neg (by omega)]
  · rintro c t hc0 hc1 ⟨hlen, hP⟩
    refine ⟨poke t (di + c) (peek sdata (si + c)), ?_, ?_, ?_⟩
    · rw [loadByte_ok (by omega) (by omega)]
      exact storeByte_ok _ (by omega) (by omega)
    · simp [hlen]
    · intro k hk
      rw [peek_poke _ _ _ _ (by omega) (by omega) hk, hP k hk]
      by_cases h : k = di + c
      · subst h
        have : di ≤ di + c ∧ di + c < di + (c + 1) := by omega
        simp [this]
      · by_cases h2 : di ≤ k ∧ k < di + c
        · have : di ≤ k ∧ k < di + (c + 1) := by omega
          simp [h, h2, this]
        · have : ¬ (di ≤ k ∧ k < di + (c + 1)) := by omega
          simp [h, h2, this]

/-! ## Index arithmetic -/

theorem mul_succ_le (a b n : Int) (h : a < b) (hn : 0 ≤ n) : a * n + n ≤ b * n := by
  have h1 : (a + 1) * n ≤ b * n := mul_le_mul_of_nonneg_right (by omega) hn
  have h2 : (a + 1) * n = a * n + n := by ring
  omega

/-- Bytes of two different pixels never coincide. -/
theorem pix_region_disjoint (p q n c : Int) (hpq : p ≠ q) (hn : 0 ≤ n) (hc0 : 0 ≤ c)
    (hc : c < n) : ¬ (p * n ≤ q * n + c ∧ q * n + c < p * n + n) := by
  rcases lt_or_gt_of_ne hpq with h | h
  · have := mul_succ_le p q n h hn
    omega
  · have := mul_succ_le q p n h hn
    omega

/-- A position `a * n + r` with `0 ≤ r < n` determines `a` and `r`. -/
theorem pos_inj (a b n r t : Int) (hr0 : 0 ≤ r) (hr : r < n) (ht0 : 0 ≤ t) (ht : t < n)
    (h : a * n + r = b * n + t) : a = b ∧ r = t := by
  have hab : a = b := by
    by_contra hne
    rcases lt_or_gt_of_ne hne with h1 | h1
    · have := mul_succ_le a b n h1 (by omega)
      omega
    · have := mul_succ_le b a n h1 (by omega)
      omega
  subst hab
  exact ⟨rfl, by omega⟩

/-- Pixel index bound: `a * n + r < m * n` for `a < m`, `r < n`. -/
theorem pos_lt (a m n r : Int) (ha : a < m) (hr : r < n) (hn : 0 ≤ n) :
    a * n + r < m * n := by
  have := mul_succ_le a m n ha hn
  omega

theorem pos_nonneg (a n r : Int) (ha : 0 ≤ a) (hn : 0 ≤ n) (hr : 0 ≤ r) : 0 ≤ a * n + r := by
  have := mul_nonneg ha hn
  omega

/-- Every byte index below `m * n` is `a * n + r` with `0 ≤ a < m`, `0 ≤ r < n`. -/
theorem pos_decomp (k m n : Int) (hn : 0 < n) (hk0 : 0 ≤ k) (hk : k < m * n) :
    ∃ a r, 0 ≤ a ∧ a < m ∧ 0 ≤ r ∧ r < n ∧ k = a * n + r := by
  refine ⟨k / n, k % n, Int.ediv_nonneg hk0 (by omega), ?_, Int.emod_nonneg _ (by omega),
    Int.emod_lt_of_pos _ hn, ?_⟩
  · exact Int.ediv_lt_of_lt_mul hn hk
  · have := Int.ediv_add_emod k n
    rw [mul_comm] at this
    omega

/-! ## Copying pixels to permuted positions -/

/-- The doubly nested pixel loop of the rotations: the pixel of the source at column `x`,
row `y` is copied to pixel number `dpix x y` of the destination. -/
theorem remapLoop (sdata d0 : Buf) (W H bpp : Int) (dpix : Int → Int → Int)
    (hW : 0 ≤ W) (hH : 0 ≤ H) (hb : 0 ≤ bpp)
    (hs : H * W * bpp ≤ sdata.length)
    (hd0 : ∀ x y, 0 ≤ x → x < W → 0 ≤ y → y < H → 0 ≤ dpix x y)
    (hd1 : ∀ x y, 0 ≤ x → x < W → 0 ≤ y → y < H → dpix x y * bpp + bpp ≤ d0.length)
    (hinj : ∀ x y x' y', 0 ≤ x → x < W → 0 ≤ y → y < H → 0 ≤ x' → x' < W → 0 ≤ y' → y' < H →
      dpix x y = dpix x' y' → x = x' ∧ y = y') :
    ∃ d, forRange H (fun y d =>
        forRange W (fun x d =>
          forRange bpp (fun c d => do
            let v ← loadByte sdata ((y * W + x) * bpp + c)
            storeByte d (dpix x y * bpp + c) v) d) d) d0 = .ok d ∧
      d.length = d0.length ∧
      ∀ x y c, 0 ≤ x → x < W → 0 ≤ y → y < H → 0 ≤ c → c < bpp →
        peek d (dpix x y * bpp + c) = peek sdata ((y * W + x) * bpp + c) := by
  obtain ⟨d, h1, h2, h3⟩ := forRange2_inv
    (fun y x d => d.length = d0.length ∧
      ∀ x' y' c, 0 ≤ x' → x' < W → 0 ≤ y' → y' < H → 0 ≤ c → c < bpp →
        (y' < y ∨ (y' = y ∧ x' < x)) →
        peek d (dpix x' y' * bpp + c) = peek sdata ((y' * W + x') * bpp + c))
    H W hH hW
    (fun y x d => forRange bpp (fun c d => do
            let v ← loadByte sdata ((y * W + x) * bpp + c)
            storeByte d (dpix x y * bpp + c) v) d) d0
    ⟨rfl, fun x' y' c _ _ _ _ _ _ h => by omega⟩
    (by
      rintro y x t hy0 hy1 hx0 hx1 ⟨hlen, hP⟩
      have hp0 := hd0 x y hx0 hx1 hy0 hy1
      have hp1 := hd1 x y hx0 hx1 hy0 hy1
      have hq0 : 0 ≤ (y * W + x) * bpp := mul_nonneg (pos_nonneg y W x hy0 hW hx0) hb
      have hq1 : (y * W + x) * bpp + bpp ≤ sdata.length := by
        have h1 : y * W + x < H * W := pos_lt y H W x hy1 hx1 hW
        have h2 := mul_succ_le (y * W + x) (H * W) bpp h1 hb
        omega
      obtain ⟨t', e1, e2, e3⟩ := copyLoop sdata t ((y * W + x) * bpp) (dpix x y * bpp) bpp hb
        hq0 hq1 (mul_nonneg hp0 hb) (by omega)
      refine ⟨t', e1, by omega, ?_⟩
      intro x' y' c hx'0 hx'1 hy'0 hy'1 hc0 hc1 hproc
      have hk0 : 0 ≤ dpix x' y' * bpp + c :=
        pos_nonneg _ _ _ (hd0 x' y' hx'0 hx'1 hy'0 hy'1) hb hc0
      rw [e3 _ hk0]
      by_cases hsame : x' = x ∧ y' = y
      · obtain ⟨rfl, rfl⟩ := hsame
        rw [if_pos (by omega)]
        congr 1
        ring
      · have hne : dpix x y ≠ dpix x' y' := by
          intro heq
          have := hinj x y x' y' hx0 hx1 hy0 hy1 hx'0 hx'1 hy'0 hy'1 heq
          omega
        rw [if_neg (pix_region_disjoint _ _ _ _ hne hb hc0 hc1)]
        exact hP x' y' c hx'0 hx'1 hy'0 hy'1 hc0 hc1 (by omega))
    (by
      rintro y t hy0 hy1 ⟨hlen, hP⟩
      refine ⟨hlen, ?_⟩
      intro x' y' c hx'0 hx'1 hy'0 hy'1 hc0 hc1 hproc
      exact hP x' y' c hx'0 hx'1 hy'0 hy'1 hc0 hc1 (by omega))
  refine ⟨d, h1, h2, ?_⟩
  intro x y c hx0 hx1 hy0 hy1 hc0 hc1
  exact h3 x y c hx0 hx1 hy0 hy1 hc0 hc1 (by omega)

/-! ## Rotation by 90 degrees -/

theorem toSizeT_of_lt (x : Int) (h0 : 0 ≤ x) (h1 : x < 2 ^ 31) : (toSizeT x : Int) = x := by
  unfold toSizeT
  have : x % 2 ^ 64 = x := Int.emod_eq_of_lt h0 (by omega)
  rw [this]
  exact Int.toNat_of_nonneg h0

@[simp] theorem length_newArray (fresh : Nat → Nat) (n : Nat) :
    (newArray fresh n).length = n := by
  simp [newArray]

theorem rotate90CW_run (fresh : Nat → Nat) (src dst : FrameData) (h : ValidPacked src) :
    ∃ out, FrameUtils.rotate90CW fresh src dst = .ok (true, out) ∧
      out.width = src.height ∧ out.height = src.width ∧ out.format = src.format ∧
      out.timestamp = dst.timestamp ∧ ValidPacked out ∧ out.size = src.size ∧
      ∀ x y c, 0 ≤ x → x < src.width → 0 ≤ y → y < src.height → 0 ≤ c →
        c < bytesPerPixel src.format →
        out.pixelByte (src.height - 1 - y) x c = src.pixelByte x y c := by
  obtain ⟨hdata, hfmt, hw, hh, hstride, hsize, hlen, hbound⟩ := h
  obtain ⟨sdata, hsd⟩ := Option.isSome_iff_exists.mp hdata
  have hbytes : src.bytes = sdata := by simp [FrameData.bytes, hsd]
  rw [hbytes] at hlen
  have hb : 0 < bytesPerPixel src.format := by unfold bytesPerPixel; split <;> omega
  have hbpp? : (if src.format = 2 then some (4 : Int) else if src.format ≠ 3 then none
      else some 3) = some (bytesPerPixel src.format) := by
    unfold bytesPerPixel
    rcases hfmt with h | h <;> simp [h]
  have hsz0 : src.size ≠ 0 := by
    have := mul_pos (mul_pos hw hb) hh
    rw [hstride] at hsize
    omega
  have hN : (toSizeT (src.height * bytesPerPixel src.format * src.width) : Int) =
      src.size := by
    rw [toSizeT_of_lt]
    · rw [hsize, hstride]; ring
    · have := mul_pos (mul_pos hh hb) hw; omega
    · have : src.height * bytesPerPixel src.format * src.width = src.size := by
        rw [hsize, hstride]; ring
      omega
  obtain ⟨d, e1, e2, e3⟩ := remapLoop sdata
    (newArray fresh (toSizeT (src.height * bytesPerPixel src.format * src.width)))
    src.width src.height (bytesPerPixel src.format)
    (fun x y => x * src.height + (src.height - 1 - y)) (by omega) (by omega) (by omega)
    (by rw [hlen, hsize, hstride]; apply le_of_eq; ring)
    (fun x y hx0 _ hy0 hy1 => pos_nonneg _ _ _ hx0 (by omega) (by omega))
    (fun x y hx0 hx1 hy0 hy1 => by
      dsimp only
      rw [length_newArray, hN, hsize, hstride]
      have h1 : x * src.height + (src.height - 1 - y) < src.width * src.height :=
        pos_lt _ _ _ _ hx1 (by omega) (by omega)
      have h2 := mul_succ_le _ _ (bytesPerPixel src.format) h1 (by omega)
      have h3 : src.width * src.height * bytesPerPixel src.format =
        src.width * bytesPerPixel src.format * src.height := by ring
      omega)
    (fun x y x' y' _ _ hy0 hy1 _ _ hy'0 hy'1 heq => by
      have := pos_inj x x' src.height _ _ (by omega) (by omega) (by omega) (by omega) heq
      omega)
  refine ⟨{ dst with width := src.height, height := src.width, format := src.format,
                     stride := src.height * bytesPerPixel src.format,
                     size := toSizeT (src.height * bytesPerPixel src.format * src.width),
                     data := some d }, ?_, rfl, rfl, rfl, rfl, ?_, ?_, ?_⟩
  · simp only [FrameUtils.rotate90CW, hsd, hsz0, if_false, hbpp?]
    rw [e1]
    rfl
  · refine ⟨rfl, hfmt, hh, hw, rfl, ?_, ?_, ?_⟩
    · simp only []
      rw [hN, hsize, hstride]; ring
    · simp only [FrameData.bytes, Option.getD_some]
      rw [e2, length_newArray]
    · simp only []
      have : (toSizeT (src.height * bytesPerPixel src.format * src.width) : Int) < 2 ^ 31 := by
        rw [hN]; omega
      omega
  · simp only []
    omega
  · intro x y c hx0 hx1 hy0 hy1 hc0 hc1
    have := e3 x y c hx0 hx1 hy0 hy1 hc0 hc1
    simp only [FrameData.pixelByte, FrameData.bytes, Option.getD_some, hsd]
    rw [hstride]
    have i1 : x * (src.height * bytesPerPixel src.format) +
        (src.height - 1 - y) * bytesPerPixel src.format + c =
        (x * src.height + (src.height - 1 - y)) * bytesPerPixel src.format + c := by ring
    have i2 : y * (src.width * bytesPerPixel src.format) + x * bytesPerPixel src.format + c =
        (y * src.width + x) * bytesPerPixel src.format + c := by ring
    rw [i1, i2]
    exact this

theorem rotate90CCW_run (fresh : Nat → Nat) (src dst : FrameData) (h : ValidPacked src) :
    ∃ out, FrameUtils.rotate90CCW fresh src dst = .ok (true, out) ∧
      out.width = src.height ∧ out.height = src.width ∧ out.format = src.format ∧
      out.timestamp = dst.timestamp ∧ ValidPacked out ∧ out.size = src.size ∧
      ∀ x y c, 0 ≤ x → x < src.width → 0 ≤ y → y < src.height → 0 ≤ c →
        c < bytesPerPixel src.format →
        out.pixelByte y (src.width - 1 - x) c = src.pixelByte x y c := by
  obtain ⟨hdata, hfmt, hw, hh, hstride, hsize, hlen, hbound⟩ := h
  obtain ⟨sdata, hsd⟩ := Option.isSome_iff_exists.mp hdata
  have hbytes : src.bytes = sdata := by simp [FrameData.bytes, hsd]
  rw [hbytes] at hlen
  have hb : 0 < bytesPerPixel src.format := by unfold bytesPerPixel; split <;> omega
  have hbpp? : (if src.format = 2 then some (4 : Int) else if src.format ≠ 3 then none
      else some 3) = some (bytesPerPixel src.format) := by
    unfold bytesPerPixel
    rcases hfmt with h | h <;> simp [h]
  have hsz0 : src.size ≠ 0 := by
    have := mul_pos (mul_pos hw hb) hh
    rw [hstride] at hsize
    omega
  have hN : (toSizeT (src.height * bytesPerPixel src.format * src.width) : Int) =
      src.size := by
    rw [toSizeT_of_lt]
    · rw [hsize, hstride]; ring
    · have := mul_pos (mul_pos hh hb) hw; omega
    · have : src.height * bytesPerPixel src.format * src.width = src.size := by
        rw [hsize, hstride]; ring
      omega
  obtain ⟨d, e1, e2, e3⟩ := remapLoop sdata
    (newArray fresh (toSizeT (src.height * bytesPerPixel src.format * src.width)))
    src.width src.height (bytesPerPixel src.format)
    (fun x y => (src.width - 1 - x) * src.height + y) (by omega) (by omega) (by omega)
    (by rw [hlen, hsize, hstride]; apply le_of_eq; ring)
    (fun x y _ hx1 hy0 _ => pos_nonneg _ _ _ (by omega) (by omega) hy0)
    (fun x y hx0 hx1 hy0 hy1 => by
      dsimp only
      rw [length_newArray, hN, hsize, hstride]
      have h1 : (src.width - 1 - x) * src.height + y < src.width * src.height :=
        pos_lt _ _ _ _ (by omega) hy1 (by omega)
      have h2 := mul_succ_le _ _ (bytesPerPixel src.format) h1 (by omega)
      have h3 : src.width * src.height * bytesPerPixel src.format =
        src.width * bytesPerPixel src.format * src.height := by ring
      omega)
    (fun x y x' y' _ _ hy0 hy1 _ _ hy'0 hy'1 heq => by
      have := pos_inj _ _ src.height _ _ hy0 hy1 hy'0 hy'1 heq
      omega)
  refine ⟨{ dst with width := src.height, height := src.width, format := src.format,
                     stride := src.height * bytesPerPixel src.format,
                     size := toSizeT (src.height * bytesPerPixel src.format * src.width),
                     data := some d }, ?_, rfl, rfl, rfl, rfl, ?_, ?_, ?_⟩
  · simp only [FrameUtils.rotate90CCW, hsd, hsz0, if_false, hbpp?]
    rw [e1]
    rfl
  · refine ⟨rfl, hfmt, hh, hw, rfl, ?_, ?_, ?_⟩
    · simp only []
      rw [hN, hsize, hstride]; ring
    · simp only [FrameData.bytes, Option.getD_some]
      rw [e2, length_newArray]
    · simp only []
      have : (toSizeT (src.height * bytesPerPixel src.format * src.width) : Int) < 2 ^ 31 := by
        rw [hN]; omega
      omega
  · simp only []
    omega
  · intro x y c hx0 hx1 hy0 hy1 hc0 hc1
    have := e3 x y c hx0 hx1 hy0 hy1 hc0 hc1
    simp only [FrameData.pixelByte, FrameData.bytes, Option.getD_some, hsd]
    rw [hstride]
    have i1 : (src.width - 1 - x) * (src.height * bytesPerPixel src.format) +
        y * bytesPerPixel src.format + c =
        ((src.width - 1 - x) * src.height + y) * bytesPerPixel src.format + c := by ring
    have i2 : y * (src.width * bytesPerPixel src.format) + x * bytesPerPixel src.format + c =
        (y * src.width + x) * bytesPerPixel src.format + c := by ring
    rw [i1, i2]
    exact this

/-- Two tightly packed frames of the same shape with the same pixels have the same
bytes. -/
theorem packed_ext (f g : FrameData) (hf : ValidPacked f) (hg : ValidPacked g)
    (hw : g.width = f.width) (hh : g.height = f.height) (hfmt : g.format = f.format)
    (hpix : ∀ x y c, 0 ≤ x → x < f.width → 0 ≤ y → y < f.height → 0 ≤ c →
      c < bytesPerPixel f.format → g.pixelByte x y c = f.pixelByte x y c) :
    g.data = f.data ∧ g.size = f.size ∧ g.stride = f.stride := by
  obtain ⟨fd, _, fw, fh, fstride, fsize, flen, _⟩ := hf
  obtain ⟨gd, _, _, _, gstride, gsize, glen, _⟩ := hg
  have hb : 0 < bytesPerPixel f.format := by unfold bytesPerPixel; split <;> omega
  have hstr : g.stride = f.stride := by rw [gstride, fstride, hw, hfmt]
  have hsz : g.size = f.size := by
    have : (g.size : Int) = f.size := by rw [gsize, fsize, hstr, hh]
    omega
  obtain ⟨fb, hfb⟩ := Option.isSome_iff_exists.mp fd
  obtain ⟨gb, hgb⟩ := Option.isSome_iff_exists.mp gd
  have e1 : f.bytes = fb := by simp [FrameData.bytes, hfb]
  have e2 : g.bytes = gb := by simp [FrameData.bytes, hgb]
  refine ⟨?_, hsz, hstr⟩
  rw [hfb, hgb]
  congr 1
  apply buf_ext
  · rw [← e1, ← e2, flen, glen, hsz]
  · intro k hk0 hk1
    have hk2 : k < f.height * (f.width * bytesPerPixel f.format) := by
      rw [← e2, glen, hsz] at hk1
      rw [fstride] at fsize
      have : f.height * (f.width * bytesPerPixel f.format) =
        f.width * bytesPerPixel f.format * f.height := by ring
      omega
    obtain ⟨y, r, hy0, hy1, hr0, hr1, rfl⟩ := pos_decomp k _ _ (mul_pos fw hb) hk0 hk2
    obtain ⟨x, c, hx0, hx1, hc0, hc1, rfl⟩ := pos_decomp r _ _ hb hr0 hr1
    have := hpix x y c hx0 hx1 hy0 hy1 hc0 hc1
    simp only [FrameData.pixelByte, e1, e2, hstr, hfmt, fstride] at this
    have i : y * (f.width * bytesPerPixel f.format) + (x * bytesPerPixel f.format + c) =
      y * (f.width * bytesPerPixel f.format) + x * bytesPerPixel f.format + c := by ring
    rw [i]
    exact this

/-! ## Swapping pixels in place -/

theorem swapBytes_ok (d : Buf) (i j : Int) (hi0 : 0 ≤ i) (hi : i < d.length) (hj0 : 0 ≤ j)
    (hj : j < d.length) :
    FrameUtils.swapBytes d i j = .ok (poke (poke d i (peek d j)) j (peek d i)) := by
  unfold FrameUtils.swapBytes
  rw [loadByte_ok hi0 hi, loadByte_ok hj0 hj]
  show (storeByte d i (peek d j) >>= fun d1 => storeByte d1 j (peek d i)) = _
  rw [storeByte_ok _ hi0 hi]
  exact storeByte_ok _ hj0 (by simpa using hj)

/-- Swapping the `n` bytes at `li` with the `n` bytes at `ri`, one at a time. -/
theorem swapLoop (d : Buf) (li ri n : Int) (hn : 0 ≤ n) (hli : 0 ≤ li) (hlr : li + n ≤ ri)
    (hri : ri + n ≤ d.length) :
    ∃ d', forRange n (fun c d => FrameUtils.swapBytes d (li + c) (ri + c)) d = .ok d' ∧
      d'.length = d.length ∧
      ∀ k, 0 ≤ k → peek d' k =
        if li ≤ k ∧ k < li + n then peek d (ri + (k - li))
        else if ri ≤ k ∧ k < ri + n then peek d (li + (k - ri))
        else peek d k := by
  apply forRange_inv (fun c t => t.length = d.length ∧ ∀ k, 0 ≤ k → peek t k =
        if li ≤ k ∧ k < li + c then peek d (ri + (k - li))
        else if ri ≤ k ∧ k < ri + c then peek d (li + (k - ri))
        else peek d k) n hn
  · refine ⟨rfl, fun k _ => ?_⟩
    rw [if_neg (by omega), if_neg (by omega)]
  · rintro c t hc0 hc1 ⟨hlen, hP⟩
    refine ⟨_, swapBytes_ok t (li + c) (ri + c) (by omega) (by omega) (by omega) (by omega),
      by simp [hlen], ?_⟩
    intro k hk
    rw [peek_poke _ _ _ _ (by omega) (by simp; omega) hk,
      peek_poke _ _ _ _ (by omega) (by omega) hk,
      hP k hk, hP (li + c) (by omega), hP (ri + c) (by omega)]
    rw [if_neg (by omega : ¬ (li ≤ li + c ∧ li + c < li + c)),
      if_neg (by omega : ¬ (ri ≤ li + c ∧ li + c < ri + c)),
      if_neg (by omega : ¬ (li ≤ ri + c ∧ ri + c < li + c)),
      if_neg (by omega : ¬ (ri ≤ ri + c ∧ ri + c < ri + c))]
    split_ifs <;> first | rfl | omega | (congr 1; omega)

/-- The loop nest of `flipHorizontal`: afterwards column `x` of every row holds what
column `W - 1 - x` held before. -/
theorem flipLoop (d0 : Buf) (W H bpp : Int) (hW : 0 ≤ W) (hH : 0 ≤ H) (hb : 0 ≤ bpp)
    (hlen : H * W * bpp ≤ d0.length) :
    ∃ d, forRange H (fun y d =>
        forRange (Int.tdiv W 2) (fun x d =>
          forRange bpp (fun c d =>
            FrameUtils.swapBytes d ((y * W + x) * bpp + c)
              ((y * W + (W - 1 - x)) * bpp + c)) d) d) d0 = .ok d ∧
      d.length = d0.length ∧
      ∀ x y c, 0 ≤ x → x < W → 0 ≤ y → y < H → 0 ≤ c → c < bpp →
        peek d ((y * W + x) * bpp + c) = peek d0 ((y * W + (W - 1 - x)) * bpp + c) := by
  have hM : Int.tdiv W 2 = W / 2 := Int.tdiv_eq_ediv hW (by omega)
  rw [hM]
  obtain ⟨d, h1, h2, h3⟩ := forRange2_inv
    (fun y x d => d.length = d0.length ∧
      ∀ x' y' c, 0 ≤ x' → x' < W → 0 ≤ y' → y' < H → 0 ≤ c → c < bpp →
        peek d ((y' * W + x') * bpp + c) =
          peek d0 ((y' * W + (if y' < y ∨ (y' = y ∧ (x' < x ∨ W - 1 - x' < x))
            then W - 1 - x' else x')) * bpp + c))
    H (W / 2) hH (by omega)
    (fun y x d => forRange bpp (fun c d =>
            FrameUtils.swapBytes d ((y * W + x) * bpp + c)
              ((y * W + (W - 1 - x)) * bpp + c)) d) d0
    ⟨rfl, fun x' y' c _ _ _ _ _ _ => by rw [if_neg (by omega)]⟩
    (by
      rintro y x t hy0 hy1 hx0 hx1 ⟨hlen', hP⟩
      have hxW : x + 1 ≤ W - 1 - x := by omega
      have hlr : (y * W + x) * bpp + bpp ≤ (y * W + (W - 1 - x)) * bpp :=
        mul_succ_le _ _ bpp (by omega) hb
      have hri : (y * W + (W - 1 - x)) * bpp + bpp ≤ t.length := by
        have h1 : y * W + (W - 1 - x) < H * W := pos_lt y H W _ hy1 (by omega) hW
        have h2 := mul_succ_le _ _ bpp h1 hb
        omega
      have hli : 0 ≤ (y * W + x) * bpp := mul_nonneg (pos_nonneg y W x hy0 hW hx0) hb
      obtain ⟨t', e1, e2, e3⟩ := swapLoop t _ _ bpp hb hli hlr hri
      refine ⟨t', e1, by omega, ?_⟩
      intro x' y' c hx'0 hx'1 hy'0 hy'1 hc0 hc1
      have hk0 : 0 ≤ (y' * W + x') * bpp + c :=
        pos_nonneg _ _ _ (pos_nonneg y' W x' hy'0 hW hx'0) hb hc0
      rw [e3 _ hk0]
      by_cases hL : y' = y ∧ x' = x
      · obtain ⟨rfl, rfl⟩ := hL
        rw [if_pos (by omega), if_pos (by omega)]
        have := hP (W - 1 - x') y' c (by omega) (by omega) hy0 hy1 hc0 hc1
        rw [if_neg (by omega)] at this
        rw [← this]
        congr 1; omega
      · have hneL : y * W + x ≠ y' * W + x' := by
          intro heq
          have := pos_inj y y' W x x' hx0 (by omega) hx'0 hx'1 heq
          omega
        rw [if_neg (pix_region_disjoint _ _ _ _ hneL hb hc0 hc1)]
        by_cases hR : y' = y ∧ x' = W - 1 - x
        · obtain ⟨rfl, rfl⟩ := hR
          rw [if_pos (by omega), if_pos (by omega)]
          have := hP x y' c hx0 (by omega) hy0 hy1 hc0 hc1
          rw [if_neg (by omega)] at this
          have e : W - 1 - (W - 1 - x) = x := by omega
          rw [e, ← this]
          congr 1; omega
        · have hneR : y * W + (W - 1 - x) ≠ y' * W + x' := by
            intro heq
            have := pos_inj y y' W _ x' (by omega) (by omega) hx'0 hx'1 heq
            omega
          rw [if_neg (pix_region_disjoint _ _ _ _ hneR hb hc0 hc1)]
          rw [hP x' y' c hx'0 hx'1 hy'0 hy'1 hc0 hc1]
          by_cases hT : y' < y ∨ (y' = y ∧ (x' < x ∨ W - 1 - x' < x))
          · rw [if_pos hT, if_pos (by omega)]
          · rw [if_neg hT, if_neg (by omega)])
    (by
      rintro y t hy0 hy1 ⟨hlen', hP⟩
      refine ⟨hlen', ?_⟩
      intro x' y' c hx'0 hx'1 hy'0 hy'1 hc0 hc1
      rw [hP x' y' c hx'0 hx'1 hy'0 hy'1 hc0 hc1]
      by_cases hT : y' < y ∨ (y' = y ∧ (x' < W / 2 ∨ W - 1 - x' < W / 2))
      · rw [if_pos hT, if_pos (by omega)]
      · rw [if_neg hT]
        by_cases hT' : y' < y + 1 ∨ (y' = y + 1 ∧ (x' < 0 ∨ W - 1 - x' < 0))
        · rw [if_pos hT']
          have : W - 1 - x' = x' := by omega
          rw [this]
        · rw [if_neg hT'])
  refine ⟨d, h1, h2, ?_⟩
  intro x y c hx0 hx1 hy0 hy1 hc0 hc1
  have := h3 x y c hx0 hx1 hy0 hy1 hc0 hc1
  rw [if_pos (by omega)] at this
  exact this

/-- The loop of `rotate180`: afterwards pixel `p` holds what pixel `T - 1 - p` held
before. -/
theorem rotate180Loop (d0 : Buf) (T bpp : Int) (hT : 0 ≤ T) (hb : 0 ≤ bpp)
    (hlen : T * bpp ≤ d0.length) :
    ∃ d, forRange (Int.tdiv T 2) (fun i d =>
        forRange bpp (fun c d =>
          FrameUtils.swapBytes d (i * bpp + c) ((T - 1 - i) * bpp + c)) d) d0 = .ok d ∧
      d.length = d0.length ∧
      ∀ p c, 0 ≤ p → p < T → 0 ≤ c → c < bpp →
        peek d (p * bpp + c) = peek d0 ((T - 1 - p) * bpp + c) := by
  have hM : Int.tdiv T 2 = T / 2 := Int.tdiv_eq_ediv hT (by omega)
  rw [hM]
  obtain ⟨d, h1, h2, h3⟩ := forRange_inv
    (fun i d => d.length = d0.length ∧
      ∀ p c, 0 ≤ p → p < T → 0 ≤ c → c < bpp →
        peek d (p * bpp + c) =
          peek d0 ((if p < i ∨ T - 1 - p < i then T - 1 - p else p) * bpp + c))
    (T / 2) (by omega)
    (fun i d => forRange bpp (fun c d =>
          FrameUtils.swapBytes d (i * bpp + c) ((T - 1 - i) * bpp + c)) d) d0
    ⟨rfl, fun p c _ _ _ _ => by rw [if_neg (by omega)]⟩
    (by
      rintro i t hi0 hi1 ⟨hlen', hP⟩
      have hlr : i * bpp + bpp ≤ (T - 1 - i) * bpp := mul_succ_le _ _ bpp (by omega) hb
      have hri : (T - 1 - i) * bpp + bpp ≤ t.length := by
        have h2 := mul_succ_le (T - 1 - i) T bpp (by omega) hb
        omega
      obtain ⟨t', e1, e2, e3⟩ := swapLoop t _ _ bpp hb (mul_nonneg hi0 hb) hlr hri
      refine ⟨t', e1, by omega, ?_⟩
      intro p c hp0 hp1 hc0 hc1
      have hk0 : 0 ≤ p * bpp + c := pos_nonneg _ _ _ hp0 hb hc0
      rw [e3 _ hk0]
      by_cases hL : p = i
      · subst hL
        rw [if_pos (by omega), if_pos (by omega)]
        have := hP (T - 1 - p) c (by omega) (by omega) hc0 hc1
        rw [if_neg (by omega)] at this
        rw [← this]
        congr 1; omega
      · have hneL : i ≠ p := fun h => hL h.symm
        rw [if_neg (pix_region_disjoint _ _ _ _ hneL hb hc0 hc1)]
        by_cases hR : p = T - 1 - i
        · subst hR
          rw [if_pos (by omega), if_pos (by omega)]
          have := hP i c hi0 (by omega) hc0 hc1
          rw [if_neg (by omega)] at this
          have e : T - 1 - (T - 1 - i) = i := by omega
          rw [e, ← this]
          congr 1; omega
        · have hneR : T - 1 - i ≠ p := fun h => hR h.symm
          rw [if_neg (pix_region_disjoint _ _ _ _ hneR hb hc0 hc1)]
          rw [hP p c hp0 hp1 hc0 hc1]
          by_cases hT' : p < i ∨ T - 1 - p < i
          · rw [if_pos hT', if_pos (by omega)]
          · rw [if_neg hT', if_neg (by omega)])
  refine ⟨d, h1, h2, ?_⟩
  intro p c hp0 hp1 hc0 hc1
  rw [h3 p c hp0 hp1 hc0 hc1]
  by_cases hT' : p < T / 2 ∨ T - 1 - p < T / 2
  · rw [if_pos hT']
  · rw [if_neg hT']
    have : T - 1 - p = p := by omega
    rw [this]

/-! ## The in-place transforms on frames -/

theorem bytesPerPixel_pos (fmt : Int) : 0 < bytesPerPixel fmt := by
  unfold bytesPerPixel; split <;> omega

/-- Replacing the bytes of a valid packed frame by as many bytes keeps it valid. -/
theorem validPacked_setData (f : FrameData) (d : Buf) (h : ValidPacked f)
    (hlen : d.length = f.bytes.length) : ValidPacked { f with data := some d } := by
  obtain ⟨_, hfmt, hw, hh, hstride, hsize, hl, hbound⟩ := h
  refine ⟨rfl, hfmt, hw, hh, hstride, hsize, ?_, hbound⟩
  show d.length = f.size
  rw [hlen, hl]

theorem flipHorizontal_run (f : FrameData) (h : ValidPacked f) :
    ∃ d, FrameUtils.flipHorizontal f = .ok (true, { f with data := some d }) ∧
      d.length = f.bytes.length ∧
      ∀ x y c, 0 ≤ x → x < f.width → 0 ≤ y → y < f.height → 0 ≤ c →
        c < bytesPerPixel f.format →
        FrameData.pixelByte { f with data := some d } x y c =
          f.pixelByte (f.width - 1 - x) y c := by
  obtain ⟨hdata, hfmt, hw, hh, hstride, hsize, hlen, hbound⟩ := h
  obtain ⟨fdata, hfd⟩ := Option.isSome_iff_exists.mp hdata
  have hbytes : f.bytes = fdata := by simp [FrameData.bytes, hfd]
  rw [hbytes] at hlen
  have hb := bytesPerPixel_pos f.format
  have hbpp? : (if f.format = 2 then some (4 : Int) else if f.format = 0 ∨ f.format = 1
      then none else some 3) = some (bytesPerPixel f.format) := by
    unfold bytesPerPixel
    rcases hfmt with h | h <;> simp [h]
  have hsz0 : f.size ≠ 0 := by
    have := mul_pos (mul_pos hw hb) hh
    rw [hstride] at hsize
    omega
  obtain ⟨d, e1, e2, e3⟩ := flipLoop fdata f.width f.height (bytesPerPixel f.format)
    (by omega) (by omega) (by omega)
    (by rw [hlen, hsize, hstride]; apply le_of_eq; ring)
  refine ⟨d, ?_, by rw [e2, hbytes], ?_⟩
  · simp only [FrameUtils.flipHorizontal, hfd, hsz0, if_false, hbpp?]
    rw [e1]
    rfl
  · intro x y c hx0 hx1 hy0 hy1 hc0 hc1
    have := e3 x y c hx0 hx1 hy0 hy1 hc0 hc1
    simp only [FrameData.pixelByte, FrameData.bytes, Option.getD_some, hfd]
    rw [hstride]
    have i1 : y * (f.width * bytesPerPixel f.format) + x * bytesPerPixel f.format + c =
        (y * f.width + x) * bytesPerPixel f.format + c := by ring
    have i2 : y * (f.width * bytesPerPixel f.format) +
        (f.width - 1 - x) * bytesPerPixel f.format + c =
        (y * f.width + (f.width - 1 - x)) * bytesPerPixel f.format + c := by ring
    rw [i1, i2]
    exact this

theorem rotate180_run (f : FrameData) (h : ValidPacked f) :
    ∃ d, FrameUtils.rotate180 f = .ok (true, { f with data := some d }) ∧
      d.length = f.bytes.length ∧
      ∀ p c, 0 ≤ p → p < f.width * f.height → 0 ≤ c → c < bytesPerPixel f.format →
        peek d (p * bytesPerPixel f.format + c) =
          peek f.bytes ((f.width * f.height - 1 - p) * bytesPerPixel f.format + c) := by
  obtain ⟨hdata, hfmt, hw, hh, hstride, hsize, hlen, hbound⟩ := h
  obtain ⟨fdata, hfd⟩ := Option.isSome_iff_exists.mp hdata
  have hbytes : f.bytes = fdata := by simp [FrameData.bytes, hfd]
  rw [hbytes] at hlen
  have hb := bytesPerPixel_pos f.format
  have hbpp? : (if f.format = 2 then some (4 : Int) else if f.format ≠ 3
      then none else some 3) = some (bytesPerPixel f.format) := by
    unfold bytesPerPixel
    rcases hfmt with h | h <;> simp [h]
  have hsz0 : f.size ≠ 0 := by
    have := mul_pos (mul_pos hw hb) hh
    rw [hstride] at hsize
    omega
  obtain ⟨d, e1, e2, e3⟩ := rotate180Loop fdata (f.width * f.height) (bytesPerPixel f.format)
    (by have := mul_pos hw hh; omega) (by omega)
    (by rw [hlen, hsize, hstride]; apply le_of_eq; ring)
  refine ⟨d, ?_, by rw [e2, hbytes], ?_⟩
  · simp only [FrameUtils.rotate180, hfd, hsz0, if_false, hbpp?]
    rw [e1]
    rfl
  · intro p c hp0 hp1 hc0 hc1
    rw [hbytes]
    exact e3 p c hp0 hp1 hc0 hc1

theorem setData_self (f : FrameData) (d : Buf) (h : f.data = some d) :
    { f with data := some d } = f := by
  cases f
  simp only [FrameData.mk.injEq, and_true] at h ⊢
  exact h.symm

theorem validPacked_size (f : FrameData) (h : ValidPacked f) :
    (f.bytes.length : Int) = f.width * f.height * bytesPerPixel f.format := by
  obtain ⟨_, _, _, _, hstride, hsize, hl, _⟩ := h
  rw [hl, hsize, hstride]; ring

/-! ## Colour conversion -/

@[simp] theorem ok_bind {α β : Type} (a : α) (f : α → Exec β) :
    (Except.ok a >>= f) = f a := rfl

theorem shr8 (x : Int) : x >>> (8 : Nat) = Int.fdiv x 256 := by
  rw [Int.shiftRight_eq_div_pow, Int.fdiv_eq_ediv _ (by norm_num)]; norm_num

theorem fdiv256 (x : Int) : Int.fdiv x 256 = x / 256 := Int.fdiv_eq_ediv _ (by norm_num)

theorem peek_lt (b : Buf) (hb : ∀ x ∈ b, x < 256) (k : Int) : peek b k < 256 := by
  unfold peek
  rw [List.getD_eq_getElem?_getD]
  by_cases h : k.toNat < b.length
  · rw [List.getElem?_eq_getElem h]
    exact hb _ (List.getElem_mem _)
  · rw [List.getElem?_eq_none (by omega)]
    simp

theorem clamp_of_range (v : Int) (h0 : 0 ≤ v) (h1 : v ≤ 255) : (clamp v : Int) = v := by
  unfold clamp
  rw [min_eq_right h1, max_eq_right h0]
  exact Int.toNat_of_nonneg h0

theorem clamp_lt (v : Int) : clamp v < 256 := by
  unfold clamp
  omega

theorem clamp_specY (r g b : Nat) (hr : r < 256) (hg : g < 256) (hb : b < 256) :
    (clamp (((66 * (r : Int) + 129 * g + 25 * b + 128) >>> (8 : Nat)) + 16) : Int) =
      specY r g b := by
  rw [shr8]
  unfold specY
  apply clamp_of_range <;> rw [fdiv256] <;> omega

theorem clamp_specU (r g b : Nat) (hr : r < 256) (hg : g < 256) (hb : b < 256) :
    (clamp (((-38 * (r : Int) - 74 * g + 112 * b + 128) >>> (8 : Nat)) + 128) : Int) =
      specU r g b := by
  rw [shr8]
  unfold specU
  apply clamp_of_range <;> rw [fdiv256] <;> omega

theorem clamp_specV (r g b : Nat) (hr : r < 256) (hg : g < 256) (hb : b < 256) :
    (clamp (((112 * (r : Int) - 94 * g - 18 * b + 128) >>> (8 : Nat)) + 128) : Int) =
      specV r g b := by
  rw [shr8]
  unfold specV
  apply clamp_of_range <;> rw [fdiv256] <;> omega

theorem rgbToNv21_run (rgb out0 : Buf) (w h : Int) (hw : 0 < w) (hh : 0 < h)
    (hwe : w % 2 = 0) (hhe : h % 2 = 0) (hrgb : (rgb.length : Int) = w * h * 3)
    (hb : ∀ x ∈ rgb, x < 256) (hout : 2 * (out0.length : Int) = w * h * 3) :
    ∃ out, FrameUtils.rgbToNv21 (some rgb) (some out0) w h = .ok (true, some out) ∧
      out.length = out0.length ∧
      ∀ i j, 0 ≤ i → i < w → 0 ≤ j → j < h → Nv21Done rgb out w h i j := by
  have hhw : h * w = w * h := mul_comm _ _
  have hhalf : 2 * (h / 2 * w) = w * h := by
    have : h / 2 * 2 = h := by omega
    calc 2 * (h / 2 * w) = (h / 2 * 2) * w := by ring
      _ = w * h := by rw [this]; ring
  obtain ⟨d, h1, h2, h3⟩ := forRange2_inv
    (fun j i t => t.length = out0.length ∧
      ∀ i' j', 0 ≤ i' → i' < w → 0 ≤ j' → j' < h → (j' < j ∨ (j' = j ∧ i' < i)) →
        Nv21Done rgb t w h i' j')
    h w (by omega) (by omega)
    (fun j i out => do
          let rgbIdx := (j * w + i) * 3
          let r : Int := ← loadByte rgb rgbIdx
          let g : Int := ← loadByte rgb (rgbIdx + 1)
          let b : Int := ← loadByte rgb (rgbIdx + 2)
          let y := ((66 * r + 129 * g + 25 * b + 128) >>> (8 : Nat)) + 16
          let out ← storeByte out (j * w + i) (clamp y)
          if Int.tmod j 2 = 0 ∧ Int.tmod i 2 = 0 then do
            let u := ((-38 * r - 74 * g + 112 * b + 128) >>> (8 : Nat)) + 128
            let v := ((112 * r - 94 * g - 18 * b + 128) >>> (8 : Nat)) + 128
            let uvIdx := (Int.tdiv j 2) * w + i
            let out ← storeByte out (w * h + uvIdx) (clamp v)
            storeByte out (w * h + (uvIdx + 1)) (clamp u)
          else pure out) out0
    ⟨rfl, fun i' j' _ _ _ _ hp => by omega⟩
    (by
      rintro j i t hj0 hj1 hi0 hi1 ⟨hlen, hP⟩
      have hA0 : 0 ≤ j * w := mul_nonneg hj0 (by omega)
      have hA1 : j * w + w ≤ h * w := mul_succ_le j h w hj1 (by omega)
      have l1 := loadByte_ok (b := rgb) (i := (j * w + i) * 3) (by omega) (by omega)
      have l2 := loadByte_ok (b := rgb) (i := (j * w + i) * 3 + 1) (by omega) (by omega)
      have l3 := loadByte_ok (b := rgb) (i := (j * w + i) * 3 + 2) (by omega) (by omega)
      have hr := peek_lt rgb hb ((j * w + i) * 3)
      have hg := peek_lt rgb hb ((j * w + i) * 3 + 1)
      have hbl := peek_lt rgb hb ((j * w + i) * 3 + 2)
      have cY := clamp_specY _ _ _ hr hg hbl
      have cU := clamp_specU _ _ _ hr hg hbl
      have cV := clamp_specV _ _ _ hr hg hbl
      have s1 := storeByte_ok (b := t) (i := j * w + i)
        (clamp (((66 * (peek rgb ((j * w + i) * 3) : Int) + 129 * peek rgb ((j * w + i) * 3 + 1)
          + 25 * peek rgb ((j * w + i) * 3 + 2) + 128) >>> (8 : Nat)) + 16)) (by omega) (by omega)
      have htm : ∀ z : Int, 0 ≤ z → Int.tmod z 2 = z % 2 := fun z hz =>
        Int.tmod_eq_emod hz (by omega)
      have htd : Int.tdiv j 2 = j / 2 := Int.tdiv_eq_ediv hj0 (by omega)
      simp only [l1, l2, l3, ok_bind, s1, htm j hj0, htm i hi0, htd]
      generalize clamp (((66 * (peek rgb ((j * w + i) * 3) : Int) +
        129 * peek rgb ((j * w + i) * 3 + 1) + 25 * peek rgb ((j * w + i) * 3 + 2) + 128)
          >>> (8 : Nat)) + 16) = Yc at cY ⊢
      generalize clamp (((-38 * (peek rgb ((j * w + i) * 3) : Int) -
        74 * peek rgb ((j * w + i) * 3 + 1) + 112 * peek rgb ((j * w + i) * 3 + 2) + 128)
          >>> (8 : Nat)) + 128) = Uc at cU ⊢
      generalize clamp (((112 * (peek rgb ((j * w + i) * 3) : Int) -
        94 * peek rgb ((j * w + i) * 3 + 1) - 18 * peek rgb ((j * w + i) * 3 + 2) + 128)
          >>> (8 : Nat)) + 128) = Vc at cV ⊢
      by_cases heven : j % 2 = 0 ∧ i % 2 = 0
      · rw [if_pos heven]
        have hB0 : 0 ≤ j / 2 * w := mul_nonneg (by omega) (by omega)
        have hB1 : j / 2 * w + w ≤ h / 2 * w := mul_succ_le (j / 2) (h / 2) w (by omega) (by omega)
        have s2 := storeByte_ok (b := poke t (j * w + i) Yc) (i := w * h + (j / 2 * w + i)) Vc
          (by omega) (by rw [length_poke]; omega)
        have s3 := storeByte_ok (b := poke (poke t (j * w + i) Yc) (w * h + (j / 2 * w + i)) Vc)
          (i := w * h + (j / 2 * w + i + 1)) Uc (by omega) (by rw [length_poke, length_poke]; omega)
        simp only [s2, ok_bind, s3]
        refine ⟨_, rfl, by simp [hlen], ?_⟩
        have key : ∀ k, 0 ≤ k → peek (poke (poke (poke t (j * w + i) Yc)
            (w * h + (j / 2 * w + i)) Vc) (w * h + (j / 2 * w + i + 1)) Uc) k =
            if k = w * h + (j / 2 * w + i + 1) then Uc
            else if k = w * h + (j / 2 * w + i) then Vc
            else if k = j * w + i then Yc else peek t k := by
          intro k hk
          rw [peek_poke _ _ _ _ (by omega) (by rw [length_poke, length_poke]; omega) hk,
            peek_poke _ _ _ _ (by omega) (by rw [length_poke]; omega) hk,
            peek_poke _ _ _ _ (by omega) (by omega) hk]
        intro i' j' hi'0 hi'1 hj'0 hj'1 hproc
        have hA'0 : 0 ≤ j' * w := mul_nonneg hj'0 (by omega)
        have hA'1 : j' * w + w ≤ h * w := mul_succ_le j' h w hj'1 (by omega)
        by_cases hsame : j' = j ∧ i' = i
        · obtain ⟨rfl, rfl⟩ := hsame
          refine ⟨?_, fun _ _ => ⟨?_, ?_⟩⟩
          · rw [key _ (by omega), if_neg (by omega), if_neg (by omega), if_pos rfl]
            exact cY
          · rw [key _ (by omega), if_neg (by omega), if_pos rfl]
            exact cV
          · rw [key _ (by omega), if_pos rfl]
            exact cU
        · have hprev : j' < j ∨ (j' = j ∧ i' < i) := by omega
          obtain ⟨p1, p2⟩ := hP i' j' hi'0 hi'1 hj'0 hj'1 hprev
          have hne : j' * w + i' ≠ j * w + i := by
            intro heq
            have := pos_inj j' j w i' i hi'0 hi'1 hi0 hi1 heq
            omega
          refine ⟨?_, fun e1 e2 => ⟨?_, ?_⟩⟩
          · rw [key _ (by omega), if_neg (by omega), if_neg (by omega), if_neg hne]
            exact p1
          · obtain ⟨q1, _⟩ := p2 e1 e2
            have hB'0 : 0 ≤ j' / 2 * w := mul_nonneg (by omega) (by omega)
            have hrow : j' = j ∨ j' / 2 * w + w ≤ j / 2 * w := by
              rcases hprev with hlt | ⟨heq, _⟩
              · right; exact mul_succ_le _ _ w (by omega) (by omega)
              · left; exact heq
            rw [key _ (by omega)]
            rcases hrow with rfl | hrow
            · rw [if_neg (by omega), if_neg (by omega), if_neg (by omega)]
              exact q1
            · rw [if_neg (by omega), if_neg (by omega), if_neg (by omega)]
              exact q1
          · obtain ⟨_, q2⟩ := p2 e1 e2
            have hB'0 : 0 ≤ j' / 2 * w := mul_nonneg (by omega) (by omega)
            have hrow : j' = j ∨ j' / 2 * w + w ≤ j / 2 * w := by
              rcases hprev with hlt | ⟨heq, _⟩
              · right; exact mul_succ_le _ _ w (by omega) (by omega)
              · left; exact heq
            rw [key _ (by omega)]
            rcases hrow with rfl | hrow
            · rw [if_neg (by omega), if_neg (by omega), if_neg (by omega)]
              exact q2
            · rw [if_neg (by omega), if_neg (by omega), if_neg (by omega)]
              exact q2
      · rw [if_neg heven]
        refine ⟨_, rfl, by simp [hlen], ?_⟩
        intro i' j' hi'0 hi'1 hj'0 hj'1 hproc
        have hA'0 : 0 ≤ j' * w := mul_nonneg hj'0 (by omega)
        have hA'1 : j' * w + w ≤ h * w := mul_succ_le j' h w hj'1 (by omega)
        have key : ∀ k, 0 ≤ k → peek (poke t (j * w + i) Yc) k =
            if k = j * w + i then Yc else peek t k :=
          fun k hk => peek_poke _ _ _ _ (by omega) (by omega) hk
        by_cases hsame : j' = j ∧ i' = i
        · obtain ⟨rfl, rfl⟩ := hsame
          refine ⟨?_, fun e1 e2 => by omega⟩
          rw [key _ (by omega), if_pos rfl]
          exact cY
        · have hprev : j' < j ∨ (j' = j ∧ i' < i) := by omega
          obtain ⟨p1, p2⟩ := hP i' j' hi'0 hi'1 hj'0 hj'1 hprev
          have hne : j' * w + i' ≠ j * w + i := by
            intro heq
            have := pos_inj j' j w i' i hi'0 hi'1 hi0 hi1 heq
            omega
          have hB'0 : 0 ≤ j' / 2 * w := mul_nonneg (by omega) (by omega)
          refine ⟨?_, fun e1 e2 => ⟨?_, ?_⟩⟩
          · rw [key _ (by omega), if_neg hne]
            exact p1
          · rw [key _ (by omega), if_neg (by omega)]
            exact (p2 e1 e2).1
          · rw [key _ (by omega), if_neg (by omega)]
            exact (p2 e1 e2).2)
    (by
      rintro y t hy0 hy1 ⟨hlen, hP⟩
      exact ⟨hlen, fun i' j' a b c d e => hP i' j' a b c d (by omega)⟩)
  refine ⟨d, ?_, h2, fun i j a b c e => h3 i j a b c e (by omega)⟩
  have hc : ¬ (w ≤ 0 ∨ h ≤ 0) := by omega
  simp only [FrameUtils.rgbToNv21, hc, if_false]
  rw [h1]
  rfl

theorem ldiff_one (n : Nat) : Nat.ldiff n 1 = n - n % 2 := by
  apply Nat.eq_of_testBit_eq
  intro i
  rw [Nat.testBit_ldiff]
  cases i with
  | zero =>
    simp [Nat.testBit_zero]
    omega
  | succ k =>
    have h1 : Nat.testBit 1 (k + 1) = false := by
      simp [Nat.testBit_succ]
    rw [h1]
    simp [Nat.testBit_succ]
    congr 1
    omega

/-- The expression `i & ~1` clears the lowest bit. -/
theorem land_not_one (i : Int) (h : 0 ≤ i) : Int.land i (~~~ 1) = i - i % 2 := by
  obtain ⟨n, rfl⟩ := Int.eq_ofNat_of_zero_le h
  show Int.land (Int.ofNat n) (Int.negSucc 1) = _
  simp only [Int.land]
  rw [ldiff_one]
  have : n % 2 ≤ n := Nat.mod_le _ _
  omega

theorem nv21ToRgb_run (nv21 out0 : Buf) (w h : Int) (hw : 0 < w) (hh : 0 < h)
    (hwe : w % 2 = 0) (hhe : h % 2 = 0) (hnv : 2 * (nv21.length : Int) = w * h * 3)
    (hout : (out0.length : Int) = w * h * 3) :
    ∃ out, FrameUtils.nv21ToRgb (some nv21) (some out0) w h = .ok (true, some out) ∧
      out.length = out0.length ∧
      ∀ i j, 0 ≤ i → i < w → 0 ≤ j → j < h →
        RgbDone out w i j (peek nv21 (j * w + i))
          (peek nv21 (w * h + (j / 2 * w + (i - i % 2) + 1)))
          (peek nv21 (w * h + (j / 2 * w + (i - i % 2)))) := by
  have hhw : h * w = w * h := mul_comm _ _
  have hhalf : 2 * (h / 2 * w) = w * h := by
    have : h / 2 * 2 = h := by omega
    calc 2 * (h / 2 * w) = (h / 2 * 2) * w := by ring
      _ = w * h := by rw [this]; ring
  obtain ⟨d, h1, h2, h3⟩ := forRange2_inv
    (fun j i t => t.length = out0.length ∧
      ∀ i' j', 0 ≤ i' → i' < w → 0 ≤ j' → j' < h → (j' < j ∨ (j' = j ∧ i' < i)) →
        RgbDone t w i' j' (peek nv21 (j' * w + i'))
          (peek nv21 (w * h + (j' / 2 * w + (i' - i' % 2) + 1)))
          (peek nv21 (w * h + (j' / 2 * w + (i' - i' % 2)))))
    h w (by omega) (by omega)
    (fun j i out => do
          let y : Int := ← loadByte nv21 (j * w + i)
          let uvIdx := (Int.tdiv j 2) * w + Int.land i (~~~ 1)
          let v : Int := (← loadByte nv21 (w * h + uvIdx) : Nat) - 128
          let u : Int := (← loadByte nv21 (w * h + (uvIdx + 1)) : Nat) - 128
          let c := y - 16
          let r := (298 * c + 409 * v + 128) >>> (8 : Nat)
          let g := (298 * c - 100 * u - 208 * v + 128) >>> (8 : Nat)
          let b := (298 * c + 516 * u + 128) >>> (8 : Nat)
          let rgbIdx := (j * w + i) * 3
          let out ← storeByte out rgbIdx (clamp r)
          let out ← storeByte out (rgbIdx + 1) (clamp g)
          storeByte out (rgbIdx + 2) (clamp b)) out0
    ⟨rfl, fun i' j' _ _ _ _ hp => by omega⟩
    (by
      rintro j i t hj0 hj1 hi0 hi1 ⟨hlen, hP⟩
      have hA0 : 0 ≤ j * w := mul_nonneg hj0 (by omega)
      have hA1 : j * w + w ≤ h * w := mul_succ_le j h w hj1 (by omega)
      have hB0 : 0 ≤ j / 2 * w := mul_nonneg (by omega) (by omega)
      have hB1 : j / 2 * w + w ≤ h / 2 * w := mul_succ_le (j / 2) (h / 2) w (by omega) (by omega)
      have htd : Int.tdiv j 2 = j / 2 := Int.tdiv_eq_ediv hj0 (by omega)
      have hland := land_not_one i hi0
      have l1 := loadByte_ok (b := nv21) (i := j * w + i) (by omega) (by omega)
      have l2 := loadByte_ok (b := nv21) (i := w * h + (j / 2 * w + (i - i % 2)))
        (by omega) (by omega)
      have l3 := loadByte_ok (b := nv21) (i := w * h + (j / 2 * w + (i - i % 2) + 1))
        (by omega) (by omega)
      simp only [htd, hland, l1, l2, l3, ok_bind]
      rw [storeByte_ok _ (by omega) (by omega)]
      simp only [ok_bind]
      rw [storeByte_ok _ (by omega) (by rw [length_poke]; omega)]
      simp only [ok_bind]
      rw [storeByte_ok _ (by omega) (by rw [length_poke, length_poke]; omega)]
      refine ⟨_, rfl, by simp [hlen], ?_⟩
      have key : ∀ (a b c : Nat) k, 0 ≤ k →
          peek (poke (poke (poke t ((j * w + i) * 3) a) ((j * w + i) * 3 + 1) b)
            ((j * w + i) * 3 + 2) c) k =
          if k = (j * w + i) * 3 + 2 then c
          else if k = (j * w + i) * 3 + 1 then b
          else if k = (j * w + i) * 3 then a else peek t k := by
        intro a b c k hk
        rw [peek_poke _ _ _ _ (by omega) (by rw [length_poke, length_poke]; omega) hk,
          peek_poke _ _ _ _ (by omega) (by rw [length_poke]; omega) hk,
          peek_poke _ _ _ _ (by omega) (by omega) hk]
      intro i' j' hi'0 hi'1 hj'0 hj'1 hproc
      have hA'0 : 0 ≤ j' * w := mul_nonneg hj'0 (by omega)
      unfold RgbDone
      by_cases hsame : j' = j ∧ i' = i
      · obtain ⟨rfl, rfl⟩ := hsame
        refine ⟨?_, ?_, ?_⟩
        · rw [key _ _ _ _ (by omega), if_neg (by omega), if_neg (by omega), if_pos rfl]
        · rw [key _ _ _ _ (by omega), if_neg (by omega), if_pos rfl]
        · rw [key _ _ _ _ (by omega), if_pos rfl]
      · have hprev : j' < j ∨ (j' = j ∧ i' < i) := by omega
        obtain ⟨p1, p2, p3⟩ := hP i' j' hi'0 hi'1 hj'0 hj'1 hprev
        have hne : j' * w + i' ≠ j * w + i := by
          intro heq
          have := pos_inj j' j w i' i hi'0 hi'1 hi0 hi1 heq
          omega
        refine ⟨?_, ?_, ?_⟩
        · rw [key _ _ _ _ (by omega), if_neg (by omega), if_neg (by omega), if_neg (by omega)]
          exact p1
        · rw [key _ _ _ _ (by omega), if_neg (by omega), if_neg (by omega), if_neg (by omega)]
          exact p2
        · rw [key _ _ _ _ (by omega), if_neg (by omega), if_neg (by omega), if_neg (by omega)]
          exact p3)
    (by
      rintro y t hy0 hy1 ⟨hlen, hP⟩
      exact ⟨hlen, fun i' j' a b c d e => hP i' j' a b c d (by omega)⟩)
  refine ⟨d, ?_, h2, fun i j a b c e => h3 i j a b c e (by omega)⟩
  have hc : ¬ (w ≤ 0 ∨ h ≤ 0) := by omega
  simp only [FrameUtils.nv21ToRgb, hc, if_false]
  rw [h1]
  rfl

theorem clamp_eq (v : Int) : (clamp v : Int) = max 0 (min 255 v) := by
  unfold clamp
  exact Int.toNat_of_nonneg (le_max_left _ _)

theorem half_mul (w h : Int) (hhe : h % 2 = 0) : 2 * (h / 2 * w) = w * h := by
  have : h / 2 * 2 = h := by omega
  calc 2 * (h / 2 * w) = (h / 2 * 2) * w := by ring
    _ = w * h := by rw [this]; ring

theorem convertFormat_rgb_nv21_run (fresh : Nat → Nat) (src dst : FrameData)
    (h : ValidPacked src) (hrgb : src.format = 3) (hb : BytesOk src)
    (hwe : src.width % 2 = 0) (hhe : src.height % 2 = 0) :
    ∃ out, FrameUtils.convertFormat fresh src dst 0 = .ok (true, out) ∧
      out.width = src.width ∧ out.height = src.height ∧ ValidNv21 out ∧
      ∀ i j, 0 ≤ i → i < src.width → 0 ≤ j → j < src.height →
        Nv21Done src.bytes out.bytes src.width src.height i j := by
  obtain ⟨hdata, hfmt, hw, hh, hstride, hsize, hlen, hbound⟩ := h
  obtain ⟨sdata, hsd⟩ := Option.isSome_iff_exists.mp hdata
  have hbytes : src.bytes = sdata := by simp [FrameData.bytes, hsd]
  rw [hbytes] at hlen
  have hbpp : bytesPerPixel src.format = 3 := by rw [hrgb]; rfl
  rw [hstride, hbpp] at hsize
  have hpos := mul_pos hw hh
  have hsz : (src.size : Int) = src.width * src.height * 3 := by rw [hsize]; ring
  have hsz0 : src.size ≠ 0 := by omega
  have hhalf := half_mul src.width src.height hhe
  have hN : (FrameUtils.calcNv21Size src.width src.height : Int) =
      src.width * src.height * 3 / 2 := by
    unfold FrameUtils.calcNv21Size
    rw [Int.tdiv_eq_ediv (by omega) (by omega), toSizeT_of_lt _ (by omega) (by omega)]
  obtain ⟨out, e1, e2, e3⟩ := rgbToNv21_run sdata
    (newArray fresh (FrameUtils.calcNv21Size src.width src.height)) src.width src.height
    hw hh hwe hhe (by omega) (by rw [← hbytes]; exact hb)
    (by rw [length_newArray, hN]; omega)
  rw [length_newArray] at e2
  refine ⟨{ dst with width := src.width, height := src.height, format := 0,
                     size := FrameUtils.calcNv21Size src.width src.height,
                     data := some out }, ?_, rfl, rfl, ?_, ?_⟩
  · have hne : ¬ (src.format = 0) := by omega
    simp only [FrameUtils.convertFormat, hsd, hsz0, if_false, hne, hrgb, true_and, and_self,
      if_true]
    rw [e1]
    rfl
  · refine ⟨rfl, rfl, hw, hh, hwe, hhe, ?_, ?_, ?_⟩
    · show 2 * (FrameUtils.calcNv21Size src.width src.height : Int) =
        src.width * src.height * 3
      rw [hN]; omega
    · exact e2
    · show src.width * src.height * 3 < 2 ^ 31
      omega
  · intro i j hi0 hi1 hj0 hj1
    rw [hbytes]
    exact e3 i j hi0 hi1 hj0 hj1

theorem convertFormat_nv21_rgb_run (fresh : Nat → Nat) (src dst : FrameData)
    (h : ValidNv21 src) :
    ∃ out, FrameUtils.convertFormat fresh src dst 3 = .ok (true, out) ∧
      out.width = src.width ∧ out.height = src.height ∧ out.format = 3 ∧
      out.stride = src.width * 3 ∧ (out.size : Int) = src.width * src.height * 3 ∧
      out.bytes.length = out.size ∧ out.timestamp = dst.timestamp ∧
      ∀ i j, 0 ≤ i → i < src.width → 0 ≤ j → j < src.height →
        RgbDone out.bytes src.width i j (peek src.bytes (j * src.width + i))
          (peek src.bytes (src.width * src.height + (j / 2 * src.width + (i - i % 2) + 1)))
          (peek src.bytes (src.width * src.height + (j / 2 * src.width + (i - i % 2)))) := by
  obtain ⟨hdata, hfmt, hw, hh, hwe, hhe, hsize, hlen, hbound⟩ := h
  obtain ⟨sdata, hsd⟩ := Option.isSome_iff_exists.mp hdata
  have hbytes : src.bytes = sdata := by simp [FrameData.bytes, hsd]
  rw [hbytes] at hlen
  have hpos := mul_pos hw hh
  have hsz0 : src.size ≠ 0 := by omega
  have hN : (FrameUtils.calcRgbSize src.width src.height : Int) =
      src.width * src.height * 3 := by
    unfold FrameUtils.calcRgbSize
    rw [toSizeT_of_lt _ (by omega) (by omega)]
  obtain ⟨out, e1, e2, e3⟩ := nv21ToRgb_run sdata
    (newArray fresh (FrameUtils.calcRgbSize src.width src.height)) src.width src.height
    hw hh hwe hhe (by omega) (by rw [length_newArray, hN])
  rw [length_newArray] at e2
  refine ⟨{ dst with width := src.width, height := src.height, format := 3,
                     size := FrameUtils.calcRgbSize src.width src.height,
                     stride := src.width * 3,
                     data := some out }, ?_, rfl, rfl, rfl, rfl, hN, e2, rfl, ?_⟩
  · have hne : ¬ (src.format = 3) := by omega
    simp only [FrameUtils.convertFormat, hsd, hsz0, if_false, hne, hfmt, false_and,
      true_and, and_self, if_true]
    rw [e1]
    rfl
  · intro i j hi0 hi1 hj0 hj1
    rw [hbytes]
    exact e3 i j hi0 hi1 hj0 hj1

theorem pixelByte_rgb (f : FrameData) (hs : f.stride = f.width * 3) (hf : f.format = 3)
    (i j c : Int) : f.pixelByte i j c = peek f.bytes ((j * f.width + i) * 3 + c) := by
  unfold FrameData.pixelByte
  have : bytesPerPixel f.format = 3 := by rw [hf]; rfl
  rw [hs, this]
  congr 1; ring

theorem validPacked_rgb_stride (f : FrameData) (h : ValidPacked f) (hf : f.format = 3) :
    f.stride = f.width * 3 := by
  have := h.2.2.2.2.1
  rw [this, hf]; rfl

/-! ## The BMP loader -/

theorem loopFromRet_inv {σ : Type} (P : Int → σ → Prop) (body : Int → σ → Exec (Bool × σ)) :
    ∀ (k : Nat) (i : Int) (s : σ), P i s →
      (∀ j t, i ≤ j → j < i + k → P j t → ∃ t', body j t = .ok (true, t') ∧ P (j + 1) t') →
      ∃ s', loopFromRet body k i s = .ok (true, s') ∧ P (i + k) s'
  | 0, i, s, h0, _ => ⟨s, rfl, by simpa using h0⟩
  | k + 1, i, s, h0, hs => by
    obtain ⟨t, ht, hP⟩ := hs i s (le_refl _) (by omega) h0
    obtain ⟨s', hs', hP'⟩ := loopFromRet_inv P body k (i + 1) t hP
      (fun j u hj1 hj2 hPj => hs j u (by omega) (by push_cast; omega) hPj)
    refine ⟨s', ?_, ?_⟩
    · simp [loopFromRet, ht, hs']
    · have : i + 1 + (k : Int) = i + ((k + 1 : Nat) : Int) := by push_cast; ring
      rw [← this]; exact hP'

theorem forRangeRet_inv {σ : Type} (P : Int → σ → Prop) (n : Int) (hn : 0 ≤ n)
    (body : Int → σ → Exec (Bool × σ)) (s : σ) (h0 : P 0 s)
    (hs : ∀ j t, 0 ≤ j → j < n → P j t → ∃ t', body j t = .ok (true, t') ∧ P (j + 1) t') :
    ∃ s', forRangeRet n body s = .ok (true, s') ∧ P n s' := by
  have hn' : ((n.toNat : Nat) : Int) = n := Int.toNat_of_nonneg hn
  obtain ⟨s', h1, h2⟩ := loopFromRet_inv P body n.toNat 0 s h0
    (fun j t hj1 hj2 hP => hs j t hj1 (by omega) hP)
  refine ⟨s', h1, ?_⟩
  rw [hn', zero_add] at h2
  exact h2

theorem peek_take_drop (content : List Nat) (p n : Nat) (j : Int) (hj0 : 0 ≤ j) (hj : j < n) :
    peek ((content.drop p).take n) j = peek content (p + j) := by
  unfold peek
  rw [List.getD_eq_getElem?_getD, List.getD_eq_getElem?_getD]
  have h1 : j.toNat < n := by omega
  rw [List.getElem?_take_of_lt h1, List.getElem?_drop]
  congr 2
  omega

theorem length_take_drop (content : List Nat) (p n : Nat) (h : p + n ≤ content.length) :
    ((content.drop p).take n).length = n := by
  rw [List.length_take, List.length_drop]
  omega

/-- The pixel loop of `loadBmpImage` for one row: the `w` pixels of `rowBuffer`, `bpp`
bytes each in the order B, G, R, land at `outRow` as R, G, B. -/
theorem bmpRowLoop (img rowBuffer : Buf) (outRow w bpp : Int) (hw : 0 ≤ w)
    (hbpp : bpp = 3 ∨ bpp = 4) (hout0 : 0 ≤ outRow) (hout : outRow + w * 3 ≤ img.length)
    (hrow : w * bpp ≤ rowBuffer.length) :
    ∃ img', forRange w (fun x img => do
        let inIdx := x * bpp
        let outIdx := x * 3
        let img ← storeByte img (outRow + outIdx) (← loadByte rowBuffer (inIdx + 2))
        let img ← storeByte img (outRow + (outIdx + 1)) (← loadByte rowBuffer (inIdx + 1))
        storeByte img (outRow + (outIdx + 2)) (← loadByte rowBuffer inIdx)) img = .ok img' ∧
      img'.length = img.length ∧
      ∀ k, 0 ≤ k → peek img' k =
        if outRow ≤ k ∧ k < outRow + w * 3 then
          peek rowBuffer ((k - outRow) / 3 * bpp + (2 - (k - outRow) % 3))
        else peek img k := by
  apply forRange_inv (fun x t => t.length = img.length ∧ ∀ k, 0 ≤ k → peek t k =
        if outRow ≤ k ∧ k < outRow + x * 3 then
          peek rowBuffer ((k - outRow) / 3 * bpp + (2 - (k - outRow) % 3))
        else peek img k) w hw
  · exact ⟨rfl, fun k _ => by rw [if_neg (by omega)]⟩
  · rintro x t hx0 hx1 ⟨hlen, hP⟩
    have hxb : x * bpp + bpp ≤ w * bpp := mul_succ_le x w bpp hx1 (by omega)
    have hxb0 : 0 ≤ x * bpp := mul_nonneg hx0 (by omega)
    have l1 := loadByte_ok (b := rowBuffer) (i := x * bpp + 2) (by omega) (by omega)
    have l2 := loadByte_ok (b := rowBuffer) (i := x * bpp + 1) (by omega) (by omega)
    have l3 := loadByte_ok (b := rowBuffer) (i := x * bpp) (by omega) (by omega)
    simp only [l1, l2, l3, ok_bind]
    rw [storeByte_ok _ (by omega) (by omega)]
    simp only [ok_bind]
    rw [storeByte_ok _ (by omega) (by rw [length_poke]; omega)]
    simp only [ok_bind]
    rw [storeByte_ok _ (by omega) (by rw [length_poke, length_poke]; omega)]
    refine ⟨_, rfl, by simp [hlen], ?_⟩
    intro k hk
    rw [peek_poke _ _ _ _ (by omega) (by rw [length_poke, length_poke]; omega) hk,
      peek_poke _ _ _ _ (by omega) (by rw [length_poke]; omega) hk,
      peek_poke _ _ _ _ (by omega) (by omega) hk, hP k hk]
    by_cases h2 : k = outRow + (x * 3 + 2)
    · rw [if_pos h2, if_pos (by omega)]
      have e1 : (k - outRow) / 3 = x := by omega
      have e2 : (k - outRow) % 3 = 2 := by omega
      rw [e1, e2]; congr 1; omega
    · rw [if_neg h2]
      by_cases h1 : k = outRow + (x * 3 + 1)
      · rw [if_pos h1, if_pos (by omega)]
        have e1 : (k - outRow) / 3 = x := by omega
        have e2 : (k - outRow) % 3 = 1 := by omega
        rw [e1, e2]; congr 1
      · rw [if_neg h1]
        by_cases h0 : k = outRow + x * 3
        · rw [if_pos h0, if_pos (by omega)]
          have e1 : (k - outRow) / 3 = x := by omega
          have e2 : (k - outRow) % 3 = 0 := by omega
          rw [e1, e2]; congr 1
        · rw [if_neg h0]
          by_cases h3 : outRow ≤ k ∧ k < outRow + x * 3
          · rw [if_pos h3, if_pos (by omega)]
          · rw [if_neg h3, if_neg (by omega)]

theorem fread_fst (content : List Nat) (p n : Nat) :
    (fread { content := content, pos := p } n).1 = (content.drop p).take n := rfl

theorem fread_snd (content : List Nat) (p n : Nat) (h : p + n ≤ content.length) :
    (fread { content := content, pos := p } n).2 = { content := content, pos := p + n } := by
  unfold fread
  simp only [length_take_drop content p n h]

theorem ceilDiv_four (n : Int) : ceilDiv n 4 = (n + 3) / 4 := by
  unfold ceilDiv; omega

/-- The row loop of `loadBmpImage` on a file that holds all the rows. -/
theorem loadBmpRows_run (content : List Nat) (off : Nat) (W h bpp rowSize : Int)
    (bottomUp : Bool) (img0 : Buf) (hW : 0 ≤ W) (hh : 0 ≤ h) (hbpp : bpp = 3 ∨ bpp = 4)
    (hrow : W * bpp ≤ rowSize) (hdata : (off : Int) + h * rowSize ≤ content.length)
    (himg : (img0.length : Int) = W * h * 3) :
    ∃ st, MediaReader.loadBmpRows W h bpp rowSize bottomUp { content := content, pos := off }
        img0 = .ok (true, st) ∧
      st.2.length = img0.length ∧
      ∀ x y c, 0 ≤ x → x < W → 0 ≤ y → y < h → 0 ≤ c → c < 3 →
        peek st.2 (((if bottomUp then h - 1 - y else y) * W + x) * 3 + c) =
          peek content (off + y * rowSize + x * bpp + (2 - c)) := by
  have hrs : 0 ≤ rowSize := by
    have := mul_nonneg hW (by omega : 0 ≤ bpp)
    omega
  have main : ∃ st, MediaReader.loadBmpRows W h bpp rowSize bottomUp
      { content := content, pos := off } img0 = .ok (true, st) ∧
      (fun y (st : FileStream × Buf) =>
        st.1 = { content := content, pos := off + (y * rowSize).toNat } ∧
        st.2.length = img0.length ∧
        ∀ x y' c, 0 ≤ x → x < W → 0 ≤ y' → y' < y → 0 ≤ c → c < 3 →
          peek st.2 (((if bottomUp then h - 1 - y' else y') * W + x) * 3 + c) =
            peek content (off + y' * rowSize + x * bpp + (2 - c))) h st := by
    unfold MediaReader.loadBmpRows
    apply forRangeRet_inv (fun y (st : FileStream × Buf) =>
        st.1 = { content := content, pos := off + (y * rowSize).toNat } ∧
        st.2.length = img0.length ∧
        ∀ x y' c, 0 ≤ x → x < W → 0 ≤ y' → y' < y → 0 ≤ c → c < 3 →
          peek st.2 (((if bottomUp then h - 1 - y' else y') * W + x) * 3 + c) =
            peek content (off + y' * rowSize + x * bpp + (2 - c))) h hh
    · exact ⟨by simp, rfl, fun x y' c _ _ _ _ _ _ => by omega⟩
    · rintro y ⟨f, img⟩ hy0 hy1 ⟨hf, hl, hP⟩
      simp only at hf hl hP
      subst hf
      have hyr0 : 0 ≤ y * rowSize := mul_nonneg hy0 hrs
      have hyr1 : y * rowSize + rowSize ≤ h * rowSize := mul_succ_le y h rowSize hy1 hrs
      have hfit : off + (y * rowSize).toNat + rowSize.toNat ≤ content.length := by omega
      have hrd1 := fread_fst content (off + (y * rowSize).toNat) rowSize.toNat
      have hrd2 := fread_snd content (off + (y * rowSize).toNat) rowSize.toNat hfit
      have hrl := length_take_drop content (off + (y * rowSize).toNat) rowSize.toNat hfit
      have houtY : 0 ≤ (if bottomUp then h - 1 - y else y) ∧
          (if bottomUp then h - 1 - y else y) < h := by
        split <;> omega
      have hother : ∀ y', 0 ≤ y' → y' < y →
          (if bottomUp then h - 1 - y' else y') * W + W ≤
              (if bottomUp then h - 1 - y else y) * W ∨
          (if bottomUp then h - 1 - y else y) * W + W ≤
              (if bottomUp then h - 1 - y' else y') * W := by
        intro y' hy'0 hy'1
        cases bottomUp
        · left
          simp only [Bool.false_eq_true, if_false]
          exact mul_succ_le _ _ W hy'1 hW
        · right
          simp only [if_true]
          exact mul_succ_le _ _ W (by omega) hW
      have hother0 : ∀ y', 0 ≤ y' → y' < y →
          0 ≤ (if bottomUp then h - 1 - y' else y') * W := by
        intro y' hy'0 hy'1
        apply mul_nonneg _ hW
        split <;> omega
      generalize hoy : (if bottomUp then h - 1 - y else y) = outY at houtY hother
      have ho0 : 0 ≤ outY * W := mul_nonneg houtY.1 hW
      have ho1 : outY * W + W ≤ h * W := mul_succ_le outY h W houtY.2 hW
      have hWh : W * h = h * W := mul_comm _ _
      obtain ⟨img', i1, i2, i3⟩ := bmpRowLoop img
        ((content.drop (off + (y * rowSize).toNat)).take rowSize.toNat) (outY * W * 3) W bpp hW
        hbpp (by omega) (by omega) (by rw [hrl]; omega)
      refine ⟨({ content := content, pos := off + (y * rowSize).toNat + rowSize.toNat }, img'),
        ?_, ?_, by rw [i2, hl], ?_⟩
      · simp only [hrd1, hrl, ne_eq, not_true_eq_false, if_false, hoy, i1, hrd2]
      · simp only
        congr 1
        have : (y + 1) * rowSize = y * rowSize + rowSize := by ring
        rw [this]
        omega
      · intro x y' c hx0 hx1 hy'0 hy'1 hc0 hc1
        simp only
        by_cases hsame : y' = y
        · subst hsame
          rw [hoy, i3 _ (by omega), if_pos (by omega)]
          have e1 : ((outY * W + x) * 3 + c - outY * W * 3) / 3 = x := by omega
          have e2 : ((outY * W + x) * 3 + c - outY * W * 3) % 3 = c := by omega
          have hxb : x * bpp + bpp ≤ W * bpp := mul_succ_le x W bpp hx1 (by omega)
          have hxb0 : 0 ≤ x * bpp := mul_nonneg hx0 (by omega)
          rw [e1, e2, peek_take_drop _ _ _ _ (by omega) (by omega)]
          congr 1
          push_cast
          omega
        · have h1 := hother y' hy'0 (by omega)
          have h2 := hother0 y' hy'0 (by omega)
          rw [i3 _ (by omega), if_neg (by omega)]
          exact hP x y' c hx0 hx1 hy'0 (by omega) hc0 hc1
  obtain ⟨st, e1, _, e3, e4⟩ := main
  exact ⟨st, e1, e3, fun x y c a b c' d e f => e4 x y c a b c' d e f⟩

theorem vectorResize_length (v : List Nat) (n : Nat) : (vectorResize v n).length = n := by
  unfold vectorResize
  rw [List.length_append, List.length_take, List.length_replicate]
  omega

theorem loadBmpImage_run (env : Env) (path : String) (r : MediaReader) (content : List Nat)
    (hfile : env.files path = some content) (hwf : WellFormedBmp content) :
    ∃ img, MediaReader.loadBmpImage env path r = .ok (true,
        { r with m_width := (bmpInfoHeader content).width,
                 m_height := ((bmpInfoHeader content).height.natAbs : Int),
                 m_frameFormat := 3, m_imageData := img, m_isVideo := false,
                 m_ready := true }) ∧
      (img.length : Int) =
        (bmpInfoHeader content).width * ((bmpInfoHeader content).height.natAbs : Int) * 3 ∧
      ∀ x y c, 0 ≤ x → x < (bmpInfoHeader content).width → 0 ≤ y →
        y < ((bmpInfoHeader content).height.natAbs : Int) → 0 ≤ c → c < 3 →
        peek img ((y * (bmpInfoHeader content).width + x) * 3 + c) =
          peek content ((bmpFileHeader content).dataOffset +
            (if 0 < (bmpInfoHeader content).height
              then ((bmpInfoHeader content).height.natAbs : Int) - 1 - y else y) *
              bmpRowSize content +
            x * bmpBytesPerPixel content + (2 - c)) := by
  obtain ⟨hlen, hsig, hbits, hcomp, hW, hH, hdata, hbound, _⟩ := hwf
  -- the two header reads
  have r1 : (fread { content := content, pos := 0 } 14).1 = content.take 14 := by
    rw [fread_fst]; simp
  have r1' : (fread { content := content, pos := 0 } 14).2 = { content := content, pos := 14 } := by
    rw [fread_snd _ _ _ (by omega)]
  have r2 : (fread { content := content, pos := 14 } 40).1 = (content.drop 14).take 40 :=
    fread_fst _ _ _
  have r2' : (fread { content := content, pos := 14 } 40).2 =
      { content := content, pos := 54 } := by
    rw [fread_snd _ _ _ (by omega)]
  have l1 : (content.take 14).length = 14 := by rw [List.length_take]; omega
  have l2 : ((content.drop 14).take 40).length = 40 := length_take_drop _ _ _ (by omega)
  have hfh : readFileHeader (content.take 14) = bmpFileHeader content := rfl
  have hih : readInfoHeader ((content.drop 14).take 40) = bmpInfoHeader content := rfl
  have hnb : ¬ ((bmpInfoHeader content).bitsPerPixel ≠ 24 ∧
      (bmpInfoHeader content).bitsPerPixel ≠ 32) := by omega
  -- the geometry
  have hbpp : Int.tdiv ((bmpInfoHeader content).bitsPerPixel : Int) 8 = bmpBytesPerPixel content :=
    Int.tdiv_eq_ediv (by omega) (by omega)
  have hbpp34 : bmpBytesPerPixel content = 3 ∨ bmpBytesPerPixel content = 4 := by
    unfold bmpBytesPerPixel
    rcases hbits with h | h <;> rw [h] <;> decide
  have hwb : 0 ≤ (bmpInfoHeader content).width * bmpBytesPerPixel content :=
    mul_nonneg (by omega) (by omega)
  have hrs : Int.tdiv ((bmpInfoHeader content).width * bmpBytesPerPixel content + 3) 4 * 4 =
      bmpRowSize content := by
    rw [Int.tdiv_eq_ediv (by omega) (by omega)]
    unfold bmpRowSize
    rw [ceilDiv_four]
  have hrs0 : 0 ≤ bmpRowSize content := by
    rw [← hrs, Int.tdiv_eq_ediv (by omega) (by omega)]; omega
  have hrow : (bmpInfoHeader content).width * bmpBytesPerPixel content ≤ bmpRowSize content := by
    rw [← hrs, Int.tdiv_eq_ediv (by omega) (by omega)]; omega
  have hh0 : (0 : Int) ≤ ((bmpInfoHeader content).height.natAbs : Int) := by omega
  have hwh : 0 ≤ (bmpInfoHeader content).width * ((bmpInfoHeader content).height.natAbs : Int) :=
    mul_nonneg (by omega) hh0
  have hnalloc : ¬ (bmpRowSize content < 0 ∨
      (bmpInfoHeader content).width * ((bmpInfoHeader content).height.natAbs : Int) * 3 < 0) := by
    omega
  obtain ⟨st, e1, e2, e3⟩ := loadBmpRows_run content (bmpFileHeader content).dataOffset
    (bmpInfoHeader content).width ((bmpInfoHeader content).height.natAbs : Int)
    (bmpBytesPerPixel content) (bmpRowSize content)
    (decide ((bmpInfoHeader content).height > 0))
    (vectorResize r.m_imageData
      ((bmpInfoHeader content).width * ((bmpInfoHeader content).height.natAbs : Int) * 3).toNat)
    (by omega) hh0 hbpp34 hrow hdata
    (by rw [vectorResize_length]; omega)
  refine ⟨st.2, ?_, ?_, ?_⟩
  · simp only [MediaReader.loadBmpImage, hfile, r1, r1', r2, r2', l1, l2, hfh, hih, hsig,
      hcomp, hnb, ne_eq, not_true_eq_false, if_false, hbpp, hrs, hnalloc, fseek, e1]
  · rw [e2, vectorResize_length]; omega
  · intro x y c hx0 hx1 hy0 hy1 hc0 hc1
    by_cases hpos : 0 < (bmpInfoHeader content).height
    · have hd : decide ((bmpInfoHeader content).height > 0) = true := by simpa using hpos
      have := e3 x (((bmpInfoHeader content).height.natAbs : Int) - 1 - y) c hx0 hx1 (by omega)
        (by omega) hc0 hc1
      rw [hd] at this
      simp only [if_true] at this
      have e : ((bmpInfoHeader content).height.natAbs : Int) - 1 -
          (((bmpInfoHeader content).height.natAbs : Int) - 1 - y) = y := by omega
      rw [e] at this
      rw [this, if_pos hpos]
    · have hd : decide ((bmpInfoHeader content).height > 0) = false := by simpa using hpos
      have := e3 x y c hx0 hx1 hy0 hy1 hc0 hc1
      rw [hd] at this
      simp only [Bool.false_eq_true, if_false] at this
      rw [this, if_neg hpos]

/-- A call of `open` never returns: it takes the mutex and then calls `close`, which
waits for the same mutex. -/
theorem open_blocks (env : Env) (fuel : Nat) (path : String) (r : MediaReader) :
    MediaReader.open env fuel path r = .error .deadlock := by
  unfold MediaReader.open MediaReader.lockGuard
  by_cases h : r.m_mutex = true
  · simp [h]
    rfl
  · simp [h, MediaReader.close, MediaReader.lockGuard]
    rfl

/-- The loader itself refuses a file whose signature is not `BM`, whose depth is neither
24 nor 32 bits, or whose compression field is not 0, and does not touch `m_ready`. -/
theorem loadBmpImage_rejects (env : Env) (path : String) (r : MediaReader)
    (content : List Nat) (hfile : env.files path = some content)
    (hbad : (bmpFileHeader content).signature ≠ BMP_SIGNATURE ∨
      ((bmpInfoHeader content).bitsPerPixel ≠ 24 ∧ (bmpInfoHeader content).bitsPerPixel ≠ 32) ∨
      (bmpInfoHeader content).compression ≠ 0) :
    ∃ r', MediaReader.loadBmpImage env path r = .ok (false, r') ∧ r'.m_ready = r.m_ready := by
  have r1 : (fread { content := content, pos := 0 } 14).1 = content.take 14 := by
    rw [fread_fst]; simp
  have hfh : readFileHeader (content.take 14) = bmpFileHeader content := rfl
  simp only [MediaReader.loadBmpImage, hfile, r1, hfh]
  by_cases h14 : (content.take 14).length = 14
  · have hlen14 : 14 ≤ content.length := by
      rw [List.length_take] at h14; omega
    have r1' : (fread { content := content, pos := 0 } 14).2 =
        { content := content, pos := 14 } := by
      rw [fread_snd _ _ _ (by omega)]
    have r2 : (fread { content := content, pos := 14 } 40).1 = (content.drop 14).take 40 :=
      fread_fst _ _ _
    have hih : readInfoHeader ((content.drop 14).take 40) = bmpInfoHeader content := rfl
    simp only [h14, ne_eq, not_true_eq_false, if_false, r1', r2, hih]
    by_cases hs : (bmpFileHeader content).signature = BMP_SIGNATURE
    · simp only [hs, not_true_eq_false, if_false]
      by_cases h40 : ((content.drop 14).take 40).length = 40
      · simp only [h40, not_true_eq_false, if_false]
        by_cases hb : ¬ (bmpInfoHeader content).bitsPerPixel = 24 ∧
            ¬ (bmpInfoHeader content).bitsPerPixel = 32
        · rw [if_pos hb]
          exact ⟨_, rfl, rfl⟩
        · rw [if_neg hb]
          have hc : ¬ (bmpInfoHeader content).compression = 0 := by
            rcases hbad with h | h | h
            · exact absurd hs h
            · exact absurd h hb
            · exact h
          rw [if_pos hc]
          exact ⟨_, rfl, rfl⟩
      · simp only [h40, not_false_eq_true, if_true]
        exact ⟨_, rfl, rfl⟩
    · simp only [hs, not_false_eq_true, if_true]
      exact ⟨_, rfl, rfl⟩
  · simp only [h14, ne_eq, not_false_eq_true, if_true]
    exact ⟨_, rfl, rfl⟩

/-! ## Planar YUV 4:2:0 -/

theorem quarter_mul (w h : Int) (hwe : w % 2 = 0) (hhe : h % 2 = 0) :
    w * h = 4 * (h / 2 * (w / 2)) := by
  have h1 : w = 2 * (w / 2) := by omega
  have h2 : h = 2 * (h / 2) := by omega
  calc w * h = (2 * (w / 2)) * (2 * (h / 2)) := by rw [← h1, ← h2]
    _ = 4 * (h / 2 * (w / 2)) := by ring

theorem rgbToYuv420_run (rgb out0 : Buf) (w h : Int) (hw : 0 < w) (hh : 0 < h)
    (hwe : w % 2 = 0) (hhe : h % 2 = 0) (hrgb : (rgb.length : Int) = w * h * 3)
    (hb : ∀ x ∈ rgb, x < 256) (hout : 2 * (out0.length : Int) = w * h * 3) :
    ∃ out, FrameUtils.rgbToYuv420 (some rgb) (some out0) w h = .ok (true, some out) ∧
      out.length = out0.length ∧
      ∀ i j, 0 ≤ i → i < w → 0 ≤ j → j < h → Yuv420Done rgb out w h i j := by
  have hhw : h * w = w * h := mul_comm _ _
  have hq := quarter_mul w h hwe hhe
  have hq4 : w * h / 4 = h / 2 * (w / 2) := by omega
  have htq : Int.tdiv (w * h) 4 = h / 2 * (w / 2) := by
    rw [Int.tdiv_eq_ediv (by have := mul_pos hw hh; omega) (by omega)]; exact hq4
  have htw : Int.tdiv w 2 = w / 2 := Int.tdiv_eq_ediv (by omega) (by omega)
  obtain ⟨d, h1, h2, h3⟩ := forRange2_inv
    (fun j i t => t.length = out0.length ∧
      ∀ i' j', 0 ≤ i' → i' < w → 0 ≤ j' → j' < h → (j' < j ∨ (j' = j ∧ i' < i)) →
        Yuv420Done rgb t w h i' j')
    h w (by omega) (by omega)
    (fun j i out => do
          let rgbIdx := (j * w + i) * 3
          let r : Int := ← loadByte rgb rgbIdx
          let g : Int := ← loadByte rgb (rgbIdx + 1)
          let b : Int := ← loadByte rgb (rgbIdx + 2)
          let y := ((66 * r + 129 * g + 25 * b + 128) >>> (8 : Nat)) + 16
          let out ← storeByte out (j * w + i) (clamp y)
          if Int.tmod j 2 = 0 ∧ Int.tmod i 2 = 0 then do
            let u := ((-38 * r - 74 * g + 112 * b + 128) >>> (8 : Nat)) + 128
            let v := ((112 * r - 94 * g - 18 * b + 128) >>> (8 : Nat)) + 128
            let uvIdx := (Int.tdiv j 2) * (Int.tdiv w 2) + (Int.tdiv i 2)
            let out ← storeByte out (w * h + uvIdx) (clamp u)
            storeByte out (w * h + Int.tdiv (w * h) 4 + uvIdx) (clamp v)
          else pure out) out0
    ⟨rfl, fun i' j' _ _ _ _ hp => by omega⟩
    (by
      rintro j i t hj0 hj1 hi0 hi1 ⟨hlen, hP⟩
      have hA0 : 0 ≤ j * w := mul_nonneg hj0 (by omega)
      have hA1 : j * w + w ≤ h * w := mul_succ_le j h w hj1 (by omega)
      have l1 := loadByte_ok (b := rgb) (i := (j * w + i) * 3) (by omega) (by omega)
      have l2 := loadByte_ok (b := rgb) (i := (j * w + i) * 3 + 1) (by omega) (by omega)
      have l3 := loadByte_ok (b := rgb) (i := (j * w + i) * 3 + 2) (by omega) (by omega)
      have hr := peek_lt rgb hb ((j * w + i) * 3)
      have hg := peek_lt rgb hb ((j * w + i) * 3 + 1)
      have hbl := peek_lt rgb hb ((j * w + i) * 3 + 2)
      have cY := clamp_specY _ _ _ hr hg hbl
      have cU := clamp_specU _ _ _ hr hg hbl
      have cV := clamp_specV _ _ _ hr hg hbl
      have s1 := storeByte_ok (b := t) (i := j * w + i)
        (clamp (((66 * (peek rgb ((j * w + i) * 3) : Int) + 129 * peek rgb ((j * w + i) * 3 + 1)
          + 25 * peek rgb ((j * w + i) * 3 + 2) + 128) >>> (8 : Nat)) + 16)) (by omega) (by omega)
      have htm : ∀ z : Int, 0 ≤ z → Int.tmod z 2 = z % 2 := fun z hz =>
        Int.tmod_eq_emod hz (by omega)
      have htd : Int.tdiv j 2 = j / 2 := Int.tdiv_eq_ediv hj0 (by omega)
      have hti : Int.tdiv i 2 = i / 2 := Int.tdiv_eq_ediv hi0 (by omega)
      simp only [l1, l2, l3, ok_bind, s1, htm j hj0, htm i hi0, htd, hti, htw, htq]
      generalize clamp (((66 * (peek rgb ((j * w + i) * 3) : Int) +
        129 * peek rgb ((j * w + i) * 3 + 1) + 25 * peek rgb ((j * w + i) * 3 + 2) + 128)
          >>> (8 : Nat)) + 16) = Yc at cY ⊢
      generalize clamp (((-38 * (peek rgb ((j * w + i) * 3) : Int) -
        74 * peek rgb ((j * w + i) * 3 + 1) + 112 * peek rgb ((j * w + i) * 3 + 2) + 128)
          >>> (8 : Nat)) + 128) = Uc at cU ⊢
      generalize clamp (((112 * (peek rgb ((j * w + i) * 3) : Int) -
        94 * peek rgb ((j * w + i) * 3 + 1) - 18 * peek rgb ((j * w + i) * 3 + 2) + 128)
          >>> (8 : Nat)) + 128) = Vc at cV ⊢
      by_cases heven : j % 2 = 0 ∧ i % 2 = 0
      · rw [if_pos heven]
        have hB0 : 0 ≤ j / 2 * (w / 2) := mul_nonneg (by omega) (by omega)
        have hB1 : j / 2 * (w / 2) + w / 2 ≤ h / 2 * (w / 2) :=
          mul_succ_le (j / 2) (h / 2) (w / 2) (by omega) (by omega)
        have s2 := storeByte_ok (b := poke t (j * w + i) Yc)
          (i := w * h + (j / 2 * (w / 2) + i / 2)) Uc
          (by omega) (by rw [length_poke]; omega)
        have s3 := storeByte_ok
          (b := poke (poke t (j * w + i) Yc) (w * h + (j / 2 * (w / 2) + i / 2)) Uc)
          (i := w * h + h / 2 * (w / 2) + (j / 2 * (w / 2) + i / 2)) Vc (by omega)
          (by rw [length_poke, length_poke]; omega)
        simp only [s2, ok_bind, s3]
        refine ⟨_, rfl, by simp [hlen], ?_⟩
        have key : ∀ k, 0 ≤ k → peek (poke (poke (poke t (j * w + i) Yc)
            (w * h + (j / 2 * (w / 2) + i / 2)) Uc)
            (w * h + h / 2 * (w / 2) + (j / 2 * (w / 2) + i / 2)) Vc) k =
            if k = w * h + h / 2 * (w / 2) + (j / 2 * (w / 2) + i / 2) then Vc
            else if k = w * h + (j / 2 * (w / 2) + i / 2) then Uc
            else if k = j * w + i then Yc else peek t k := by
          intro k hk
          rw [peek_poke _ _ _ _ (by omega) (by rw [length_poke, length_poke]; omega) hk,
            peek_poke _ _ _ _ (by omega) (by rw [length_poke]; omega) hk,
            peek_poke _ _ _ _ (by omega) (by omega) hk]
        intro i' j' hi'0 hi'1 hj'0 hj'1 hproc
        have hA'0 : 0 ≤ j' * w := mul_nonneg hj'0 (by omega)
        have hA'1 : j' * w + w ≤ h * w := mul_succ_le j' h w hj'1 (by omega)
        unfold Yuv420Done
        rw [hq4]
        by_cases hsame : j' = j ∧ i' = i
        · obtain ⟨rfl, rfl⟩ := hsame
          refine ⟨?_, fun _ _ => ⟨?_, ?_⟩⟩
          · rw [key _ (by omega), if_neg (by omega), if_neg (by omega), if_pos rfl]
            exact cY
          · rw [key _ (by omega), if_neg (by omega), if_pos rfl]
            exact cU
          · rw [key _ (by omega), if_pos rfl]
            exact cV
        · have hprev : j' < j ∨ (j' = j ∧ i' < i) := by omega
          obtain ⟨p1, p2⟩ := hP i' j' hi'0 hi'1 hj'0 hj'1 hprev
          rw [hq4] at p2
          have hne : j' * w + i' ≠ j * w + i := by
            intro heq
            have := pos_inj j' j w i' i hi'0 hi'1 hi0 hi1 heq
            omega
          refine ⟨?_, fun e1 e2 => ⟨?_, ?_⟩⟩
          · rw [key _ (by omega), if_neg (by omega), if_neg (by omega), if_neg hne]
            exact p1
          · obtain ⟨q1, _⟩ := p2 e1 e2
            have hB'0 : 0 ≤ j' / 2 * (w / 2) := mul_nonneg (by omega) (by omega)
            have hB'1 : j' / 2 * (w / 2) + w / 2 ≤ h / 2 * (w / 2) :=
              mul_succ_le (j' / 2) (h / 2) (w / 2) (by omega) (by omega)
            have hne2 : j' / 2 * (w / 2) + i' / 2 ≠ j / 2 * (w / 2) + i / 2 := by
              intro heq
              have := pos_inj (j' / 2) (j / 2) (w / 2) (i' / 2) (i / 2) (by omega) (by omega)
                (by omega) (by omega) heq
              omega
            rw [key _ (by omega), if_neg (by omega), if_neg (by omega), if_neg (by omega)]
            exact q1
          · obtain ⟨_, q2⟩ := p2 e1 e2
            have hB'0 : 0 ≤ j' / 2 * (w / 2) := mul_nonneg (by omega) (by omega)
            have hB'1 : j' / 2 * (w / 2) + w / 2 ≤ h / 2 * (w / 2) :=
              mul_succ_le (j' / 2) (h / 2) (w / 2) (by omega) (by omega)
            have hne2 : j' / 2 * (w / 2) + i' / 2 ≠ j / 2 * (w / 2) + i / 2 := by
              intro heq
              have := pos_inj (j' / 2) (j / 2) (w / 2) (i' / 2) (i / 2) (by omega) (by omega)
                (by omega) (by omega) heq
              omega
            rw [key _ (by omega), if_neg (by omega), if_neg (by omega), if_neg (by omega)]
            exact q2
      · rw [if_neg heven]
        refine ⟨_, rfl, by simp [hlen], ?_⟩
        intro i' j' hi'0 hi'1 hj'0 hj'1 hproc
        have hA'0 : 0 ≤ j' * w := mul_nonneg hj'0 (by omega)
        have hA'1 : j' * w + w ≤ h * w := mul_succ_le j' h w hj'1 (by omega)
        have key : ∀ k, 0 ≤ k → peek (poke t (j * w + i) Yc) k =
            if k = j * w + i then Yc else peek t k :=
          fun k hk => peek_poke _ _ _ _ (by omega) (by omega) hk
        unfold Yuv420Done
        rw [hq4]
        by_cases hsame : j' = j ∧ i' = i
        · obtain ⟨rfl, rfl⟩ := hsame
          refine ⟨?_, fun e1 e2 => by omega⟩
          rw [key _ (by omega), if_pos rfl]
          exact cY
        · have hprev : j' < j ∨ (j' = j ∧ i' < i) := by omega
          obtain ⟨p1, p2⟩ := hP i' j' hi'0 hi'1 hj'0 hj'1 hprev
          rw [hq4] at p2
          have hne : j' * w + i' ≠ j * w + i := by
            intro heq
            have := pos_inj j' j w i' i hi'0 hi'1 hi0 hi1 heq
            omega
          have hB'0 : 0 ≤ j' / 2 * (w / 2) := mul_nonneg (by omega) (by omega)
          refine ⟨?_, fun e1 e2 => ⟨?_, ?_⟩⟩
          · rw [key _ (by omega), if_neg hne]
            exact p1
          · rw [key _ (by omega), if_neg (by omega)]
            exact (p2 e1 e2).1
          · rw [key _ (by omega), if_neg (by omega)]
            exact (p2 e1 e2).2)
    (by
      rintro y t hy0 hy1 ⟨hlen, hP⟩
      exact ⟨hlen, fun i' j' a b c d e => hP i' j' a b c d (by omega)⟩)
  refine ⟨d, ?_, h2, fun i j a b c e => h3 i j a b c e (by omega)⟩
  have hc : ¬ (w ≤ 0 ∨ h ≤ 0) := by omega
  simp only [FrameUtils.rgbToYuv420, hc, if_false]
  rw [h1]
  rfl


theorem convertFormat_rgb_yuv420_run (fresh : Nat → Nat) (src dst : FrameData)
    (h : ValidPacked src) (hrgb : src.format = 3) (hb : BytesOk src)
    (hwe : src.width % 2 = 0) (hhe : src.height % 2 = 0) :
    ∃ out, FrameUtils.convertFormat fresh src dst 1 = .ok (true, out) ∧
      out.format = 1 ∧ out.width = src.width ∧ out.height = src.height ∧
      2 * (out.size : Int) = src.width * src.height * 3 ∧ out.bytes.length = out.size ∧
      ∀ i j, 0 ≤ i → i < src.width → 0 ≤ j → j < src.height →
        Yuv420Done src.bytes out.bytes src.width src.height i j := by
  obtain ⟨hdata, hfmt, hw, hh, hstride, hsize, hlen, hbound⟩ := h
  obtain ⟨sdata, hsd⟩ := Option.isSome_iff_exists.mp hdata
  have hbytes : src.bytes = sdata := by simp [FrameData.bytes, hsd]
  rw [hbytes] at hlen
  have hbpp : bytesPerPixel src.format = 3 := by rw [hrgb]; rfl
  rw [hstride, hbpp] at hsize
  have hpos := mul_pos hw hh
  have hsz : (src.size : Int) = src.width * src.height * 3 := by rw [hsize]; ring
  have hsz0 : src.size ≠ 0 := by omega
  have hhalf := half_mul src.width src.height hhe
  have hN : (FrameUtils.calcYuv420Size src.width src.height : Int) =
      src.width * src.height * 3 / 2 := by
    unfold FrameUtils.calcYuv420Size
    rw [Int.tdiv_eq_ediv (by omega) (by omega), toSizeT_of_lt _ (by omega) (by omega)]
  obtain ⟨out, e1, e2, e3⟩ := rgbToYuv420_run sdata
    (newArray fresh (FrameUtils.calcYuv420Size src.width src.height)) src.width src.height
    hw hh hwe hhe (by omega) (by rw [← hbytes]; exact hb)
    (by rw [length_newArray, hN]; omega)
  rw [length_newArray] at e2
  refine ⟨{ dst with width := src.width, height := src.height, format := 1,
                     size := FrameUtils.calcYuv420Size src.width src.height,
                     data := some out }, ?_, rfl, rfl, rfl, ?_, e2, ?_⟩
  · have hne : ¬ (src.format = 1) := by omega
    have hne0 : ¬ ((3 : Int) = 1) := by omega
    simp only [FrameUtils.convertFormat, hsd, hsz0, if_false, hne, hrgb, true_and, and_self,
      if_true, hne0, and_false]
    rw [e1]
    rfl
  · show 2 * (FrameUtils.calcYuv420Size src.width src.height : Int) =
      src.width * src.height * 3
    rw [hN]; omega
  · intro i j hi0 hi1 hj0 hj1
    rw [hbytes]
    exact e3 i j hi0 hi1 hj0 hj1

/-! ## Copies and the front camera transform -/

theorem memcpy_all (dst src : Buf) (h : dst.length = src.length) :
    memcpy dst src src.length = .ok src := by
  unfold memcpy
  rw [if_pos ⟨by omega, le_refl _⟩]
  simp [h.symm ▸ List.drop_length dst]

theorem applyFrontCameraTransform_run (fresh1 fresh2 : Nat → Nat) (src dst : FrameData)
    (h : ValidPacked src) :
    ∃ d out,
      FrameUtils.flipHorizontal
        { emptyFrame with width := src.width, height := src.height, format := src.format,
                          stride := src.stride, size := src.size, data := some src.bytes } =
        .ok (true,
          { emptyFrame with width := src.width, height := src.height, format := src.format,
                            stride := src.stride, size := src.size, data := some d }) ∧
      FrameUtils.rotate90CW fresh2
        { emptyFrame with width := src.width, height := src.height, format := src.format,
                          stride := src.stride, size := src.size, data := some d } dst =
        .ok (true, out) ∧
      FrameUtils.applyFrontCameraTransform fresh1 fresh2 src dst = .ok (true, out) ∧
      out.width = src.height ∧ out.height = src.width ∧ out.format = src.format ∧
      ValidPacked out ∧
      ∀ x y c, 0 ≤ x → x < src.width → 0 ≤ y → y < src.height → 0 ≤ c →
        c < bytesPerPixel src.format →
        out.pixelByte (src.height - 1 - y) (src.width - 1 - x) c = src.pixelByte x y c := by
  have hv := h
  obtain ⟨hdata, hfmt, hw, hh, hstride, hsize, hlen, hbound⟩ := h
  have hcopy : ValidPacked
      { emptyFrame with width := src.width, height := src.height, format := src.format,
                        stride := src.stride, size := src.size, data := some src.bytes } :=
    ⟨rfl, hfmt, hw, hh, hstride, hsize, hlen, hbound⟩
  obtain ⟨d, a1, a2, a3⟩ := flipHorizontal_run _ hcopy
  have hflip := validPacked_setData _ d hcopy a2
  obtain ⟨out, b1, b2, b3, b4, _, bv, _, b7⟩ := rotate90CW_run fresh2 _ dst hflip
  refine ⟨d, out, a1, b1, ?_, b2, b3, b4, bv, ?_⟩
  · unfold FrameUtils.applyFrontCameraTransform
    have hm : memcpy (newArray fresh1 src.size) src.bytes src.size = .ok src.bytes := by
      have := memcpy_all (newArray fresh1 src.size) src.bytes (by rw [length_newArray, hlen])
      rw [hlen] at this
      exact this
    rw [hm]
    simp only [ok_bind]
    rw [a1]
    simp only [ok_bind]
    exact b1
  · intro x y c hx0 hx1 hy0 hy1 hc0 hc1
    have e1 := b7 (src.width - 1 - x) y c (by show 0 ≤ src.width - 1 - x; omega)
      (by show src.width - 1 - x < src.width; omega) hy0 hy1 hc0 hc1
    have e2 := a3 (src.width - 1 - x) y c (by show 0 ≤ src.width - 1 - x; omega)
      (by show src.width - 1 - x < src.width; omega) hy0 hy1 hc0 hc1
    have e3 : src.width - 1 - (src.width - 1 - x) = x := by omega
    have e4 : ∀ a b, FrameData.pixelByte
        { emptyFrame with width := src.width, height := src.height, format := src.format,
                          stride := src.stride, size := src.size, data := some src.bytes } a b c =
        src.pixelByte a b c := fun a b => rfl
    simp only [e3, e4] at e2
    exact e1.trans e2

/-! ## Single-precision arithmetic: basic facts -/

theorem roundHalfEven_eq (x : ℚ) (n : ℤ) (h1 : (n : ℚ) - 1 / 2 < x) (h2 : x < n + 1 / 2) :
    roundHalfEven x = n := by
  unfold roundHalfEven
  by_cases hx : (n : ℚ) ≤ x
  · have hf : ⌊x⌋ = n := by
      rw [Int.floor_eq_iff]
      constructor
      · exact hx
      · linarith
    rw [hf, if_pos (by linarith)]
  · have hf : ⌊x⌋ = n - 1 := by
      rw [Int.floor_eq_iff]
      push_cast
      constructor
      · linarith
      · linarith
    rw [hf]
    push_cast
    rw [if_neg (by linarith), if_pos (by linarith)]
    ring

theorem roundHalfEven_intCast (n : ℤ) : roundHalfEven (n : ℚ) = n :=
  roundHalfEven_eq _ n (by linarith) (by linarith)

theorem f32_of_log (q : ℚ) (e : ℤ) (h1 : (2 : ℚ) ^ e ≤ |q|) (h2 : |q| < (2 : ℚ) ^ (e + 1)) :
    f32 q = roundHalfEven (q / 2 ^ (e - 23)) * 2 ^ (e - 23) := by
  have hpos : 0 < |q| := lt_of_lt_of_le (zpow_pos (by norm_num) e) h1
  have hlog : Int.log 2 |q| = e := by
    have a := (Int.zpow_le_iff_le_log (b := 2) (by norm_num) hpos (x := e)).mp (by exact_mod_cast h1)
    have b := (Int.lt_zpow_iff_log_lt (b := 2) (by norm_num) hpos (x := e + 1)).mp
      (by exact_mod_cast h2)
    omega
  unfold f32
  rw [hlog]

theorem f32_zero : f32 0 = 0 := by
  unfold f32 roundHalfEven
  simp

theorem f32_exact (m e : ℤ) (hm : |m| < 2 ^ 24) : f32 ((m : ℚ) * 2 ^ e) = (m : ℚ) * 2 ^ e := by
  by_cases h0 : m = 0
  · subst h0
    simp [f32_zero]
  have hq : |(m : ℚ) * 2 ^ e| = |(m : ℚ)| * 2 ^ e := by
    rw [abs_mul, abs_of_pos (zpow_pos (by norm_num : (0 : ℚ) < 2) e)]
  have hmpos : (1 : ℚ) ≤ |(m : ℚ)| := by
    have : (1 : ℤ) ≤ |m| := Int.one_le_abs h0
    exact_mod_cast this
  have hpos : 0 < |(m : ℚ) * 2 ^ e| := by
    rw [hq]
    exact mul_pos (by linarith) (zpow_pos (by norm_num) e)
  have hL1 := Int.zpow_log_le_self (b := 2) (by norm_num) hpos
  have hlt : |(m : ℚ) * 2 ^ e| < (2 : ℚ) ^ (24 + e) := by
    rw [hq, zpow_add₀ (by norm_num : (2 : ℚ) ≠ 0)]
    have h24 : (2 : ℚ) ^ (24 : ℤ) = 16777216 := by norm_num
    have : |(m : ℚ)| < 2 ^ (24 : ℤ) := by
      have : ((|m| : ℤ) : ℚ) < ((2 ^ 24 : ℤ) : ℚ) := by exact_mod_cast hm
      rw [h24]
      simpa using this
    exact mul_lt_mul_of_pos_right this (zpow_pos (by norm_num) e)
  have hL : Int.log 2 |(m : ℚ) * 2 ^ e| < 24 + e :=
    (Int.lt_zpow_iff_log_lt (b := 2) (by norm_num) hpos).mp (by exact_mod_cast hlt)
  unfold f32
  generalize Int.log 2 |(m : ℚ) * 2 ^ e| = L at hL
  obtain ⟨k, hk⟩ : ∃ k : ℕ, (k : ℤ) = 23 + e - L := ⟨(23 + e - L).toNat, by omega⟩
  have hdiv : (m : ℚ) * 2 ^ e / 2 ^ (L - 23) = ((m * 2 ^ k : ℤ) : ℚ) := by
    have he : e = (k : ℤ) + (L - 23) := by omega
    rw [he, zpow_add₀ (by norm_num : (2 : ℚ) ≠ 0)]
    push_cast
    field_simp
    ring
  rw [hdiv, roundHalfEven_intCast]
  have he : e = (k : ℤ) + (L - 23) := by omega
  rw [he, zpow_add₀ (by norm_num : (2 : ℚ) ≠ 0)]
  push_cast
  rw [zpow_natCast]
  ring

theorem f32_int (n : ℤ) (h : |n| < 2 ^ 24) : f32 (n : ℚ) = n := by
  have := f32_exact n 0 h
  simpa using this

theorem f32_quarters (m : ℤ) (h : |m| < 2 ^ 24) : f32 ((m : ℚ) / 4) = (m : ℚ) / 4 := by
  have := f32_exact m (-2) h
  have e : (m : ℚ) * 2 ^ (-2 : ℤ) = (m : ℚ) / 4 := by
    rw [zpow_neg]; norm_num; ring
  rwa [e] at this

theorem floatToInt_intCast (n : ℤ) : floatToInt (n : ℚ) = n := by
  unfold floatToInt
  split <;> simp

/-! ## Scaling -/

theorem bind_of_ok {α β : Type} (m : Exec α) (f : α → Exec β) (a : α) (h : m = .ok a) :
    m >>= f = f a := by
  rw [h]; rfl

/-- Storing `n` bytes one at a time at `d[di..]`. -/
theorem writeLoop (d : Buf) (di n : Int) (v : Int → Nat) (body : Int → Buf → Exec Buf)
    (hn : 0 ≤ n) (hdi : 0 ≤ di) (hd : di + n ≤ d.length)
    (hbody : ∀ c t, 0 ≤ c → c < n → body c t = storeByte t (di + c) (v c)) :
    ∃ d', forRange n body d = .ok d' ∧ d'.length = d.length ∧
      ∀ k, 0 ≤ k → peek d' k = if di ≤ k ∧ k < di + n then v (k - di) else peek d k := by
  apply forRange_inv (fun c t => t.length = d.length ∧ ∀ k, 0 ≤ k → peek t k =
        if di ≤ k ∧ k < di + c then v (k - di) else peek d k) n hn
  · refine ⟨rfl, fun k _ => ?_⟩
    rw [if_neg (by omega)]
  · rintro c t hc0 hc1 ⟨hlen, hP⟩
    refine ⟨poke t (di + c) (v c), ?_, ?_, ?_⟩
    · rw [hbody c t hc0 hc1]
      exact storeByte_ok _ (by omega) (by omega)
    · simp [hlen]
    · intro k hk
      rw [peek_poke _ _ _ _ (by omega) (by omega) hk, hP k hk]
      by_cases h : k = di + c
      · subst h
        have : di ≤ di + c ∧ di + c < di + (c + 1) := by omega
        simp [this]
      · by_cases h2 : di ≤ k ∧ k < di + c
        · have : di ≤ k ∧ k < di + (c + 1) := by omega
          simp [h, h2, this]
        · have : ¬ (di ≤ k ∧ k < di + (c + 1)) := by omega
          simp [h, h2, this]

/-- The triply nested loop of `scaleFrame`: every channel of every destination pixel is
stored once, in row-major order. -/
theorem fillLoop (d0 : Buf) (W H bpp : Int) (val : Int → Int → Int → Nat)
    (body : Int → Int → Int → Buf → Exec Buf)
    (hW : 0 ≤ W) (hH : 0 ≤ H) (hb : 0 ≤ bpp) (hd : H * W * bpp ≤ d0.length)
    (hbody : ∀ y x c t, 0 ≤ y → y < H → 0 ≤ x → x < W → 0 ≤ c → c < bpp →
      body y x c t = storeByte t ((y * W + x) * bpp + c) (val x y c)) :
    ∃ d, forRange H (fun y d =>
        forRange W (fun x d => forRange bpp (fun c d => body y x c d) d) d) d0 = .ok d ∧
      d.length = d0.length ∧
      ∀ x y c, 0 ≤ x → x < W → 0 ≤ y → y < H → 0 ≤ c → c < bpp →
        peek d ((y * W + x) * bpp + c) = val x y c := by
  obtain ⟨d, h1, h2, h3⟩ := forRange2_inv
    (fun y x d => d.length = d0.length ∧
      ∀ x' y' c, 0 ≤ x' → x' < W → 0 ≤ y' → y' < H → 0 ≤ c → c < bpp →
        (y' < y ∨ (y' = y ∧ x' < x)) →
        peek d ((y' * W + x') * bpp + c) = val x' y' c)
    H W hH hW
    (fun y x d => forRange bpp (fun c d => body y x c d) d) d0
    ⟨rfl, fun x' y' c _ _ _ _ _ _ h => by omega⟩
    (by
      rintro y x t hy0 hy1 hx0 hx1 ⟨hlen, hP⟩
      have hp0 : 0 ≤ y * W + x := pos_nonneg y W x hy0 hW hx0
      have hq0 : 0 ≤ (y * W + x) * bpp := mul_nonneg hp0 hb
      have hq1 : (y * W + x) * bpp + bpp ≤ d0.length := by
        have h1 : y * W + x < H * W := pos_lt y H W x hy1 hx1 hW
        have h2 := mul_succ_le (y * W + x) (H * W) bpp h1 hb
        omega
      obtain ⟨t', e1, e2, e3⟩ := writeLoop t ((y * W + x) * bpp) bpp (fun c => val x y c)
        (fun c d => body y x c d) hb hq0 (by omega)
        (fun c u hc0 hc1 => hbody y x c u hy0 hy1 hx0 hx1 hc0 hc1)
      refine ⟨t', e1, by omega, ?_⟩
      intro x' y' c hx'0 hx'1 hy'0 hy'1 hc0 hc1 hproc
      have hk0 : 0 ≤ (y' * W + x') * bpp + c :=
        pos_nonneg _ _ _ (pos_nonneg y' W x' hy'0 hW hx'0) hb hc0
      rw [e3 _ hk0]
      by_cases hsame : x' = x ∧ y' = y
      · obtain ⟨rfl, rfl⟩ := hsame
        rw [if_pos (by omega)]
        show val x' y' _ = val x' y' c
        congr 1
        ring
      · have hne : y * W + x ≠ y' * W + x' := by
          intro heq
          have := pos_inj y y' W x x' hx0 hx1 hx'0 hx'1 heq
          omega
        rw [if_neg (pix_region_disjoint _ _ _ _ hne hb hc0 hc1)]
        exact hP x' y' c hx'0 hx'1 hy'0 hy'1 hc0 hc1 (by omega))
    (by
      rintro y t hy0 hy1 ⟨hlen, hP⟩
      refine ⟨hlen, ?_⟩
      intro x' y' c hx'0 hx'1 hy'0 hy'1 hc0 hc1 hproc
      exact hP x' y' c hx'0 hx'1 hy'0 hy'1 hc0 hc1 (by omega))
  refine ⟨d, h1, h2, ?_⟩
  intro x y c hx0 hx1 hy0 hy1 hc0 hc1
  exact h3 x y c hx0 hx1 hy0 hy1 hc0 hc1 (by omega)

theorem scaleFrame_run (fresh : Nat → Nat) (src dst : FrameData) (tw th : Int)
    (h : ValidPacked src) (htw : 0 ≤ tw) (hth : 0 ≤ th)
    (hsz : tw * bytesPerPixel src.format * th < 2 ^ 31)
    (hX : ∀ x, 0 ≤ x → x < tw →
      0 ≤ srcCoord0 src.width tw x ∧ srcCoord0 src.width tw x < src.width)
    (hY : ∀ y, 0 ≤ y → y < th →
      0 ≤ srcCoord0 src.height th y ∧ srcCoord0 src.height th y < src.height) :
    ∃ d, FrameUtils.scaleFrame fresh src dst tw th =
        .ok (true, { dst with width := tw, height := th, format := src.format,
                              stride := tw * bytesPerPixel src.format,
                              size := toSizeT (tw * bytesPerPixel src.format * th),
                              data := some d }) ∧
      (d.length : Int) = tw * bytesPerPixel src.format * th ∧
      ∀ x y c, 0 ≤ x → x < tw → 0 ≤ y → y < th → 0 ≤ c → c < bytesPerPixel src.format →
        peek d ((y * tw + x) * bytesPerPixel src.format + c) =
          scaleSample src.bytes src.width src.height (bytesPerPixel src.format) tw th x y c := by
  obtain ⟨hdata, hfmt, hw, hh, hstride, hsize, hlen, hbound⟩ := h
  obtain ⟨sdata, hsd⟩ := Option.isSome_iff_exists.mp hdata
  have hbytes : src.bytes = sdata := by simp [FrameData.bytes, hsd]
  rw [hbytes] at hlen ⊢
  have hb := bytesPerPixel_pos src.format
  generalize hbpp : bytesPerPixel src.format = bpp at *
  rw [hstride] at hsize
  have hsz0 : src.size ≠ 0 := by
    have := mul_pos (mul_pos hw hb) hh
    omega
  have hnn : 0 ≤ tw * bpp * th := mul_nonneg (mul_nonneg htw (by omega)) hth
  have hT := toSizeT_of_lt _ hnn hsz
  have hslen : (sdata.length : Int) = src.height * src.width * bpp := by
    rw [hlen, hsize]; ring
  obtain ⟨d, e1, e2, e3⟩ := fillLoop (newArray fresh (toSizeT (tw * bpp * th))) tw th bpp
    (fun x y c => scaleSample sdata src.width src.height bpp tw th x y c)
    (fun y x c d => do
      let v00 ← loadByte sdata
        ((srcCoord0 src.height th y * src.width + srcCoord0 src.width tw x) * bpp + c)
      let v01 ← loadByte sdata
        ((srcCoord0 src.height th y * src.width + srcCoord1 src.width tw x) * bpp + c)
      let v10 ← loadByte sdata
        ((srcCoord1 src.height th y * src.width + srcCoord0 src.width tw x) * bpp + c)
      let v11 ← loadByte sdata
        ((srcCoord1 src.height th y * src.width + srcCoord1 src.width tw x) * bpp + c)
      storeByte d ((y * tw + x) * bpp + c)
        (clamp (floatToInt (bilinear v00 v01 v10 v11 (srcFrac src.width tw x)
          (srcFrac src.height th y)))))
    htw hth (by omega)
    (by rw [length_newArray, hT]; apply le_of_eq; ring)
    (by
      intro y x c t hy0 hy1 hx0 hx1 hc0 hc1
      obtain ⟨a0, a1⟩ := hX x hx0 hx1
      obtain ⟨b0, b1⟩ := hY y hy0 hy1
      have a2 : 0 ≤ srcCoord1 src.width tw x ∧ srcCoord1 src.width tw x < src.width := by
        unfold srcCoord1; omega
      have b2 : 0 ≤ srcCoord1 src.height th y ∧ srcCoord1 src.height th y < src.height := by
        unfold srcCoord1; omega
      have inb : ∀ sy sx : Int, 0 ≤ sy → sy < src.height → 0 ≤ sx → sx < src.width →
          0 ≤ (sy * src.width + sx) * bpp + c ∧
            (sy * src.width + sx) * bpp + c < sdata.length := by
        intro sy sx h1 h2 h3 h4
        have p0 := pos_nonneg sy src.width sx h1 (by omega) h3
        have p1 := pos_lt sy src.height src.width sx h2 h4 (by omega)
        have q0 := mul_nonneg p0 (by omega : 0 ≤ bpp)
        have q1 := mul_succ_le _ _ bpp p1 (by omega)
        omega
      beta_reduce
      rw [loadByte_ok (inb _ _ b0 b1 a0 a1).1 (inb _ _ b0 b1 a0 a1).2,
        loadByte_ok (inb _ _ b0 b1 a2.1 a2.2).1 (inb _ _ b0 b1 a2.1 a2.2).2,
        loadByte_ok (inb _ _ b2.1 b2.2 a0 a1).1 (inb _ _ b2.1 b2.2 a0 a1).2,
        loadByte_ok (inb _ _ b2.1 b2.2 a2.1 a2.2).1 (inb _ _ b2.1 b2.2 a2.1 a2.2).2]
      rfl)
  rw [length_newArray] at e2
  refine ⟨d, ?_, by rw [e2, hT], e3⟩
  have hf : ¬ (src.format ≠ 2 ∧ src.format ≠ 3) := by omega
  have hbpp' : (if src.format = 2 then (4 : Int) else 3) = bpp := hbpp
  simp only [FrameUtils.scaleFrame, hsd, hsz0, if_false, hf, hbpp']
  exact bind_of_ok _ _ d e1

theorem floatToInt_of_nonneg (x : ℚ) (h : 0 ≤ x) : floatToInt x = ⌊x⌋ := by
  unfold floatToInt
  rw [if_pos h]

theorem intToFloat_small (n : ℤ) (h : |n| < 2 ^ 24) : intToFloat n = n := f32_int n h

/-- Scaling to the same number of pixels: the ratio is 1. -/
theorem fdiv_self (n : ℤ) (hn : n ≠ 0) (h : |n| < 2 ^ 24) :
    fdiv (intToFloat n) (intToFloat n) = 1 := by
  unfold fdiv
  rw [intToFloat_small n h, div_self (by exact_mod_cast hn)]
  have := f32_int 1 (by norm_num)
  simpa using this

theorem fmul_one (i : ℤ) (h : |i| < 2 ^ 24) : fmul (intToFloat i) 1 = i := by
  unfold fmul
  rw [intToFloat_small i h, mul_one, f32_int i h]

theorem srcCoord0_same (n i : ℤ) (hn : n ≠ 0) (hn1 : |n| < 2 ^ 24) (hi : |i| < 2 ^ 24) :
    srcCoord0 n n i = i := by
  unfold srcCoord0
  rw [fdiv_self n hn hn1, fmul_one i hi, floatToInt_intCast]

theorem srcFrac_same (n i : ℤ) (hn : n ≠ 0) (hn1 : |n| < 2 ^ 24) (hi : |i| < 2 ^ 24) :
    srcFrac n n i = 0 := by
  unfold srcFrac
  rw [srcCoord0_same n i hn hn1 hi, fdiv_self n hn hn1, fmul_one i hi, intToFloat_small i hi]
  unfold fsub
  rw [sub_self, f32_zero]

/-- Doubling the number of pixels: the ratio is 1/2. -/
theorem fdiv_two_four : fdiv (intToFloat 2) (intToFloat 4) = 1 / 2 := by
  unfold fdiv
  rw [intToFloat_small 2 (by norm_num), intToFloat_small 4 (by norm_num)]
  have := f32_exact 1 (-1) (by norm_num)
  have e : ((1 : ℤ) : ℚ) * 2 ^ (-1 : ℤ) = 1 / 2 := by norm_num
  rw [e] at this
  have e2 : ((2 : ℤ) : ℚ) / ((4 : ℤ) : ℚ) = 1 / 2 := by norm_num
  rw [e2, this]

theorem fmul_half (i : ℤ) (h : |i| < 2 ^ 24) : fmul (intToFloat i) (1 / 2) = (i : ℚ) / 2 := by
  unfold fmul
  rw [intToFloat_small i h]
  have := f32_exact i (-1) h
  have e : (i : ℚ) * 2 ^ (-1 : ℤ) = (i : ℚ) * (1 / 2) := by norm_num
  rw [e] at this
  rw [this]
  ring

theorem floor_half (i : ℤ) : ⌊(i : ℚ) / 2⌋ = i / 2 := by
  rw [Int.floor_eq_iff]
  have h1 : i = 2 * (i / 2) + i % 2 := by omega
  have h2 : 0 ≤ i % 2 := by omega
  have h3 : i % 2 < 2 := by omega
  have h1q : (i : ℚ) = 2 * ((i / 2 : ℤ) : ℚ) + ((i % 2 : ℤ) : ℚ) := by exact_mod_cast h1
  have h2q : (0 : ℚ) ≤ ((i % 2 : ℤ) : ℚ) := by exact_mod_cast h2
  have h3q : ((i % 2 : ℤ) : ℚ) < 2 := by exact_mod_cast h3
  constructor
  · linarith
  · linarith

theorem srcCoord0_two_four (i : ℤ) (h0 : 0 ≤ i) (h : i < 2 ^ 24) : srcCoord0 2 4 i = i / 2 := by
  unfold srcCoord0
  have hi : |i| < 2 ^ 24 := by rw [abs_of_nonneg h0]; exact h
  rw [fdiv_two_four, fmul_half i hi, floatToInt_of_nonneg _ (by positivity), floor_half]

theorem srcFrac_two_four (i : ℤ) (h0 : 0 ≤ i) (h : i < 2 ^ 24) :
    srcFrac 2 4 i = ((i % 2 : ℤ) : ℚ) / 2 := by
  unfold srcFrac
  have hi : |i| < 2 ^ 24 := by rw [abs_of_nonneg h0]; exact h
  rw [srcCoord0_two_four i h0 h, fdiv_two_four, fmul_half i hi,
    intToFloat_small (i / 2) (by rw [abs_of_nonneg (by omega)]; omega)]
  unfold fsub
  have h1 : i = 2 * (i / 2) + i % 2 := by omega
  have h1q : (i : ℚ) = 2 * ((i / 2 : ℤ) : ℚ) + ((i % 2 : ℤ) : ℚ) := by exact_mod_cast h1
  have e : (i : ℚ) / 2 - ((i / 2 : ℤ) : ℚ) = ((i % 2 : ℤ) : ℚ) * 2 ^ (-1 : ℤ) := by
    rw [zpow_neg, zpow_one]
    linarith
  rw [e, f32_exact (i % 2) (-1) (by rw [abs_of_nonneg (by omega)]; omega)]
  rw [zpow_neg, zpow_one]
  ring


theorem f32_natCast (a : ℕ) (ha : a < 256) : f32 ((a : ℤ) : ℚ) = ((a : ℤ) : ℚ) :=
  f32_int a (by rw [abs_of_nonneg (by omega)]; omega)

theorem f32_one : f32 1 = 1 := by
  have := f32_int 1 (by norm_num)
  simpa using this

theorem f32_half : f32 (1 / 2) = 1 / 2 := by
  have := f32_exact 1 (-1) (by norm_num)
  have e : ((1 : ℤ) : ℚ) * 2 ^ (-1 : ℤ) = 1 / 2 := by norm_num
  rwa [e] at this

theorem f32_byte_quarters (a : ℕ) (k : ℤ) (ha : a < 256) (hk0 : 0 ≤ k) (hk : k ≤ 4) :
    f32 (k * ((a : ℤ) : ℚ) / 4) = k * ((a : ℤ) : ℚ) / 4 := by
  have hb : |k * (a : ℤ)| < 2 ^ 24 := by
    rw [abs_of_nonneg (mul_nonneg hk0 (by omega))]
    have : k * (a : ℤ) ≤ 4 * (a : ℤ) := Int.mul_le_mul_of_nonneg_right hk (by omega)
    omega
  have := f32_quarters (k * (a : ℤ)) hb
  push_cast at this
  exact this

/-- With both weights 0 the blend is the first sample. -/
theorem bilinear_zero_zero (a b c d : ℕ) (ha : a < 256) :
    bilinear a b c d 0 0 = ((a : ℤ) : ℚ) := by
  simp only [bilinear, fadd, fsub, fmul, intToFloat, Int.cast_one, sub_zero, f32_one, mul_one,
    mul_zero, f32_zero, add_zero, f32_natCast a ha]

/-- With horizontal weight 1/2 and vertical weight 0 the blend of two equal samples in
the upper row is that sample. -/
theorem bilinear_half_zero (a c d : ℕ) (ha : a < 256) :
    bilinear a a c d (1 / 2) 0 = ((a : ℤ) : ℚ) := by
  have e1 : (1 : ℚ) - 1 / 2 = 1 / 2 := by norm_num
  have q2 := f32_byte_quarters a 2 ha (by norm_num) (by norm_num)
  have e2 : ((a : ℤ) : ℚ) * (1 / 2) = ((2 : ℤ) : ℚ) * ((a : ℤ) : ℚ) / 4 := by push_cast; ring
  have e3 : ((2 : ℤ) : ℚ) * ((a : ℤ) : ℚ) / 4 + ((2 : ℤ) : ℚ) * ((a : ℤ) : ℚ) / 4 =
      ((a : ℤ) : ℚ) := by push_cast; ring
  simp only [bilinear, fadd, fsub, fmul, intToFloat, Int.cast_one, sub_zero, f32_one, mul_one,
    mul_zero, f32_zero, add_zero, f32_natCast a ha, e1, f32_half, e2, q2, e3]

/-- With horizontal weight 0 and vertical weight 1/2 the blend of two equal samples in
the left column is that sample. -/
theorem bilinear_zero_half (a b d : ℕ) (ha : a < 256) :
    bilinear a b a d 0 (1 / 2) = ((a : ℤ) : ℚ) := by
  have e1 : (1 : ℚ) - 1 / 2 = 1 / 2 := by norm_num
  have q2 := f32_byte_quarters a 2 ha (by norm_num) (by norm_num)
  have e2 : ((a : ℤ) : ℚ) * (1 / 2) = ((2 : ℤ) : ℚ) * ((a : ℤ) : ℚ) / 4 := by push_cast; ring
  have e3 : ((2 : ℤ) : ℚ) * ((a : ℤ) : ℚ) / 4 + ((2 : ℤ) : ℚ) * ((a : ℤ) : ℚ) / 4 =
      ((a : ℤ) : ℚ) := by push_cast; ring
  simp only [bilinear, fadd, fsub, fmul, intToFloat, Int.cast_one, sub_zero, f32_one, mul_one,
    mul_zero, f32_zero, add_zero, zero_mul, f32_natCast a ha, e1, f32_half, e2, q2, e3]

/-- With both weights 1/2 the blend of four equal samples is that sample. -/
theorem bilinear_half_half (a : ℕ) (ha : a < 256) :
    bilinear a a a a (1 / 2) (1 / 2) = ((a : ℤ) : ℚ) := by
  have hs : |(a : ℤ)| < 2 ^ 24 := by rw [abs_of_nonneg (by omega)]; omega
  have hs3 : |3 * (a : ℤ)| < 2 ^ 24 := by rw [abs_of_nonneg (by omega)]; omega
  have e1 : (1 : ℚ) - 1 / 2 = 1 / 2 := by norm_num
  have q1 : f32 (((a : ℤ) : ℚ) / 4) = ((a : ℤ) : ℚ) / 4 := f32_quarters a hs
  have q2 : f32 (((a : ℤ) : ℚ) / 2) = ((a : ℤ) : ℚ) / 2 := by
    have := f32_exact a (-1) hs
    have e : ((a : ℤ) : ℚ) * 2 ^ (-1 : ℤ) = ((a : ℤ) : ℚ) / 2 := by norm_num; ring
    rwa [e] at this
  have q3 : f32 (3 * ((a : ℤ) : ℚ) / 4) = 3 * ((a : ℤ) : ℚ) / 4 := by
    have := f32_quarters (3 * (a : ℤ)) hs3
    push_cast at this
    exact this
  have e2 : ((a : ℤ) : ℚ) * (1 / 2) = ((a : ℤ) : ℚ) / 2 := by ring
  have e3 : ((a : ℤ) : ℚ) / 2 * (1 / 2) = ((a : ℤ) : ℚ) / 4 := by ring
  have e4 : ((a : ℤ) : ℚ) / 4 + ((a : ℤ) : ℚ) / 4 = ((a : ℤ) : ℚ) / 2 := by ring
  have e5 : ((a : ℤ) : ℚ) / 2 + ((a : ℤ) : ℚ) / 4 = 3 * ((a : ℤ) : ℚ) / 4 := by ring
  have e6 : 3 * ((a : ℤ) : ℚ) / 4 + ((a : ℤ) : ℚ) / 4 = ((a : ℤ) : ℚ) := by ring
  simp only [bilinear, fadd, fsub, fmul, intToFloat, Int.cast_one, f32_one,
    f32_natCast a ha, e1, f32_half, e2, q2, e3, q1, e4, e5, q3, e6]

theorem clamp_floatToInt_byte (a : ℕ) (ha : a < 256) : clamp (floatToInt ((a : ℤ) : ℚ)) = a := by
  rw [floatToInt_intCast]
  have := clamp_of_range (a : ℤ) (by omega) (by omega)
  exact_mod_cast this


theorem bytesPerPixel_le (fmt : Int) : bytesPerPixel fmt ≤ 4 := by
  unfold bytesPerPixel; split <;> omega

theorem scaleFrame_double_run (fresh : Nat → Nat) (src dst : FrameData)
    (h : ValidPacked src) (hb : BytesOk src) (hw : src.width = 2) (hh : src.height = 2) :
    ∃ d, FrameUtils.scaleFrame fresh src dst 4 4 =
        .ok (true, { dst with width := 4, height := 4, format := src.format,
                              stride := 4 * bytesPerPixel src.format,
                              size := toSizeT (4 * bytesPerPixel src.format * 4),
                              data := some d }) ∧
      (d.length : Int) = 4 * bytesPerPixel src.format * 4 ∧
      ∀ c, 0 ≤ c → c < bytesPerPixel src.format →
        peek d ((0 * 4 + 0) * bytesPerPixel src.format + c) =
          peek src.bytes ((0 * 2 + 0) * bytesPerPixel src.format + c) ∧
        peek d ((0 * 4 + 3) * bytesPerPixel src.format + c) =
          peek src.bytes ((0 * 2 + 1) * bytesPerPixel src.format + c) ∧
        peek d ((3 * 4 + 0) * bytesPerPixel src.format + c) =
          peek src.bytes ((1 * 2 + 0) * bytesPerPixel src.format + c) ∧
        peek d ((3 * 4 + 3) * bytesPerPixel src.format + c) =
          peek src.bytes ((1 * 2 + 1) * bytesPerPixel src.format + c) := by
  have hbp := bytesPerPixel_pos src.format
  have hbl := bytesPerPixel_le src.format
  obtain ⟨d, e1, e2, e3⟩ := scaleFrame_run fresh src dst 4 4 h (by norm_num) (by norm_num)
    (by omega)
    (by
      intro x hx0 hx1
      rw [hw, srcCoord0_two_four x hx0 (by omega)]
      omega)
    (by
      intro y hy0 hy1
      rw [hh, srcCoord0_two_four y hy0 (by omega)]
      omega)
  refine ⟨d, e1, e2, ?_⟩
  intro c hc0 hc1
  have c0 : srcCoord0 2 4 0 = 0 := by rw [srcCoord0_two_four 0 (by norm_num) (by norm_num)]; rfl
  have c3 : srcCoord0 2 4 3 = 1 := by rw [srcCoord0_two_four 3 (by norm_num) (by norm_num)]; rfl
  have d0 : srcCoord1 2 4 0 = 1 := by unfold srcCoord1; rw [c0]; rfl
  have d3 : srcCoord1 2 4 3 = 1 := by unfold srcCoord1; rw [c3]; rfl
  have f0 : srcFrac 2 4 0 = 0 := by
    rw [srcFrac_two_four 0 (by norm_num) (by norm_num)]; norm_num
  have f3 : srcFrac 2 4 3 = 1 / 2 := by
    rw [srcFrac_two_four 3 (by norm_num) (by norm_num)]; norm_num
  have hbyte : ∀ k, peek src.bytes k < 256 := fun k => peek_lt src.bytes hb k
  refine ⟨?_, ?_, ?_, ?_⟩
  · rw [e3 0 0 c (by norm_num) (by norm_num) (by norm_num) (by norm_num) hc0 hc1]
    unfold scaleSample
    rw [hw, hh, c0, d0, f0, bilinear_zero_zero _ _ _ _ (hbyte _), clamp_floatToInt_byte _ (hbyte _)]
  · rw [e3 3 0 c (by norm_num) (by norm_num) (by norm_num) (by norm_num) hc0 hc1]
    unfold scaleSample
    rw [hw, hh, c0, d0, f0, c3, d3, f3, bilinear_half_zero _ _ _ (hbyte _),
      clamp_floatToInt_byte _ (hbyte _)]
  · rw [e3 0 3 c (by norm_num) (by norm_num) (by norm_num) (by norm_num) hc0 hc1]
    unfold scaleSample
    rw [hw, hh, c0, d0, f0, c3, d3, f3, bilinear_zero_half _ _ _ (hbyte _),
      clamp_floatToInt_byte _ (hbyte _)]
  · rw [e3 3 3 c (by norm_num) (by norm_num) (by norm_num) (by norm_num) hc0 hc1]
    unfold scaleSample
    rw [hw, hh, c3, d3, f3, bilinear_half_half _ (hbyte _), clamp_floatToInt_byte _ (hbyte _)]

/-! ## Blitting rows -/

theorem memcpyAt_ok (dst : Buf) (dOff : Int) (src : Buf) (sOff n : Int) (hn : 0 ≤ n)
    (hd0 : 0 ≤ dOff) (hd1 : dOff + n ≤ dst.length) (hs0 : 0 ≤ sOff)
    (hs1 : sOff + n ≤ src.length) :
    ∃ d, memcpyAt dst dOff src sOff n = .ok d ∧ d.length = dst.length ∧
      ∀ k, 0 ≤ k → peek d k =
        if dOff ≤ k ∧ k < dOff + n then peek src (sOff + (k - dOff)) else peek dst k := by
  refine ⟨_, by unfold memcpyAt; rw [if_pos ⟨hn, hd0, hd1, hs0, hs1⟩], ?_, ?_⟩
  · simp only [List.length_append, List.length_take, List.length_drop]
    omega
  · intro k hk
    have hl1 : (dst.take dOff.toNat).length = dOff.toNat := by
      rw [List.length_take]; omega
    have hl2 : ((src.drop sOff.toNat).take n.toNat).length = n.toNat :=
      length_take_drop _ _ _ (by omega)
    unfold peek
    rw [List.getD_eq_getElem?_getD, List.append_assoc]
    by_cases h1 : k < dOff
    · rw [if_neg (by omega), List.getElem?_append_left (by rw [hl1]; omega),
        List.getElem?_take_of_lt (by omega), List.getD_eq_getElem?_getD]
    · rw [List.getElem?_append_right (by rw [hl1]; omega), hl1]
      by_cases h2 : k < dOff + n
      · rw [if_pos ⟨by omega, h2⟩, List.getElem?_append_left (by rw [hl2]; omega),
          List.getElem?_take_of_lt (by omega), List.getElem?_drop, List.getD_eq_getElem?_getD]
        congr 2
        omega
      · rw [if_neg (by omega), List.getElem?_append_right (by rw [hl2]; omega), hl2,
          List.getElem?_drop, List.getD_eq_getElem?_getD]
        congr 2
        omega

/-- The row loop of `matchResolution`: row `y` of the scaled image, `n` bytes, is copied
to offset `start y` of the destination; the rows do not overlap. -/
theorem blitLoop (d0 sbytes : Buf) (sh n : Int) (start : Int → Int) (hsh : 0 ≤ sh)
    (hn : 0 ≤ n) (hs : sh * n ≤ sbytes.length)
    (hstart0 : ∀ y, 0 ≤ y → y < sh → 0 ≤ start y)
    (hstart1 : ∀ y, 0 ≤ y → y < sh → start y + n ≤ d0.length)
    (hmono : ∀ y y', 0 ≤ y → y < y' → y' < sh → start y + n ≤ start y') :
    ∃ d, forRange sh (fun y d => memcpyAt d (start y) sbytes (y * n) n) d0 = .ok d ∧
      d.length = d0.length ∧
      (∀ y j, 0 ≤ y → y < sh → 0 ≤ j → j < n →
        peek d (start y + j) = peek sbytes (y * n + j)) ∧
      ∀ k, 0 ≤ k → (∀ y, 0 ≤ y → y < sh → ¬ (start y ≤ k ∧ k < start y + n)) →
        peek d k = peek d0 k := by
  obtain ⟨d, h1, h2, h3, h4⟩ := forRange_inv
    (fun y d => d.length = d0.length ∧
      (∀ y' j, 0 ≤ y' → y' < y → 0 ≤ j → j < n →
        peek d (start y' + j) = peek sbytes (y' * n + j)) ∧
      ∀ k, 0 ≤ k → (∀ y', 0 ≤ y' → y' < y → ¬ (start y' ≤ k ∧ k < start y' + n)) →
        peek d k = peek d0 k)
    sh hsh (fun y d => memcpyAt d (start y) sbytes (y * n) n) d0
    ⟨rfl, fun y' j _ _ _ _ => by omega, fun k _ _ => rfl⟩
    (by
      rintro y t hy0 hy1 ⟨hlen, hP, hQ⟩
      have hyn0 : 0 ≤ y * n := mul_nonneg hy0 hn
      have hyn1 : y * n + n ≤ sh * n := mul_succ_le y sh n hy1 hn
      obtain ⟨t', e1, e2, e3⟩ := memcpyAt_ok t (start y) sbytes (y * n) n hn
        (hstart0 y hy0 hy1) (by rw [hlen]; exact hstart1 y hy0 hy1) hyn0 (by omega)
      refine ⟨t', e1, by omega, ?_, ?_⟩
      · intro y' j hy'0 hy'1 hj0 hj1
        have hs0 := hstart0 y' hy'0 (by omega)
        rw [e3 _ (by omega)]
        by_cases hsame : y' = y
        · subst hsame
          rw [if_pos (by omega)]
          congr 1
          omega
        · have := hmono y' y hy'0 (by omega) hy1
          rw [if_neg (by omega)]
          exact hP y' j hy'0 (by omega) hj0 hj1
      · intro k hk hout
        rw [e3 k hk, if_neg (hout y hy0 (by omega))]
        exact hQ k hk (fun y' a b => hout y' a (by omega)))
  exact ⟨d, h1, h2, h3, h4⟩

/-! ## Matching a resolution -/

theorem loopFrom_preserves {σ : Type} (P : σ → Prop) (body : Int → σ → Exec σ)
    (hbody : ∀ j t t', body j t = .ok t' → P t → P t') :
    ∀ (k : Nat) (i : Int) (s s' : σ), loopFrom body k i s = .ok s' → P s → P s'
  | 0, _, s, s', h, hP => by
    simp only [loopFrom, Except.ok.injEq] at h
    exact h ▸ hP
  | k + 1, i, s, s', h, hP => by
    unfold loopFrom at h
    cases hb : body i s with
    | error e => rw [hb] at h; cases h
    | ok t =>
      rw [hb] at h
      exact loopFrom_preserves P body hbody k (i + 1) t s' h (hbody i s t hb hP)

theorem forRange_preserves {σ : Type} (P : σ → Prop) (n : Int) (body : Int → σ → Exec σ)
    (hbody : ∀ j t t', body j t = .ok t' → P t → P t') (s s' : σ)
    (h : forRange n body s = .ok s') (hP : P s) : P s' :=
  loopFrom_preserves P body hbody n.toNat 0 s s' h hP

theorem storeByte_length (b : Buf) (i : Int) (v : Nat) (b' : Buf)
    (h : storeByte b i v = .ok b') : b'.length = b.length := by
  unfold storeByte at h
  split at h
  · simp only [Except.ok.injEq] at h
    rw [← h, length_poke]
  · cases h

theorem roundHalfEven_ge_floor (x : ℚ) : ⌊x⌋ ≤ roundHalfEven x := by
  unfold roundHalfEven
  split
  · exact le_refl _
  · split
    · omega
    · split <;> omega

theorem f32_nonneg (q : ℚ) (h : 0 ≤ q) : 0 ≤ f32 q := by
  unfold f32
  apply mul_nonneg
  · have h1 : 0 ≤ q / 2 ^ (Int.log 2 |q| - 23) :=
      div_nonneg h (le_of_lt (zpow_pos (by norm_num) _))
    have h2 : (0 : ℤ) ≤ ⌊q / 2 ^ (Int.log 2 |q| - 23)⌋ := Int.floor_nonneg.mpr h1
    have h3 := roundHalfEven_ge_floor (q / 2 ^ (Int.log 2 |q| - 23))
    exact_mod_cast le_trans h2 h3
  · exact le_of_lt (zpow_pos (by norm_num) _)


/-- Whatever `scaleFrame` returns with success is a frame of the target dimensions whose
buffer has the size computed for it. -/
theorem scaleFrame_ok_shape (fresh : Nat → Nat) (src dst out : FrameData) (tw th : Int)
    (h : FrameUtils.scaleFrame fresh src dst tw th = .ok (true, out)) :
    out.width = tw ∧ out.height = th ∧ out.format = src.format ∧
    out.stride = tw * bytesPerPixel src.format ∧
    out.size = toSizeT (tw * bytesPerPixel src.format * th) ∧
    out.bytes.length = toSizeT (tw * bytesPerPixel src.format * th) := by
  unfold FrameUtils.scaleFrame at h
  cases hd : src.data with
  | none => rw [hd] at h; cases h
  | some sdata =>
    rw [hd] at h
    simp only at h
    split at h
    · cases h
    · split at h
      · cases h
      · have hbpp : (if src.format = 2 then (4 : Int) else 3) = bytesPerPixel src.format := rfl
        simp only [hbpp] at h
        generalize bytesPerPixel src.format = bpp at h ⊢
        generalize hloop : forRange th _ (newArray fresh (toSizeT (tw * bpp * th))) = r at h
        cases r with
        | error e => cases h
        | ok d =>
          have hlen : d.length = (newArray fresh (toSizeT (tw * bpp * th))).length := by
            refine forRange_preserves (fun t => t.length =
              (newArray fresh (toSizeT (tw * bpp * th))).length) th _ ?_ _ d hloop rfl
            intro y t t' hy ht
            refine forRange_preserves (fun u => u.length =
              (newArray fresh (toSizeT (tw * bpp * th))).length) tw _ ?_ _ t' hy ht
            intro x u u' hx hu
            refine forRange_preserves (fun v => v.length =
              (newArray fresh (toSizeT (tw * bpp * th))).length) bpp _ ?_ _ u' hx hu
            intro c v v' hc hv
            simp only at hc
            cases h1 : loadByte sdata _ with
            | error e => rw [h1] at hc; cases hc
            | ok a1 =>
              rw [h1] at hc
              simp only [ok_bind] at hc
              cases h2 : loadByte sdata _ with
              | error e => rw [h2] at hc; cases hc
              | ok a2 =>
                rw [h2] at hc
                simp only [ok_bind] at hc
                cases h3 : loadByte sdata _ with
                | error e => rw [h3] at hc; cases hc
                | ok a3 =>
                  rw [h3] at hc
                  simp only [ok_bind] at hc
                  cases h4 : loadByte sdata _ with
                  | error e => rw [h4] at hc; cases hc
                  | ok a4 =>
                    rw [h4] at hc
                    simp only [ok_bind] at hc
                    rw [storeByte_length _ _ _ _ hc, hv]
          rw [length_newArray] at hlen
          simp only [ok_bind, pure, Except.pure, Except.ok.injEq, Prod.mk.injEq, true_and] at h
          subst h
          exact ⟨rfl, rfl, rfl, rfl, rfl, hlen⟩


theorem intToFloat_nonneg (n : Int) (h : 0 ≤ n) : 0 ≤ intToFloat n :=
  f32_nonneg _ (by exact_mod_cast h)

theorem fdiv_nonneg (a b : ℚ) (ha : 0 ≤ a) (hb : 0 ≤ b) : 0 ≤ fdiv a b :=
  f32_nonneg _ (div_nonneg ha hb)

/-- Bytes of pixel number `p` lie before the bytes of pixel number `q` when `p < q`. -/
theorem pix_lt (p q bpp c : Int) (h : p < q) (hb : 0 ≤ bpp) (hc : c < bpp) :
    p * bpp + c < q * bpp := by
  have := mul_succ_le p q bpp h hb
  omega

theorem pix_le (p q bpp : Int) (h : p ≤ q) (hb : 0 ≤ bpp) : p * bpp ≤ q * bpp :=
  mul_le_mul_of_nonneg_right h hb

theorem matchResolution_aspect_run (fresh1 fresh2 : Nat → Nat) (src dst sc : FrameData)
    (tw th : Int) (h : ValidPacked src) (hne : ¬ (src.width = tw ∧ src.height = th))
    (htw : 0 < tw) (hth : 0 < th) (hsz : tw * bytesPerPixel src.format * th < 2 ^ 31)
    (hsc : FrameUtils.scaleFrame fresh1 src emptyFrame (scaledBox src.width src.height tw th).1
      (scaledBox src.width src.height tw th).2 = .ok (true, sc))
    (hbox : 0 ≤ (scaledBox src.width src.height tw th).1 ∧
      (scaledBox src.width src.height tw th).1 ≤ tw ∧
      0 ≤ (scaledBox src.width src.height tw th).2 ∧
      (scaledBox src.width src.height tw th).2 ≤ th) :
    ∃ d, FrameUtils.matchResolution fresh1 fresh2 src dst tw th true =
        .ok (true, { dst with width := tw, height := th, format := src.format,
                              stride := tw * bytesPerPixel src.format,
                              size := toSizeT (tw * bytesPerPixel src.format * th),
                              data := some d }) ∧
      (d.length : Int) = tw * bytesPerPixel src.format * th ∧
      (∀ x y c, 0 ≤ x → x < (scaledBox src.width src.height tw th).1 → 0 ≤ y →
        y < (scaledBox src.width src.height tw th).2 → 0 ≤ c → c < bytesPerPixel src.format →
        peek d (((y + (th - (scaledBox src.width src.height tw th).2) / 2) * tw +
            ((tw - (scaledBox src.width src.height tw th).1) / 2 + x)) *
              bytesPerPixel src.format + c) =
          peek sc.bytes ((y * (scaledBox src.width src.height tw th).1 + x) *
            bytesPerPixel src.format + c)) ∧
      ∀ x y c, 0 ≤ x → x < tw → 0 ≤ y → y < th → 0 ≤ c → c < bytesPerPixel src.format →
        ¬ ((tw - (scaledBox src.width src.height tw th).1) / 2 ≤ x ∧
           x < (tw - (scaledBox src.width src.height tw th).1) / 2 +
             (scaledBox src.width src.height tw th).1 ∧
           (th - (scaledBox src.width src.height tw th).2) / 2 ≤ y ∧
           y < (th - (scaledBox src.width src.height tw th).2) / 2 +
             (scaledBox src.width src.height tw th).2) →
        peek d ((y * tw + x) * bytesPerPixel src.format + c) = 0 := by
  obtain ⟨s1, s2, s3, s4, s5, s6⟩ := scaleFrame_ok_shape _ _ _ _ _ _ hsc
  obtain ⟨hdata, hfmt, hw, hh, hstride, hsize, hlen, hbound⟩ := h
  obtain ⟨sdata, hsd⟩ := Option.isSome_iff_exists.mp hdata
  have hb := bytesPerPixel_pos src.format
  have hsz0 : src.size ≠ 0 := by
    rw [hstride] at hsize
    have := mul_pos (mul_pos hw hb) hh
    omega
  -- the aspect ratios
  have hbn : 0 ≤ fdiv (intToFloat tw) (intToFloat th) :=
    fdiv_nonneg _ _ (intToFloat_nonneg _ (by omega)) (intToFloat_nonneg _ (by omega))
  have hnf : ¬ (fdiv (intToFloat src.width) (intToFloat src.height) >
        fdiv (intToFloat tw) (intToFloat th) ∧
      fdiv (intToFloat src.width) (intToFloat src.height) = 0) := by
    rintro ⟨h1, h2⟩
    rw [h2] at h1
    exact absurd h1 (not_lt.mpr hbn)
  have hsw : (if fdiv (intToFloat src.width) (intToFloat src.height) >
        fdiv (intToFloat tw) (intToFloat th) then tw
      else floatToInt (fmul (intToFloat th)
        (fdiv (intToFloat src.width) (intToFloat src.height)))) =
      (scaledBox src.width src.height tw th).1 := rfl
  have hsh : (if fdiv (intToFloat src.width) (intToFloat src.height) >
        fdiv (intToFloat tw) (intToFloat th) then
        floatToInt (fdiv (intToFloat tw) (fdiv (intToFloat src.width) (intToFloat src.height)))
      else th) = (scaledBox src.width src.height tw th).2 := rfl
  have hbpp : (if src.format = 2 then (4 : Int) else 3) = bytesPerPixel src.format := rfl
  generalize (scaledBox src.width src.height tw th).1 = sw at *
  generalize (scaledBox src.width src.height tw th).2 = sh at *
  generalize bytesPerPixel src.format = bpp at *
  obtain ⟨hsw0, hsw1, hsh0, hsh1⟩ := hbox
  -- sizes
  have hnn : 0 ≤ tw * bpp * th := mul_nonneg (mul_nonneg (by omega) (by omega)) (by omega)
  have hT := toSizeT_of_lt _ hnn hsz
  have hsn : 0 ≤ sw * bpp := mul_nonneg hsw0 (by omega)
  have hsnn : 0 ≤ sw * bpp * sh := mul_nonneg hsn hsh0
  have hsle : sw * bpp * sh ≤ tw * bpp * th := by
    have a1 : sw * bpp ≤ tw * bpp := pix_le _ _ _ hsw1 (by omega)
    have a2 : sw * bpp * sh ≤ tw * bpp * sh := mul_le_mul_of_nonneg_right a1 hsh0
    have a3 : tw * bpp * sh ≤ tw * bpp * th :=
      mul_le_mul_of_nonneg_left hsh1 (by omega)
    omega
  have hS := toSizeT_of_lt _ hsnn (by omega)
  have hox : 0 ≤ (tw - sw) / 2 := by omega
  have hoy : 0 ≤ (th - sh) / 2 := by omega
  have htx : Int.tdiv (tw - sw) 2 = (tw - sw) / 2 := Int.tdiv_eq_ediv (by omega) (by omega)
  have hty : Int.tdiv (th - sh) 2 = (th - sh) / 2 := Int.tdiv_eq_ediv (by omega) (by omega)
  generalize hoxd : (tw - sw) / 2 = ox at *
  generalize hoyd : (th - sh) / 2 = oy at *
  have hox1 : ox + sw ≤ tw := by omega
  have hoy1 : oy + sh ≤ th := by omega
  -- rows of the target
  have hrow : ∀ y, 0 ≤ y → y < th → 0 ≤ y * tw ∧ y * tw + tw ≤ th * tw := fun y h0 h1 =>
    ⟨mul_nonneg h0 (by omega), mul_succ_le y th tw h1 (by omega)⟩
  have hd0len : (((newArray fresh2 (toSizeT (tw * bpp * th))).map (fun _ => 0)).length : Int) =
      th * tw * bpp := by
    rw [List.length_map, length_newArray, hT]; ring
  obtain ⟨d, e1, e2, e3, e4⟩ := blitLoop
    ((newArray fresh2 (toSizeT (tw * bpp * th))).map (fun _ => 0)) sc.bytes sh (sw * bpp)
    (fun y => ((y + oy) * tw + ox) * bpp) hsh0 hsn
    (by rw [s6, hS]; apply le_of_eq; ring)
    (by
      intro y hy0 hy1
      have := (hrow (y + oy) (by omega) (by omega)).1
      exact mul_nonneg (by omega) (by omega))
    (by
      intro y hy0 hy1
      have r := hrow (y + oy) (by omega) (by omega)
      have : ((y + oy) * tw + ox + sw) * bpp ≤ (th * tw) * bpp :=
        pix_le _ _ _ (by omega) (by omega)
      rw [hd0len]
      have e : ((y + oy) * tw + ox + sw) * bpp = ((y + oy) * tw + ox) * bpp + sw * bpp := by ring
      beta_reduce
      omega)
    (by
      intro y y' hy0 hyy hy1
      have r := mul_succ_le (y + oy) (y' + oy) tw (by omega) (by omega)
      have : ((y + oy) * tw + ox + sw) * bpp ≤ ((y' + oy) * tw + ox) * bpp :=
        pix_le _ _ _ (by omega) (by omega)
      have e : ((y + oy) * tw + ox + sw) * bpp = ((y + oy) * tw + ox) * bpp + sw * bpp := by ring
      show ((y + oy) * tw + ox) * bpp + sw * bpp ≤ ((y' + oy) * tw + ox) * bpp
      omega)
  refine ⟨d, ?_, ?_, ?_, ?_⟩
  · have hfun : (fun (y : Int) (d : Buf) =>
          memcpyAt d (((y + oy) * tw + ox) * bpp) sc.bytes (y * sw * bpp) (sw * bpp)) =
        (fun y d => memcpyAt d (((y + oy) * tw + ox) * bpp) sc.bytes (y * (sw * bpp))
          (sw * bpp)) := by
      funext y d
      rw [mul_assoc]
    simp only [FrameUtils.matchResolution, hsd, hsz0, if_false, hne, Bool.not_true,
      Bool.false_eq_true, hnf, hsw, hsh, hbpp, htx, hty]
    have hz : ¬ (src.height = 0 ∨ th = 0) := by omega
    rw [if_neg hz, hsc]
    simp only [ok_bind, Bool.not_true, Bool.false_eq_true, if_false, hfun]
    exact bind_of_ok _ _ d e1
  · rw [e2, hd0len]; ring
  · intro x y c hx0 hx1 hy0 hy1 hc0 hc1
    have hj : x * bpp + c < sw * bpp := by
      have := pix_lt x sw bpp c hx1 (by omega) hc1
      omega
    have hj0 : 0 ≤ x * bpp + c := by
      have := mul_nonneg hx0 (by omega : 0 ≤ bpp)
      omega
    have := e3 y (x * bpp + c) hy0 hy1 hj0 hj
    have i1 : ((y + oy) * tw + (ox + x)) * bpp + c =
        ((y + oy) * tw + ox) * bpp + (x * bpp + c) := by ring
    have i2 : (y * sw + x) * bpp + c = y * (sw * bpp) + (x * bpp + c) := by ring
    rw [i1, i2]
    exact this
  · intro x y c hx0 hx1 hy0 hy1 hc0 hc1 hout
    have ry := hrow y hy0 hy1
    have hk0 : 0 ≤ (y * tw + x) * bpp + c := by
      have := mul_nonneg (by omega : 0 ≤ y * tw + x) (by omega : 0 ≤ bpp)
      omega
    rw [e4 _ hk0]
    · unfold peek
      rw [List.getD_eq_getElem?_getD, List.getElem?_map]
      cases (newArray fresh2 (toSizeT (tw * bpp * th)))[((y * tw + x) * bpp + c).toNat]? <;> rfl
    · intro y' hy'0 hy'1
      show ¬ (((y' + oy) * tw + ox) * bpp ≤ (y * tw + x) * bpp + c ∧
        (y * tw + x) * bpp + c < ((y' + oy) * tw + ox) * bpp + sw * bpp)
      have e : ((y' + oy) * tw + ox + sw) * bpp = ((y' + oy) * tw + ox) * bpp + sw * bpp := by
        ring
      have r' := hrow (y' + oy) (by omega) (by omega)
      -- compare the pixel numbers
      by_cases hlt : y * tw + x < (y' + oy) * tw + ox
      · have := pix_lt _ _ bpp c hlt (by omega) hc1
        omega
      · have hge : (y' + oy) * tw + ox + sw ≤ y * tw + x := by
          by_cases hrowlt : y < y' + oy
          · have := mul_succ_le y (y' + oy) tw hrowlt (by omega)
            omega
          · by_cases hroweq : y = y' + oy
            · subst hroweq
              have : ¬ (ox ≤ x ∧ x < ox + sw) := fun hh => hout ⟨hh.1, hh.2, by omega, by omega⟩
              omega
            · have := mul_succ_le (y' + oy) y tw (by omega) (by omega)
              omega
        have := pix_le _ _ bpp hge (by omega)
        omega


theorem fdiv_exact (a b q : ℤ) (ha : |a| < 2 ^ 24) (hb : |b| < 2 ^ 24) (hq : |q| < 2 ^ 24)
    (hb0 : b ≠ 0) (h : a = q * b) : fdiv (intToFloat a) (intToFloat b) = q := by
  unfold fdiv
  rw [intToFloat_small a ha, intToFloat_small b hb]
  have hbq : (b : ℚ) ≠ 0 := by exact_mod_cast hb0
  have : (a : ℚ) / (b : ℚ) = q := by
    rw [h]; push_cast; field_simp
  rw [this, f32_int q hq]

theorem scaledBox_wide : scaledBox 100 50 100 100 = (100, 50) := by
  have ha : fdiv (intToFloat 100) (intToFloat 50) = 2 := by
    have := fdiv_exact 100 50 2 (by norm_num) (by norm_num) (by norm_num) (by norm_num)
      (by norm_num)
    simpa using this
  have hb : fdiv (intToFloat 100) (intToFloat 100) = 1 :=
    fdiv_self 100 (by norm_num) (by norm_num)
  have hc : fdiv (intToFloat 100) 2 = 50 := by
    unfold fdiv
    rw [intToFloat_small 100 (by norm_num)]
    have : ((100 : ℤ) : ℚ) / 2 = ((50 : ℤ) : ℚ) := by norm_num
    rw [this, f32_int 50 (by norm_num)]
    norm_num
  unfold scaledBox
  simp only [ha, hb, hc]
  have h21 : (2 : ℚ) > 1 := by norm_num
  rw [if_pos h21, if_pos h21]
  have : floatToInt (50 : ℚ) = 50 := by
    have := floatToInt_intCast 50
    simpa using this
  rw [this]

theorem scaleFrame_same_run (fresh : Nat → Nat) (src dst : FrameData) (h : ValidPacked src)
    (hw : src.width < 2 ^ 24) (hh : src.height < 2 ^ 24) :
    ∃ d, FrameUtils.scaleFrame fresh src dst src.width src.height =
        .ok (true, { dst with width := src.width, height := src.height, format := src.format,
                              stride := src.width * bytesPerPixel src.format,
                              size := toSizeT (src.width * bytesPerPixel src.format * src.height),
                              data := some d }) ∧
      (d.length : Int) = src.width * bytesPerPixel src.format * src.height ∧
      ∀ x y c, 0 ≤ x → x < src.width → 0 ≤ y → y < src.height → 0 ≤ c →
        c < bytesPerPixel src.format →
        peek d ((y * src.width + x) * bytesPerPixel src.format + c) =
          scaleSample src.bytes src.width src.height (bytesPerPixel src.format) src.width
            src.height x y c := by
  have hv := h
  obtain ⟨hdata, hfmt, hw0, hh0, hstride, hsize, hlen, hbound⟩ := h
  have hwa : |src.width| < 2 ^ 24 := by rw [abs_of_nonneg (by omega)]; exact hw
  have hha : |src.height| < 2 ^ 24 := by rw [abs_of_nonneg (by omega)]; exact hh
  refine scaleFrame_run fresh src dst src.width src.height hv (by omega) (by omega) ?_ ?_ ?_
  · rw [← hstride, ← hsize]; omega
  · intro x hx0 hx1
    rw [srcCoord0_same src.width x (by omega) hwa (by rw [abs_of_nonneg hx0]; omega)]
    omega
  · intro y hy0 hy1
    rw [srcCoord0_same src.height y (by omega) hha (by rw [abs_of_nonneg hy0]; omega)]
    omega

theorem validPacked_exWide : ValidPacked exWide := by
  refine ⟨rfl, Or.inr rfl, by decide, by decide, by decide, by decide, ?_, by decide⟩
  simp [exWide, FrameData.bytes]


/-! ## Single-precision arithmetic: order and evaluation -/

theorem roundHalfEven_le_floor_succ (x : ℚ) : roundHalfEven x ≤ ⌊x⌋ + 1 := by
  unfold roundHalfEven
  split
  · omega
  · split
    · omega
    · split <;> omega

theorem roundHalfEven_mono (x y : ℚ) (h : x ≤ y) : roundHalfEven x ≤ roundHalfEven y := by
  have hfl : ⌊x⌋ ≤ ⌊y⌋ := Int.floor_mono h
  by_cases hlt : ⌊x⌋ < ⌊y⌋
  · have := roundHalfEven_le_floor_succ x
    have := roundHalfEven_ge_floor y
    omega
  · have heq : ⌊x⌋ = ⌊y⌋ := by omega
    unfold roundHalfEven
    rw [heq]
    have hq : x - (⌊y⌋ : ℚ) ≤ y - (⌊y⌋ : ℚ) := by linarith
    by_cases c1 : x - (⌊y⌋ : ℚ) < 1 / 2
    · rw [if_pos c1]
      split
      · exact le_refl _
      · split
        · omega
        · split <;> omega
    · rw [if_neg c1]
      have c1' : ¬ (y - (⌊y⌋ : ℚ) < 1 / 2) := by
        intro hc; apply c1; linarith
      rw [if_neg c1']
      by_cases c2 : 1 / 2 < x - (⌊y⌋ : ℚ)
      · rw [if_pos c2, if_pos (by linarith)]
      · rw [if_neg c2]
        by_cases c3 : 1 / 2 < y - (⌊y⌋ : ℚ)
        · rw [if_pos c3]
          split <;> omega
        · rw [if_neg c3]

/-- Bounds of the scaled significand: for `q > 0` it lies in `[2^23, 2^24)`. -/
theorem significand_bounds (q : ℚ) (hq : 0 < q) :
    (2 : ℚ) ^ (23 : ℕ) ≤ q / 2 ^ (Int.log 2 |q| - 23) ∧
    q / 2 ^ (Int.log 2 |q| - 23) < (2 : ℚ) ^ (24 : ℕ) := by
  have habs : |q| = q := abs_of_pos hq
  rw [habs]
  have h1 : ((2 : ℕ) : ℚ) ^ Int.log 2 q ≤ q := Int.zpow_log_le_self (by norm_num) hq
  have h2 : q < ((2 : ℕ) : ℚ) ^ (Int.log 2 q + 1) := Int.lt_zpow_succ_log_self (by norm_num) q
  have hs : (0 : ℚ) < 2 ^ (Int.log 2 q - 23) := zpow_pos (by norm_num) _
  have e1 : (2 : ℚ) ^ (23 : ℕ) * 2 ^ (Int.log 2 q - 23) = 2 ^ Int.log 2 q := by
    rw [← zpow_natCast, ← zpow_add₀ (by norm_num : (2 : ℚ) ≠ 0)]
    congr 1
    push_cast
    ring
  have e2 : (2 : ℚ) ^ (24 : ℕ) * 2 ^ (Int.log 2 q - 23) = 2 ^ (Int.log 2 q + 1) := by
    rw [← zpow_natCast, ← zpow_add₀ (by norm_num : (2 : ℚ) ≠ 0)]
    congr 1
    push_cast
    ring
  push_cast at h1 h2
  constructor
  · rw [le_div_iff₀ hs, e1]; exact h1
  · rw [div_lt_iff₀ hs, e2]; exact h2

theorem f32_mono_of_nonneg (a b : ℚ) (ha : 0 ≤ a) (hab : a ≤ b) : f32 a ≤ f32 b := by
  rcases eq_or_lt_of_le ha with h0 | hpos
  · rw [← h0, f32_zero]
    exact f32_nonneg b (le_trans ha hab)
  have hbpos : 0 < b := lt_of_lt_of_le hpos hab
  have hlog : Int.log 2 |a| ≤ Int.log 2 |b| := by
    rw [abs_of_pos hpos, abs_of_pos hbpos]
    exact Int.log_mono_right hpos hab
  obtain ⟨a1, a2⟩ := significand_bounds a hpos
  obtain ⟨b1, b2⟩ := significand_bounds b hbpos
  unfold f32
  generalize Int.log 2 |a| = La at *
  generalize Int.log 2 |b| = Lb at *
  have hsa : (0 : ℚ) < 2 ^ (La - 23) := zpow_pos (by norm_num) _
  have hsb : (0 : ℚ) < 2 ^ (Lb - 23) := zpow_pos (by norm_num) _
  rcases eq_or_lt_of_le hlog with heq | hlt
  · subst heq
    apply mul_le_mul_of_nonneg_right _ (le_of_lt hsa)
    have : roundHalfEven (a / 2 ^ (La - 23)) ≤ roundHalfEven (b / 2 ^ (La - 23)) :=
      roundHalfEven_mono _ _ (div_le_div_of_nonneg_right hab (le_of_lt hsa))
    exact_mod_cast this
  · -- the result for `a` is at most `2^(La+1)`, the one for `b` at least `2^Lb`
    have ua : roundHalfEven (a / 2 ^ (La - 23)) ≤ 2 ^ 24 := by
      have h1 : ⌊a / 2 ^ (La - 23)⌋ < 2 ^ 24 := by
        rw [Int.floor_lt]
        push_cast
        exact a2
      have := roundHalfEven_le_floor_succ (a / 2 ^ (La - 23))
      omega
    have lb : (2 : ℤ) ^ 23 ≤ roundHalfEven (b / 2 ^ (Lb - 23)) := by
      have h1 : (2 : ℤ) ^ 23 ≤ ⌊b / 2 ^ (Lb - 23)⌋ := by
        rw [Int.le_floor]
        push_cast
        exact b1
      have := roundHalfEven_ge_floor (b / 2 ^ (Lb - 23))
      omega
    have uaq : (roundHalfEven (a / 2 ^ (La - 23)) : ℚ) ≤ 2 ^ (24 : ℕ) := by exact_mod_cast ua
    have lbq : (2 : ℚ) ^ (23 : ℕ) ≤ (roundHalfEven (b / 2 ^ (Lb - 23)) : ℚ) := by
      exact_mod_cast lb
    have e1 : (2 : ℚ) ^ (24 : ℕ) * 2 ^ (La - 23) = 2 ^ (La + 1) := by
      rw [← zpow_natCast, ← zpow_add₀ (by norm_num : (2 : ℚ) ≠ 0)]
      congr 1
      push_cast
      ring
    have e2 : (2 : ℚ) ^ (23 : ℕ) * 2 ^ (Lb - 23) = 2 ^ Lb := by
      rw [← zpow_natCast, ← zpow_add₀ (by norm_num : (2 : ℚ) ≠ 0)]
      congr 1
      push_cast
      ring
    have hpow : (2 : ℚ) ^ (La + 1) ≤ 2 ^ Lb := zpow_le_zpow_right₀ (by norm_num) (by omega)
    calc (roundHalfEven (a / 2 ^ (La - 23)) : ℚ) * 2 ^ (La - 23)
        ≤ 2 ^ (24 : ℕ) * 2 ^ (La - 23) := mul_le_mul_of_nonneg_right uaq (le_of_lt hsa)
      _ = 2 ^ (La + 1) := e1
      _ ≤ 2 ^ Lb := hpow
      _ = 2 ^ (23 : ℕ) * 2 ^ (Lb - 23) := e2.symm
      _ ≤ (roundHalfEven (b / 2 ^ (Lb - 23)) : ℚ) * 2 ^ (Lb - 23) :=
          mul_le_mul_of_nonneg_right lbq (le_of_lt hsb)

/-- Evaluation of `f32` at a number whose binade and nearest significand are known. -/
theorem f32_eval (q : ℚ) (e n : ℤ) (h1 : (2 : ℚ) ^ e ≤ |q|) (h2 : |q| < (2 : ℚ) ^ (e + 1))
    (h3 : (n : ℚ) - 1 / 2 < q / 2 ^ (e - 23)) (h4 : q / 2 ^ (e - 23) < n + 1 / 2) :
    f32 q = n * 2 ^ (e - 23) := by
  rw [f32_of_log q e h1 h2, roundHalfEven_eq _ n h3 h4]


/-! ## A column of seven pixels -/

theorem fdiv_one_seven : fdiv (intToFloat 1) (intToFloat 7) = 9586981 / 67108864 := by
  unfold fdiv
  rw [intToFloat_small 1 (by norm_num), intToFloat_small 7 (by norm_num)]
  have := f32_eval (((1 : ℤ) : ℚ) / ((7 : ℤ) : ℚ)) (-3) 9586981
    (by norm_num [abs_of_pos]) (by norm_num [abs_of_pos]) (by norm_num) (by norm_num)
  rw [this]
  norm_num

theorem fdiv_one_eight : fdiv (intToFloat 1) (intToFloat 8) = 1 / 8 := by
  unfold fdiv
  rw [intToFloat_small 1 (by norm_num), intToFloat_small 8 (by norm_num)]
  have := f32_exact 1 (-3) (by norm_num)
  have e : ((1 : ℤ) : ℚ) * 2 ^ (-3 : ℤ) = ((1 : ℤ) : ℚ) / ((8 : ℤ) : ℚ) := by norm_num
  rw [e] at this
  rw [this]
  norm_num

theorem fdiv_one_aspect :
    fdiv (intToFloat 1) (9586981 / 67108864) = 14680063 / 2097152 := by
  unfold fdiv
  rw [intToFloat_small 1 (by norm_num)]
  have := f32_eval (((1 : ℤ) : ℚ) / (9586981 / 67108864)) 2 14680063
    (by norm_num [abs_of_pos]) (by norm_num [abs_of_pos]) (by norm_num) (by norm_num)
  rw [this]
  norm_num

theorem scaledBox_tall : scaledBox 1 7 1 8 = (1, 6) := by
  unfold scaledBox
  simp only [fdiv_one_seven, fdiv_one_eight, fdiv_one_aspect]
  have hgt : (9586981 : ℚ) / 67108864 > 1 / 8 := by norm_num
  rw [if_pos hgt, if_pos hgt]
  have : floatToInt (14680063 / 2097152 : ℚ) = 6 := by
    rw [floatToInt_of_nonneg _ (by norm_num), Int.floor_eq_iff]
    constructor <;> norm_num
  rw [this]

theorem claimedBox_tall : claimedBox 1 7 1 8 = (1, 7) := by
  unfold claimedBox
  have hgt : ((1 : Int) : ℚ) / ((7 : Int) : ℚ) > ((1 : Int) : ℚ) / ((8 : Int) : ℚ) := by
    norm_num
  rw [if_pos hgt]
  have : ⌊(((1 * 7 : Int)) : ℚ) / ((1 : Int) : ℚ)⌋ = 7 := by
    rw [Int.floor_eq_iff]
    constructor <;> norm_num
  rw [this]

/-- Scaling seven rows to six: every source row index computed lies in `[0, 7)`. -/
theorem srcCoord0_seven_six (y : Int) (h0 : 0 ≤ y) (h1 : y < 6) :
    0 ≤ srcCoord0 7 6 y ∧ srcCoord0 7 6 y < 7 := by
  unfold srcCoord0
  have hy : |y| < 2 ^ 24 := by rw [abs_of_nonneg h0]; omega
  have hr0 : 0 ≤ fdiv (intToFloat 7) (intToFloat 6) :=
    fdiv_nonneg _ _ (intToFloat_nonneg _ (by norm_num)) (intToFloat_nonneg _ (by norm_num))
  have hr1 : fdiv (intToFloat 7) (intToFloat 6) ≤ 5 / 4 := by
    unfold fdiv
    rw [intToFloat_small 7 (by norm_num), intToFloat_small 6 (by norm_num)]
    have m := f32_mono_of_nonneg (((7 : ℤ) : ℚ) / ((6 : ℤ) : ℚ)) (5 / 4) (by norm_num)
      (by norm_num)
    have e := f32_exact 5 (-2) (by norm_num)
    have e' : ((5 : ℤ) : ℚ) * 2 ^ (-2 : ℤ) = 5 / 4 := by norm_num
    rw [e'] at e
    rw [e] at m
    exact m
  generalize fdiv (intToFloat 7) (intToFloat 6) = r at hr0 hr1
  have hyq0 : (0 : ℚ) ≤ (y : ℚ) := by exact_mod_cast h0
  have hyq1 : (y : ℚ) ≤ 5 := by
    have : y ≤ 5 := by omega
    exact_mod_cast this
  have hp0 : 0 ≤ (y : ℚ) * r := mul_nonneg hyq0 hr0
  have hp1 : (y : ℚ) * r ≤ 25 / 4 := by
    calc (y : ℚ) * r ≤ 5 * r := mul_le_mul_of_nonneg_right hyq1 hr0
      _ ≤ 5 * (5 / 4) := mul_le_mul_of_nonneg_left hr1 (by norm_num)
      _ = 25 / 4 := by norm_num
  have hm0 : 0 ≤ fmul (intToFloat y) r := by
    unfold fmul
    rw [intToFloat_small y hy]
    exact f32_nonneg _ hp0
  have hm1 : fmul (intToFloat y) r ≤ 25 / 4 := by
    unfold fmul
    rw [intToFloat_small y hy]
    have m := f32_mono_of_nonneg _ _ hp0 hp1
    have e := f32_exact 25 (-2) (by norm_num)
    have e' : ((25 : ℤ) : ℚ) * 2 ^ (-2 : ℤ) = 25 / 4 := by norm_num
    rw [e'] at e
    rw [e] at m
    exact m
  rw [floatToInt_of_nonneg _ hm0]
  constructor
  · exact Int.floor_nonneg.mpr hm0
  · rw [Int.floor_lt]
    have : (25 : ℚ) / 4 < ((7 : ℤ) : ℚ) := by norm_num
    exact lt_of_le_of_lt hm1 this

/-- Scaling to the dimensions of the source reproduces each byte. -/
theorem scaleSample_same (sdata : Buf) (w h bpp x y c : Int) (hb : ∀ b ∈ sdata, b < 256)
    (hw0 : 0 < w) (hw : w < 2 ^ 24) (hh0 : 0 < h) (hh : h < 2 ^ 24)
    (hx0 : 0 ≤ x) (hx : x < w) (hy0 : 0 ≤ y) (hy : y < h) :
    scaleSample sdata w h bpp w h x y c = peek sdata ((y * w + x) * bpp + c) := by
  have hwa : |w| < 2 ^ 24 := by rw [abs_of_nonneg (by omega)]; exact hw
  have hha : |h| < 2 ^ 24 := by rw [abs_of_nonneg (by omega)]; exact hh
  have hxa : |x| < 2 ^ 24 := by rw [abs_of_nonneg hx0]; omega
  have hya : |y| < 2 ^ 24 := by rw [abs_of_nonneg hy0]; omega
  unfold scaleSample
  rw [srcCoord0_same w x (by omega) hwa hxa, srcCoord0_same h y (by omega) hha hya,
    srcFrac_same w x (by omega) hwa hxa, srcFrac_same h y (by omega) hha hya,
    bilinear_zero_zero _ _ _ _ (peek_lt sdata hb _), clamp_floatToInt_byte _ (peek_lt sdata hb _)]


theorem validPacked_exTall : ValidPacked exTall := by decide

theorem scaleFrame_tall_run (fresh : Nat → Nat) (dst : FrameData) :
    ∃ d, FrameUtils.scaleFrame fresh exTall dst 1 6 =
      .ok (true, { dst with width := 1, height := 6, format := 3, stride := 1 * 3,
                            size := toSizeT (1 * 3 * 6), data := some d }) := by
  obtain ⟨d, e1, _, _⟩ := scaleFrame_run fresh exTall dst 1 6 validPacked_exTall
    (by norm_num) (by norm_num) (by decide)
    (by
      intro x hx0 hx1
      show 0 ≤ srcCoord0 1 1 x ∧ srcCoord0 1 1 x < 1
      rw [srcCoord0_same 1 x (by norm_num) (by norm_num) (by rw [abs_of_nonneg hx0]; omega)]
      omega)
    (by
      intro y hy0 hy1
      exact srcCoord0_seven_six y hy0 hy1)
  exact ⟨d, e1⟩

/-! ## The reader: closing and locking -/

theorem close_run (r : MediaReader) (h : r.m_mutex = false) :
    ∃ c, MediaReader.close r = .ok c ∧ c.m_ready = false ∧ c.m_width = 0 ∧ c.m_height = 0 ∧
      c.m_duration = 0 ∧ c.m_currentPosition = 0 ∧ c.m_trackIndex = -1 ∧
      c.m_mediaCodec = false ∧ c.m_mediaExtractor = false ∧ c.m_frameBuffer = [] ∧
      c.m_imageData = [] ∧ c.m_mutex = false ∧
      c.m_isVideo = r.m_isVideo ∧ c.m_hasAudio = r.m_hasAudio ∧
      c.m_frameRate = r.m_frameRate ∧ c.m_path = r.m_path ∧
      c.m_frameFormat = r.m_frameFormat ∧ c.svcCursor = r.svcCursor ∧
      (r.m_mediaCodec = true → ServiceCall.codecDelete ∈ c.svcCalls) ∧
      (r.m_mediaExtractor = true → ServiceCall.extractorDelete ∈ c.svcCalls) ∧
      (r.m_mediaCodec = false → r.m_mediaExtractor = false → c.svcCalls = r.svcCalls) := by
  unfold MediaReader.close MediaReader.lockGuard
  simp only [h, Bool.false_eq_true, if_false, ok_bind]
  cases hc : r.m_mediaCodec <;> cases he : r.m_mediaExtractor <;>
    simp [MediaReader.unlockGuard, MediaReader.call, pure, Except.pure, hc, he]


theorem getNextFrame_still_blocks (env : Env) (fuel : Nat) (fresh : Nat → Nat)
    (r : MediaReader) (frame : FrameData) (hfree : r.m_mutex = false)
    (hready : r.m_ready = true) (hstill : r.m_isVideo = false) :
    MediaReader.getNextFrame env fuel fresh r frame = .error .deadlock := by
  unfold MediaReader.getNextFrame MediaReader.lockGuard
  simp only [hfree, Bool.false_eq_true, if_false, ok_bind, hready, hstill, Bool.not_true]
  rfl

theorem getPhotoFrame_run (fresh : Nat → Nat) (r : MediaReader) (frame : FrameData)
    (hfree : r.m_mutex = false) (hready : r.m_ready = true) (hdata : r.m_imageData ≠ []) :
    MediaReader.getPhotoFrame fresh r frame =
      .ok (true, r,
        { frame with width := r.m_width, height := r.m_height, format := r.m_frameFormat,
                     stride := r.m_width * 3, size := r.m_imageData.length,
                     data := some r.m_imageData, timestamp := 0 }) := by
  unfold MediaReader.getPhotoFrame MediaReader.lockGuard
  have he : r.m_imageData.isEmpty = false := by
    cases h : r.m_imageData with
    | nil => exact absurd h hdata
    | cons a t => rfl
  simp only [hfree, Bool.false_eq_true, if_false, ok_bind, hready, he, Bool.not_true,
    Bool.or_self]
  rw [memcpy_all _ _ (by rw [length_newArray])]
  simp only [ok_bind, pure, Except.pure, MediaReader.unlockGuard]
  congr 2
  cases r
  simp_all

/-! ## The stride field -/

theorem stride_flip (f : FrameData) (s : Int) :
    FrameUtils.flipHorizontal { f with stride := s } =
      (FrameUtils.flipHorizontal f).map (fun p => (p.1, { p.2 with stride := s })) := by
  obtain ⟨data, size, width, height, format, stride, timestamp⟩ := f
  unfold FrameUtils.flipHorizontal
  cases data with
  | none => rfl
  | some d =>
    simp only
    by_cases hs : size = 0
    · simp only [hs, if_true]
      rfl
    · simp only [hs, if_false]
      generalize (if format = 2 then some (4 : Int)
        else if format = 0 ∨ format = 1 then none else some 3) = b
      cases b with
      | none => rfl
      | some bpp =>
        simp only
        generalize forRange height _ d = res
        cases res <;> rfl

/-! ## Conversions of frames with odd dimensions -/

theorem convertFormat_odd_nv21_fault : FrameUtils.convertFormat (fun _ => 0) exOddNv21 emptyFrame 3 =
    .error .outOfBounds := by
  have hl : Int.land 0 (~~~ 1) = 0 := by rw [land_not_one 0 (le_refl _)]; rfl
  have h1 : FrameUtils.nv21ToRgb (some [123]) (some (newArray (fun _ => 0) 3)) 1 1 =
      .error .outOfBounds := by
    unfold FrameUtils.nv21ToRgb
    simp only [forRange, loopFrom]
    have e0 : loadByte [123] 0 = .ok 123 := by decide
    have e1 : loadByte [123] 1 = .error .outOfBounds := by decide
    simp [hl, e0, e1, bind, Except.bind]
  unfold FrameUtils.convertFormat
  simp [exOddNv21, FrameUtils.calcRgbSize, toSizeT, h1, bind, Except.bind]

/-! ## The decode loop -/

theorem decodeLoop_succ (svc : MediaService) (fuel : Nat) (r : MediaReader) :
    MediaReader.decodeLoop svc (fuel + 1) r =
      (if (svc.polls r.svcCursor).outputIndex ≥ 0 then
        match (if (svc.polls r.svcCursor).outSize > 0 then (svc.polls r.svcCursor).outputBuffer
          else none) with
        | some outputBuffer =>
          match memcpy (vectorResize
              (inputSide (svc.polls r.svcCursor)
                { r with svcCursor := r.svcCursor + 1 }).m_frameBuffer
              (svc.polls r.svcCursor).outSize.toNat) outputBuffer
              (svc.polls r.svcCursor).outSize.toNat with
          | .ok buf =>
            .ok (true, { inputSide (svc.polls r.svcCursor)
                { r with svcCursor := r.svcCursor + 1 } with
              m_frameBuffer := buf,
              m_currentPosition := (svc.polls r.svcCursor).outTime }.call
                (.releaseOutputBuffer (svc.polls r.svcCursor).outputIndex))
          | .error e => .error e
        | none => MediaReader.decodeLoop svc fuel
            ((inputSide (svc.polls r.svcCursor) { r with svcCursor := r.svcCursor + 1 }).call
              (.releaseOutputBuffer (svc.polls r.svcCursor).outputIndex))
      else if (svc.polls r.svcCursor).outputIndex = AMEDIACODEC_INFO_OUTPUT_FORMAT_CHANGED then
        match (svc.polls r.svcCursor).outputFormat with
        | some format =>
          MediaReader.decodeLoop svc fuel
            { inputSide (svc.polls r.svcCursor) { r with svcCursor := r.svcCursor + 1 } with
              m_width := format.width.getD
                (inputSide (svc.polls r.svcCursor)
                  { r with svcCursor := r.svcCursor + 1 }).m_width,
              m_height := format.height.getD
                (inputSide (svc.polls r.svcCursor)
                  { r with svcCursor := r.svcCursor + 1 }).m_height }
        | none => MediaReader.decodeLoop svc fuel
            (inputSide (svc.polls r.svcCursor) { r with svcCursor := r.svcCursor + 1 })
      else MediaReader.decodeLoop svc fuel
        (inputSide (svc.polls r.svcCursor) { r with svcCursor := r.svcCursor + 1 })) := rfl

/-- What the input side leaves alone, and what it records. -/
theorem inputSide_facts (p : CodecPoll) (r : MediaReader) :
    (inputSide p r).svcCursor = r.svcCursor ∧
    r.svcCalls <:+ (inputSide p r).svcCalls ∧
    (p.endOfStream →
      [ServiceCall.queueInputBuffer p.inputIndex 0 0, ServiceCall.seekTo 0] <:+:
        (inputSide p r).svcCalls) := by
  unfold inputSide MediaReader.call
  split_ifs with h1 h2 h3
  · exact ⟨rfl, ⟨[_, _], rfl⟩, fun h => absurd h3 (not_le.mpr h.2.2)⟩
  · exact ⟨rfl, ⟨[_, _], rfl⟩, fun _ => ⟨[], r.svcCalls, rfl⟩⟩
  · exact ⟨rfl, List.suffix_refl _, fun h => absurd h.2.1 h2⟩
  · exact ⟨rfl, List.suffix_refl _, fun h => absurd h.1 h1⟩


theorem memcpy_resize (fb ob buf : List Nat) (n : Nat)
    (h : memcpy (vectorResize fb n) ob n = .ok buf) : n ≤ ob.length ∧ buf = ob.take n := by
  unfold memcpy at h
  split at h
  · rename_i hc
    simp only [Except.ok.injEq] at h
    refine ⟨hc.2, ?_⟩
    rw [← h, List.drop_of_length_le (by rw [vectorResize_length]), List.append_nil]
  · cases h

theorem memcpy_resize_ok (fb ob : List Nat) (n : Nat) (h : n ≤ ob.length) :
    memcpy (vectorResize fb n) ob n = .ok (ob.take n) := by
  unfold memcpy
  rw [if_pos ⟨by rw [vectorResize_length], h⟩,
    List.drop_of_length_le (by rw [vectorResize_length]), List.append_nil]

/-- One iteration without output, then a run that ends at poll `k`. -/
theorem decodedAt_step (svc : MediaService) (r r2 r' : MediaReader) (k : Nat)
    (hc : r2.svcCursor = r.svcCursor + 1) (hno : ¬ (svc.polls r.svcCursor).hasOutput)
    (hs : r.svcCalls <:+ r2.svcCalls)
    (he : (svc.polls r.svcCursor).endOfStream →
      [ServiceCall.queueInputBuffer (svc.polls r.svcCursor).inputIndex 0 0,
        ServiceCall.seekTo 0] <:+: r2.svcCalls)
    (h : DecodedAt svc r2 r' k) : DecodedAt svc r r' k := by
  obtain ⟨a1, a2, a3, a4, a5, a6, a7, a8⟩ := h
  refine ⟨by omega, a2, a3, ?_, a5, a6, ?_, hs.trans a8⟩
  · intro j hj1 hj2
    by_cases hj : j = r.svcCursor
    · rw [hj]; exact hno
    · exact a4 j (by omega) hj2
  · intro j hj1 hj2 heos
    by_cases hj : j = r.svcCursor
    · rw [hj] at heos ⊢
      exact (he heos).trans a8.isInfix
    · exact a7 j (by omega) hj2 heos

/-- Whatever the decode loop returns is a success that ends at a poll with output. -/
theorem decodeLoop_sound (svc : MediaService) :
    ∀ (fuel : Nat) (r : MediaReader) (b : Bool) (r' : MediaReader),
      MediaReader.decodeLoop svc fuel r = .ok (b, r') → b = true ∧ ∃ k, DecodedAt svc r r' k
  | 0, r, b, r', h => by cases h
  | fuel + 1, r, b, r', h => by
    rw [decodeLoop_succ] at h
    obtain ⟨f1, f2, f3⟩ := inputSide_facts (svc.polls r.svcCursor)
      { r with svcCursor := r.svcCursor + 1 }
    generalize inputSide (svc.polls r.svcCursor) { r with svcCursor := r.svcCursor + 1 } = r1
      at h f1 f2 f3
    have f1' : r1.svcCursor = r.svcCursor + 1 := f1
    have f2' : r.svcCalls <:+ r1.svcCalls := f2
    by_cases ho : (svc.polls r.svcCursor).outputIndex ≥ 0
    · rw [if_pos ho] at h
      by_cases hsz : (svc.polls r.svcCursor).outSize > 0
      · rw [if_pos hsz] at h
        cases hb : (svc.polls r.svcCursor).outputBuffer with
        | none =>
          rw [hb] at h
          obtain ⟨e1, k, e2⟩ := decodeLoop_sound svc fuel _ b r' h
          refine ⟨e1, k, decodedAt_step svc r
            (r1.call (.releaseOutputBuffer (svc.polls r.svcCursor).outputIndex)) r' k f1'
            (fun hh => hh.2.2 hb) ?_ ?_ e2⟩
          · exact f2'.trans (List.suffix_cons _ _)
          · intro heos
            exact (f3 heos).trans (List.suffix_cons _ _).isInfix
        | some ob =>
          rw [hb] at h
          simp only at h
          cases hm : memcpy (vectorResize r1.m_frameBuffer
              (svc.polls r.svcCursor).outSize.toNat) ob
              (svc.polls r.svcCursor).outSize.toNat with
          | error e => rw [hm] at h; cases h
          | ok buf =>
            rw [hm] at h
            simp only [Except.ok.injEq, Prod.mk.injEq] at h
            obtain ⟨hb1, hr⟩ := h
            obtain ⟨_, hbuf⟩ := memcpy_resize _ _ _ _ hm
            refine ⟨hb1.symm, r.svcCursor, le_refl _, ?_, ⟨ho, hsz, by rw [hb]; simp⟩,
              fun j h1 h2 => by omega, ⟨ob, hb, ?_⟩, ?_, ?_, ?_⟩
            · rw [← hr]; exact f1'
            · rw [← hr]; exact hbuf
            · rw [← hr]; rfl
            · intro j hj1 hj2 heos
              have hj : j = r.svcCursor := by omega
              rw [hj] at heos ⊢
              rw [← hr]
              exact (f3 heos).trans (List.suffix_cons _ _).isInfix
            · rw [← hr]
              exact f2'.trans (List.suffix_cons _ _)
      · rw [if_neg hsz] at h
        obtain ⟨e1, k, e2⟩ := decodeLoop_sound svc fuel _ b r' h
        refine ⟨e1, k, decodedAt_step svc r
          (r1.call (.releaseOutputBuffer (svc.polls r.svcCursor).outputIndex)) r' k f1'
          (fun hh => hsz hh.2.1) ?_ ?_ e2⟩
        · exact f2'.trans (List.suffix_cons _ _)
        · intro heos
          exact (f3 heos).trans (List.suffix_cons _ _).isInfix
    · rw [if_neg ho] at h
      by_cases hf : (svc.polls r.svcCursor).outputIndex = AMEDIACODEC_INFO_OUTPUT_FORMAT_CHANGED
      · rw [if_pos hf] at h
        cases hfm : (svc.polls r.svcCursor).outputFormat with
        | none =>
          rw [hfm] at h
          obtain ⟨e1, k, e2⟩ := decodeLoop_sound svc fuel _ b r' h
          exact ⟨e1, k, decodedAt_step svc r _ r' k f1' (fun hh => ho hh.1) f2' f3 e2⟩
        | some format =>
          rw [hfm] at h
          obtain ⟨e1, k, e2⟩ := decodeLoop_sound svc fuel _ b r' h
          exact ⟨e1, k, decodedAt_step svc r _ r' k f1' (fun hh => ho hh.1) f2' f3 e2⟩
      · rw [if_neg hf] at h
        obtain ⟨e1, k, e2⟩ := decodeLoop_sound svc fuel _ b r' h
        exact ⟨e1, k, decodedAt_step svc r _ r' k f1' (fun hh => ho hh.1) f2' f3 e2⟩

/-- The decode loop returns once a poll has output, given iterations enough to reach it
and output buffers that hold the bytes announced. -/
theorem decodeLoop_returns (svc : MediaService)
    (hlen : ∀ j buf, (svc.polls j).outputBuffer = some buf →
      (svc.polls j).outSize.toNat ≤ buf.length) :
    ∀ (fuel : Nat) (r : MediaReader) (k : Nat), r.svcCursor ≤ k → k < r.svcCursor + fuel →
      (svc.polls k).hasOutput → ∃ r', MediaReader.decodeLoop svc fuel r = .ok (true, r')
  | 0, r, k, h1, h2, _ => by omega
  | fuel + 1, r, k, h1, h2, hk => by
    rw [decodeLoop_succ]
    obtain ⟨f1, _, _⟩ := inputSide_facts (svc.polls r.svcCursor)
      { r with svcCursor := r.svcCursor + 1 }
    generalize inputSide (svc.polls r.svcCursor) { r with svcCursor := r.svcCursor + 1 } = r1
      at f1 ⊢
    have f1' : r1.svcCursor = r.svcCursor + 1 := f1
    have hrec : ∀ r2 : MediaReader, r2.svcCursor = r.svcCursor + 1 →
        ¬ (svc.polls r.svcCursor).hasOutput →
        ∃ r', MediaReader.decodeLoop svc fuel r2 = .ok (true, r') := by
      intro r2 hc hno
      have hne : k ≠ r.svcCursor := fun e => hno (e ▸ hk)
      exact decodeLoop_returns svc hlen fuel r2 k (by omega) (by omega) hk
    by_cases ho : (svc.polls r.svcCursor).outputIndex ≥ 0
    · rw [if_pos ho]
      by_cases hsz : (svc.polls r.svcCursor).outSize > 0
      · rw [if_pos hsz]
        cases hb : (svc.polls r.svcCursor).outputBuffer with
        | none => exact hrec _ f1' (fun hh => hh.2.2 hb)
        | some ob =>
          simp only
          rw [memcpy_resize_ok _ _ _ (hlen _ _ hb)]
          exact ⟨_, rfl⟩
      · rw [if_neg hsz]
        exact hrec _ f1' (fun hh => hsz hh.2.1)
    · rw [if_neg ho]
      by_cases hf : (svc.polls r.svcCursor).outputIndex = AMEDIACODEC_INFO_OUTPUT_FORMAT_CHANGED
      · rw [if_pos hf]
        cases hfm : (svc.polls r.svcCursor).outputFormat with
        | none => exact hrec _ f1' (fun hh => ho hh.1)
        | some format => exact hrec _ f1' (fun hh => ho hh.1)
      · rw [if_neg hf]
        exact hrec _ f1' (fun hh => ho hh.1)


theorem getNextFrame_video_eq (env : Env) (fuel : Nat) (fresh : Nat → Nat) (r : MediaReader)
    (frame : FrameData) (hready : r.m_ready = true) (hvideo : r.m_isVideo = true)
    (hext : r.m_mediaExtractor = true) (hcodec : r.m_mediaCodec = true)
    (hfree : r.m_mutex = false) :
    MediaReader.getNextFrame env fuel fresh r frame =
      match MediaReader.decodeLoop env.media fuel { r with m_mutex := true } with
      | .ok (true, r') =>
        .ok (true, MediaReader.unlockGuard r',
          { frame with width := r'.m_width, height := r'.m_height, format := 1,
                       stride := r'.m_width, size := r'.m_frameBuffer.length,
                       data := some r'.m_frameBuffer, timestamp := r'.m_currentPosition })
      | .ok (false, r') => .ok (false, MediaReader.unlockGuard r', frame)
      | .error e => .error e := by
  obtain ⟨m_ready, m_isVideo, m_hasAudio, m_path, m_width, m_height, m_frameRate, m_duration,
    m_currentPosition, m_frameBuffer, m_frameFormat, m_mediaExtractor, m_mediaCodec,
    m_trackIndex, m_imageData, m_mutex, svcCursor, svcCalls⟩ := r
  simp only at hready hvideo hext hcodec hfree
  subst hready hvideo hext hcodec hfree
  unfold MediaReader.getNextFrame MediaReader.lockGuard MediaReader.decodeVideoFrame
  simp only [Bool.false_eq_true, if_false, ok_bind, Bool.not_true, Bool.or_self, if_true]
  generalize MediaReader.decodeLoop env.media fuel _ = res
  cases res with
  | error e => rfl
  | ok res =>
    obtain ⟨b, r'⟩ := res
    cases b with
    | false => rfl
    | true =>
      simp only [ok_bind, Bool.not_true, Bool.false_eq_true, if_false]
      rw [memcpy_all _ _ (by rw [length_newArray])]
      rfl

/-! ## Scaling: source coordinates within the frame -/

theorem roundHalfEven_tie (n : ℤ) :
    roundHalfEven ((n : ℚ) + 1 / 2) = if n % 2 = 0 then n else n + 1 := by
  have hf : ⌊(n : ℚ) + 1 / 2⌋ = n := by
    rw [Int.floor_eq_iff]
    constructor <;> linarith
  unfold roundHalfEven
  rw [hf]
  have e : (n : ℚ) + 1 / 2 - (n : ℚ) = 1 / 2 := by ring
  rw [e, if_neg (lt_irrefl _), if_neg (lt_irrefl _)]

theorem roundHalfEven_le_add_half (x : ℚ) : (roundHalfEven x : ℚ) ≤ x + 1 / 2 := by
  unfold roundHalfEven
  have h1 := Int.floor_le x
  split
  · linarith
  · rename_i h
    split
    · push_cast; linarith
    · rename_i h2
      have : x - (⌊x⌋ : ℚ) = 1 / 2 := le_antisymm (not_lt.mp h2) (not_lt.mp h)
      split
      · linarith
      · push_cast; linarith

/-- Rounding to `float` raises a positive number by at most the factor `1 + 2^-24`. -/
theorem f32_le_rel (q : ℚ) (hq : 0 ≤ q) : f32 q ≤ q * (1 + 1 / 2 ^ (24 : ℕ)) := by
  rcases eq_or_lt_of_le hq with h0 | hpos
  · rw [← h0, f32_zero]; norm_num
  obtain ⟨b1, _⟩ := significand_bounds q hpos
  unfold f32
  generalize Int.log 2 |q| = L at *
  have hs : (0 : ℚ) < 2 ^ (L - 23) := zpow_pos (by norm_num) _
  have hr := roundHalfEven_le_add_half (q / 2 ^ (L - 23))
  have hx : (1 : ℚ) / 2 ≤ q / 2 ^ (L - 23) * (1 / 2 ^ (24 : ℕ)) := by
    have : (2 : ℚ) ^ (23 : ℕ) * (1 / 2 ^ (24 : ℕ)) = 1 / 2 := by norm_num
    rw [← this]
    exact mul_le_mul_of_nonneg_right b1 (by positivity)
  calc (roundHalfEven (q / 2 ^ (L - 23)) : ℚ) * 2 ^ (L - 23)
      ≤ (q / 2 ^ (L - 23) + 1 / 2) * 2 ^ (L - 23) :=
        mul_le_mul_of_nonneg_right hr (le_of_lt hs)
    _ ≤ (q / 2 ^ (L - 23) + q / 2 ^ (L - 23) * (1 / 2 ^ (24 : ℕ))) * 2 ^ (L - 23) :=
        mul_le_mul_of_nonneg_right (by linarith) (le_of_lt hs)
    _ = q * (1 + 1 / 2 ^ (24 : ℕ)) := by
        field_simp
        ring

/-- For source dimensions below 2^24 and target dimensions up to 2^22 the source
coordinate that `scaleFrame` computes lies inside the source. -/
theorem srcCoord0_in_bounds (w tw x : Int) (hw0 : 0 < w) (hw : w < 2 ^ 24) (htw0 : 0 < tw)
    (htw : tw ≤ 2 ^ 22) (hx0 : 0 ≤ x) (hx : x < tw) :
    0 ≤ srcCoord0 w tw x ∧ srcCoord0 w tw x < w := by
  have hwa : |w| < 2 ^ 24 := by rw [abs_of_nonneg (by omega)]; exact hw
  have htwa : |tw| < 2 ^ 24 := by rw [abs_of_nonneg (by omega)]; omega
  have hxa : |x| < 2 ^ 24 := by rw [abs_of_nonneg hx0]; omega
  have hwq : (0 : ℚ) < (w : ℚ) := by exact_mod_cast hw0
  have htwq : (0 : ℚ) < (tw : ℚ) := by exact_mod_cast htw0
  have hxq0 : (0 : ℚ) ≤ (x : ℚ) := by exact_mod_cast hx0
  have hxq : (x : ℚ) ≤ (tw : ℚ) - 1 := by
    have : x ≤ tw - 1 := by omega
    exact_mod_cast this
  have htwq' : (tw : ℚ) ≤ 2 ^ (22 : ℕ) := by exact_mod_cast htw
  unfold srcCoord0 fdiv fmul
  rw [intToFloat_small w hwa, intToFloat_small tw htwa, intToFloat_small x hxa]
  have hr0 : 0 ≤ f32 ((w : ℚ) / tw) := f32_nonneg _ (by positivity)
  have hr1 : f32 ((w : ℚ) / tw) ≤ (w : ℚ) / tw * (1 + 1 / 2 ^ (24 : ℕ)) :=
    f32_le_rel _ (by positivity)
  generalize f32 ((w : ℚ) / tw) = r at hr0 hr1
  have hp0 : 0 ≤ (x : ℚ) * r := mul_nonneg hxq0 hr0
  have hp1 := f32_le_rel _ hp0
  have hm0 : 0 ≤ f32 ((x : ℚ) * r) := f32_nonneg _ hp0
  have hlt : f32 ((x : ℚ) * r) < (w : ℚ) := by
    have e1 : (x : ℚ) * r ≤ ((tw : ℚ) - 1) * ((w : ℚ) / tw * (1 + 1 / 2 ^ (24 : ℕ))) := by
      calc (x : ℚ) * r ≤ ((tw : ℚ) - 1) * r := mul_le_mul_of_nonneg_right hxq hr0
        _ ≤ ((tw : ℚ) - 1) * ((w : ℚ) / tw * (1 + 1 / 2 ^ (24 : ℕ))) :=
            mul_le_mul_of_nonneg_left hr1 (by linarith)
    have e2 : f32 ((x : ℚ) * r) ≤
        ((tw : ℚ) - 1) * ((w : ℚ) / tw * (1 + 1 / 2 ^ (24 : ℕ))) * (1 + 1 / 2 ^ (24 : ℕ)) :=
      le_trans hp1 (mul_le_mul_of_nonneg_right e1 (by norm_num))
    have e3 : ((tw : ℚ) - 1) * ((w : ℚ) / tw * (1 + 1 / 2 ^ (24 : ℕ))) *
        (1 + 1 / 2 ^ (24 : ℕ)) =
        (w : ℚ) * ((((tw : ℚ) - 1) * ((1 + 1 / 2 ^ (24 : ℕ)) * (1 + 1 / 2 ^ (24 : ℕ)))) / tw) := by
      field_simp
      ring
    have e4 : (((tw : ℚ) - 1) * ((1 + 1 / 2 ^ (24 : ℕ)) * (1 + 1 / 2 ^ (24 : ℕ)))) / tw < 1 := by
      rw [div_lt_one htwq]
      nlinarith
    calc f32 ((x : ℚ) * r) ≤ _ := e2
      _ = (w : ℚ) * _ := e3
      _ < (w : ℚ) * 1 := mul_lt_mul_of_pos_left e4 hwq
      _ = w := mul_one _
  rw [floatToInt_of_nonneg _ hm0]
  exact ⟨Int.floor_nonneg.mpr hm0, Int.floor_lt.mpr hlt⟩

theorem scaleFrame_bounded_run (fresh : Nat → Nat) (src dst : FrameData) (tw th : Int)
    (h : ValidPacked src) (hw : src.width < 2 ^ 24) (hh : src.height < 2 ^ 24)
    (htw0 : 0 < tw) (htw : tw ≤ 2 ^ 22) (hth0 : 0 < th) (hth : th ≤ 2 ^ 22)
    (hsz : tw * bytesPerPixel src.format * th < 2 ^ 31) :
    ∃ d, FrameUtils.scaleFrame fresh src dst tw th =
        .ok (true, { dst with width := tw, height := th, format := src.format,
                              stride := tw * bytesPerPixel src.format,
                              size := toSizeT (tw * bytesPerPixel src.format * th),
                              data := some d }) ∧
      (d.length : Int) = tw * bytesPerPixel src.format * th ∧
      ∀ x y c, 0 ≤ x → x < tw → 0 ≤ y → y < th → 0 ≤ c → c < bytesPerPixel src.format →
        peek d ((y * tw + x) * bytesPerPixel src.format + c) =
          scaleSample src.bytes src.width src.height (bytesPerPixel src.format) tw th x y c :=
  scaleFrame_run fresh src dst tw th h (by omega) (by omega) hsz
    (fun x hx0 hx1 => srcCoord0_in_bounds src.width tw x h.2.2.1 hw htw0 htw hx0 hx1)
    (fun y hy0 hy1 => srcCoord0_in_bounds src.height th y h.2.2.2.1 hh hth0 hth hy0 hy1)

/-- With horizontal weight 1/2 and vertical weight 0 the blend is the mean of the two
samples of the upper row. -/
theorem bilinear_half_zero_mean (a b c d : ℕ) (ha : a < 256) (hb : b < 256) :
    bilinear a b c d (1 / 2) 0 = (((a : ℤ) : ℚ) + ((b : ℤ) : ℚ)) / 2 := by
  have hsa : |(a : ℤ)| < 2 ^ 24 := by rw [abs_of_nonneg (by omega)]; omega
  have hsb : |(b : ℤ)| < 2 ^ 24 := by rw [abs_of_nonneg (by omega)]; omega
  have hsab : |(a : ℤ) + (b : ℤ)| < 2 ^ 24 := by rw [abs_of_nonneg (by omega)]; omega
  have e1 : (1 : ℚ) - 1 / 2 = 1 / 2 := by norm_num
  have half : ∀ m : ℤ, |m| < 2 ^ 24 → f32 ((m : ℚ) / 2) = (m : ℚ) / 2 := by
    intro m hm
    have := f32_exact m (-1) hm
    have e : (m : ℚ) * 2 ^ (-1 : ℤ) = (m : ℚ) / 2 := by norm_num; ring
    rwa [e] at this
  have qa := half a hsa
  have qb := half b hsb
  have qab : f32 (((a : ℤ) : ℚ) / 2 + ((b : ℤ) : ℚ) / 2) =
      ((a : ℤ) : ℚ) / 2 + ((b : ℤ) : ℚ) / 2 := by
    have := half (a + b) hsab
    push_cast at this
    have e : (((a : ℤ) : ℚ) + ((b : ℤ) : ℚ)) / 2 = ((a : ℤ) : ℚ) / 2 + ((b : ℤ) : ℚ) / 2 := by
      ring
    rw [Int.cast_natCast, Int.cast_natCast] at e ⊢
    rw [e] at this
    exact this
  have ea : ((a : ℤ) : ℚ) * (1 / 2) = ((a : ℤ) : ℚ) / 2 := by ring
  have eb : ((b : ℤ) : ℚ) * (1 / 2) = ((b : ℤ) : ℚ) / 2 := by ring
  simp only [bilinear, fadd, fsub, fmul, intToFloat, Int.cast_one, sub_zero, f32_one, mul_one,
    mul_zero, f32_zero, add_zero, f32_natCast a ha, f32_natCast b hb, e1, f32_half, ea, eb,
    qa, qb, qab]
  ring

theorem validPacked_exBlend : ValidPacked exBlend := by decide

/-! ## Scaling a row wider than 2^24 pixels -/

theorem loopFrom_fault {σ : Type} (P : Int → σ → Prop) (body : Int → σ → Exec σ) (e : Fault) :
    ∀ (k : Nat) (i : Int) (s : σ) (m : Nat), m < k → P i s →
      (∀ j t, i ≤ j → j < i + m → P j t → ∃ t', body j t = .ok t' ∧ P (j + 1) t') →
      (∀ t, P (i + m) t → body (i + m) t = .error e) →
      loopFrom body k i s = .error e
  | 0, _, _, m, hm, _, _, _ => by omega
  | k + 1, i, s, 0, _, h0, _, hfail => by
    have := hfail s (by simpa using h0)
    simp only [Nat.cast_zero, add_zero] at this
    simp [loopFrom, this]
  | k + 1, i, s, m + 1, hm, h0, hstep, hfail => by
    obtain ⟨t, ht, hP⟩ := hstep i s (le_refl _) (by push_cast; omega) h0
    have := loopFrom_fault P body e k (i + 1) t m (by omega) hP
      (fun j u hj1 hj2 hPj => hstep j u (by omega) (by push_cast; omega) hPj)
      (fun u hu => by
        have e1 : i + 1 + (m : Int) = i + ((m + 1 : Nat) : Int) := by push_cast; ring
        rw [e1] at hu ⊢
        exact hfail u hu)
    simp [loopFrom, ht, this]

/-- A counting loop whose iterations before `k` succeed and whose iteration `k` faults
ends with that fault. -/
theorem forRange_fault {σ : Type} (P : Int → σ → Prop) (n k : Int) (hk0 : 0 ≤ k) (hk : k < n)
    (body : Int → σ → Exec σ) (e : Fault) (s : σ) (h0 : P 0 s)
    (hstep : ∀ j t, 0 ≤ j → j < k → P j t → ∃ t', body j t = .ok t' ∧ P (j + 1) t')
    (hfail : ∀ t, P k t → body k t = .error e) :
    forRange n body s = .error e := by
  have hk' : ((k.toNat : Nat) : Int) = k := Int.toNat_of_nonneg hk0
  refine loopFrom_fault P body e n.toNat 0 s k.toNat (by omega) h0
    (fun j t hj1 hj2 hP => hstep j t hj1 (by omega) hP) ?_
  intro t ht
  rw [hk', zero_add] at ht ⊢
  exact hfail t ht

theorem bind_of_error {α β : Type} (m : Exec α) (f : α → Exec β) (e : Fault)
    (h : m = .error e) : m >>= f = .error e := by
  rw [h]; rfl

/-- One channel of one destination pixel of `scaleFrame`, the source coordinates being
inside the source: the four loads succeed and the byte stored is `scaleSample`. -/
theorem scaleBody_ok (sdata t : Buf) (w h bpp tw th y x c : Int) (hw : 0 < w)
    (hb : 0 < bpp) (hlen : (sdata.length : Int) = h * w * bpp) (hc0 : 0 ≤ c) (hc1 : c < bpp)
    (hX : 0 ≤ srcCoord0 w tw x ∧ srcCoord0 w tw x < w)
    (hY : 0 ≤ srcCoord0 h th y ∧ srcCoord0 h th y < h) :
    (do
      let v00 ← loadByte sdata ((srcCoord0 h th y * w + srcCoord0 w tw x) * bpp + c)
      let v01 ← loadByte sdata ((srcCoord0 h th y * w + srcCoord1 w tw x) * bpp + c)
      let v10 ← loadByte sdata ((srcCoord1 h th y * w + srcCoord0 w tw x) * bpp + c)
      let v11 ← loadByte sdata ((srcCoord1 h th y * w + srcCoord1 w tw x) * bpp + c)
      storeByte t ((y * tw + x) * bpp + c)
        (clamp (floatToInt (bilinear v00 v01 v10 v11 (srcFrac w tw x) (srcFrac h th y))))) =
      storeByte t ((y * tw + x) * bpp + c) (scaleSample sdata w h bpp tw th x y c) := by
  obtain ⟨a0, a1⟩ := hX
  obtain ⟨b0, b1⟩ := hY
  have a2 : 0 ≤ srcCoord1 w tw x ∧ srcCoord1 w tw x < w := by
    unfold srcCoord1; omega
  have b2 : 0 ≤ srcCoord1 h th y ∧ srcCoord1 h th y < h := by
    unfold srcCoord1; omega
  have inb : ∀ sy sx : Int, 0 ≤ sy → sy < h → 0 ≤ sx → sx < w →
      0 ≤ (sy * w + sx) * bpp + c ∧ (sy * w + sx) * bpp + c < sdata.length := by
    intro sy sx h1 h2 h3 h4
    have p0 := pos_nonneg sy w sx h1 (by omega) h3
    have p1 := pos_lt sy h w sx h2 h4 (by omega)
    have q0 := mul_nonneg p0 (by omega : 0 ≤ bpp)
    have q1 := mul_succ_le _ _ bpp p1 (by omega)
    omega
  rw [loadByte_ok (inb _ _ b0 b1 a0 a1).1 (inb _ _ b0 b1 a0 a1).2,
    loadByte_ok (inb _ _ b0 b1 a2.1 a2.2).1 (inb _ _ b0 b1 a2.1 a2.2).2,
    loadByte_ok (inb _ _ b2.1 b2.2 a0 a1).1 (inb _ _ b2.1 b2.2 a0 a1).2,
    loadByte_ok (inb _ _ b2.1 b2.2 a2.1 a2.2).1 (inb _ _ b2.1 b2.2 a2.1 a2.2).2]
  rfl

theorem f32_wide : f32 16777220 = 16777220 := by
  have := f32_exact 8388610 1 (by norm_num)
  have e : ((8388610 : ℤ) : ℚ) * 2 ^ (1 : ℤ) = 16777220 := by norm_num
  rwa [e] at this

theorem f32_wide_pred : f32 16777218 = 16777218 := by
  have := f32_exact 8388609 1 (by norm_num)
  have e : ((8388609 : ℤ) : ℚ) * 2 ^ (1 : ℤ) = 16777218 := by norm_num
  rwa [e] at this

/-- The `int` 16777219 = 2^24 + 3 is not a `float`; it lies half way between 16777218 and
16777220 and is converted to 16777220, whose significand is even. -/
theorem f32_wide_tie : f32 16777219 = 16777220 := by
  rw [f32_of_log 16777219 24 (by norm_num [abs_of_pos]) (by norm_num [abs_of_pos])]
  have e : (16777219 : ℚ) / 2 ^ ((24 : ℤ) - 23) = ((8388609 : ℤ) : ℚ) + 1 / 2 := by norm_num
  rw [e, roundHalfEven_tie]
  norm_num

theorem fdiv_wide : fdiv (intToFloat 16777220) (intToFloat 16777220) = 1 := by
  unfold fdiv intToFloat
  have c : ((16777220 : ℤ) : ℚ) = 16777220 := by norm_num
  rw [c, f32_wide]
  norm_num
  exact f32_one

/-- Scaling a row of 16777220 pixels to 16777220 pixels: the source column computed for
the destination columns up to 16777218 lies inside the row. -/
theorem srcCoord0_wide (x : Int) (hx0 : 0 ≤ x) (hx : x ≤ 16777218) :
    0 ≤ srcCoord0 16777220 16777220 x ∧ srcCoord0 16777220 16777220 x < 16777220 := by
  unfold srcCoord0
  rw [fdiv_wide]
  unfold fmul intToFloat
  rw [mul_one]
  have hxq0 : (0 : ℚ) ≤ (x : ℚ) := by exact_mod_cast hx0
  have hxq : (x : ℚ) ≤ 16777218 := by exact_mod_cast hx
  have h1 : 0 ≤ f32 (x : ℚ) := f32_nonneg _ hxq0
  have h2 : f32 (x : ℚ) ≤ 16777218 := by
    have := f32_mono_of_nonneg _ _ hxq0 hxq
    rwa [f32_wide_pred] at this
  have h3 : 0 ≤ f32 (f32 (x : ℚ)) := f32_nonneg _ h1
  have h4 : f32 (f32 (x : ℚ)) ≤ 16777218 := by
    have := f32_mono_of_nonneg _ _ h1 h2
    rwa [f32_wide_pred] at this
  rw [floatToInt_of_nonneg _ h3]
  refine ⟨Int.floor_nonneg.mpr h3, Int.floor_lt.mpr ?_⟩
  have : (16777218 : ℚ) < ((16777220 : ℤ) : ℚ) := by norm_num
  exact lt_of_le_of_lt h4 this

/-- The source column computed for the last destination column, 16777219, is 16777220:
one past the end of the row. -/
theorem srcCoord0_wide_last : srcCoord0 16777220 16777220 16777219 = 16777220 := by
  unfold srcCoord0
  rw [fdiv_wide]
  unfold fmul intToFloat
  have c : ((16777219 : ℤ) : ℚ) = 16777219 := by norm_num
  rw [mul_one, c, f32_wide_tie, f32_wide]
  have := floatToInt_intCast 16777220
  norm_num at this
  exact this

theorem validPacked_exHuge : ValidPacked exHuge := by
  refine ⟨rfl, Or.inr rfl, by decide, by decide, by decide, by decide, ?_, by decide⟩
  exact List.length_replicate _ _

/-- Scaling a valid RGB24 row of 16777220 pixels to 16777220 pixels: the destination
columns up to 16777218 are computed, and for column 16777219 the first sample is read at
byte 16777220 * 3, the first byte after the source buffer. -/
theorem scaleFrame_wide_fault (fresh : Nat → Nat) (src dst : FrameData) (h : ValidPacked src)
    (hf : src.format = 3) (hw : src.width = 16777220) (hh : src.height = 1) :
    FrameUtils.scaleFrame fresh src dst 16777220 1 = .error .outOfBounds := by
  obtain ⟨hdata, hfmt, hw0, hh0, hstride, hsize, hlen, hbound⟩ := h
  obtain ⟨sdata, hsd⟩ := Option.isSome_iff_exists.mp hdata
  have hbytes : src.bytes = sdata := by simp [FrameData.bytes, hsd]
  rw [hbytes] at hlen
  have hbpp : bytesPerPixel src.format = 3 := by rw [hf]; rfl
  rw [hstride, hbpp, hw, hh] at hsize
  have hsz0 : src.size ≠ 0 := by omega
  have hslen : (sdata.length : Int) = 1 * 16777220 * 3 := by rw [hlen, hsize]; norm_num
  have hT : (toSizeT (16777220 * 3 * 1) : Int) = 16777220 * 3 * 1 :=
    toSizeT_of_lt _ (by norm_num) (by norm_num)
  have hY : 0 ≤ srcCoord0 1 1 0 ∧ srcCoord0 1 1 0 < 1 := by
    rw [srcCoord0_same 1 0 (by norm_num) (by norm_num) (by norm_num)]; omega
  have hloop : forRange 1 (fun y d =>
      forRange 16777220 (fun x d =>
        forRange 3 (fun c d => do
          let v00 ← loadByte sdata
            ((srcCoord0 1 1 y * 16777220 + srcCoord0 16777220 16777220 x) * 3 + c)
          let v01 ← loadByte sdata
            ((srcCoord0 1 1 y * 16777220 + srcCoord1 16777220 16777220 x) * 3 + c)
          let v10 ← loadByte sdata
            ((srcCoord1 1 1 y * 16777220 + srcCoord0 16777220 16777220 x) * 3 + c)
          let v11 ← loadByte sdata
            ((srcCoord1 1 1 y * 16777220 + srcCoord1 16777220 16777220 x) * 3 + c)
          storeByte d ((y * 16777220 + x) * 3 + c)
            (clamp (floatToInt (bilinear v00 v01 v10 v11 (srcFrac 16777220 16777220 x)
              (srcFrac 1 1 y))))) d) d)
      (newArray fresh (toSizeT (16777220 * 3 * 1))) = .error .outOfBounds := by
    apply forRange_fault (fun _ d => (d.length : Int) = 16777220 * 3 * 1) 1 0 (le_refl _)
      (by norm_num)
    · rw [length_newArray, hT]
    · intro j t hj0 hj1 _
      omega
    · intro t ht
      apply forRange_fault (fun _ d => (d.length : Int) = 16777220 * 3 * 1) 16777220 16777219
        (by norm_num) (by norm_num)
      · exact ht
      · intro x u hx0 hx1 hu
        obtain ⟨u', e1, e2, _⟩ := writeLoop u ((0 * 16777220 + x) * 3) 3
          (fun c => scaleSample sdata 16777220 1 3 16777220 1 x 0 c) _ (by norm_num)
          (by omega) (by omega)
          (fun c v hc0 hc1 => scaleBody_ok sdata v 16777220 1 3 16777220 1 0 x c
            (by norm_num) (by norm_num) hslen hc0 hc1
            (srcCoord0_wide x hx0 (by omega)) hY)
        exact ⟨u', e1, by rw [e2]; exact hu⟩
      · intro u _
        apply forRange_fault (fun _ (_ : Buf) => True) 3 0 (le_refl _) (by norm_num)
        · trivial
        · intro j v hj0 hj1 _
          omega
        · intro v _
          have hidx : loadByte sdata
              ((srcCoord0 1 1 0 * 16777220 + srcCoord0 16777220 16777220 16777219) * 3 + 0) =
              .error .outOfBounds := by
            rw [srcCoord0_wide_last,
              srcCoord0_same 1 0 (by norm_num) (by norm_num) (by norm_num)]
            unfold loadByte
            rw [if_neg (by omega)]
          rw [hidx]
          rfl
  have hne : ¬ (src.format ≠ 2 ∧ src.format ≠ 3) := by omega
  have hbpp' : (if src.format = 2 then (4 : Int) else 3) = 3 := hbpp
  simp only [FrameUtils.scaleFrame, hsd, hsz0, if_false, hne, hbpp', hw, hh]
  exact bind_of_error _ _ _ hloop


theorem f32_one_int : f32 ((1 : ℤ) : ℚ) = 1 := by
  rw [Int.cast_one]; exact f32_one

theorem scaledBox_wide_row : scaledBox 16777220 1 16777219 1 = (16777220, 1) := by
  have c0 : ((16777220 : ℤ) : ℚ) = 16777220 := by norm_num
  have c1 : ((16777219 : ℤ) : ℚ) = 16777219 := by norm_num
  have ha : fdiv (intToFloat 16777220) (intToFloat 1) = 16777220 := by
    unfold fdiv intToFloat
    rw [c0, f32_wide, f32_one_int, div_one, f32_wide]
  have hb : fdiv (intToFloat 16777219) (intToFloat 1) = 16777220 := by
    unfold fdiv intToFloat
    rw [c1, f32_wide_tie, f32_one_int, div_one, f32_wide]
  have hm : fmul (intToFloat 1) 16777220 = 16777220 := by
    unfold fmul intToFloat
    rw [f32_one_int, one_mul, f32_wide]
  have hfl : floatToInt (16777220 : ℚ) = 16777220 := by
    have := floatToInt_intCast 16777220
    norm_num at this
    exact this
  unfold scaledBox
  simp only [ha, hb, hm, gt_iff_lt, lt_irrefl, if_false, hfl]

/-! ## The scaled box of `matchResolution` -/

/-- A number already rounded to `float` is not changed by rounding again. -/
theorem f32_idem (q : ℚ) (hq : 0 ≤ q) : f32 (f32 q) = f32 q := by
  rcases eq_or_lt_of_le hq with h0 | hpos
  · rw [← h0, f32_zero, f32_zero]
  obtain ⟨b1, b2⟩ := significand_bounds q hpos
  have hn1 : (2 : ℤ) ^ 23 ≤ roundHalfEven (q / 2 ^ (Int.log 2 |q| - 23)) := by
    have h1 : (2 : ℤ) ^ 23 ≤ ⌊q / 2 ^ (Int.log 2 |q| - 23)⌋ := by
      rw [Int.le_floor]; push_cast; exact b1
    have := roundHalfEven_ge_floor (q / 2 ^ (Int.log 2 |q| - 23))
    omega
  have hn2 : roundHalfEven (q / 2 ^ (Int.log 2 |q| - 23)) ≤ 2 ^ 24 := by
    have h1 : ⌊q / 2 ^ (Int.log 2 |q| - 23)⌋ < 2 ^ 24 := by
      rw [Int.floor_lt]; push_cast; exact b2
    have := roundHalfEven_le_floor_succ (q / 2 ^ (Int.log 2 |q| - 23))
    omega
  have hf : f32 q = (roundHalfEven (q / 2 ^ (Int.log 2 |q| - 23)) : ℚ) *
      2 ^ (Int.log 2 |q| - 23) := rfl
  rw [hf]
  generalize roundHalfEven (q / 2 ^ (Int.log 2 |q| - 23)) = n at hn1 hn2
  generalize Int.log 2 |q| - 23 = e
  rcases eq_or_lt_of_le hn2 with heq | hlt
  · have e1 : (n : ℚ) * 2 ^ e = ((1 : ℤ) : ℚ) * 2 ^ (e + 24) := by
      rw [heq, zpow_add₀ (by norm_num : (2 : ℚ) ≠ 0)]
      push_cast
      ring
    rw [e1]
    exact f32_exact 1 (e + 24) (by norm_num)
  · exact f32_exact n e (by rw [abs_of_nonneg (by omega)]; exact hlt)

/-- A `float` above the rounded value of `q` is above `q`. -/
theorem gt_of_gt_f32 (a q : ℚ) (ha : 0 ≤ a) (hrep : f32 a = a) (h : f32 q < a) : q < a := by
  by_contra hle
  have := f32_mono_of_nonneg a q ha (not_lt.mp hle)
  rw [hrep] at this
  exact absurd h (not_lt.mpr this)

/-- For source and target dimensions below 2^23 the scaled box of `matchResolution` lies
in the target box, and one of its sides is that of the target. -/
theorem scaledBox_fits (w h tw th : Int) (hw0 : 0 < w) (hw : w < 2 ^ 23) (hh0 : 0 < h)
    (hh : h < 2 ^ 23) (htw0 : 0 < tw) (htw : tw < 2 ^ 23) (hth0 : 0 < th) (hth : th < 2 ^ 23) :
    0 ≤ (scaledBox w h tw th).1 ∧ (scaledBox w h tw th).1 ≤ tw ∧
    0 ≤ (scaledBox w h tw th).2 ∧ (scaledBox w h tw th).2 ≤ th ∧
    ((scaledBox w h tw th).1 = tw ∨ (scaledBox w h tw th).2 = th) := by
  have small : ∀ n : Int, 0 < n → n < 2 ^ 23 → |n| < 2 ^ 24 := by
    intro n h0 h1
    rw [abs_of_nonneg (by omega)]; omega
  have hwq : (0 : ℚ) < (w : ℚ) := by exact_mod_cast hw0
  have hhq : (0 : ℚ) < (h : ℚ) := by exact_mod_cast hh0
  have htwq : (0 : ℚ) < (tw : ℚ) := by exact_mod_cast htw0
  have hthq : (0 : ℚ) < (th : ℚ) := by exact_mod_cast hth0
  have ea : fdiv (intToFloat w) (intToFloat h) = f32 ((w : ℚ) / h) := by
    unfold fdiv
    rw [intToFloat_small w (small w hw0 hw), intToFloat_small h (small h hh0 hh)]
  have eb : fdiv (intToFloat tw) (intToFloat th) = f32 ((tw : ℚ) / th) := by
    unfold fdiv
    rw [intToFloat_small tw (small tw htw0 htw), intToFloat_small th (small th hth0 hth)]
  have ha0 : 0 ≤ f32 ((w : ℚ) / h) := f32_nonneg _ (by positivity)
  have harep : f32 (f32 ((w : ℚ) / h)) = f32 ((w : ℚ) / h) := f32_idem _ (by positivity)
  unfold scaledBox
  simp only [ea, eb]
  generalize f32 ((w : ℚ) / h) = a at ha0 harep
  by_cases hab : a > f32 ((tw : ℚ) / th)
  · simp only [hab, if_true]
    have hgt : (tw : ℚ) / th < a := gt_of_gt_f32 a _ ha0 harep hab
    have hapos : 0 < a := lt_of_le_of_lt (by positivity) hgt
    have hq0 : 0 ≤ (tw : ℚ) / a := by positivity
    have hq1 : (tw : ℚ) / a ≤ (th : ℚ) := by
      rw [div_le_iff₀ hapos]
      rw [div_lt_iff₀ hthq] at hgt
      linarith
    have hf : fdiv (intToFloat tw) a = f32 ((tw : ℚ) / a) := by
      unfold fdiv
      rw [intToFloat_small tw (small tw htw0 htw)]
    have hm0 : 0 ≤ f32 ((tw : ℚ) / a) := f32_nonneg _ hq0
    have hm1 : f32 ((tw : ℚ) / a) ≤ (th : ℚ) := by
      have := f32_mono_of_nonneg _ _ hq0 hq1
      rwa [f32_int th (small th hth0 hth)] at this
    rw [hf, floatToInt_of_nonneg _ hm0]
    refine ⟨by omega, le_refl _, Int.floor_nonneg.mpr hm0, ?_, Or.inl trivial⟩
    exact Int.floor_le_iff.mpr (lt_of_le_of_lt hm1 (by linarith))
  · simp only [hab, if_false]
    have hle : a ≤ f32 ((tw : ℚ) / th) := not_lt.mp hab
    have hrel := f32_le_rel ((tw : ℚ) / th) (by positivity)
    have hf : fmul (intToFloat th) a = f32 ((th : ℚ) * a) := by
      unfold fmul
      rw [intToFloat_small th (small th hth0 hth)]
    have hp0 : 0 ≤ (th : ℚ) * a := by positivity
    have htwb : (tw : ℚ) ≤ 2 ^ (23 : ℕ) - 1 := by
      have : tw ≤ 2 ^ 23 - 1 := by omega
      exact_mod_cast this
    have hp1 : (th : ℚ) * a ≤ (tw : ℚ) + 1 / 2 := by
      have e1 : (th : ℚ) * a ≤ (th : ℚ) * ((tw : ℚ) / th * (1 + 1 / 2 ^ (24 : ℕ))) :=
        mul_le_mul_of_nonneg_left (le_trans hle hrel) (le_of_lt hthq)
      have e2 : (th : ℚ) * ((tw : ℚ) / th * (1 + 1 / 2 ^ (24 : ℕ))) =
          (tw : ℚ) * (1 + 1 / 2 ^ (24 : ℕ)) := by
        field_simp
        ring
      rw [e2] at e1
      have e3 : (tw : ℚ) * (1 + 1 / 2 ^ (24 : ℕ)) ≤ (tw : ℚ) + 1 / 2 := by
        have : (tw : ℚ) * (1 / 2 ^ (24 : ℕ)) ≤ 1 / 2 := by
          have h1 : (tw : ℚ) * (1 / 2 ^ (24 : ℕ)) ≤ (2 ^ (23 : ℕ) - 1) * (1 / 2 ^ (24 : ℕ)) :=
            mul_le_mul_of_nonneg_right htwb (by positivity)
          have h2 : ((2 : ℚ) ^ (23 : ℕ) - 1) * (1 / 2 ^ (24 : ℕ)) ≤ 1 / 2 := by norm_num
          linarith
        linarith
      linarith
    have hex : f32 ((tw : ℚ) + 1 / 2) = (tw : ℚ) + 1 / 2 := by
      have := f32_exact (2 * tw + 1) (-1) (by rw [abs_of_nonneg (by omega)]; omega)
      have e : ((2 * tw + 1 : ℤ) : ℚ) * 2 ^ (-1 : ℤ) = (tw : ℚ) + 1 / 2 := by
        push_cast
        rw [zpow_neg, zpow_one]
        ring
      rwa [e] at this
    have hm0 : 0 ≤ f32 ((th : ℚ) * a) := f32_nonneg _ hp0
    have hm1 : f32 ((th : ℚ) * a) ≤ (tw : ℚ) + 1 / 2 := by
      have := f32_mono_of_nonneg _ _ hp0 hp1
      rwa [hex] at this
    rw [hf, floatToInt_of_nonneg _ hm0]
    refine ⟨Int.floor_nonneg.mpr hm0, ?_, by omega, le_refl _, Or.inr trivial⟩
    exact Int.floor_le_iff.mpr (lt_of_le_of_lt hm1 (by linarith))

/-! ## The conversion from NV21 for any dimensions -/

/-- The loop of `nv21ToRgb` for any positive dimensions, when the last chroma byte it
reads lies inside the source buffer. -/
theorem nv21ToRgb_run_any (nv21 out0 : Buf) (w h : Int) (hw : 0 < w) (hh : 0 < h)
    (hnv : w * h + ((h - 1) / 2 * w + (w - 1 - (w - 1) % 2) + 1) < (nv21.length : Int))
    (hout : (out0.length : Int) = w * h * 3) :
    ∃ out, FrameUtils.nv21ToRgb (some nv21) (some out0) w h = .ok (true, some out) ∧
      out.length = out0.length ∧
      ∀ i j, 0 ≤ i → i < w → 0 ≤ j → j < h →
        RgbDone out w i j (peek nv21 (j * w + i))
          (peek nv21 (w * h + (j / 2 * w + (i - i % 2) + 1)))
          (peek nv21 (w * h + (j / 2 * w + (i - i % 2)))) := by
  have hhw : h * w = w * h := mul_comm _ _
  have hC0 : 0 ≤ (h - 1) / 2 * w := mul_nonneg (by omega) (by omega)
  obtain ⟨d, h1, h2, h3⟩ := forRange2_inv
    (fun j i t => t.length = out0.length ∧
      ∀ i' j', 0 ≤ i' → i' < w → 0 ≤ j' → j' < h → (j' < j ∨ (j' = j ∧ i' < i)) →
        RgbDone t w i' j' (peek nv21 (j' * w + i'))
          (peek nv21 (w * h + (j' / 2 * w + (i' - i' % 2) + 1)))
          (peek nv21 (w * h + (j' / 2 * w + (i' - i' % 2)))))
    h w (by omega) (by omega)
    (fun j i out => do
          let y : Int := ← loadByte nv21 (j * w + i)
          let uvIdx := (Int.tdiv j 2) * w + Int.land i (~~~ 1)
          let v : Int := (← loadByte nv21 (w * h + uvIdx) : Nat) - 128
          let u : Int := (← loadByte nv21 (w * h + (uvIdx + 1)) : Nat) - 128
          let c := y - 16
          let r := (298 * c + 409 * v + 128) >>> (8 : Nat)
          let g := (298 * c - 100 * u - 208 * v + 128) >>> (8 : Nat)
          let b := (298 * c + 516 * u + 128) >>> (8 : Nat)
          let rgbIdx := (j * w + i) * 3
          let out ← storeByte out rgbIdx (clamp r)
          let out ← storeByte out (rgbIdx + 1) (clamp g)
          storeByte out (rgbIdx + 2) (clamp b)) out0
    ⟨rfl, fun i' j' _ _ _ _ hp => by omega⟩
    (by
      rintro j i t hj0 hj1 hi0 hi1 ⟨hlen, hP⟩
      have hA0 : 0 ≤ j * w := mul_nonneg hj0 (by omega)
      have hA1 : j * w + w ≤ h * w := mul_succ_le j h w hj1 (by omega)
      have hB0 : 0 ≤ j / 2 * w := mul_nonneg (by omega) (by omega)
      have hB1 : j / 2 * w ≤ (h - 1) / 2 * w :=
        mul_le_mul_of_nonneg_right (by omega) (by omega)
      have htd : Int.tdiv j 2 = j / 2 := Int.tdiv_eq_ediv hj0 (by omega)
      have hland := land_not_one i hi0
      have l1 := loadByte_ok (b := nv21) (i := j * w + i) (by omega) (by omega)
      have l2 := loadByte_ok (b := nv21) (i := w * h + (j / 2 * w + (i - i % 2)))
        (by omega) (by omega)
      have l3 := loadByte_ok (b := nv21) (i := w * h + (j / 2 * w + (i - i % 2) + 1))
        (by omega) (by omega)
      simp only [htd, hland, l1, l2, l3, ok_bind]
      rw [storeByte_ok _ (by omega) (by omega)]
      simp only [ok_bind]
      rw [storeByte_ok _ (by omega) (by rw [length_poke]; omega)]
      simp only [ok_bind]
      rw [storeByte_ok _ (by omega) (by rw [length_poke, length_poke]; omega)]
      refine ⟨_, rfl, by simp [hlen], ?_⟩
      have key : ∀ (a b c : Nat) k, 0 ≤ k →
          peek (poke (poke (poke t ((j * w + i) * 3) a) ((j * w + i) * 3 + 1) b)
            ((j * w + i) * 3 + 2) c) k =
          if k = (j * w + i) * 3 + 2 then c
          else if k = (j * w + i) * 3 + 1 then b
          else if k = (j * w + i) * 3 then a else peek t k := by
        intro a b c k hk
        rw [peek_poke _ _ _ _ (by omega) (by rw [length_poke, length_poke]; omega) hk,
          peek_poke _ _ _ _ (by omega) (by rw [length_poke]; omega) hk,
          peek_poke _ _ _ _ (by omega) (by omega) hk]
      intro i' j' hi'0 hi'1 hj'0 hj'1 hproc
      have hA'0 : 0 ≤ j' * w := mul_nonneg hj'0 (by omega)
      unfold RgbDone
      by_cases hsame : j' = j ∧ i' = i
      · obtain ⟨rfl, rfl⟩ := hsame
        refine ⟨?_, ?_, ?_⟩
        · rw [key _ _ _ _ (by omega), if_neg (by omega), if_neg (by omega), if_pos rfl]
        · rw [key _ _ _ _ (by omega), if_neg (by omega), if_pos rfl]
        · rw [key _ _ _ _ (by omega), if_pos rfl]
      · have hprev : j' < j ∨ (j' = j ∧ i' < i) := by omega
        obtain ⟨p1, p2, p3⟩ := hP i' j' hi'0 hi'1 hj'0 hj'1 hprev
        have hne : j' * w + i' ≠ j * w + i := by
          intro heq
          have := pos_inj j' j w i' i hi'0 hi'1 hi0 hi1 heq
          omega
        refine ⟨?_, ?_, ?_⟩
        · rw [key _ _ _ _ (by omega), if_neg (by omega), if_neg (by omega), if_neg (by omega)]
          exact p1
        · rw [key _ _ _ _ (by omega), if_neg (by omega), if_neg (by omega), if_neg (by omega)]
          exact p2
        · rw [key _ _ _ _ (by omega), if_neg (by omega), if_neg (by omega), if_neg (by omega)]
          exact p3)
    (by
      rintro y t hy0 hy1 ⟨hlen, hP⟩
      exact ⟨hlen, fun i' j' a b c d e => hP i' j' a b c d (by omega)⟩)
  refine ⟨d, ?_, h2, fun i j a b c e => h3 i j a b c e (by omega)⟩
  have hc : ¬ (w ≤ 0 ∨ h ≤ 0) := by omega
  simp only [FrameUtils.nv21ToRgb, hc, if_false]
  rw [h1]
  rfl

/-! ## Scaling a frame to its own size -/

/-- The copy path of `matchResolution`, taken when the dimensions already match. -/
theorem matchResolution_same_size (fresh1 fresh2 : Nat → Nat) (src dst : FrameData)
    (h : ValidPacked src) (b : Bool) :
    FrameUtils.matchResolution fresh1 fresh2 src dst src.width src.height b =
      .ok (true, { dst with width := src.width, height := src.height, format := src.format,
                            stride := src.stride, size := src.size, data := src.data }) := by
  obtain ⟨fdata, hfd⟩ := Option.isSome_iff_exists.mp h.1
  have hbytes : src.bytes = fdata := by simp [FrameData.bytes, hfd]
  have hlen : fdata.length = src.size := by rw [← hbytes]; exact h.2.2.2.2.2.2.1
  have hs0 : src.size ≠ 0 := by
    have h5 := h.2.2.2.2.2.1
    have h4 := h.2.2.2.2.1
    have hb := bytesPerPixel_pos src.format
    have h2 := h.2.2.1
    have h3 := h.2.2.2.1
    intro h0
    rw [h0, h4] at h5
    have : 0 < src.width * bytesPerPixel src.format * src.height := by positivity
    simp at h5
    omega
  have hm : memcpy (newArray fresh2 src.size) fdata src.size = .ok fdata := by
    rw [← hlen]
    exact memcpy_all _ _ (by rw [length_newArray])
  simp only [FrameUtils.matchResolution, hfd, hs0, if_false, and_self, if_true, hm, ok_bind]
  rfl

/-- Scaling a frame to its own dimensions, both below 2^24, gives what the copy path of
`matchResolution` gives: the same dimensions, format, stride, size and bytes. -/
theorem scaleFrame_same_size (fresh : Nat → Nat) (src dst : FrameData) (h : ValidPacked src)
    (hb : BytesOk src) (hw : src.width < 2 ^ 24) (hh : src.height < 2 ^ 24) :
    FrameUtils.scaleFrame fresh src dst src.width src.height =
      .ok (true, { dst with width := src.width, height := src.height, format := src.format,
                            stride := src.stride, size := src.size, data := src.data }) := by
  obtain ⟨d, e1, e2, e3⟩ := scaleFrame_same_run fresh src dst h hw hh
  obtain ⟨fdata, hfd⟩ := Option.isSome_iff_exists.mp h.1
  have hbytes : src.bytes = fdata := by simp [FrameData.bytes, hfd]
  have hbp := bytesPerPixel_pos src.format
  have hsz := validPacked_size src h
  obtain ⟨_, _, hw0, hh0, hst, hsize, hlen, hlt⟩ := h
  have hd : d = fdata := by
    rw [← hbytes]
    apply buf_ext
    · have : (d.length : Int) = (src.bytes.length : Int) := by rw [e2, hsz]; ring
      exact_mod_cast this
    · intro k hk0 hk1
      have hk2 : k < src.height * src.width * bytesPerPixel src.format := by
        rw [e2] at hk1
        have : src.width * bytesPerPixel src.format * src.height =
          src.height * src.width * bytesPerPixel src.format := by ring
        omega
      obtain ⟨p, c, hp0, hp1, hc0, hc1, rfl⟩ := pos_decomp k _ _ hbp hk0 hk2
      obtain ⟨y, x, hy0, hy1, hx0, hx1, rfl⟩ := pos_decomp p _ _ hw0 hp0 hp1
      rw [e3 x y c hx0 hx1 hy0 hy1 hc0 hc1]
      exact scaleSample_same src.bytes src.width src.height _ x y c hb hw0 hw hh0 hh hx0 hx1
        hy0 hy1
  have hsize2 : toSizeT (src.width * bytesPerPixel src.format * src.height) = src.size := by
    have hx : src.width * bytesPerPixel src.format * src.height = (src.size : Int) := by
      rw [hsize, hst]
    have := toSizeT_of_lt (src.width * bytesPerPixel src.format * src.height)
      (by rw [hx]; omega) (by rw [hx]; exact_mod_cast hlt)
    rw [hx] at this
    rw [hx]
    exact_mod_cast this
  rw [e1, hsize2, hd, ← hst, ← hfd]

theorem bytesOk_exHuge : BytesOk exHuge := by
  intro b hb
  have : b = 0 := List.eq_of_mem_replicate hb
  omega

/-! ## The scaled box: when it is empty -/

theorem roundHalfEven_ge_sub_half (x : ℚ) : x - 1 / 2 ≤ (roundHalfEven x : ℚ) := by
  unfold roundHalfEven
  have h1 := Int.lt_floor_add_one x
  split
  · linarith
  · rename_i h
    split
    · push_cast; linarith
    · rename_i h2
      have : x - (⌊x⌋ : ℚ) = 1 / 2 := le_antisymm (not_lt.mp h2) (not_lt.mp h)
      split
      · linarith
      · push_cast; linarith

/-- Rounding to `float` lowers a positive number by at most the factor `1 - 2^-24`. -/
theorem f32_ge_rel (q : ℚ) (hq : 0 ≤ q) : q * (1 - 1 / 2 ^ (24 : ℕ)) ≤ f32 q := by
  rcases eq_or_lt_of_le hq with h0 | hpos
  · rw [← h0, f32_zero]; norm_num
  obtain ⟨b1, _⟩ := significand_bounds q hpos
  unfold f32
  generalize Int.log 2 |q| = L at *
  have hs : (0 : ℚ) < 2 ^ (L - 23) := zpow_pos (by norm_num) _
  have hr := roundHalfEven_ge_sub_half (q / 2 ^ (L - 23))
  have hx : (1 : ℚ) / 2 ≤ q / 2 ^ (L - 23) * (1 / 2 ^ (24 : ℕ)) := by
    have : (2 : ℚ) ^ (23 : ℕ) * (1 / 2 ^ (24 : ℕ)) = 1 / 2 := by norm_num
    rw [← this]
    exact mul_le_mul_of_nonneg_right b1 (by positivity)
  calc q * (1 - 1 / 2 ^ (24 : ℕ))
      = (q / 2 ^ (L - 23) - q / 2 ^ (L - 23) * (1 / 2 ^ (24 : ℕ))) * 2 ^ (L - 23) := by
        field_simp
        ring
    _ ≤ (q / 2 ^ (L - 23) - 1 / 2) * 2 ^ (L - 23) :=
        mul_le_mul_of_nonneg_right (by linarith) (le_of_lt hs)
    _ ≤ (roundHalfEven (q / 2 ^ (L - 23)) : ℚ) * 2 ^ (L - 23) :=
        mul_le_mul_of_nonneg_right hr (le_of_lt hs)

/-- A number that is at least 1 rounds to a `float` that is at least 1. -/
theorem one_le_f32 (q : ℚ) (h : 1 ≤ q) : 1 ≤ f32 q := by
  have := f32_mono_of_nonneg 1 q (by norm_num) h
  rwa [f32_one] at this

/-- For source and target dimensions below 2^23 with `w <= tw*h` and `2*h <= th*w` both
sides of the scaled box of `matchResolution` are at least 1. -/
theorem scaledBox_nonempty (w h tw th : Int) (hw0 : 0 < w) (hw : w < 2 ^ 23) (hh0 : 0 < h)
    (hh : h < 2 ^ 23) (htw0 : 0 < tw) (htw : tw < 2 ^ 23) (hth0 : 0 < th) (hth : th < 2 ^ 23)
    (hwide : w ≤ tw * h) (htall : 2 * h ≤ th * w) :
    1 ≤ (scaledBox w h tw th).1 ∧ 1 ≤ (scaledBox w h tw th).2 := by
  have small : ∀ n : Int, 0 < n → n < 2 ^ 23 → |n| < 2 ^ 24 := by
    intro n h0 h1
    rw [abs_of_nonneg (by omega)]; omega
  have hwq : (0 : ℚ) < (w : ℚ) := by exact_mod_cast hw0
  have hhq : (0 : ℚ) < (h : ℚ) := by exact_mod_cast hh0
  have htwq : (0 : ℚ) < (tw : ℚ) := by exact_mod_cast htw0
  have hthq : (0 : ℚ) < (th : ℚ) := by exact_mod_cast hth0
  have hwideq : (w : ℚ) ≤ (tw : ℚ) * h := by exact_mod_cast hwide
  have htallq : 2 * (h : ℚ) ≤ (th : ℚ) * w := by exact_mod_cast htall
  have ea : fdiv (intToFloat w) (intToFloat h) = f32 ((w : ℚ) / h) := by
    unfold fdiv
    rw [intToFloat_small w (small w hw0 hw), intToFloat_small h (small h hh0 hh)]
  have eb : fdiv (intToFloat tw) (intToFloat th) = f32 ((tw : ℚ) / th) := by
    unfold fdiv
    rw [intToFloat_small tw (small tw htw0 htw), intToFloat_small th (small th hth0 hth)]
  have hq0 : (0 : ℚ) ≤ (w : ℚ) / h := by positivity
  have ha0 : 0 ≤ f32 ((w : ℚ) / h) := f32_nonneg _ hq0
  have hale : f32 ((w : ℚ) / h) ≤ (tw : ℚ) := by
    have h1 : (w : ℚ) / h ≤ (tw : ℚ) := by
      rw [div_le_iff₀ hhq]; exact hwideq
    have := f32_mono_of_nonneg _ _ hq0 h1
    rwa [f32_int tw (small tw htw0 htw)] at this
  have hage : 1 / (th : ℚ) ≤ f32 ((w : ℚ) / h) := by
    have h1 := f32_ge_rel _ hq0
    have h2 : 2 / (th : ℚ) ≤ (w : ℚ) / h := by
      rw [div_le_div_iff₀ hthq hhq]
      linarith
    have h3 : (2 / (th : ℚ)) * (1 - 1 / 2 ^ (24 : ℕ)) ≤ (w : ℚ) / h * (1 - 1 / 2 ^ (24 : ℕ)) :=
      mul_le_mul_of_nonneg_right h2 (by norm_num)
    have h4 : 1 / (th : ℚ) ≤ (2 / (th : ℚ)) * (1 - 1 / 2 ^ (24 : ℕ)) := by
      have : (2 / (th : ℚ)) * (1 - 1 / 2 ^ (24 : ℕ)) =
          1 / (th : ℚ) * (2 * (1 - 1 / 2 ^ (24 : ℕ))) := by ring
      rw [this]
      have hpos : (0 : ℚ) ≤ 1 / (th : ℚ) := by positivity
      have : (1 : ℚ) ≤ 2 * (1 - 1 / 2 ^ (24 : ℕ)) := by norm_num
      nlinarith
    linarith
  unfold scaledBox
  simp only [ea, eb]
  generalize f32 ((w : ℚ) / h) = a at ha0 hale hage
  have hapos : 0 < a := lt_of_lt_of_le (by positivity) hage
  by_cases hab : a > f32 ((tw : ℚ) / th)
  · simp only [hab, if_true]
    have hf : fdiv (intToFloat tw) a = f32 ((tw : ℚ) / a) := by
      unfold fdiv
      rw [intToFloat_small tw (small tw htw0 htw)]
    have h1 : 1 ≤ (tw : ℚ) / a := by
      rw [le_div_iff₀ hapos]; linarith
    have h2 := one_le_f32 _ h1
    rw [hf, floatToInt_of_nonneg _ (by linarith)]
    refine ⟨by omega, ?_⟩
    rw [Int.le_floor]
    exact_mod_cast h2
  · simp only [hab, if_false]
    have hf : fmul (intToFloat th) a = f32 ((th : ℚ) * a) := by
      unfold fmul
      rw [intToFloat_small th (small th hth0 hth)]
    have h1 : 1 ≤ (th : ℚ) * a := by
      have := mul_le_mul_of_nonneg_left hage (le_of_lt hthq)
      have e : (th : ℚ) * (1 / (th : ℚ)) = 1 := by field_simp
      linarith
    have h2 := one_le_f32 _ h1
    rw [hf, floatToInt_of_nonneg _ (by linarith)]
    refine ⟨?_, by omega⟩
    rw [Int.le_floor]
    exact_mod_cast h2

theorem scaledBox_portrait : scaledBox 1 2 1 1 = (0, 1) := by
  have ha : fdiv (intToFloat 1) (intToFloat 2) = 1 / 2 := by
    unfold fdiv
    rw [intToFloat_small 1 (by norm_num), intToFloat_small 2 (by norm_num)]
    have e : ((1 : ℤ) : ℚ) / ((2 : ℤ) : ℚ) = 1 / 2 := by norm_num
    rw [e, f32_half]
  have hb : fdiv (intToFloat 1) (intToFloat 1) = 1 := fdiv_self 1 (by norm_num) (by norm_num)
  have hm : fmul (intToFloat 1) (1 / 2) = 1 / 2 := by
    rw [fmul_half 1 (by norm_num)]; norm_num
  have hfl : floatToInt (1 / 2 : ℚ) = 0 := by
    rw [floatToInt_of_nonneg _ (by norm_num), Int.floor_eq_iff]
    constructor <;> norm_num
  have hlt : ¬ ((1 : ℚ) / 2 > 1) := by norm_num
  unfold scaledBox
  simp only [ha, hb, hm, hlt, if_false, hfl]

theorem validPacked_exPortrait : ValidPacked exPortrait := by decide

/-! ## Rounding errors of the blend -/

theorem near_exact (e : ℚ) : Near 0 e e := by
  constructor <;> simp

theorem near_nonneg (k : ℕ) (v e : ℚ) (h : Near k v e) (he : 0 ≤ e) : 0 ≤ v := by
  have : (0 : ℚ) ≤ (1 - 1 / 2 ^ (24 : ℕ)) ^ k := pow_nonneg (by norm_num) _
  exact le_trans (mul_nonneg he this) h.1

theorem near_mono (j k : ℕ) (v e : ℚ) (h : Near j v e) (hjk : j ≤ k) (he : 0 ≤ e) :
    Near k v e := by
  constructor
  · have : (1 - 1 / 2 ^ (24 : ℕ) : ℚ) ^ k ≤ (1 - 1 / 2 ^ (24 : ℕ)) ^ j :=
      pow_le_pow_of_le_one (by norm_num) (by norm_num) hjk
    exact le_trans (mul_le_mul_of_nonneg_left this he) h.1
  · have : (1 + 1 / 2 ^ (24 : ℕ) : ℚ) ^ j ≤ (1 + 1 / 2 ^ (24 : ℕ)) ^ k :=
      pow_le_pow_right₀ (by norm_num) hjk
    exact le_trans h.2 (mul_le_mul_of_nonneg_left this he)

/-- Rounding adds one factor. -/
theorem near_f32 (k : ℕ) (v e : ℚ) (h : Near k v e) (he : 0 ≤ e) : Near (k + 1) (f32 v) e := by
  have hv := near_nonneg k v e h he
  constructor
  · calc e * (1 - 1 / 2 ^ (24 : ℕ)) ^ (k + 1)
        = e * (1 - 1 / 2 ^ (24 : ℕ)) ^ k * (1 - 1 / 2 ^ (24 : ℕ)) := by ring
      _ ≤ v * (1 - 1 / 2 ^ (24 : ℕ)) := mul_le_mul_of_nonneg_right h.1 (by norm_num)
      _ ≤ f32 v := f32_ge_rel v hv
  · calc f32 v ≤ v * (1 + 1 / 2 ^ (24 : ℕ)) := f32_le_rel v hv
      _ ≤ e * (1 + 1 / 2 ^ (24 : ℕ)) ^ k * (1 + 1 / 2 ^ (24 : ℕ)) :=
          mul_le_mul_of_nonneg_right h.2 (by norm_num)
      _ = e * (1 + 1 / 2 ^ (24 : ℕ)) ^ (k + 1) := by ring

theorem near_mul (j k : ℕ) (x y ex ey : ℚ) (hx : Near j x ex) (hy : Near k y ey)
    (hex : 0 ≤ ex) (hey : 0 ≤ ey) : Near (j + k) (x * y) (ex * ey) := by
  have hx0 := near_nonneg j x ex hx hex
  have hy0 := near_nonneg k y ey hy hey
  have lj : (0 : ℚ) ≤ (1 - 1 / 2 ^ (24 : ℕ)) ^ j := pow_nonneg (by norm_num) _
  have lk : (0 : ℚ) ≤ (1 - 1 / 2 ^ (24 : ℕ)) ^ k := pow_nonneg (by norm_num) _
  constructor
  · calc ex * ey * (1 - 1 / 2 ^ (24 : ℕ)) ^ (j + k)
        = (ex * (1 - 1 / 2 ^ (24 : ℕ)) ^ j) * (ey * (1 - 1 / 2 ^ (24 : ℕ)) ^ k) := by
          rw [pow_add]; ring
      _ ≤ x * y := mul_le_mul hx.1 hy.1 (mul_nonneg hey lk) hx0
  · calc x * y ≤ (ex * (1 + 1 / 2 ^ (24 : ℕ)) ^ j) * (ey * (1 + 1 / 2 ^ (24 : ℕ)) ^ k) :=
          mul_le_mul hx.2 hy.2 hy0 (le_trans hx0 hx.2)
      _ = ex * ey * (1 + 1 / 2 ^ (24 : ℕ)) ^ (j + k) := by rw [pow_add]; ring

theorem near_add (k : ℕ) (x y ex ey : ℚ) (hx : Near k x ex) (hy : Near k y ey) :
    Near k (x + y) (ex + ey) := by
  constructor
  · have := add_le_add hx.1 hy.1
    calc (ex + ey) * (1 - 1 / 2 ^ (24 : ℕ)) ^ k
        = ex * (1 - 1 / 2 ^ (24 : ℕ)) ^ k + ey * (1 - 1 / 2 ^ (24 : ℕ)) ^ k := by ring
      _ ≤ x + y := this
  · have := add_le_add hx.2 hy.2
    calc x + y ≤ ex * (1 + 1 / 2 ^ (24 : ℕ)) ^ k + ey * (1 + 1 / 2 ^ (24 : ℕ)) ^ k := this
      _ = (ex + ey) * (1 + 1 / 2 ^ (24 : ℕ)) ^ k := by ring

/-- A product of two `float`s. -/
theorem near_fmul (j k : ℕ) (x y ex ey : ℚ) (hx : Near j x ex) (hy : Near k y ey)
    (hex : 0 ≤ ex) (hey : 0 ≤ ey) : Near (j + k + 1) (fmul x y) (ex * ey) :=
  near_f32 _ _ _ (near_mul j k x y ex ey hx hy hex hey) (mul_nonneg hex hey)

/-- A sum of two `float`s. -/
theorem near_fadd (j k n : ℕ) (x y ex ey : ℚ) (hx : Near j x ex) (hy : Near k y ey)
    (hex : 0 ≤ ex) (hey : 0 ≤ ey) (hj : j ≤ n) (hk : k ≤ n) :
    Near (n + 1) (fadd x y) (ex + ey) :=
  near_f32 _ _ _ (near_add n x y ex ey (near_mono j n x ex hx hj hex)
    (near_mono k n y ey hy hk hey)) (add_nonneg hex hey)

/-- The blend of `scaleFrame` after its seven levels of rounding, against the exact
bilinear blend. -/
theorem bilinear_near (a b c d : ℕ) (ha : a < 256) (hb : b < 256) (hc : c < 256)
    (hd : d < 256) (xf yf : ℚ) (hx0 : 0 ≤ xf) (hx1 : xf ≤ 1) (hy0 : 0 ≤ yf) (hy1 : yf ≤ 1) :
    Near 7 (bilinear a b c d xf yf)
      ((a : ℚ) * (1 - xf) * (1 - yf) + (b : ℚ) * xf * (1 - yf) + (c : ℚ) * (1 - xf) * yf +
        (d : ℚ) * xf * yf) := by
  have nat : ∀ n : ℕ, n < 256 → Near 0 (intToFloat (n : ℤ)) (n : ℚ) := by
    intro n hn
    unfold intToFloat
    rw [f32_natCast n hn, Int.cast_natCast]
    exact near_exact _
  have one : ∀ t : ℚ, 0 ≤ t → t ≤ 1 → Near 1 (fsub (intToFloat 1) t) (1 - t) := by
    intro t _ ht1
    unfold fsub intToFloat
    rw [f32_one_int]
    exact near_f32 0 _ _ (near_exact _) (by linarith)
  have hox := one xf hx0 hx1
  have hoy := one yf hy0 hy1
  have hxf := near_exact xf
  have hyf := near_exact yf
  have a0 : (0 : ℚ) ≤ a := Nat.cast_nonneg a
  have b0 : (0 : ℚ) ≤ b := Nat.cast_nonneg b
  have c0 : (0 : ℚ) ≤ c := Nat.cast_nonneg c
  have d0 : (0 : ℚ) ≤ d := Nat.cast_nonneg d
  have ox0 : (0 : ℚ) ≤ 1 - xf := by linarith
  have oy0 : (0 : ℚ) ≤ 1 - yf := by linarith
  have p1 := near_fmul 0 1 _ _ _ _ (nat a ha) hox a0 ox0
  have t1 := near_fmul _ 1 _ _ _ _ p1 hoy (mul_nonneg a0 ox0) oy0
  have p2 := near_fmul 0 0 _ _ _ _ (nat b hb) hxf b0 hx0
  have t2 := near_fmul _ 1 _ _ _ _ p2 hoy (mul_nonneg b0 hx0) oy0
  have p3 := near_fmul 0 1 _ _ _ _ (nat c hc) hox c0 ox0
  have t3 := near_fmul _ 0 _ _ _ _ p3 hyf (mul_nonneg c0 ox0) hy0
  have p4 := near_fmul 0 0 _ _ _ _ (nat d hd) hxf d0 hx0
  have t4 := near_fmul _ 0 _ _ _ _ p4 hyf (mul_nonneg d0 hx0) hy0
  have e1 : (0 : ℚ) ≤ (a : ℚ) * (1 - xf) * (1 - yf) := by positivity
  have e2 : (0 : ℚ) ≤ (b : ℚ) * xf * (1 - yf) := by positivity
  have e3 : (0 : ℚ) ≤ (c : ℚ) * (1 - xf) * yf := by positivity
  have e4 : (0 : ℚ) ≤ (d : ℚ) * xf * yf := by positivity
  have s1 := near_fadd _ _ 4 _ _ _ _ t1 t2 e1 e2 (by norm_num) (by norm_num)
  have s2 := near_fadd _ _ 5 _ _ _ _ s1 t3 (add_nonneg e1 e2) e3 (by norm_num) (by norm_num)
  have s3 := near_fadd _ _ 6 _ _ _ _ s2 t4 (add_nonneg (add_nonneg e1 e2) e3) e4 (by norm_num)
    (by norm_num)
  exact s3

/-- The blend of four bytes between `m` and `M`, truncated: at least `m - 1`, at most `M`,
and inside [0,255], so that `clamp` does not change it. -/
theorem bilinear_between (a b c d m M : ℕ) (hM : M < 256)
    (ha : m ≤ a ∧ a ≤ M) (hb : m ≤ b ∧ b ≤ M) (hc : m ≤ c ∧ c ≤ M) (hd : m ≤ d ∧ d ≤ M)
    (xf yf : ℚ) (hx0 : 0 ≤ xf) (hx1 : xf ≤ 1) (hy0 : 0 ≤ yf) (hy1 : yf ≤ 1) :
    (m : ℤ) - 1 ≤ floatToInt (bilinear a b c d xf yf) ∧
    floatToInt (bilinear a b c d xf yf) ≤ M ∧
    (clamp (floatToInt (bilinear a b c d xf yf)) : ℤ) = floatToInt (bilinear a b c d xf yf) := by
  have hn := bilinear_near a b c d (by omega) (by omega) (by omega) (by omega) xf yf hx0 hx1
    hy0 hy1
  have ox0 : (0 : ℚ) ≤ 1 - xf := by linarith
  have oy0 : (0 : ℚ) ≤ 1 - yf := by linarith
  have w1 : (0 : ℚ) ≤ (1 - xf) * (1 - yf) := mul_nonneg ox0 oy0
  have w2 : (0 : ℚ) ≤ xf * (1 - yf) := mul_nonneg hx0 oy0
  have w3 : (0 : ℚ) ≤ (1 - xf) * yf := mul_nonneg ox0 hy0
  have w4 : (0 : ℚ) ≤ xf * yf := mul_nonneg hx0 hy0
  have cast : ∀ p q : ℕ, p ≤ q → (p : ℚ) ≤ (q : ℚ) := fun p q h => by exact_mod_cast h
  have m0 : (0 : ℚ) ≤ (m : ℚ) := Nat.cast_nonneg m
  have M255 : (M : ℚ) ≤ 255 := by
    have : M ≤ 255 := by omega
    exact_mod_cast this
  have m255 : (m : ℚ) ≤ 255 := le_trans (cast m M (le_trans ha.1 ha.2)) M255
  generalize hE : (a : ℚ) * (1 - xf) * (1 - yf) + (b : ℚ) * xf * (1 - yf) +
    (c : ℚ) * (1 - xf) * yf + (d : ℚ) * xf * yf = E at hn
  have hEm : (m : ℚ) ≤ E := by
    have e : E - m = ((a : ℚ) - m) * ((1 - xf) * (1 - yf)) + ((b : ℚ) - m) * (xf * (1 - yf)) +
        ((c : ℚ) - m) * ((1 - xf) * yf) + ((d : ℚ) - m) * (xf * yf) := by
      rw [← hE]; ring
    have := mul_nonneg (sub_nonneg.mpr (cast m a ha.1)) w1
    have := mul_nonneg (sub_nonneg.mpr (cast m b hb.1)) w2
    have := mul_nonneg (sub_nonneg.mpr (cast m c hc.1)) w3
    have := mul_nonneg (sub_nonneg.mpr (cast m d hd.1)) w4
    linarith
  have hEM : E ≤ (M : ℚ) := by
    have e : M - E = ((M : ℚ) - a) * ((1 - xf) * (1 - yf)) + ((M : ℚ) - b) * (xf * (1 - yf)) +
        ((M : ℚ) - c) * ((1 - xf) * yf) + ((M : ℚ) - d) * (xf * yf) := by
      rw [← hE]; ring
    have := mul_nonneg (sub_nonneg.mpr (cast a M ha.2)) w1
    have := mul_nonneg (sub_nonneg.mpr (cast b M hb.2)) w2
    have := mul_nonneg (sub_nonneg.mpr (cast c M hc.2)) w3
    have := mul_nonneg (sub_nonneg.mpr (cast d M hd.2)) w4
    linarith
  have hE0 : 0 ≤ E := le_trans m0 hEm
  have hv0 := near_nonneg 7 _ E hn hE0
  generalize bilinear a b c d xf yf = v at hn hv0
  have lo : (m : ℚ) - 1 < v := by
    have c1 : (1 - 1 / 2 ^ (24 : ℕ) : ℚ) ^ 7 ≤ 1 := pow_le_one₀ (by norm_num) (by norm_num)
    have c2 : (255 : ℚ) * (1 - (1 - 1 / 2 ^ (24 : ℕ)) ^ 7) < 1 := by norm_num
    have c3 : (m : ℚ) * (1 - 1 / 2 ^ (24 : ℕ)) ^ 7 ≤ E * (1 - 1 / 2 ^ (24 : ℕ)) ^ 7 :=
      mul_le_mul_of_nonneg_right hEm (pow_nonneg (by norm_num) _)
    have c4 : (m : ℚ) * (1 - (1 - 1 / 2 ^ (24 : ℕ)) ^ 7) ≤
        255 * (1 - (1 - 1 / 2 ^ (24 : ℕ)) ^ 7) :=
      mul_le_mul_of_nonneg_right m255 (by linarith)
    have := hn.1
    linarith
  have hi : v < (M : ℚ) + 1 := by
    have c1 : (1 : ℚ) ≤ (1 + 1 / 2 ^ (24 : ℕ) : ℚ) ^ 7 := one_le_pow₀ (by norm_num)
    have c2 : (255 : ℚ) * ((1 + 1 / 2 ^ (24 : ℕ)) ^ 7 - 1) < 1 := by norm_num
    have c3 : E * (1 + 1 / 2 ^ (24 : ℕ)) ^ 7 ≤ (M : ℚ) * (1 + 1 / 2 ^ (24 : ℕ)) ^ 7 :=
      mul_le_mul_of_nonneg_right hEM (by linarith)
    have c4 : (M : ℚ) * ((1 + 1 / 2 ^ (24 : ℕ)) ^ 7 - 1) ≤
        255 * ((1 + 1 / 2 ^ (24 : ℕ)) ^ 7 - 1) :=
      mul_le_mul_of_nonneg_right M255 (by linarith)
    have := hn.2
    linarith
  rw [floatToInt_of_nonneg v hv0]
  have f0 : 0 ≤ ⌊v⌋ := Int.floor_nonneg.mpr hv0
  have f1 : ⌊v⌋ ≤ (M : ℤ) := by
    have : ⌊v⌋ < (M : ℤ) + 1 := by
      rw [Int.floor_lt]; push_cast; exact hi
    omega
  have f2 : (m : ℤ) - 1 ≤ ⌊v⌋ := by
    rw [Int.le_floor]; push_cast; linarith
  exact ⟨f2, f1, clamp_of_range _ f0 (by omega)⟩

/-- The weight `xFrac` of `scaleFrame` lies in [0,1], for source dimensions below 2^24 and
target dimensions up to 2^22. -/
theorem srcFrac_unit (w tw x : Int) (hw0 : 0 < w) (hw : w < 2 ^ 24) (htw0 : 0 < tw)
    (htw : tw ≤ 2 ^ 22) (hx0 : 0 ≤ x) (hx : x < tw) :
    0 ≤ srcFrac w tw x ∧ srcFrac w tw x ≤ 1 := by
  obtain ⟨b0, b1⟩ := srcCoord0_in_bounds w tw x hw0 hw htw0 htw hx0 hx
  have hs0 : 0 ≤ fmul (intToFloat x) (fdiv (intToFloat w) (intToFloat tw)) :=
    f32_nonneg _ (mul_nonneg (intToFloat_nonneg x hx0)
      (fdiv_nonneg _ _ (intToFloat_nonneg w (by omega)) (intToFloat_nonneg tw (by omega))))
  unfold srcFrac
  unfold srcCoord0 at b0 b1 ⊢
  generalize fmul (intToFloat x) (fdiv (intToFloat w) (intToFloat tw)) = s at *
  rw [floatToInt_of_nonneg s hs0] at b0 b1 ⊢
  rw [intToFloat_small ⌊s⌋ (by rw [abs_of_nonneg b0]; omega)]
  unfold fsub
  have d0 : 0 ≤ s - (⌊s⌋ : ℚ) := by linarith [Int.floor_le s]
  have d1 : s - (⌊s⌋ : ℚ) ≤ 1 := by linarith [Int.lt_floor_add_one s]
  refine ⟨f32_nonneg _ d0, ?_⟩
  have := f32_mono_of_nonneg _ _ d0 d1
  rwa [f32_one] at this

/-- Among four numbers one is the least and one is the greatest. -/
theorem four_bounds (a b c d : ℕ) :
    ∃ m M, m ∈ [a, b, c, d] ∧ M ∈ [a, b, c, d] ∧ (m ≤ a ∧ a ≤ M) ∧ (m ≤ b ∧ b ≤ M) ∧
      (m ≤ c ∧ c ≤ M) ∧ (m ≤ d ∧ d ≤ M) := by
  refine ⟨min (min a b) (min c d), max (max a b) (max c d), ?_, ?_, ?_, ?_, ?_, ?_⟩
  · simp only [List.mem_cons, List.mem_singleton, List.not_mem_nil, or_false]; omega
  · simp only [List.mem_cons, List.mem_singleton, List.not_mem_nil, or_false]; omega
  all_goals omega

/-! ## A white pixel scaled to three -/

/-- The ratio 1/3 as a `float`. -/
theorem fdiv_one_three : fdiv (intToFloat 1) (intToFloat 3) = 11184811 / 33554432 := by
  unfold fdiv
  rw [intToFloat_small 1 (by norm_num), intToFloat_small 3 (by norm_num)]
  have := f32_eval (((1 : ℤ) : ℚ) / ((3 : ℤ) : ℚ)) (-2) 11184811
    (by norm_num [abs_of_pos]) (by norm_num [abs_of_pos]) (by norm_num) (by norm_num)
  rw [this]
  norm_num

theorem f32_third : f32 (11184811 / 33554432) = 11184811 / 33554432 := by
  have := f32_exact 11184811 (-25) (by norm_num)
  have e : ((11184811 : ℤ) : ℚ) * 2 ^ (-25 : ℤ) = 11184811 / 33554432 := by
    rw [zpow_neg]; norm_num
  rwa [e] at this

/-- The difference 1 - float(1/3) lies half way between two `float`s and goes to the even
one. -/
theorem f32_two_thirds : f32 (1 - 11184811 / 33554432) = 5592405 / 8388608 := by
  rw [f32_of_log (1 - 11184811 / 33554432) (-1) (by norm_num [abs_of_pos])
    (by norm_num [abs_of_pos])]
  have e : (1 - 11184811 / 33554432 : ℚ) / 2 ^ ((-1 : ℤ) - 23) =
      ((11184810 : ℤ) : ℚ) + 1 / 2 := by
    rw [show ((-1 : ℤ) - 23) = -24 by norm_num, zpow_neg]; norm_num
  rw [e, roundHalfEven_tie]
  rw [show ((-1 : ℤ) - 23) = -24 by norm_num, zpow_neg]
  norm_num

theorem f32_white_left : f32 (255 * (5592405 / 8388608)) = 11141119 / 65536 := by
  have := f32_eval (255 * (5592405 / 8388608)) 7 11141119
    (by norm_num [abs_of_pos]) (by norm_num [abs_of_pos]) (by norm_num) (by norm_num)
  rw [this]
  norm_num

theorem f32_white_right : f32 (255 * (11184811 / 33554432)) = 85 := by
  have := f32_eval (255 * (11184811 / 33554432)) 6 11141120
    (by norm_num [abs_of_pos]) (by norm_num [abs_of_pos]) (by norm_num) (by norm_num)
  rw [this]
  norm_num

theorem f32_white_left_exact : f32 (11141119 / 65536) = 11141119 / 65536 := by
  have := f32_exact 11141119 (-16) (by norm_num)
  have e : ((11141119 : ℤ) : ℚ) * 2 ^ (-16 : ℤ) = 11141119 / 65536 := by
    rw [zpow_neg]; norm_num
  rwa [e] at this

theorem f32_white_sum : f32 (11141119 / 65536 + 85) = 16711679 / 65536 := by
  have := f32_exact 16711679 (-16) (by norm_num)
  have e : ((16711679 : ℤ) : ℚ) * 2 ^ (-16 : ℤ) = 11141119 / 65536 + 85 := by
    rw [zpow_neg]; norm_num
  rw [e] at this
  rw [this]
  norm_num

theorem f32_eighty_five : f32 85 = 85 := by
  have := f32_int 85 (by norm_num)
  norm_num at this
  exact this

/-- The blend of four samples of value 255 with the weights float(1/3) and 0 is below
255. -/
theorem bilinear_white :
    bilinear 255 255 255 255 (11184811 / 33554432) 0 = 16711679 / 65536 := by
  have h255 : intToFloat ((255 : ℕ) : ℤ) = 255 := by
    unfold intToFloat
    rw [f32_natCast 255 (by norm_num)]
    norm_num
  have h1 : intToFloat 1 = 1 := by
    unfold intToFloat
    exact f32_one_int
  have s16 : f32 (16711679 / 65536) = 16711679 / 65536 := by
    have := f32_exact 16711679 (-16) (by norm_num)
    have e : ((16711679 : ℤ) : ℚ) * 2 ^ (-16 : ℤ) = 16711679 / 65536 := by
      rw [zpow_neg]; norm_num
    rwa [e] at this
  unfold bilinear
  rw [h255, h1]
  simp only [fsub, fmul, fadd, sub_zero, f32_one, mul_one, mul_zero, f32_zero, add_zero,
    f32_two_thirds, f32_white_left, f32_white_right, f32_white_left_exact, f32_eighty_five,
    f32_white_sum, s16]

theorem srcCoord0_white : srcCoord0 1 3 1 = 0 := by
  unfold srcCoord0
  rw [fdiv_one_three]
  unfold fmul
  rw [intToFloat_small 1 (by norm_num)]
  have e : ((1 : ℤ) : ℚ) * (11184811 / 33554432) = 11184811 / 33554432 := by norm_num
  rw [e, f32_third, floatToInt_of_nonneg _ (by norm_num), Int.floor_eq_iff]
  constructor <;> norm_num

theorem srcFrac_white : srcFrac 1 3 1 = 11184811 / 33554432 := by
  unfold srcFrac
  rw [srcCoord0_white, fdiv_one_three]
  unfold fmul fsub
  rw [intToFloat_small 1 (by norm_num), intToFloat_small 0 (by norm_num)]
  have e : ((1 : ℤ) : ℚ) * (11184811 / 33554432) = 11184811 / 33554432 := by norm_num
  rw [e, f32_third]
  have e2 : (11184811 / 33554432 : ℚ) - ((0 : ℤ) : ℚ) = 11184811 / 33554432 := by norm_num
  rw [e2, f32_third]

theorem validPacked_exWhite : ValidPacked exWhite := by decide

/-! ## Frames with padded rows -/

/-- A frame with padded rows holds at least `height * width * bytesPerPixel` bytes. -/
theorem padded_bounds (f : FrameData) (h : ValidPadded f) :
    ∃ sdata, f.data = some sdata ∧ f.bytes = sdata ∧
      f.height * f.width * bytesPerPixel f.format ≤ (sdata.length : Int) ∧ f.size ≠ 0 ∧
      f.height * f.width * bytesPerPixel f.format < 2 ^ 31 ∧
      0 < f.height * f.width * bytesPerPixel f.format := by
  obtain ⟨hdata, _, hw, hh, hstride, hsize, hlen, hbound⟩ := h
  obtain ⟨sdata, hsd⟩ := Option.isSome_iff_exists.mp hdata
  have hbytes : f.bytes = sdata := by simp [FrameData.bytes, hsd]
  rw [hbytes] at hlen
  have hb := bytesPerPixel_pos f.format
  have h1 : f.width * bytesPerPixel f.format * f.height ≤ f.stride * f.height :=
    mul_le_mul_of_nonneg_right hstride (by omega)
  have h2 : f.height * f.width * bytesPerPixel f.format =
      f.width * bytesPerPixel f.format * f.height := by ring
  have h3 : 0 < f.height * f.width * bytesPerPixel f.format := by positivity
  refine ⟨sdata, hsd, hbytes, by omega, by omega, by omega, h3⟩

/-- On a frame with padded rows `rotate90CW` takes the source pixel `(x, y)` from the
bytes at `(y * width + x) * bpp`. -/
theorem rotate90CW_padded_run (fresh : Nat → Nat) (src dst : FrameData) (h : ValidPadded src) :
    ∃ d, FrameUtils.rotate90CW fresh src dst =
        .ok (true, { dst with width := src.height, height := src.width, format := src.format,
                              stride := src.height * bytesPerPixel src.format,
                              size := toSizeT (src.height * bytesPerPixel src.format * src.width),
                              data := some d }) ∧
      (d.length : Int) = src.height * bytesPerPixel src.format * src.width ∧
      ∀ x y c, 0 ≤ x → x < src.width → 0 ≤ y → y < src.height → 0 ≤ c →
        c < bytesPerPixel src.format →
        peek d ((x * src.height + (src.height - 1 - y)) * bytesPerPixel src.format + c) =
          peek src.bytes ((y * src.width + x) * bytesPerPixel src.format + c) := by
  obtain ⟨sdata, hsd, hbytes, hlen, hsz0, hlt, hpos⟩ := padded_bounds src h
  obtain ⟨_, hfmt, hw, hh, _⟩ := h
  have hb := bytesPerPixel_pos src.format
  have hbpp? : (if src.format = 2 then some (4 : Int) else if src.format ≠ 3 then none
      else some 3) = some (bytesPerPixel src.format) := by
    unfold bytesPerPixel
    rcases hfmt with h | h <;> simp [h]
  have hre : src.height * bytesPerPixel src.format * src.width =
      src.height * src.width * bytesPerPixel src.format := by ring
  have hN : (toSizeT (src.height * bytesPerPixel src.format * src.width) : Int) =
      src.height * bytesPerPixel src.format * src.width :=
    toSizeT_of_lt _ (by omega) (by omega)
  obtain ⟨d, e1, e2, e3⟩ := remapLoop sdata
    (newArray fresh (toSizeT (src.height * bytesPerPixel src.format * src.width)))
    src.width src.height (bytesPerPixel src.format)
    (fun x y => x * src.height + (src.height - 1 - y)) (by omega) (by omega) (by omega)
    hlen
    (fun x y hx0 _ hy0 hy1 => pos_nonneg _ _ _ hx0 (by omega) (by omega))
    (fun x y hx0 hx1 hy0 hy1 => by
      dsimp only
      rw [length_newArray, hN]
      have h1 : x * src.height + (src.height - 1 - y) < src.width * src.height :=
        pos_lt _ _ _ _ hx1 (by omega) (by omega)
      have h2 := mul_succ_le _ _ (bytesPerPixel src.format) h1 (by omega)
      have h3 : src.width * src.height * bytesPerPixel src.format =
        src.height * bytesPerPixel src.format * src.width := by ring
      omega)
    (fun x y x' y' _ _ hy0 hy1 _ _ hy'0 hy'1 heq => by
      have := pos_inj x x' src.height _ _ (by omega) (by omega) (by omega) (by omega) heq
      omega)
  refine ⟨d, ?_, by rw [e2, length_newArray, hN], ?_⟩
  · simp only [FrameUtils.rotate90CW, hsd, hsz0, if_false, hbpp?]
    rw [e1]
    rfl
  · intro x y c hx0 hx1 hy0 hy1 hc0 hc1
    rw [hbytes]
    exact e3 x y c hx0 hx1 hy0 hy1 hc0 hc1

/-- On a frame with padded rows `rotate90CCW` takes the source pixel `(x, y)` from the
bytes at `(y * width + x) * bpp`. -/
theorem rotate90CCW_padded_run (fresh : Nat → Nat) (src dst : FrameData)
    (h : ValidPadded src) :
    ∃ d, FrameUtils.rotate90CCW fresh src dst =
        .ok (true, { dst with width := src.height, height := src.width, format := src.format,
                              stride := src.height * bytesPerPixel src.format,
                              size := toSizeT (src.height * bytesPerPixel src.format * src.width),
                              data := some d }) ∧
      (d.length : Int) = src.height * bytesPerPixel src.format * src.width ∧
      ∀ x y c, 0 ≤ x → x < src.width → 0 ≤ y → y < src.height → 0 ≤ c →
        c < bytesPerPixel src.format →
        peek d (((src.width - 1 - x) * src.height + y) * bytesPerPixel src.format + c) =
          peek src.bytes ((y * src.width + x) * bytesPerPixel src.format + c) := by
  obtain ⟨sdata, hsd, hbytes, hlen, hsz0, hlt, hpos⟩ := padded_bounds src h
  obtain ⟨_, hfmt, hw, hh, _⟩ := h
  have hb := bytesPerPixel_pos src.format
  have hbpp? : (if src.format = 2 then some (4 : Int) else if src.format ≠ 3 then none
      else some 3) = some (bytesPerPixel src.format) := by
    unfold bytesPerPixel
    rcases hfmt with h | h <;> simp [h]
  have hre : src.height * bytesPerPixel src.format * src.width =
      src.height * src.width * bytesPerPixel src.format := by ring
  have hN : (toSizeT (src.height * bytesPerPixel src.format * src.width) : Int) =
      src.height * bytesPerPixel src.format * src.width :=
    toSizeT_of_lt _ (by omega) (by omega)
  obtain ⟨d, e1, e2, e3⟩ := remapLoop sdata
    (newArray fresh (toSizeT (src.height * bytesPerPixel src.format * src.width)))
    src.width src.height (bytesPerPixel src.format)
    (fun x y => (src.width - 1 - x) * src.height + y) (by omega) (by omega) (by omega)
    hlen
    (fun x y _ hx1 hy0 _ => pos_nonneg _ _ _ (by omega) (by omega) hy0)
    (fun x y hx0 hx1 hy0 hy1 => by
      dsimp only
      rw [length_newArray, hN]
      have h1 : (src.width - 1 - x) * src.height + y < src.width * src.height :=
        pos_lt _ _ _ _ (by omega) hy1 (by omega)
      have h2 := mul_succ_le _ _ (bytesPerPixel src.format) h1 (by omega)
      have h3 : src.width * src.height * bytesPerPixel src.format =
        src.height * bytesPerPixel src.format * src.width := by ring
      omega)
    (fun x y x' y' _ _ hy0 hy1 _ _ hy'0 hy'1 heq => by
      have := pos_inj _ _ src.height _ _ hy0 hy1 hy'0 hy'1 heq
      omega)
  refine ⟨d, ?_, by rw [e2, length_newArray, hN], ?_⟩
  · simp only [FrameUtils.rotate90CCW, hsd, hsz0, if_false, hbpp?]
    rw [e1]
    rfl
  · intro x y c hx0 hx1 hy0 hy1 hc0 hc1
    rw [hbytes]
    exact e3 x y c hx0 hx1 hy0 hy1 hc0 hc1

/-- On a frame with padded rows `flipHorizontal` mirrors the bytes at
`(y * width + x) * bpp`. -/
theorem flipHorizontal_padded_run (f : FrameData) (h : ValidPadded f) :
    ∃ d, FrameUtils.flipHorizontal f = .ok (true, { f with data := some d }) ∧
      d.length = f.bytes.length ∧
      ∀ x y c, 0 ≤ x → x < f.width → 0 ≤ y → y < f.height → 0 ≤ c →
        c < bytesPerPixel f.format →
        peek d ((y * f.width + x) * bytesPerPixel f.format + c) =
          peek f.bytes ((y * f.width + (f.width - 1 - x)) * bytesPerPixel f.format + c) := by
  obtain ⟨fdata, hfd, hbytes, hlen, hsz0, hlt, hpos⟩ := padded_bounds f h
  obtain ⟨_, hfmt, hw, hh, _⟩ := h
  have hb := bytesPerPixel_pos f.format
  have hbpp? : (if f.format = 2 then some (4 : Int) else if f.format = 0 ∨ f.format = 1
      then none else some 3) = some (bytesPerPixel f.format) := by
    unfold bytesPerPixel
    rcases hfmt with h | h <;> simp [h]
  obtain ⟨d, e1, e2, e3⟩ := flipLoop fdata f.width f.height (bytesPerPixel f.format)
    (by omega) (by omega) (by omega) hlen
  refine ⟨d, ?_, by rw [e2, hbytes], ?_⟩
  · simp only [FrameUtils.flipHorizontal, hfd, hsz0, if_false, hbpp?]
    rw [e1]
    rfl
  · intro x y c hx0 hx1 hy0 hy1 hc0 hc1
    rw [hbytes]
    exact e3 x y c hx0 hx1 hy0 hy1 hc0 hc1

/-- On a frame with padded rows `scaleFrame` takes its four samples from the bytes at
`(sy * width + sx) * bpp`: the stored byte is `scaleSample`. -/
theorem scaleFrame_padded_run (fresh : Nat → Nat) (src dst : FrameData) (tw th : Int)
    (h : ValidPadded src) (htw : 0 ≤ tw) (hth : 0 ≤ th)
    (hsz : tw * bytesPerPixel src.format * th < 2 ^ 31)
    (hX : ∀ x, 0 ≤ x → x < tw →
      0 ≤ srcCoord0 src.width tw x ∧ srcCoord0 src.width tw x < src.width)
    (hY : ∀ y, 0 ≤ y → y < th →
      0 ≤ srcCoord0 src.height th y ∧ srcCoord0 src.height th y < src.height) :
    ∃ d, FrameUtils.scaleFrame fresh src dst tw th =
        .ok (true, { dst with width := tw, height := th, format := src.format,
                              stride := tw * bytesPerPixel src.format,
                              size := toSizeT (tw * bytesPerPixel src.format * th),
                              data := some d }) ∧
      (d.length : Int) = tw * bytesPerPixel src.format * th ∧
      ∀ x y c, 0 ≤ x → x < tw → 0 ≤ y → y < th → 0 ≤ c → c < bytesPerPixel src.format →
        peek d ((y * tw + x) * bytesPerPixel src.format + c) =
          scaleSample src.bytes src.width src.height (bytesPerPixel src.format) tw th x y c := by
  obtain ⟨sdata, hsd, hbytes, hslen, hsz0, _, _⟩ := padded_bounds src h
  obtain ⟨_, hfmt, hw, hh, _⟩ := h
  rw [hbytes]
  have hb := bytesPerPixel_pos src.format
  generalize hbpp : bytesPerPixel src.format = bpp at *
  have hnn : 0 ≤ tw * bpp * th := mul_nonneg (mul_nonneg htw (by omega)) hth
  have hT := toSizeT_of_lt _ hnn hsz
  obtain ⟨d, e1, e2, e3⟩ := fillLoop (newArray fresh (toSizeT (tw * bpp * th))) tw th bpp
    (fun x y c => scaleSample sdata src.width src.height bpp tw th x y c)
    (fun y x c d => do
      let v00 ← loadByte sdata
        ((srcCoord0 src.height th y * src.width + srcCoord0 src.width tw x) * bpp + c)
      let v01 ← loadByte sdata
        ((srcCoord0 src.height th y * src.width + srcCoord1 src.width tw x) * bpp + c)
      let v10 ← loadByte sdata
        ((srcCoord1 src.height th y * src.width + srcCoord0 src.width tw x) * bpp + c)
      let v11 ← loadByte sdata
        ((srcCoord1 src.height th y * src.width + srcCoord1 src.width tw x) * bpp + c)
      storeByte d ((y * tw + x) * bpp + c)
        (clamp (floatToInt (bilinear v00 v01 v10 v11 (srcFrac src.width tw x)
          (srcFrac src.height th y)))))
    htw hth (by omega)
    (by rw [length_newArray, hT]; apply le_of_eq; ring)
    (by
      intro y x c t hy0 hy1 hx0 hx1 hc0 hc1
      obtain ⟨a0, a1⟩ := hX x hx0 hx1
      obtain ⟨b0, b1⟩ := hY y hy0 hy1
      have a2 : 0 ≤ srcCoord1 src.width tw x ∧ srcCoord1 src.width tw x < src.width := by
        unfold srcCoord1; omega
      have b2 : 0 ≤ srcCoord1 src.height th y ∧ srcCoord1 src.height th y < src.height := by
        unfold srcCoord1; omega
      have inb : ∀ sy sx : Int, 0 ≤ sy → sy < src.height → 0 ≤ sx → sx < src.width →
          0 ≤ (sy * src.width + sx) * bpp + c ∧
            (sy * src.width + sx) * bpp + c < sdata.length := by
        intro sy sx h1 h2 h3 h4
        have p0 := pos_nonneg sy src.width sx h1 (by omega) h3
        have p1 := pos_lt sy src.height src.width sx h2 h4 (by omega)
        have q0 := mul_nonneg p0 (by omega : 0 ≤ bpp)
        have q1 := mul_succ_le _ _ bpp p1 (by omega)
        omega
      beta_reduce
      rw [loadByte_ok (inb _ _ b0 b1 a0 a1).1 (inb _ _ b0 b1 a0 a1).2,
        loadByte_ok (inb _ _ b0 b1 a2.1 a2.2).1 (inb _ _ b0 b1 a2.1 a2.2).2,
        loadByte_ok (inb _ _ b2.1 b2.2 a0 a1).1 (inb _ _ b2.1 b2.2 a0 a1).2,
        loadByte_ok (inb _ _ b2.1 b2.2 a2.1 a2.2).1 (inb _ _ b2.1 b2.2 a2.1 a2.2).2]
      rfl)
  rw [length_newArray] at e2
  refine ⟨d, ?_, by rw [e2, hT], e3⟩
  have hf : ¬ (src.format ≠ 2 ∧ src.format ≠ 3) := by omega
  have hbpp' : (if src.format = 2 then (4 : Int) else 3) = bpp := hbpp
  simp only [FrameUtils.scaleFrame, hsd, hsz0, if_false, hf, hbpp']
  exact bind_of_ok _ _ d e1

/-- The same for source dimensions below 2^24 and target dimensions in 1..2^22, where the
source coordinates stay inside the frame. -/
theorem scaleFrame_padded_bounded_run (fresh : Nat → Nat) (src dst : FrameData) (tw th : Int)
    (h : ValidPadded src) (hw : src.width < 2 ^ 24) (hh : src.height < 2 ^ 24)
    (htw0 : 0 < tw) (htw : tw ≤ 2 ^ 22) (hth0 : 0 < th) (hth : th ≤ 2 ^ 22)
    (hsz : tw * bytesPerPixel src.format * th < 2 ^ 31) :
    ∃ d, FrameUtils.scaleFrame fresh src dst tw th =
        .ok (true, { dst with width := tw, height := th, format := src.format,
                              stride := tw * bytesPerPixel src.format,
                              size := toSizeT (tw * bytesPerPixel src.format * th),
                              data := some d }) ∧
      (d.length : Int) = tw * bytesPerPixel src.format * th ∧
      ∀ x y c, 0 ≤ x → x < tw → 0 ≤ y → y < th → 0 ≤ c → c < bytesPerPixel src.format →
        peek d ((y * tw + x) * bytesPerPixel src.format + c) =
          scaleSample src.bytes src.width src.height (bytesPerPixel src.format) tw th x y c :=
  scaleFrame_padded_run fresh src dst tw th h (by omega) (by omega) hsz
    (fun x hx0 hx1 => srcCoord0_in_bounds src.width tw x h.2.2.1 hw htw0 htw hx0 hx1)
    (fun y hy0 hy1 => srcCoord0_in_bounds src.height th y h.2.2.2.1 hh hth0 hth hy0 hy1)

/-- The frame transforms do not read the field `stride`: the results of `scaleFrame`,
`rotate90CW` and `rotate90CCW` are the same whatever its value, and `flipHorizontal`
computes the same bytes and leaves the field as it was. -/
theorem stride_field_unused (fresh : Nat → Nat) (src dst : FrameData)
    (stride targetWidth targetHeight : Int) :
    FrameUtils.scaleFrame fresh { src with stride := stride } dst targetWidth targetHeight =
      FrameUtils.scaleFrame fresh src dst targetWidth targetHeight ∧
    FrameUtils.flipHorizontal { src with stride := stride } =
      (FrameUtils.flipHorizontal src).map (fun p => (p.1, { p.2 with stride := stride })) ∧
    FrameUtils.rotate90CW fresh { src with stride := stride } dst =
      FrameUtils.rotate90CW fresh src dst ∧
    FrameUtils.rotate90CCW fresh { src with stride := stride } dst =
      FrameUtils.rotate90CCW fresh src dst :=
  ⟨rfl, stride_flip src stride, rfl, rfl⟩

/-! ## Claims -/

/-- C1: for every tightly packed RGB24 frame with even width w > 0 and even height h > 0,
`convertFormat` to NV21 succeeds and produces w*h*3/2 bytes; byte j*w+i is
((66R + 129G + 25B + 128) >> 8) + 16 of pixel (i,j), and for every 2x2 block (m,n) the
byte at w*h + n*w + 2m is V = ((112R - 94G - 18B + 128) >> 8) + 128 and the next byte is
U = ((-38R - 74G + 112B + 128) >> 8) + 128 of the block's top-left pixel (2m,2n); the
shift is division by 256 rounded down. -/
theorem convertFormat_rgb_to_nv21 (fresh : Nat → Nat) (src dst : FrameData)
    (h : ValidPacked src) (hrgb : src.format = 3) (hb : BytesOk src)
    (hwe : src.width % 2 = 0) (hhe : src.height % 2 = 0) :
    ∃ out, FrameUtils.convertFormat fresh src dst 0 = .ok (true, out) ∧
      out.format = 0 ∧ out.width = src.width ∧ out.height = src.height ∧
      (out.size : Int) = src.width * src.height * 3 / 2 ∧ out.bytes.length = out.size ∧
      (∀ i j, 0 ≤ i → i < src.width → 0 ≤ j → j < src.height →
        (peek out.bytes (j * src.width + i) : Int) =
          Int.fdiv (66 * (src.pixelByte i j 0 : Int) + 129 * src.pixelByte i j 1 +
            25 * src.pixelByte i j 2 + 128) 256 + 16) ∧
      (∀ m n, 0 ≤ m → 2 * m < src.width → 0 ≤ n → 2 * n < src.height →
        (peek out.bytes (src.width * src.height + n * src.width + 2 * m) : Int) =
          Int.fdiv (112 * (src.pixelByte (2 * m) (2 * n) 0 : Int) -
            94 * src.pixelByte (2 * m) (2 * n) 1 -
            18 * src.pixelByte (2 * m) (2 * n) 2 + 128) 256 + 128 ∧
        (peek out.bytes (src.width * src.height + n * src.width + 2 * m + 1) : Int) =
          Int.fdiv (-38 * (src.pixelByte (2 * m) (2 * n) 0 : Int) -
            74 * src.pixelByte (2 * m) (2 * n) 1 +
            112 * src.pixelByte (2 * m) (2 * n) 2 + 128) 256 + 128) := by
  obtain ⟨out, e1, e2, e3, ev, e5⟩ := convertFormat_rgb_nv21_run fresh src dst h hrgb hb hwe hhe
  have hs := validPacked_rgb_stride src h hrgb
  have px := pixelByte_rgb src hs hrgb
  refine ⟨out, e1, ev.2.1, e2, e3, ?_, ev.2.2.2.2.2.2.2.1, ?_, ?_⟩
  · have := ev.2.2.2.2.2.2.1
    rw [e2, e3] at this
    omega
  · intro i j hi0 hi1 hj0 hj1
    have := (e5 i j hi0 hi1 hj0 hj1).1
    rw [px, px, px, add_zero]
    unfold specY at this
    exact this
  · intro m n hm0 hm1 hn0 hn1
    have := (e5 (2 * m) (2 * n) (by omega) hm1 (by omega) hn1).2 (by omega) (by omega)
    rw [px, px, px, add_zero]
    have hn : 2 * n / 2 = n := by omega
    rw [hn] at this
    have i1 : src.width * src.height + n * src.width + 2 * m =
      src.width * src.height + (n * src.width + 2 * m) := by ring
    have i2 : src.width * src.height + n * src.width + 2 * m + 1 =
      src.width * src.height + (n * src.width + 2 * m + 1) := by ring
    rw [i2, i1]
    unfold specV specU at this
    exact this

theorem convertFormat_rgb_to_nv21_witness :
    (ValidPacked exSolid ∧ exSolid.format = 3 ∧ BytesOk exSolid ∧ exSolid.width % 2 = 0 ∧
      exSolid.height % 2 = 0) ∧
    ∃ out, FrameUtils.convertFormat (fun _ => 7) exSolid emptyFrame 0 = .ok (true, out) ∧
      out.format = 0 ∧ out.width = exSolid.width ∧ out.height = exSolid.height ∧
      (out.size : Int) = exSolid.width * exSolid.height * 3 / 2 ∧
      out.bytes.length = out.size ∧
      (∀ i j, 0 ≤ i → i < exSolid.width → 0 ≤ j → j < exSolid.height →
        (peek out.bytes (j * exSolid.width + i) : Int) =
          Int.fdiv (66 * (exSolid.pixelByte i j 0 : Int) + 129 * exSolid.pixelByte i j 1 +
            25 * exSolid.pixelByte i j 2 + 128) 256 + 16) ∧
      (∀ m n, 0 ≤ m → 2 * m < exSolid.width → 0 ≤ n → 2 * n < exSolid.height →
        (peek out.bytes (exSolid.width * exSolid.height + n * exSolid.width + 2 * m) : Int) =
          Int.fdiv (112 * (exSolid.pixelByte (2 * m) (2 * n) 0 : Int) -
            94 * exSolid.pixelByte (2 * m) (2 * n) 1 -
            18 * exSolid.pixelByte (2 * m) (2 * n) 2 + 128) 256 + 128 ∧
        (peek out.bytes (exSolid.width * exSolid.height + n * exSolid.width + 2 * m + 1)
            : Int) =
          Int.fdiv (-38 * (exSolid.pixelByte (2 * m) (2 * n) 0 : Int) -
            74 * exSolid.pixelByte (2 * m) (2 * n) 1 +
            112 * exSolid.pixelByte (2 * m) (2 * n) 2 + 128) 256 + 128) :=
  ⟨by decide, convertFormat_rgb_to_nv21 (fun _ => 7) exSolid emptyFrame (by decide)
    (by decide) (by decide) (by decide) (by decide)⟩

/-- C2 as stated fails: on the 2x2 NV21 frame with luma 123, V = 175 and U = 91 the code
returns R = 200 for pixel (0,0), while the formula applied to the stored chroma byte,
(298(Y-16) + 409V + 128) >> 8 clamped to [0,255], gives 255. -/
theorem nv21ToRgb_stored_chroma_counterexample :
    ∃ out, FrameUtils.convertFormat (fun _ => 0) exNv21 emptyFrame 3 = .ok (true, out) ∧
      (out.pixelByte 0 0 0 : Int) = 200 ∧
      max 0 (min 255 (Int.fdiv (298 * ((peek exNv21.bytes (0 * 2 + 0) : Int) - 16) +
        409 * (peek exNv21.bytes (2 * 2 + (0 / 2) * 2 + 0) : Int) + 128) 256)) = 255 ∧
      (out.pixelByte 0 0 0 : Int) ≠
        max 0 (min 255 (Int.fdiv (298 * ((peek exNv21.bytes (0 * 2 + 0) : Int) - 16) +
          409 * (peek exNv21.bytes (2 * 2 + (0 / 2) * 2 + 0) : Int) + 128) 256)) :=
  by
  obtain ⟨out, e1, e2, _, e4, e5, _, _, _, e9⟩ :=
    convertFormat_nv21_rgb_run (fun _ => 0) exNv21 emptyFrame (by decide)
  have p := (e9 0 0 (by decide) (by decide) (by decide) (by decide)).1
  have hR : (out.pixelByte 0 0 0 : Int) = 200 := by
    rw [pixelByte_rgb out (by rw [e5, e2]) e4, add_zero, e2, p]
    decide
  refine ⟨out, e1, hR, by decide, ?_⟩
  rw [hR]
  decide

/-- C2 (amended): for every NV21 frame with even width w > 0 and even height h > 0,
`convertFormat` to RGB24 succeeds and gives each pixel (i,j) the values
R = (298C + 409E + 128) >> 8, G = (298C - 100D - 208E + 128) >> 8,
B = (298C + 516D + 128) >> 8, each clamped to [0,255], where C = Y - 16, D = U - 128,
E = V - 128, Y is the luma byte at j*w+i and V, U are the chroma bytes stored for the
pixel's 2x2 block: V at w*h + (j/2)*w + (i rounded down to even), U at the next byte. -/
theorem convertFormat_nv21_to_rgb (fresh : Nat → Nat) (src dst : FrameData)
    (h : ValidNv21 src) :
    ∃ out, FrameUtils.convertFormat fresh src dst 3 = .ok (true, out) ∧
      out.format = 3 ∧ out.width = src.width ∧ out.height = src.height ∧
      out.stride = src.width * 3 ∧ (out.size : Int) = src.width * src.height * 3 ∧
      out.bytes.length = out.size ∧
      ∀ i j, 0 ≤ i → i < src.width → 0 ≤ j → j < src.height →
        (out.pixelByte i j 0 : Int) = max 0 (min 255 (Int.fdiv
          (298 * ((peek src.bytes (j * src.width + i) : Int) - 16) +
           409 * ((peek src.bytes (src.width * src.height + j / 2 * src.width + (i - i % 2))
              : Int) - 128) + 128) 256)) ∧
        (out.pixelByte i j 1 : Int) = max 0 (min 255 (Int.fdiv
          (298 * ((peek src.bytes (j * src.width + i) : Int) - 16) -
           100 * ((peek src.bytes
              (src.width * src.height + j / 2 * src.width + (i - i % 2) + 1) : Int) - 128) -
           208 * ((peek src.bytes (src.width * src.height + j / 2 * src.width + (i - i % 2))
              : Int) - 128) + 128) 256)) ∧
        (out.pixelByte i j 2 : Int) = max 0 (min 255 (Int.fdiv
          (298 * ((peek src.bytes (j * src.width + i) : Int) - 16) +
           516 * ((peek src.bytes
              (src.width * src.height + j / 2 * src.width + (i - i % 2) + 1) : Int) - 128) +
           128) 256)) := by
  obtain ⟨out, e1, e2, e3, e4, e5, e6, e7, _, e9⟩ := convertFormat_nv21_rgb_run fresh src dst h
  refine ⟨out, e1, e4, e2, e3, e5, e6, e7, ?_⟩
  intro i j hi0 hi1 hj0 hj1
  obtain ⟨p1, p2, p3⟩ := e9 i j hi0 hi1 hj0 hj1
  have px := pixelByte_rgb out (by rw [e5, e2]) e4
  have i1 : src.width * src.height + j / 2 * src.width + (i - i % 2) =
    src.width * src.height + (j / 2 * src.width + (i - i % 2)) := by ring
  have i2 : src.width * src.height + j / 2 * src.width + (i - i % 2) + 1 =
    src.width * src.height + (j / 2 * src.width + (i - i % 2) + 1) := by ring
  rw [px, px, px, add_zero, e2, i2, i1, p1, p2, p3, clamp_eq, clamp_eq, clamp_eq, shr8, shr8,
    shr8]
  exact ⟨rfl, rfl, rfl⟩

theorem convertFormat_nv21_to_rgb_witness :
    ValidNv21 exNv21 ∧
    ∃ out, FrameUtils.convertFormat (fun _ => 0) exNv21 emptyFrame 3 = .ok (true, out) ∧
      out.format = 3 ∧ out.width = exNv21.width ∧ out.height = exNv21.height ∧
      out.stride = exNv21.width * 3 ∧ (out.size : Int) = exNv21.width * exNv21.height * 3 ∧
      out.bytes.length = out.size ∧
      ∀ i j, 0 ≤ i → i < exNv21.width → 0 ≤ j → j < exNv21.height →
        (out.pixelByte i j 0 : Int) = max 0 (min 255 (Int.fdiv
          (298 * ((peek exNv21.bytes (j * exNv21.width + i) : Int) - 16) +
           409 * ((peek exNv21.bytes
              (exNv21.width * exNv21.height + j / 2 * exNv21.width + (i - i % 2))
              : Int) - 128) + 128) 256)) ∧
        (out.pixelByte i j 1 : Int) = max 0 (min 255 (Int.fdiv
          (298 * ((peek exNv21.bytes (j * exNv21.width + i) : Int) - 16) -
           100 * ((peek exNv21.bytes
              (exNv21.width * exNv21.height + j / 2 * exNv21.width + (i - i % 2) + 1)
              : Int) - 128) -
           208 * ((peek exNv21.bytes
              (exNv21.width * exNv21.height + j / 2 * exNv21.width + (i - i % 2))
              : Int) - 128) + 128) 256)) ∧
        (out.pixelByte i j 2 : Int) = max 0 (min 255 (Int.fdiv
          (298 * ((peek exNv21.bytes (j * exNv21.width + i) : Int) - 16) +
           516 * ((peek exNv21.bytes
              (exNv21.width * exNv21.height + j / 2 * exNv21.width + (i - i % 2) + 1)
              : Int) - 128) +
           128) 256)) :=
  ⟨by decide, convertFormat_nv21_to_rgb (fun _ => 0) exNv21 emptyFrame (by decide)⟩

/-- C3: for every tightly packed RGB24 frame of even width and even height whose every
pixel is (R=200, G=100, B=50), `convertFormat` to NV21 followed by `convertFormat` back
to RGB24 succeeds and yields a frame of the same dimensions in which every channel of
every pixel differs from the original by at most 2. -/
theorem rgb_nv21_rgb_roundtrip (fresh1 fresh2 : Nat → Nat) (src dst1 dst2 : FrameData)
    (h : ValidPacked src) (hrgb : src.format = 3) (hb : BytesOk src)
    (hwe : src.width % 2 = 0) (hhe : src.height % 2 = 0)
    (hsolid : ∀ i j, 0 ≤ i → i < src.width → 0 ≤ j → j < src.height →
      src.pixelByte i j 0 = 200 ∧ src.pixelByte i j 1 = 100 ∧ src.pixelByte i j 2 = 50) :
    ∃ r1 r2, FrameUtils.convertFormat fresh1 src dst1 0 = .ok (true, r1) ∧
      FrameUtils.convertFormat fresh2 r1 dst2 3 = .ok (true, r2) ∧
      r2.format = 3 ∧ r2.width = src.width ∧ r2.height = src.height ∧
      ∀ i j c, 0 ≤ i → i < src.width → 0 ≤ j → j < src.height → 0 ≤ c → c < 3 →
        (r2.pixelByte i j c : Int) - src.pixelByte i j c ≤ 2 ∧
        (src.pixelByte i j c : Int) - r2.pixelByte i j c ≤ 2 := by
  obtain ⟨r1, a1, a2, a3, av, a5⟩ := convertFormat_rgb_nv21_run fresh1 src dst1 h hrgb hb hwe hhe
  obtain ⟨r2, b1, b2, b3, b4, b5, _, _, _, b9⟩ := convertFormat_nv21_rgb_run fresh2 r1 dst2 av
  refine ⟨r1, r2, a1, b1, b4, by rw [b2, a2], by rw [b3, a3], ?_⟩
  have hs := validPacked_rgb_stride src h hrgb
  have px := pixelByte_rgb src hs hrgb
  have px2 := pixelByte_rgb r2 (by rw [b5, b2]) b4
  have hw : 0 < src.width := h.2.2.1
  have hh : 0 < src.height := h.2.2.2.1
  -- every source pixel has the three bytes 200, 100, 50
  have hsrc : ∀ i j, 0 ≤ i → i < src.width → 0 ≤ j → j < src.height →
      peek src.bytes ((j * src.width + i) * 3) = 200 ∧
      peek src.bytes ((j * src.width + i) * 3 + 1) = 100 ∧
      peek src.bytes ((j * src.width + i) * 3 + 2) = 50 := by
    intro i j hi0 hi1 hj0 hj1
    have := hsolid i j hi0 hi1 hj0 hj1
    rw [px, px, px, add_zero] at this
    exact this
  -- the NV21 frame holds luma 123 and chroma V = 175, U = 91 throughout
  have hY : ∀ i j, 0 ≤ i → i < src.width → 0 ≤ j → j < src.height →
      peek r1.bytes (j * src.width + i) = 123 := by
    intro i j hi0 hi1 hj0 hj1
    have e := (a5 i j hi0 hi1 hj0 hj1).1
    obtain ⟨s1, s2, s3⟩ := hsrc i j hi0 hi1 hj0 hj1
    rw [s1, s2, s3] at e
    have : specY ((200 : Nat) : Int) ((100 : Nat) : Int) ((50 : Nat) : Int) = 123 := by decide
    rw [this] at e
    exact_mod_cast e
  have hVU : ∀ i j, 0 ≤ i → i < src.width → 0 ≤ j → j < src.height →
      peek r1.bytes (src.width * src.height + (j / 2 * src.width + (i - i % 2))) = 175 ∧
      peek r1.bytes (src.width * src.height + (j / 2 * src.width + (i - i % 2) + 1)) = 91 := by
    intro i j hi0 hi1 hj0 hj1
    have e := (a5 (i - i % 2) (j - j % 2) (by omega) (by omega) (by omega) (by omega)).2
      (by omega) (by omega)
    obtain ⟨s1, s2, s3⟩ := hsrc (i - i % 2) (j - j % 2) (by omega) (by omega) (by omega)
      (by omega)
    rw [s1, s2, s3] at e
    have hj : (j - j % 2) / 2 = j / 2 := by omega
    rw [hj] at e
    have v : specV ((200 : Nat) : Int) ((100 : Nat) : Int) ((50 : Nat) : Int) = 175 := by
      decide
    have u : specU ((200 : Nat) : Int) ((100 : Nat) : Int) ((50 : Nat) : Int) = 91 := by
      decide
    rw [v, u] at e
    exact ⟨by exact_mod_cast e.1, by exact_mod_cast e.2⟩
  intro i j c hi0 hi1 hj0 hj1 hc0 hc1
  obtain ⟨q1, q2, q3⟩ := b9 i j (by omega) (by omega) (by omega) (by omega)
  simp only [a2, a3, hY i j hi0 hi1 hj0 hj1, (hVU i j hi0 hi1 hj0 hj1).1,
    (hVU i j hi0 hi1 hj0 hj1).2] at q1 q2 q3
  obtain ⟨s1, s2, s3⟩ := hsrc i j hi0 hi1 hj0 hj1
  have c1 : clamp ((298 * (((123 : Nat) : Int) - 16) + 409 * (((175 : Nat) : Int) - 128) + 128)
      >>> (8 : Nat)) = 200 := by decide
  have c2 : clamp ((298 * (((123 : Nat) : Int) - 16) - 100 * (((91 : Nat) : Int) - 128) -
      208 * (((175 : Nat) : Int) - 128) + 128) >>> (8 : Nat)) = 101 := by decide
  have c3 : clamp ((298 * (((123 : Nat) : Int) - 16) + 516 * (((91 : Nat) : Int) - 128) + 128)
      >>> (8 : Nat)) = 50 := by decide
  rw [c1] at q1
  rw [c2] at q2
  rw [c3] at q3
  have hc : c = 0 ∨ c = 1 ∨ c = 2 := by omega
  rw [px, px2, b2, a2]
  rcases hc with rfl | rfl | rfl
  · rw [add_zero, q1, s1]; decide
  · rw [q2, s2]; decide
  · rw [q3, s3]; decide

theorem rgb_nv21_rgb_roundtrip_witness :
    (ValidPacked exSolid ∧ exSolid.format = 3 ∧ BytesOk exSolid ∧ exSolid.width % 2 = 0 ∧
      exSolid.height % 2 = 0 ∧
      ∀ i j, 0 ≤ i → i < exSolid.width → 0 ≤ j → j < exSolid.height →
        exSolid.pixelByte i j 0 = 200 ∧ exSolid.pixelByte i j 1 = 100 ∧
        exSolid.pixelByte i j 2 = 50) ∧
    ∃ r1 r2, FrameUtils.convertFormat (fun _ => 1) exSolid emptyFrame 0 = .ok (true, r1) ∧
      FrameUtils.convertFormat (fun _ => 2) r1 emptyFrame 3 = .ok (true, r2) ∧
      r2.format = 3 ∧ r2.width = exSolid.width ∧ r2.height = exSolid.height ∧
      ∀ i j c, 0 ≤ i → i < exSolid.width → 0 ≤ j → j < exSolid.height → 0 ≤ c → c < 3 →
        (r2.pixelByte i j c : Int) - exSolid.pixelByte i j c ≤ 2 ∧
        (exSolid.pixelByte i j c : Int) - r2.pixelByte i j c ≤ 2 :=
  have hsolid : ∀ i j : Int, 0 ≤ i → i < exSolid.width → 0 ≤ j → j < exSolid.height →
      exSolid.pixelByte i j 0 = 200 ∧ exSolid.pixelByte i j 1 = 100 ∧
      exSolid.pixelByte i j 2 = 50 := by
    intro i j hi0 hi1 hj0 hj1
    have hi : i = 0 ∨ i = 1 := by
      have : i < 2 := hi1
      omega
    have hj : j = 0 ∨ j = 1 := by
      have : j < 2 := hj1
      omega
    rcases hi with rfl | rfl <;> rcases hj with rfl | rfl <;> decide
  ⟨⟨by decide, by decide, by decide, by decide, by decide, hsolid⟩,
    rgb_nv21_rgb_roundtrip (fun _ => 1) (fun _ => 2) exSolid emptyFrame emptyFrame
      (by decide) (by decide) (by decide) (by decide) (by decide) hsolid⟩

/-- C4: for every well-formed uncompressed BMP file with 24 or 32 bits per pixel, width
w > 0, height field H != 0 and complete pixel data, loading succeeds and yields width w,
height h = |H| and an RGB24 buffer of w*h*3 bytes stored top to bottom, in which pixel
(x,y) has (R,G,B) equal to the file bytes at dataOffset + r*rowSize + x*bytesPerPixel
+ 2, + 1, + 0, where bytesPerPixel = bitsPerPixel/8, rowSize =
ceil(w*bytesPerPixel/4)*4 and r = h-1-y if H > 0, else r = y. -/
theorem loadBmpImage_decodes (env : Env) (path : String) (r : MediaReader)
    (content : List Nat) (hfile : env.files path = some content)
    (hwf : WellFormedBmp content) :
    ∃ r', MediaReader.loadBmpImage env path r = .ok (true, r') ∧
      r'.isReady = true ∧ r'.m_isVideo = false ∧ r'.m_frameFormat = 3 ∧
      r'.getWidth = (bmpInfoHeader content).width ∧
      r'.getHeight = ((bmpInfoHeader content).height.natAbs : Int) ∧
      (r'.m_imageData.length : Int) =
        (bmpInfoHeader content).width * ((bmpInfoHeader content).height.natAbs : Int) * 3 ∧
      ∀ x y, 0 ≤ x → x < (bmpInfoHeader content).width → 0 ≤ y →
        y < ((bmpInfoHeader content).height.natAbs : Int) →
        peek r'.m_imageData ((y * (bmpInfoHeader content).width + x) * 3) =
          peek content ((bmpFileHeader content).dataOffset +
            (if 0 < (bmpInfoHeader content).height
              then ((bmpInfoHeader content).height.natAbs : Int) - 1 - y else y) *
              bmpRowSize content + x * bmpBytesPerPixel content + 2) ∧
        peek r'.m_imageData ((y * (bmpInfoHeader content).width + x) * 3 + 1) =
          peek content ((bmpFileHeader content).dataOffset +
            (if 0 < (bmpInfoHeader content).height
              then ((bmpInfoHeader content).height.natAbs : Int) - 1 - y else y) *
              bmpRowSize content + x * bmpBytesPerPixel content + 1) ∧
        peek r'.m_imageData ((y * (bmpInfoHeader content).width + x) * 3 + 2) =
          peek content ((bmpFileHeader content).dataOffset +
            (if 0 < (bmpInfoHeader content).height
              then ((bmpInfoHeader content).height.natAbs : Int) - 1 - y else y) *
              bmpRowSize content + x * bmpBytesPerPixel content + 0) := by
  obtain ⟨img, e1, e2, e3⟩ := loadBmpImage_run env path r content hfile hwf
  refine ⟨_, e1, rfl, rfl, rfl, rfl, rfl, e2, ?_⟩
  intro x y hx0 hx1 hy0 hy1
  have p0 := e3 x y 0 hx0 hx1 hy0 hy1 (by omega) (by omega)
  have p1 := e3 x y 1 hx0 hx1 hy0 hy1 (by omega) (by omega)
  have p2 := e3 x y 2 hx0 hx1 hy0 hy1 (by omega) (by omega)
  rw [add_zero] at p0
  exact ⟨p0, p1, p2⟩

theorem loadBmpImage_decodes_witness :
    (exEnv.files "photo.bmp" = some exBmp ∧ WellFormedBmp exBmp) ∧
    ∃ r', MediaReader.loadBmpImage exEnv "photo.bmp" MediaReader.new = .ok (true, r') ∧
      r'.isReady = true ∧ r'.m_isVideo = false ∧ r'.m_frameFormat = 3 ∧
      r'.getWidth = (bmpInfoHeader exBmp).width ∧
      r'.getHeight = ((bmpInfoHeader exBmp).height.natAbs : Int) ∧
      (r'.m_imageData.length : Int) =
        (bmpInfoHeader exBmp).width * ((bmpInfoHeader exBmp).height.natAbs : Int) * 3 ∧
      ∀ x y, 0 ≤ x → x < (bmpInfoHeader exBmp).width → 0 ≤ y →
        y < ((bmpInfoHeader exBmp).height.natAbs : Int) →
        peek r'.m_imageData ((y * (bmpInfoHeader exBmp).width + x) * 3) =
          peek exBmp ((bmpFileHeader exBmp).dataOffset +
            (if 0 < (bmpInfoHeader exBmp).height
              then ((bmpInfoHeader exBmp).height.natAbs : Int) - 1 - y else y) *
              bmpRowSize exBmp + x * bmpBytesPerPixel exBmp + 2) ∧
        peek r'.m_imageData ((y * (bmpInfoHeader exBmp).width + x) * 3 + 1) =
          peek exBmp ((bmpFileHeader exBmp).dataOffset +
            (if 0 < (bmpInfoHeader exBmp).height
              then ((bmpInfoHeader exBmp).height.natAbs : Int) - 1 - y else y) *
              bmpRowSize exBmp + x * bmpBytesPerPixel exBmp + 1) ∧
        peek r'.m_imageData ((y * (bmpInfoHeader exBmp).width + x) * 3 + 2) =
          peek exBmp ((bmpFileHeader exBmp).dataOffset +
            (if 0 < (bmpInfoHeader exBmp).height
              then ((bmpInfoHeader exBmp).height.natAbs : Int) - 1 - y else y) *
              bmpRowSize exBmp + x * bmpBytesPerPixel exBmp + 0) :=
  ⟨⟨by decide, by decide⟩,
    loadBmpImage_decodes exEnv "photo.bmp" MediaReader.new exBmp (by decide) (by decide)⟩

/-- C5, at a failing input: `open` on a BMP file whose compression field is 1, on a new
reader, does not return failure; it does not return at all. -/
theorem open_compressed_bmp_blocks :
    MediaReader.open exEnv 0 "compressed.bmp" MediaReader.new = .error .deadlock ∧
    (bmpInfoHeader exCompressedBmp).compression = 1 ∧
    MediaReader.loadBmpImage exEnv "compressed.bmp" MediaReader.new =
      .ok (false, { MediaReader.new with m_width := 2, m_height := 2 }) := by
  refine ⟨by decide, by decide, by decide⟩

/-- C6: for every valid tightly packed RGB24 or RGBA32 frame of width W and height H,
`rotate90CW` succeeds and returns a frame of width H, height W, the same format, stride
H*bpp and size W*H*bpp, whose pixel at column H-1-y, row x is the source pixel at
column x, row y. -/
theorem rotate90CW_spec (fresh : Nat → Nat) (src dst : FrameData) (h : ValidPacked src) :
    ∃ out, FrameUtils.rotate90CW fresh src dst = .ok (true, out) ∧
      out.width = src.height ∧ out.height = src.width ∧ out.format = src.format ∧
      out.stride = src.height * bytesPerPixel src.format ∧
      (out.size : Int) = src.width * src.height * bytesPerPixel src.format ∧
      out.bytes.length = out.size ∧
      ∀ x y c, 0 ≤ x → x < src.width → 0 ≤ y → y < src.height → 0 ≤ c →
        c < bytesPerPixel src.format →
        out.pixelByte (src.height - 1 - y) x c = src.pixelByte x y c := by
  obtain ⟨out, h1, h2, h3, h4, _, hv, h6, h7⟩ := rotate90CW_run fresh src dst h
  refine ⟨out, h1, h2, h3, h4, ?_, ?_, hv.2.2.2.2.2.2.1, h7⟩
  · rw [hv.2.2.2.2.1, h2, h4]
  · have := validPacked_size src h
    rw [h6, ← h.2.2.2.2.2.2.1]
    exact this

theorem rotate90CW_spec_witness :
    ValidPacked exFrame ∧
    ∃ out, FrameUtils.rotate90CW (fun _ => 0) exFrame emptyFrame = .ok (true, out) ∧
      out.width = exFrame.height ∧ out.height = exFrame.width ∧
      out.format = exFrame.format ∧
      out.stride = exFrame.height * bytesPerPixel exFrame.format ∧
      (out.size : Int) = exFrame.width * exFrame.height * bytesPerPixel exFrame.format ∧
      out.bytes.length = out.size ∧
      ∀ x y c, 0 ≤ x → x < exFrame.width → 0 ≤ y → y < exFrame.height → 0 ≤ c →
        c < bytesPerPixel exFrame.format →
        out.pixelByte (exFrame.height - 1 - y) x c = exFrame.pixelByte x y c :=
  ⟨by decide, rotate90CW_spec (fun _ => 0) exFrame emptyFrame (by decide)⟩

/-- C7: for every valid tightly packed RGB24 frame, `rotate90CW` followed by
`rotate90CCW` on its result succeeds and yields a frame with the original width and
height and exactly the original bytes. -/
theorem rotate90CW_then_rotate90CCW (fresh1 fresh2 : Nat → Nat) (src dst1 dst2 : FrameData)
    (h : ValidPacked src) (hrgb : src.format = 3) :
    ∃ r1 r2, FrameUtils.rotate90CW fresh1 src dst1 = .ok (true, r1) ∧
      FrameUtils.rotate90CCW fresh2 r1 dst2 = .ok (true, r2) ∧
      r2.width = src.width ∧ r2.height = src.height ∧ r2.format = 3 ∧
      r2.data = src.data ∧ r2.size = src.size ∧ r2.stride = src.stride := by
  obtain ⟨r1, a1, a2, a3, a4, _, av, _, a7⟩ := rotate90CW_run fresh1 src dst1 h
  obtain ⟨r2, b1, b2, b3, b4, _, bv, _, b7⟩ := rotate90CCW_run fresh2 r1 dst2 av
  have hw : r2.width = src.width := by rw [b2, a3]
  have hh : r2.height = src.height := by rw [b3, a2]
  have hf : r2.format = src.format := by rw [b4, a4]
  have := packed_ext src r2 h bv hw hh hf (by
    intro x y c hx0 hx1 hy0 hy1 hc0 hc1
    have e1 := a7 x y c hx0 hx1 hy0 hy1 hc0 hc1
    have e2 := b7 (src.height - 1 - y) x c (by omega) (by omega) (by omega) (by omega) hc0
      (by rw [a4]; exact hc1)
    rw [a2] at e2
    have e3 : src.height - 1 - (src.height - 1 - y) = y := by omega
    rw [e3] at e2
    rw [e2, e1])
  exact ⟨r1, r2, a1, b1, hw, hh, by rw [hf, hrgb], this.1, this.2.1, this.2.2⟩

theorem rotate90CW_then_rotate90CCW_witness :
    (ValidPacked exFrame ∧ exFrame.format = 3) ∧
    ∃ r1 r2, FrameUtils.rotate90CW (fun _ => 1) exFrame emptyFrame = .ok (true, r1) ∧
      FrameUtils.rotate90CCW (fun _ => 2) r1 emptyFrame = .ok (true, r2) ∧
      r2.width = exFrame.width ∧ r2.height = exFrame.height ∧ r2.format = 3 ∧
      r2.data = exFrame.data ∧ r2.size = exFrame.size ∧ r2.stride = exFrame.stride :=
  ⟨by decide, rotate90CW_then_rotate90CCW (fun _ => 1) (fun _ => 2) exFrame emptyFrame
    emptyFrame (by decide) (by decide)⟩

/-- C8: for every valid tightly packed RGB24 frame, `rotate180` applied twice succeeds
both times; the first application changes only the bytes, the second gives back the
original frame, byte for byte. -/
theorem rotate180_twice (f : FrameData) (h : ValidPacked f) (_hrgb : f.format = 3) :
    ∃ d, FrameUtils.rotate180 f = .ok (true, { f with data := some d }) ∧
      FrameUtils.rotate180 { f with data := some d } = .ok (true, f) := by
  obtain ⟨d1, a1, a2, a3⟩ := rotate180_run f h
  have hv := validPacked_setData f d1 h a2
  obtain ⟨d2, b1, b2, b3⟩ := rotate180_run _ hv
  refine ⟨d1, a1, ?_⟩
  rw [b1]
  obtain ⟨fdata, hfd⟩ := Option.isSome_iff_exists.mp h.1
  have hbytes : f.bytes = fdata := by simp [FrameData.bytes, hfd]
  have hb := bytesPerPixel_pos f.format
  have hd : d2 = fdata := by
    apply buf_ext
    · rw [b2, ← hbytes]; exact a2
    · intro k hk0 hk1
      have hk2 : k < f.width * f.height * bytesPerPixel f.format := by
        have := validPacked_size f h
        have e : d2.length = f.bytes.length := by rw [b2]; exact a2
        omega
      obtain ⟨p, c, hp0, hp1, hc0, hc1, rfl⟩ := pos_decomp k _ _ hb hk0 hk2
      have e1 := b3 p c hp0 hp1 hc0 hc1
      have e2 := a3 (f.width * f.height - 1 - p) c (by omega) (by omega) hc0 hc1
      have e3 : f.width * f.height - 1 - (f.width * f.height - 1 - p) = p := by omega
      rw [e3] at e2
      rw [← hbytes, ← e2]
      exact e1
  rw [hd]
  congr 2
  exact setData_self f fdata hfd

theorem rotate180_twice_witness :
    (ValidPacked exFrame ∧ exFrame.format = 3) ∧
    ∃ d, FrameUtils.rotate180 exFrame = .ok (true, { exFrame with data := some d }) ∧
      FrameUtils.rotate180 { exFrame with data := some d } = .ok (true, exFrame) :=
  ⟨by decide, rotate180_twice exFrame (by decide) (by decide)⟩

/-- C9: for every valid tightly packed RGB24 frame, `flipHorizontal` applied twice
succeeds both times and gives back the original frame, byte for byte. -/
theorem flipHorizontal_twice (f : FrameData) (h : ValidPacked f) (_hrgb : f.format = 3) :
    ∃ d, FrameUtils.flipHorizontal f = .ok (true, { f with data := some d }) ∧
      FrameUtils.flipHorizontal { f with data := some d } = .ok (true, f) := by
  obtain ⟨d1, a1, a2, a3⟩ := flipHorizontal_run f h
  have hv := validPacked_setData f d1 h a2
  obtain ⟨d2, b1, b2, b3⟩ := flipHorizontal_run _ hv
  refine ⟨d1, a1, ?_⟩
  rw [b1]
  obtain ⟨fdata, hfd⟩ := Option.isSome_iff_exists.mp h.1
  have hv2 := validPacked_setData _ d2 hv b2
  have := packed_ext f _ h hv2 rfl rfl rfl (by
    intro x y c hx0 hx1 hy0 hy1 hc0 hc1
    have e1 := b3 x y c hx0 hx1 hy0 hy1 hc0 hc1
    have e2 := a3 (f.width - 1 - x) y c (by omega) (by omega) hy0 hy1 hc0 hc1
    have e3 : f.width - 1 - (f.width - 1 - x) = x := by omega
    rw [e3] at e2
    rw [← e2]
    exact e1)
  have hd : some d2 = f.data := this.1
  congr 2
  show { f with data := some d2 } = f
  rw [hd]

theorem flipHorizontal_twice_witness :
    (ValidPacked exFrame ∧ exFrame.format = 3) ∧
    ∃ d, FrameUtils.flipHorizontal exFrame = .ok (true, { exFrame with data := some d }) ∧
      FrameUtils.flipHorizontal { exFrame with data := some d } = .ok (true, exFrame) :=
  ⟨by decide, flipHorizontal_twice exFrame (by decide) (by decide)⟩

/-- C10: for every valid tightly packed RGB24 or RGBA32 frame of width W and height H,
`flipHorizontal` succeeds; afterwards the pixel at (x,y) is the original pixel at
(W-1-x, y), all channels together, the middle column of a frame of odd width is
unchanged, and width, height, format, stride, size and timestamp are unchanged. -/
theorem flipHorizontal_spec (f : FrameData) (h : ValidPacked f) :
    ∃ out, FrameUtils.flipHorizontal f = .ok (true, out) ∧
      out.width = f.width ∧ out.height = f.height ∧ out.format = f.format ∧
      out.stride = f.stride ∧ out.size = f.size ∧ out.timestamp = f.timestamp ∧
      out.bytes.length = f.size ∧
      (∀ x y c, 0 ≤ x → x < f.width → 0 ≤ y → y < f.height → 0 ≤ c →
        c < bytesPerPixel f.format →
        out.pixelByte x y c = f.pixelByte (f.width - 1 - x) y c) ∧
      (∀ x y c, 2 * x + 1 = f.width → 0 ≤ y → y < f.height → 0 ≤ c →
        c < bytesPerPixel f.format →
        out.pixelByte x y c = f.pixelByte x y c) := by
  obtain ⟨d, a1, a2, a3⟩ := flipHorizontal_run f h
  refine ⟨_, a1, rfl, rfl, rfl, rfl, rfl, rfl, ?_, a3, ?_⟩
  · show d.length = f.size
    rw [a2, h.2.2.2.2.2.2.1]
  · intro x y c hx hy0 hy1 hc0 hc1
    have hw : 0 < f.width := h.2.2.1
    have := a3 x y c (by omega) (by omega) hy0 hy1 hc0 hc1
    have e : f.width - 1 - x = x := by omega
    rw [e] at this
    exact this

theorem flipHorizontal_spec_witness :
    ValidPacked exFrameRgba ∧
    ∃ out, FrameUtils.flipHorizontal exFrameRgba = .ok (true, out) ∧
      out.width = exFrameRgba.width ∧ out.height = exFrameRgba.height ∧
      out.format = exFrameRgba.format ∧
      out.stride = exFrameRgba.stride ∧ out.size = exFrameRgba.size ∧
      out.timestamp = exFrameRgba.timestamp ∧
      out.bytes.length = exFrameRgba.size ∧
      (∀ x y c, 0 ≤ x → x < exFrameRgba.width → 0 ≤ y → y < exFrameRgba.height → 0 ≤ c →
        c < bytesPerPixel exFrameRgba.format →
        out.pixelByte x y c = exFrameRgba.pixelByte (exFrameRgba.width - 1 - x) y c) ∧
      (∀ x y c, 2 * x + 1 = exFrameRgba.width → 0 ≤ y → y < exFrameRgba.height → 0 ≤ c →
        c < bytesPerPixel exFrameRgba.format →
        out.pixelByte x y c = exFrameRgba.pixelByte x y c) :=
  ⟨by decide, flipHorizontal_spec exFrameRgba (by decide)⟩

/-- C11: for every valid tightly packed RGB24 or RGBA32 frame src of width W and height H,
`applyFrontCameraTransform` succeeds and returns exactly `rotate90CW` applied to the
horizontally flipped copy of src (the copy carries the width, height, format, stride, size
and bytes of src; it is flipped first, then rotated): the result has width H and height W
and its pixel at column H-1-y, row W-1-x is the source pixel (x,y).  The function works on
the copy, src is an input only. -/
theorem applyFrontCameraTransform_spec (fresh1 fresh2 : Nat → Nat) (src dst : FrameData)
    (h : ValidPacked src) :
    ∃ d out,
      FrameUtils.flipHorizontal
        { emptyFrame with width := src.width, height := src.height, format := src.format,
                          stride := src.stride, size := src.size, data := some src.bytes } =
        .ok (true,
          { emptyFrame with width := src.width, height := src.height, format := src.format,
                            stride := src.stride, size := src.size, data := some d }) ∧
      FrameUtils.rotate90CW fresh2
        { emptyFrame with width := src.width, height := src.height, format := src.format,
                          stride := src.stride, size := src.size, data := some d } dst =
        .ok (true, out) ∧
      FrameUtils.applyFrontCameraTransform fresh1 fresh2 src dst = .ok (true, out) ∧
      out.width = src.height ∧ out.height = src.width ∧ out.format = src.format ∧
      ∀ x y c, 0 ≤ x → x < src.width → 0 ≤ y → y < src.height → 0 ≤ c →
        c < bytesPerPixel src.format →
        out.pixelByte (src.height - 1 - y) (src.width - 1 - x) c = src.pixelByte x y c := by
  obtain ⟨d, out, a, b, c, e1, e2, e3, _, e5⟩ :=
    applyFrontCameraTransform_run fresh1 fresh2 src dst h
  exact ⟨d, out, a, b, c, e1, e2, e3, e5⟩

theorem applyFrontCameraTransform_spec_witness :
    ValidPacked exFrame ∧
    ∃ d out,
      FrameUtils.flipHorizontal
        { emptyFrame with width := exFrame.width, height := exFrame.height,
                          format := exFrame.format, stride := exFrame.stride,
                          size := exFrame.size, data := some exFrame.bytes } =
        .ok (true,
          { emptyFrame with width := exFrame.width, height := exFrame.height,
                            format := exFrame.format, stride := exFrame.stride,
                            size := exFrame.size, data := some d }) ∧
      FrameUtils.rotate90CW (fun _ => 0)
        { emptyFrame with width := exFrame.width, height := exFrame.height,
                          format := exFrame.format, stride := exFrame.stride,
                          size := exFrame.size, data := some d } emptyFrame =
        .ok (true, out) ∧
      FrameUtils.applyFrontCameraTransform (fun _ => 7) (fun _ => 0) exFrame emptyFrame =
        .ok (true, out) ∧
      out.width = exFrame.height ∧ out.height = exFrame.width ∧ out.format = exFrame.format ∧
      ∀ x y c, 0 ≤ x → x < exFrame.width → 0 ≤ y → y < exFrame.height → 0 ≤ c →
        c < bytesPerPixel exFrame.format →
        out.pixelByte (exFrame.height - 1 - y) (exFrame.width - 1 - x) c =
          exFrame.pixelByte x y c :=
  ⟨by decide, applyFrontCameraTransform_spec (fun _ => 7) (fun _ => 0) exFrame emptyFrame
    (by decide)⟩

/-- C12: for every valid tightly packed RGB24 frame of 100x50 pixels, `matchResolution`
with target 100x100 and `maintainAspect = true` succeeds and returns a 100x100 RGB24 frame
whose row 25+k, for k = 0..49, is row k of `scaleFrame(src, 100, 50)` (whatever buffer and
destination that call is given) and whose rows 0..24 and 75..99 are zero bytes. -/
theorem matchResolution_wide_letterbox (fresh1 fresh2 : Nat → Nat) (src dst : FrameData)
    (h : ValidPacked src) (hrgb : src.format = 3) (hw : src.width = 100)
    (hh : src.height = 50) :
    ∃ out, FrameUtils.matchResolution fresh1 fresh2 src dst 100 100 true = .ok (true, out) ∧
      out.width = 100 ∧ out.height = 100 ∧ out.format = 3 ∧ out.stride = 300 ∧
      out.size = 30000 ∧ out.bytes.length = 30000 ∧
      (∀ (fresh : Nat → Nat) (dst' : FrameData),
        ∃ sc, FrameUtils.scaleFrame fresh src dst' 100 50 = .ok (true, sc) ∧
          sc.width = 100 ∧ sc.height = 50 ∧
          ∀ x k c, 0 ≤ x → x < 100 → 0 ≤ k → k < 50 → 0 ≤ c → c < 3 →
            out.pixelByte x (25 + k) c = sc.pixelByte x k c) ∧
      ∀ x y c, 0 ≤ x → x < 100 → 0 ≤ y → y < 100 → (y < 25 ∨ 75 ≤ y) → 0 ≤ c → c < 3 →
        out.pixelByte x y c = 0 := by
  have hbpp : bytesPerPixel src.format = 3 := by rw [hrgb]; rfl
  have hsame : ∀ (fresh : Nat → Nat) (dst' : FrameData),
      ∃ d, FrameUtils.scaleFrame fresh src dst' 100 50 =
          .ok (true, { dst' with width := 100, height := 50, format := src.format,
                                 stride := 100 * 3, size := toSizeT (100 * 3 * 50),
                                 data := some d }) ∧
        ∀ x y c, 0 ≤ x → x < 100 → 0 ≤ y → y < 50 → 0 ≤ c → c < 3 →
          peek d ((y * 100 + x) * 3 + c) = scaleSample src.bytes 100 50 3 100 50 x y c := by
    intro fresh dst'
    obtain ⟨d, r1, _, r3⟩ := scaleFrame_same_run fresh src dst' h (by omega) (by omega)
    rw [hw, hh, hbpp] at r1 r3
    exact ⟨d, r1, r3⟩
  obtain ⟨d0, r1, r3⟩ := hsame fresh1 emptyFrame
  have hbox : scaledBox src.width src.height 100 100 = (100, 50) := by
    rw [hw, hh]; exact scaledBox_wide
  obtain ⟨d, m1, m2, m3, m4⟩ := matchResolution_aspect_run fresh1 fresh2 src dst
    { emptyFrame with width := 100, height := 50, format := src.format, stride := 100 * 3,
                      size := toSizeT (100 * 3 * 50), data := some d0 } 100 100 h
    (by omega) (by norm_num) (by norm_num) (by rw [hbpp]; norm_num)
    (by rw [hbox]; exact r1) (by rw [hbox]; norm_num)
  simp only [hbox, hbpp] at m1 m2 m3 m4
  have hT : toSizeT (100 * 3 * 100) = 30000 := by decide
  refine ⟨_, m1, rfl, rfl, hrgb, by norm_num, hT, ?_, ?_, ?_⟩
  · show d.length = 30000
    omega
  · intro fresh dst'
    obtain ⟨d1, q1, q3⟩ := hsame fresh dst'
    refine ⟨_, q1, rfl, rfl, ?_⟩
    intro x k c hx0 hx1 hk0 hk1 hc0 hc1
    have a := m3 x k c hx0 hx1 hk0 hk1 hc0 hc1
    have b := r3 x k c hx0 hx1 hk0 hk1 hc0 hc1
    have b' := q3 x k c hx0 hx1 hk0 hk1 hc0 hc1
    unfold FrameData.pixelByte
    show peek d ((25 + k) * (100 * 3) + x * bytesPerPixel src.format + c) =
      peek d1 (k * (100 * 3) + x * bytesPerPixel src.format + c)
    rw [hbpp]
    have i1 : (25 + k) * (100 * 3) + x * 3 + c =
        ((k + (100 - 50) / 2) * 100 + ((100 - 100) / 2 + x)) * 3 + c := by
      norm_num; ring
    have i2 : k * (100 * 3) + x * 3 + c = (k * 100 + x) * 3 + c := by ring
    rw [i1, i2, a, b']
    exact b
  · intro x y c hx0 hx1 hy0 hy1 hrows hc0 hc1
    have a := m4 x y c hx0 hx1 hy0 hy1 hc0 hc1 (by omega)
    unfold FrameData.pixelByte
    show peek d (y * (100 * 3) + x * bytesPerPixel src.format + c) = 0
    rw [hbpp]
    have i1 : y * (100 * 3) + x * 3 + c = (y * 100 + x) * 3 + c := by ring
    rw [i1]
    exact a

theorem matchResolution_wide_letterbox_witness :
    (ValidPacked exWide ∧ exWide.format = 3 ∧ exWide.width = 100 ∧ exWide.height = 50) ∧
    ∃ out, FrameUtils.matchResolution (fun _ => 7) (fun _ => 9) exWide emptyFrame 100 100 true =
        .ok (true, out) ∧
      out.width = 100 ∧ out.height = 100 ∧ out.format = 3 ∧ out.stride = 300 ∧
      out.size = 30000 ∧ out.bytes.length = 30000 ∧
      (∀ (fresh : Nat → Nat) (dst' : FrameData),
        ∃ sc, FrameUtils.scaleFrame fresh exWide dst' 100 50 = .ok (true, sc) ∧
          sc.width = 100 ∧ sc.height = 50 ∧
          ∀ x k c, 0 ≤ x → x < 100 → 0 ≤ k → k < 50 → 0 ≤ c → c < 3 →
            out.pixelByte x (25 + k) c = sc.pixelByte x k c) ∧
      ∀ x y c, 0 ≤ x → x < 100 → 0 ≤ y → y < 100 → (y < 25 ∨ 75 ≤ y) → 0 ≤ c → c < 3 →
        out.pixelByte x y c = 0 :=
  ⟨⟨validPacked_exWide, rfl, rfl, rfl⟩,
    matchResolution_wide_letterbox (fun _ => 7) (fun _ => 9) exWide emptyFrame
      validPacked_exWide rfl rfl rfl⟩

/-- C13 as stated fails: for the valid 1x7 RGB24 frame `exTall` and the target 1x8 the
claim gives the box (1, 7) with offsets (0, 0), so the output pixel (0,0) should be pixel
(0,0) of `scaleFrame(src, 1, 7)`, whose first byte is 200.  The code computes the box in
single precision, 1/7 rounds up and 1/(that) rounds to 6.9999995, so the box is (1, 6),
the vertical offset is 1 and row 0 of the output is black. -/
theorem matchResolution_box_counterexample :
    ValidPacked exTall ∧ claimedBox 1 7 1 8 = (1, 7) ∧ scaledBox 1 7 1 8 = (1, 6) ∧
    ∃ out sc,
      FrameUtils.matchResolution (fun _ => 7) (fun _ => 9) exTall emptyFrame 1 8 true =
        .ok (true, out) ∧
      FrameUtils.scaleFrame (fun _ => 7) exTall emptyFrame 1 7 = .ok (true, sc) ∧
      sc.pixelByte 0 0 0 = 200 ∧ out.pixelByte ((1 - 1) / 2 + 0) ((8 - 7) / 2 + 0) 0 = 0 := by
  refine ⟨validPacked_exTall, claimedBox_tall, scaledBox_tall, ?_⟩
  obtain ⟨d6, r6⟩ := scaleFrame_tall_run (fun _ => 7) emptyFrame
  have hbox : scaledBox exTall.width exTall.height 1 8 = (1, 6) := scaledBox_tall
  obtain ⟨d, m1, _, _, m4⟩ := matchResolution_aspect_run (fun _ => 7) (fun _ => 9) exTall
    emptyFrame _ 1 8 validPacked_exTall (by decide) (by norm_num) (by norm_num) (by decide)
    (by rw [hbox]; exact r6) (by rw [hbox]; norm_num)
  obtain ⟨d7, q1, _, q3⟩ := scaleFrame_same_run (fun _ => 7) exTall emptyFrame
    validPacked_exTall (by decide) (by decide)
  refine ⟨_, _, m1, q1, ?_, ?_⟩
  · have a := q3 0 0 0 (by norm_num) (by decide) (by norm_num) (by decide) (by norm_num)
      (by decide)
    have b := scaleSample_same exTall.bytes exTall.width exTall.height
      (bytesPerPixel exTall.format) 0 0 0 (by decide) (by decide) (by decide) (by decide)
      (by decide) (by norm_num) (by decide) (by norm_num) (by decide)
    rw [b] at a
    show peek d7 (0 * (exTall.width * bytesPerPixel exTall.format) +
      0 * bytesPerPixel exTall.format + 0) = 200
    have i : 0 * (exTall.width * bytesPerPixel exTall.format) +
        0 * bytesPerPixel exTall.format + 0 =
        (0 * exTall.width + 0) * bytesPerPixel exTall.format + 0 := by ring
    rw [i, a]
    decide
  · have a := m4 0 0 0 (by norm_num) (by norm_num) (by norm_num) (by norm_num) (by norm_num)
      (by decide) (by rw [hbox]; norm_num)
    show peek d (((8 - 7) / 2 + 0) * (1 * bytesPerPixel exTall.format) +
      ((1 - 1) / 2 + 0) * bytesPerPixel exTall.format + 0) = 0
    have i : ((8 - 7) / 2 + 0) * (1 * bytesPerPixel exTall.format) +
        ((1 - 1) / 2 + 0) * bytesPerPixel exTall.format + 0 =
        (0 * 1 + 0) * bytesPerPixel exTall.format + 0 := by norm_num
    rw [i]
    exact a

/-- C13, amended: for every valid tightly packed RGB24/RGBA32 frame of size w x h and
every target tw x th different from (w,h), all dimensions positive and tw*th*bpp below
2^31, `matchResolution` with `maintainAspect = true` computes the scaled box (sw,sh) in
single precision, `scaledBox`: with a = float(w)/h and b = float(tw)/th it is
(tw, (int)(tw/a)) if a > b and ((int)(th*a), th) otherwise.  Whenever that box lies in
the target and `scaleFrame(src, sw, sh)` succeeds, the result is a tw x th frame in which,
with ox = (tw-sw)/2 and oy = (th-sh)/2, the pixel (ox+x, oy+y) equals pixel (x,y) of the
scaled frame for 0 <= x < sw, 0 <= y < sh, and every byte of a pixel outside the box is
0. -/
theorem matchResolution_aspect_box (fresh1 fresh2 : Nat → Nat) (src dst sc : FrameData)
    (tw th : Int) (h : ValidPacked src) (hne : ¬ (src.width = tw ∧ src.height = th))
    (htw : 0 < tw) (hth : 0 < th) (hsz : tw * bytesPerPixel src.format * th < 2 ^ 31)
    (hbox : 0 ≤ (scaledBox src.width src.height tw th).1 ∧
      (scaledBox src.width src.height tw th).1 ≤ tw ∧
      0 ≤ (scaledBox src.width src.height tw th).2 ∧
      (scaledBox src.width src.height tw th).2 ≤ th)
    (hsc : FrameUtils.scaleFrame fresh1 src emptyFrame (scaledBox src.width src.height tw th).1
      (scaledBox src.width src.height tw th).2 = .ok (true, sc)) :
    ∃ out, FrameUtils.matchResolution fresh1 fresh2 src dst tw th true = .ok (true, out) ∧
      out.width = tw ∧ out.height = th ∧ out.format = src.format ∧
      out.stride = tw * bytesPerPixel src.format ∧
      (out.size : Int) = tw * bytesPerPixel src.format * th ∧ out.bytes.length = out.size ∧
      (∀ x y c, 0 ≤ x → x < (scaledBox src.width src.height tw th).1 → 0 ≤ y →
        y < (scaledBox src.width src.height tw th).2 → 0 ≤ c → c < bytesPerPixel src.format →
        out.pixelByte ((tw - (scaledBox src.width src.height tw th).1) / 2 + x)
            ((th - (scaledBox src.width src.height tw th).2) / 2 + y) c =
          sc.pixelByte x y c) ∧
      ∀ x y c, 0 ≤ x → x < tw → 0 ≤ y → y < th → 0 ≤ c → c < bytesPerPixel src.format →
        ¬ ((tw - (scaledBox src.width src.height tw th).1) / 2 ≤ x ∧
           x < (tw - (scaledBox src.width src.height tw th).1) / 2 +
             (scaledBox src.width src.height tw th).1 ∧
           (th - (scaledBox src.width src.height tw th).2) / 2 ≤ y ∧
           y < (th - (scaledBox src.width src.height tw th).2) / 2 +
             (scaledBox src.width src.height tw th).2) →
        out.pixelByte x y c = 0 := by
  obtain ⟨d, m1, m2, m3, m4⟩ := matchResolution_aspect_run fresh1 fresh2 src dst sc tw th h
    hne htw hth hsz hsc hbox
  obtain ⟨s1, s2, s3, s4, s5, s6⟩ := scaleFrame_ok_shape _ _ _ _ _ _ hsc
  have hb := bytesPerPixel_pos src.format
  have hnn : 0 ≤ tw * bytesPerPixel src.format * th :=
    mul_nonneg (mul_nonneg (by omega) (by omega)) (by omega)
  have hT := toSizeT_of_lt _ hnn hsz
  refine ⟨_, m1, rfl, rfl, rfl, rfl, hT, ?_, ?_, ?_⟩
  · show d.length = toSizeT (tw * bytesPerPixel src.format * th)
    omega
  · intro x y c hx0 hx1 hy0 hy1 hc0 hc1
    have a := m3 x y c hx0 hx1 hy0 hy1 hc0 hc1
    unfold FrameData.pixelByte
    rw [s3, s4]
    show peek d _ = _
    convert a using 2 <;> ring
  · intro x y c hx0 hx1 hy0 hy1 hc0 hc1 hout
    have a := m4 x y c hx0 hx1 hy0 hy1 hc0 hc1 hout
    unfold FrameData.pixelByte
    show peek d _ = 0
    convert a using 2
    ring


theorem matchResolution_aspect_box_witness :
    ∃ sc,
      (ValidPacked exTall ∧ ¬ (exTall.width = 1 ∧ exTall.height = 8) ∧ (0 : Int) < 1 ∧
        (0 : Int) < 8 ∧ 1 * bytesPerPixel exTall.format * 8 < 2 ^ 31 ∧
        (0 ≤ (scaledBox exTall.width exTall.height 1 8).1 ∧
          (scaledBox exTall.width exTall.height 1 8).1 ≤ 1 ∧
          0 ≤ (scaledBox exTall.width exTall.height 1 8).2 ∧
          (scaledBox exTall.width exTall.height 1 8).2 ≤ 8) ∧
        FrameUtils.scaleFrame (fun _ => 7) exTall emptyFrame
          (scaledBox exTall.width exTall.height 1 8).1
          (scaledBox exTall.width exTall.height 1 8).2 = .ok (true, sc)) ∧
      ∃ out, FrameUtils.matchResolution (fun _ => 7) (fun _ => 9) exTall emptyFrame 1 8 true =
          .ok (true, out) ∧
        out.width = 1 ∧ out.height = 8 ∧ out.format = exTall.format ∧
        out.stride = 1 * bytesPerPixel exTall.format ∧
        (out.size : Int) = 1 * bytesPerPixel exTall.format * 8 ∧
        out.bytes.length = out.size ∧
        (∀ x y c, 0 ≤ x → x < (scaledBox exTall.width exTall.height 1 8).1 → 0 ≤ y →
          y < (scaledBox exTall.width exTall.height 1 8).2 → 0 ≤ c →
          c < bytesPerPixel exTall.format →
          out.pixelByte ((1 - (scaledBox exTall.width exTall.height 1 8).1) / 2 + x)
              ((8 - (scaledBox exTall.width exTall.height 1 8).2) / 2 + y) c =
            sc.pixelByte x y c) ∧
        ∀ x y c, 0 ≤ x → x < 1 → 0 ≤ y → y < 8 → 0 ≤ c → c < bytesPerPixel exTall.format →
          ¬ ((1 - (scaledBox exTall.width exTall.height 1 8).1) / 2 ≤ x ∧
             x < (1 - (scaledBox exTall.width exTall.height 1 8).1) / 2 +
               (scaledBox exTall.width exTall.height 1 8).1 ∧
             (8 - (scaledBox exTall.width exTall.height 1 8).2) / 2 ≤ y ∧
             y < (8 - (scaledBox exTall.width exTall.height 1 8).2) / 2 +
               (scaledBox exTall.width exTall.height 1 8).2) →
          out.pixelByte x y c = 0 := by
  obtain ⟨d6, r6⟩ := scaleFrame_tall_run (fun _ => 7) emptyFrame
  have hbox : scaledBox exTall.width exTall.height 1 8 = (1, 6) := scaledBox_tall
  have hfit : 0 ≤ (scaledBox exTall.width exTall.height 1 8).1 ∧
      (scaledBox exTall.width exTall.height 1 8).1 ≤ 1 ∧
      0 ≤ (scaledBox exTall.width exTall.height 1 8).2 ∧
      (scaledBox exTall.width exTall.height 1 8).2 ≤ 8 := by
    rw [hbox]; norm_num
  have hsc : FrameUtils.scaleFrame (fun _ => 7) exTall emptyFrame
      (scaledBox exTall.width exTall.height 1 8).1
      (scaledBox exTall.width exTall.height 1 8).2 =
      .ok (true, { emptyFrame with width := 1, height := 6, format := 3, stride := 1 * 3,
                                   size := toSizeT (1 * 3 * 6), data := some d6 }) := by
    rw [hbox]; exact r6
  exact ⟨_, ⟨validPacked_exTall, by decide, by norm_num, by norm_num, by decide, hfit, hsc⟩,
    matchResolution_aspect_box (fun _ => 7) (fun _ => 9) exTall emptyFrame _ 1 8
      validPacked_exTall (by decide) (by norm_num) (by norm_num) (by decide) hfit hsc⟩

/-- C14: for every valid tightly packed RGB24 or RGBA32 source of 2x2 pixels, `scaleFrame`
to 4x4 succeeds (so every byte it reads lies inside the source buffer), produces 16
pixels (width 4, height 4, size 16*bpp), and the output corner pixels (0,0), (3,0), (0,3),
(3,3) are equal to, hence within 1 per channel of, the source corner pixels (0,0), (1,0),
(0,1), (1,1) respectively. -/
theorem scaleFrame_2x2_to_4x4 (fresh : Nat → Nat) (src dst : FrameData)
    (h : ValidPacked src) (hb : BytesOk src) (hw : src.width = 2) (hh : src.height = 2) :
    ∃ out, FrameUtils.scaleFrame fresh src dst 4 4 = .ok (true, out) ∧
      out.width = 4 ∧ out.height = 4 ∧ out.format = src.format ∧
      (out.size : Int) = 16 * bytesPerPixel src.format ∧ out.bytes.length = out.size ∧
      ∀ c, 0 ≤ c → c < bytesPerPixel src.format →
        out.pixelByte 0 0 c = src.pixelByte 0 0 c ∧
        out.pixelByte 3 0 c = src.pixelByte 1 0 c ∧
        out.pixelByte 0 3 c = src.pixelByte 0 1 c ∧
        out.pixelByte 3 3 c = src.pixelByte 1 1 c := by
  obtain ⟨d, e1, e2, e3⟩ := scaleFrame_double_run fresh src dst h hb hw hh
  have hbp := bytesPerPixel_pos src.format
  have hbl := bytesPerPixel_le src.format
  have hT := toSizeT_of_lt (4 * bytesPerPixel src.format * 4) (by omega) (by omega)
  have hs : src.stride = 2 * bytesPerPixel src.format := by rw [h.2.2.2.2.1, hw]
  refine ⟨_, e1, rfl, rfl, rfl, ?_, ?_, ?_⟩
  · show (toSizeT (4 * bytesPerPixel src.format * 4) : Int) = _
    rw [hT]; ring
  · show d.length = toSizeT (4 * bytesPerPixel src.format * 4)
    omega
  · intro c hc0 hc1
    obtain ⟨p1, p2, p3, p4⟩ := e3 c hc0 hc1
    unfold FrameData.pixelByte
    rw [hs]
    show peek d _ = _ ∧ peek d _ = _ ∧ peek d _ = _ ∧ peek d _ = _
    generalize bytesPerPixel src.format = bpp at *
    refine ⟨?_, ?_, ?_, ?_⟩
    · convert p1 using 2 <;> ring
    · convert p2 using 2 <;> ring
    · convert p3 using 2 <;> ring
    · convert p4 using 2 <;> ring

theorem scaleFrame_2x2_to_4x4_witness :
    (ValidPacked exCorners ∧ BytesOk exCorners ∧ exCorners.width = 2 ∧ exCorners.height = 2) ∧
    ∃ out, FrameUtils.scaleFrame (fun _ => 0) exCorners emptyFrame 4 4 = .ok (true, out) ∧
      out.width = 4 ∧ out.height = 4 ∧ out.format = exCorners.format ∧
      (out.size : Int) = 16 * bytesPerPixel exCorners.format ∧ out.bytes.length = out.size ∧
      ∀ c, 0 ≤ c → c < bytesPerPixel exCorners.format →
        out.pixelByte 0 0 c = exCorners.pixelByte 0 0 c ∧
        out.pixelByte 3 0 c = exCorners.pixelByte 1 0 c ∧
        out.pixelByte 0 3 c = exCorners.pixelByte 0 1 c ∧
        out.pixelByte 3 3 c = exCorners.pixelByte 1 1 c :=
  ⟨by decide, scaleFrame_2x2_to_4x4 (fun _ => 0) exCorners emptyFrame (by decide) (by decide)
    (by decide) (by decide)⟩

/-- C15: for every tightly packed RGB24 frame with even width w > 0 and even height h > 0,
`convertFormat` to YUV420Planar succeeds and produces w*h*3/2 bytes: byte j*w+i is
((66R + 129G + 25B + 128) >> 8) + 16 of pixel (i,j); for every 2x2 block (m,n) the
byte at w*h + n*(w/2) + m is U = ((-38R - 74G + 112B + 128) >> 8) + 128 and the byte
at w*h + w*h/4 + n*(w/2) + m is V = ((112R - 94G - 18B + 128) >> 8) + 128 of the
block's top-left pixel (2m,2n), so the U plane of w*h/4 bytes follows the Y plane and
the V plane of w*h/4 bytes follows the U plane. -/
theorem convertFormat_rgb_to_yuv420 (fresh : Nat → Nat) (src dst : FrameData)
    (h : ValidPacked src) (hrgb : src.format = 3) (hb : BytesOk src)
    (hwe : src.width % 2 = 0) (hhe : src.height % 2 = 0) :
    ∃ out, FrameUtils.convertFormat fresh src dst 1 = .ok (true, out) ∧
      out.format = 1 ∧ out.width = src.width ∧ out.height = src.height ∧
      (out.size : Int) = src.width * src.height * 3 / 2 ∧ out.bytes.length = out.size ∧
      (out.size : Int) = src.width * src.height + src.width * src.height / 4 +
        src.width * src.height / 4 ∧
      (∀ i j, 0 ≤ i → i < src.width → 0 ≤ j → j < src.height →
        (peek out.bytes (j * src.width + i) : Int) =
          Int.fdiv (66 * (src.pixelByte i j 0 : Int) + 129 * src.pixelByte i j 1 +
            25 * src.pixelByte i j 2 + 128) 256 + 16) ∧
      (∀ m n, 0 ≤ m → 2 * m < src.width → 0 ≤ n → 2 * n < src.height →
        0 ≤ n * (src.width / 2) + m ∧
        n * (src.width / 2) + m < src.width * src.height / 4 ∧
        (peek out.bytes (src.width * src.height + (n * (src.width / 2) + m)) : Int) =
          Int.fdiv (-38 * (src.pixelByte (2 * m) (2 * n) 0 : Int) -
            74 * src.pixelByte (2 * m) (2 * n) 1 +
            112 * src.pixelByte (2 * m) (2 * n) 2 + 128) 256 + 128 ∧
        (peek out.bytes (src.width * src.height + src.width * src.height / 4 +
            (n * (src.width / 2) + m)) : Int) =
          Int.fdiv (112 * (src.pixelByte (2 * m) (2 * n) 0 : Int) -
            94 * src.pixelByte (2 * m) (2 * n) 1 -
            18 * src.pixelByte (2 * m) (2 * n) 2 + 128) 256 + 128) := by
  obtain ⟨out, e1, ef, e2, e3, e4, e5, e6⟩ :=
    convertFormat_rgb_yuv420_run fresh src dst h hrgb hb hwe hhe
  have hs := validPacked_rgb_stride src h hrgb
  have px := pixelByte_rgb src hs hrgb
  have hq := quarter_mul src.width src.height hwe hhe
  have hw := h.2.2.1
  have hh := h.2.2.2.1
  refine ⟨out, e1, ef, e2, e3, by omega, e5, by omega, ?_, ?_⟩
  · intro i j hi0 hi1 hj0 hj1
    have := (e6 i j hi0 hi1 hj0 hj1).1
    rw [px, px, px, add_zero]
    unfold specY at this
    exact this
  · intro m n hm0 hm1 hn0 hn1
    have := (e6 (2 * m) (2 * n) (by omega) hm1 (by omega) hn1).2 (by omega) (by omega)
    rw [px, px, px, add_zero]
    have hn : 2 * n / 2 = n := by omega
    have hm : 2 * m / 2 = m := by omega
    rw [hn, hm] at this
    have hB0 : 0 ≤ n * (src.width / 2) := mul_nonneg (by omega) (by omega)
    have hB1 : n * (src.width / 2) + src.width / 2 ≤ src.height / 2 * (src.width / 2) :=
      mul_succ_le n (src.height / 2) (src.width / 2) (by omega) (by omega)
    refine ⟨by omega, by omega, ?_, ?_⟩
    · unfold specU at this
      exact this.1
    · unfold specV at this
      exact this.2

theorem convertFormat_rgb_to_yuv420_witness :
    (ValidPacked exSolid ∧ exSolid.format = 3 ∧ BytesOk exSolid ∧ exSolid.width % 2 = 0 ∧
      exSolid.height % 2 = 0) ∧
    ∃ out, FrameUtils.convertFormat (fun _ => 7) exSolid emptyFrame 1 = .ok (true, out) ∧
      out.format = 1 ∧ out.width = exSolid.width ∧ out.height = exSolid.height ∧
      (out.size : Int) = exSolid.width * exSolid.height * 3 / 2 ∧
      out.bytes.length = out.size ∧
      (out.size : Int) = exSolid.width * exSolid.height + exSolid.width * exSolid.height / 4 +
        exSolid.width * exSolid.height / 4 ∧
      (∀ i j, 0 ≤ i → i < exSolid.width → 0 ≤ j → j < exSolid.height →
        (peek out.bytes (j * exSolid.width + i) : Int) =
          Int.fdiv (66 * (exSolid.pixelByte i j 0 : Int) + 129 * exSolid.pixelByte i j 1 +
            25 * exSolid.pixelByte i j 2 + 128) 256 + 16) ∧
      (∀ m n, 0 ≤ m → 2 * m < exSolid.width → 0 ≤ n → 2 * n < exSolid.height →
        0 ≤ n * (exSolid.width / 2) + m ∧
        n * (exSolid.width / 2) + m < exSolid.width * exSolid.height / 4 ∧
        (peek out.bytes (exSolid.width * exSolid.height + (n * (exSolid.width / 2) + m))
            : Int) =
          Int.fdiv (-38 * (exSolid.pixelByte (2 * m) (2 * n) 0 : Int) -
            74 * exSolid.pixelByte (2 * m) (2 * n) 1 +
            112 * exSolid.pixelByte (2 * m) (2 * n) 2 + 128) 256 + 128 ∧
        (peek out.bytes (exSolid.width * exSolid.height + exSolid.width * exSolid.height / 4 +
            (n * (exSolid.width / 2) + m)) : Int) =
          Int.fdiv (112 * (exSolid.pixelByte (2 * m) (2 * n) 0 : Int) -
            94 * exSolid.pixelByte (2 * m) (2 * n) 1 -
            18 * exSolid.pixelByte (2 * m) (2 * n) 2 + 128) 256 + 128) :=
  ⟨by decide, convertFormat_rgb_to_yuv420 (fun _ => 7) exSolid emptyFrame (by decide)
    (by decide) (by decide) (by decide) (by decide)⟩

/-- C16: for every source frame and every target format different from the source format,
`convertFormat` returns failure unless the pair is RGB24 to NV21 (3, 0), RGB24 to
YUV420Planar (3, 1) or NV21 to RGB24 (0, 3); so every conversion from or to RGBA32 (2),
from YUV420Planar, from NV21 to YUV420Planar and from RGB24 to RGBA32 fails. -/
theorem convertFormat_unsupported_pair (fresh : Nat → Nat) (src dst : FrameData)
    (targetFormat : Int) (hne : src.format ≠ targetFormat)
    (hpair : ¬ ((src.format = 3 ∧ targetFormat = 0) ∨ (src.format = 3 ∧ targetFormat = 1) ∨
      (src.format = 0 ∧ targetFormat = 3))) :
    ∃ out, FrameUtils.convertFormat fresh src dst targetFormat = .ok (false, out) := by
  unfold FrameUtils.convertFormat
  cases src.data with
  | none => exact ⟨_, rfl⟩
  | some sdata =>
    by_cases hs : src.size = 0
    · simp only [hs, if_true]
      exact ⟨_, rfl⟩
    · simp only [hs, if_false, hne]
      rw [if_neg (fun h => hpair (Or.inl h)), if_neg (fun h => hpair (Or.inr (Or.inl h))),
        if_neg (fun h => hpair (Or.inr (Or.inr h)))]
      exact ⟨_, rfl⟩

theorem convertFormat_unsupported_pair_witness :
    (exFrameRgba.format ≠ 3 ∧
      ¬ ((exFrameRgba.format = 3 ∧ (3 : Int) = 0) ∨ (exFrameRgba.format = 3 ∧ (3 : Int) = 1) ∨
        (exFrameRgba.format = 0 ∧ (3 : Int) = 3))) ∧
    ∃ out, FrameUtils.convertFormat (fun _ => 0) exFrameRgba emptyFrame 3 = .ok (false, out) :=
  ⟨by decide, convertFormat_unsupported_pair (fun _ => 0) exFrameRgba emptyFrame 3 (by decide)
    (by decide)⟩

/-- C17 as stated fails: converting the valid 2x3 RGB24 frame with timestamp 5 to its
own format into a new `FrameData` succeeds and copies the bytes, but the result has
timestamp 0, not 5. -/
theorem convertFormat_copy_timestamp_counterexample :
    ValidFrame exFrame ∧
    ∃ out, FrameUtils.convertFormat (fun _ => 0) exFrame emptyFrame exFrame.format =
        .ok (true, out) ∧
      out.data = exFrame.data ∧ exFrame.timestamp = 5 ∧ out.timestamp = 0 :=
  ⟨by decide, _, rfl, by decide, by decide, by decide⟩

/-- C17, amended: for every valid source frame, `convertFormat` with the target format
equal to `src.format` succeeds and yields a frame with the data bytes, size, width,
height, format and stride of src, held in a newly allocated buffer; the timestamp is not
copied, the destination keeps the one it had. -/
theorem convertFormat_same_format (fresh : Nat → Nat) (src dst : FrameData)
    (h : ValidFrame src) :
    ∃ out, FrameUtils.convertFormat fresh src dst src.format = .ok (true, out) ∧
      out.data = src.data ∧ out.size = src.size ∧ out.width = src.width ∧
      out.height = src.height ∧ out.format = src.format ∧ out.stride = src.stride ∧
      out.timestamp = dst.timestamp := by
  obtain ⟨hdata, hsize, hlen⟩ := h
  obtain ⟨sdata, hsd⟩ := Option.isSome_iff_exists.mp hdata
  have hbytes : src.bytes = sdata := by simp [FrameData.bytes, hsd]
  rw [hbytes] at hlen
  have hm : memcpy (newArray fresh src.size) sdata src.size = .ok sdata := by
    have := memcpy_all (newArray fresh src.size) sdata (by rw [length_newArray, hlen])
    rw [hlen] at this
    exact this
  refine ⟨{ dst with width := src.width, height := src.height, format := src.format,
                     stride := src.stride, size := src.size, data := some sdata },
    ?_, hsd.symm, rfl, rfl, rfl, rfl, rfl, rfl⟩
  simp only [FrameUtils.convertFormat, hsd, hsize, if_false, if_true]
  rw [hm]
  rfl

theorem convertFormat_same_format_witness :
    ValidFrame exFrame ∧
    ∃ out, FrameUtils.convertFormat (fun _ => 0) exFrame emptyFrame exFrame.format =
        .ok (true, out) ∧
      out.data = exFrame.data ∧ out.size = exFrame.size ∧ out.width = exFrame.width ∧
      out.height = exFrame.height ∧ out.format = exFrame.format ∧
      out.stride = exFrame.stride ∧ out.timestamp = emptyFrame.timestamp :=
  ⟨by decide, convertFormat_same_format (fun _ => 0) exFrame emptyFrame (by decide)⟩

/-- C18: `scaleFrame`, `flipHorizontal`, `rotate90CW`, `rotate90CCW` and `rotate180` each
return failure whenever the format of the source frame is NV21 (0) or YUV420Planar (1),
or its buffer is null or of size 0; the in-place operations then return the frame as it
was, and the others leave the destination as it was. -/
theorem transforms_reject (fresh : Nat → Nat) (f dst : FrameData)
    (targetWidth targetHeight : Int)
    (h : f.format = 0 ∨ f.format = 1 ∨ f.data = none ∨ f.size = 0) :
    FrameUtils.scaleFrame fresh f dst targetWidth targetHeight = .ok (false, dst) ∧
    FrameUtils.flipHorizontal f = .ok (false, f) ∧
    FrameUtils.rotate90CW fresh f dst = .ok (false, dst) ∧
    FrameUtils.rotate90CCW fresh f dst = .ok (false, dst) ∧
    FrameUtils.rotate180 f = .ok (false, f) := by
  unfold FrameUtils.scaleFrame FrameUtils.flipHorizontal FrameUtils.rotate90CW
    FrameUtils.rotate90CCW FrameUtils.rotate180
  cases hd : f.data with
  | none => exact ⟨rfl, rfl, rfl, rfl, rfl⟩
  | some sdata =>
    by_cases hs : f.size = 0
    · simp only [hs, if_true]
      exact ⟨trivial, trivial, trivial, trivial, trivial⟩
    · have hf : f.format = 0 ∨ f.format = 1 := by
        rcases h with h | h | h | h
        · exact Or.inl h
        · exact Or.inr h
        · rw [hd] at h; cases h
        · exact absurd h hs
      have h2 : ¬ f.format = 2 := by omega
      have h3 : ¬ f.format = 3 := by omega
      refine ⟨?_, ?_, ?_, ?_, ?_⟩ <;> simp [hs, h2, h3, hf]

theorem transforms_reject_witness :
    (exNv21.format = 0 ∨ exNv21.format = 1 ∨ exNv21.data = none ∨ exNv21.size = 0) ∧
    (FrameUtils.scaleFrame (fun _ => 0) exNv21 emptyFrame 4 4 = .ok (false, emptyFrame) ∧
    FrameUtils.flipHorizontal exNv21 = .ok (false, exNv21) ∧
    FrameUtils.rotate90CW (fun _ => 0) exNv21 emptyFrame = .ok (false, emptyFrame) ∧
    FrameUtils.rotate90CCW (fun _ => 0) exNv21 emptyFrame = .ok (false, emptyFrame) ∧
    FrameUtils.rotate180 exNv21 = .ok (false, exNv21)) :=
  ⟨by decide, transforms_reject (fun _ => 0) exNv21 emptyFrame 4 4 (by decide)⟩

/-- C19, at failing inputs: on a new reader `open` does not return failure for the paths
`photo.jpg`, `notes.txt` and `README` (extensions `.jpg`, `.txt` and none); it locks the
mutex, calls `close()`, which locks the same mutex, and so never returns. -/
theorem open_unsupported_extension_blocks :
    MediaReader.extensionOf "photo.jpg" = some ".jpg" ∧
    MediaReader.open exEnv 0 "photo.jpg" MediaReader.new = .error .deadlock ∧
    MediaReader.extensionOf "notes.txt" = some ".txt" ∧
    MediaReader.open exEnv 0 "notes.txt" MediaReader.new = .error .deadlock ∧
    MediaReader.extensionOf "README" = none ∧
    MediaReader.open exEnv 0 "README" MediaReader.new = .error .deadlock := by
  refine ⟨by decide, by decide, by decide, by decide, by decide, by decide⟩

/-- C20, at a failing input: the file `truncated.bmp` has valid headers of a 2x2 image
and one row of pixel data.  `open` on it never returns (the mutex is locked twice); the
loader it would run returns failure and leaves width 2, height 2 and an image buffer of
12 bytes in the reader, where `close()` gives 0, 0 and an empty buffer. -/
theorem failed_open_keeps_partial_state :
    MediaReader.open exTruncatedEnv 0 "truncated.bmp" MediaReader.new = .error .deadlock ∧
    ∃ r, MediaReader.loadBmpImage exTruncatedEnv "truncated.bmp" MediaReader.new =
        .ok (false, r) ∧
      r.isReady = false ∧ r.getWidth = 2 ∧ r.getHeight = 2 ∧ r.m_imageData.length = 12 ∧
      ∃ c, MediaReader.close r = .ok c ∧ c.getWidth = 0 ∧ c.getHeight = 0 ∧
        c.m_imageData = [] := by
  refine ⟨by decide, _, rfl, by decide, by decide, by decide, by decide, _, rfl, by decide,
    by decide, by decide⟩

/-- C21, at a failing input: on the Ready still-image source `exStillReader` the call
`getNextFrame` does not return a frame; it locks the mutex and calls `getPhotoFrame`,
which locks the same mutex, and so never returns.  `getPhotoFrame` called by itself
returns the frame the claim describes. -/
theorem getNextFrame_still_image_blocks :
    exStillReader.isReady = true ∧ exStillReader.m_isVideo = false ∧
    MediaReader.getNextFrame exEnv 0 (fun _ => 0) exStillReader emptyFrame =
      .error .deadlock ∧
    MediaReader.getPhotoFrame (fun _ => 0) exStillReader emptyFrame =
      .ok (true, exStillReader,
        { data := some [3, 2, 1, 6, 5, 4, 9, 8, 7, 12, 11, 10], size := 12, width := 2,
          height := 2, format := 3, stride := 6, timestamp := 0 }) := by
  refine ⟨by decide, by decide, by decide, by decide⟩

/-- C22, at a failing input: the container of `clip.mp4` has a video track (track 0)
followed by an audio track (track 1).  `openVideo` on a new reader succeeds and selects
track 0, but `hasAudio()` is false: the track loop stops at the video track and never
looks at the audio track behind it. -/
theorem openVideo_misses_audio_track :
    exPlayService.tracks [0] = some [exVideoFormat, exAudioFormat] ∧
    exAudioFormat.mime = some "audio/mp4a-latm" ∧
    ∃ r, MediaReader.openVideo exPlayEnv 3 "clip.mp4" MediaReader.new = .ok (true, r) ∧
      r.isReady = true ∧ r.m_trackIndex = 0 ∧ r.hasAudio = false :=
  ⟨by decide, by decide,
   { MediaReader.new with
      m_ready := true, m_isVideo := true, m_width := 4, m_height := 2, m_frameRate := 25,
      m_duration := 1000, m_currentPosition := 80, m_frameBuffer := [7, 8, 9],
      m_mediaExtractor := true, m_mediaCodec := true, m_trackIndex := 0, svcCursor := 3,
      svcCalls := [.releaseOutputBuffer 1, .advance, .queueInputBuffer 6 10 80,
        .queueInputBuffer 5 0 0, .seekTo 0, .selectTrack 0] }, by decide, by decide, by decide,
   by decide⟩

/-- C23: `close()` on a reader whose mutex is free returns the source to Closed:
afterwards `isReady()` is false, width, height, duration and current position are 0, no
decoder or demuxer handle is held (those that were held have been deleted), both internal
buffers are empty, and a second `close()` returns with exactly the same state. -/
theorem close_idempotent (r : MediaReader) (hfree : r.m_mutex = false) :
    ∃ c, MediaReader.close r = .ok c ∧ c.isReady = false ∧ c.getWidth = 0 ∧
      c.getHeight = 0 ∧ c.getDuration = 0 ∧ c.getCurrentPosition = 0 ∧
      c.m_mediaCodec = false ∧ c.m_mediaExtractor = false ∧
      (r.m_mediaCodec = true → ServiceCall.codecDelete ∈ c.svcCalls) ∧
      (r.m_mediaExtractor = true → ServiceCall.extractorDelete ∈ c.svcCalls) ∧
      c.m_frameBuffer = [] ∧ c.m_imageData = [] ∧
      MediaReader.close c = .ok c := by
  obtain ⟨c, h1, h2, h3, h4, h5, h6, h7, h8, h9, h10, h11, h12, h13, h14, h15, h16, h17,
    h18, h19, h20, h21⟩ := close_run r hfree
  refine ⟨c, h1, h2, h3, h4, h5, h6, h8, h9, h19, h20, h10, h11, ?_⟩
  obtain ⟨c2, g1, g2, g3, g4, g5, g6, g7, g8, g9, g10, g11, g12, g13, g14, g15, g16, g17,
    g18, _, _, g21⟩ := close_run c h12
  rw [g1]
  congr 1
  have gc := g21 h8 h9
  cases c
  cases c2
  simp_all

theorem close_idempotent_witness :
    exVideoReader.m_mutex = false ∧
    ∃ c, MediaReader.close exVideoReader = .ok c ∧ c.isReady = false ∧ c.getWidth = 0 ∧
      c.getHeight = 0 ∧ c.getDuration = 0 ∧ c.getCurrentPosition = 0 ∧
      c.m_mediaCodec = false ∧ c.m_mediaExtractor = false ∧
      (exVideoReader.m_mediaCodec = true → ServiceCall.codecDelete ∈ c.svcCalls) ∧
      (exVideoReader.m_mediaExtractor = true → ServiceCall.extractorDelete ∈ c.svcCalls) ∧
      c.m_frameBuffer = [] ∧ c.m_imageData = [] ∧
      MediaReader.close c = .ok c :=
  ⟨by decide, close_idempotent exVideoReader (by decide)⟩

/-- C24: on a Ready video source whose mutex is free, whatever `getNextFrame` returns is
a success; the decode loop ended at the first poll with an output buffer carrying data,
whose bytes are in the internal buffer and in the frame and whose presentation time is
the current position and the timestamp of the frame; and for every poll before the end
that obtained an input slot at the end of the stream the calls `seekTo(0)` and
`queueInputBuffer(index, 0, 0, 0, 0)` were made, in this order.  If some poll within reach
of the iteration budget has output data (and output buffers hold the bytes they
announce), `getNextFrame` returns. -/
theorem getNextFrame_video_loops (env : Env) (fuel : Nat) (fresh : Nat → Nat)
    (r : MediaReader) (frame : FrameData) (hready : r.isReady = true)
    (hvideo : r.m_isVideo = true) (hext : r.m_mediaExtractor = true)
    (hcodec : r.m_mediaCodec = true) (hfree : r.m_mutex = false) :
    (∀ b r' frame', MediaReader.getNextFrame env fuel fresh r frame = .ok (b, r', frame') →
      b = true ∧ ∃ k, DecodedAt env.media r r' k ∧
        frame'.data = some r'.m_frameBuffer ∧ frame'.size = r'.m_frameBuffer.length ∧
        frame'.timestamp = r'.getCurrentPosition ∧
        r'.getCurrentPosition = (env.media.polls k).outTime) ∧
    ((∀ j buf, (env.media.polls j).outputBuffer = some buf →
        (env.media.polls j).outSize.toNat ≤ buf.length) →
      ∀ k, r.svcCursor ≤ k → k < r.svcCursor + fuel → (env.media.polls k).hasOutput →
        ∃ r' frame', MediaReader.getNextFrame env fuel fresh r frame =
          .ok (true, r', frame')) := by
  have heq := getNextFrame_video_eq env fuel fresh r frame hready hvideo hext hcodec hfree
  constructor
  · intro b r' frame' h
    rw [heq] at h
    cases hd : MediaReader.decodeLoop env.media fuel { r with m_mutex := true } with
    | error e => rw [hd] at h; cases h
    | ok res =>
      obtain ⟨b0, r0⟩ := res
      obtain ⟨hb0, k, hk⟩ := decodeLoop_sound env.media fuel _ b0 r0 hd
      subst hb0
      rw [hd] at h
      simp only [Except.ok.injEq, Prod.mk.injEq] at h
      obtain ⟨h1, h2, h3⟩ := h
      refine ⟨h1.symm, k, ?_, ?_, ?_, ?_, ?_⟩
      · rw [← h2]; exact hk
      · rw [← h2, ← h3]; rfl
      · rw [← h2, ← h3]; rfl
      · rw [← h2, ← h3]; rfl
      · rw [← h2]; exact hk.2.2.2.2.2.1
  · intro hlen k hk1 hk2 hout
    obtain ⟨r0, h0⟩ := decodeLoop_returns env.media hlen fuel { r with m_mutex := true } k
      hk1 hk2 hout
    rw [heq, h0]
    exact ⟨_, _, rfl⟩

theorem getNextFrame_video_loops_witness :
    (exVideoReader.isReady = true ∧ exVideoReader.m_isVideo = true ∧
      exVideoReader.m_mediaExtractor = true ∧ exVideoReader.m_mediaCodec = true ∧
      exVideoReader.m_mutex = false) ∧
    ((∀ b r' frame',
      MediaReader.getNextFrame exPlayEnv 3 (fun _ => 0) exVideoReader emptyFrame =
        .ok (b, r', frame') →
      b = true ∧ ∃ k, DecodedAt exPlayEnv.media exVideoReader r' k ∧
        frame'.data = some r'.m_frameBuffer ∧ frame'.size = r'.m_frameBuffer.length ∧
        frame'.timestamp = r'.getCurrentPosition ∧
        r'.getCurrentPosition = (exPlayEnv.media.polls k).outTime) ∧
    ((∀ j buf, (exPlayEnv.media.polls j).outputBuffer = some buf →
        (exPlayEnv.media.polls j).outSize.toNat ≤ buf.length) →
      ∀ k, exVideoReader.svcCursor ≤ k → k < exVideoReader.svcCursor + 3 →
        (exPlayEnv.media.polls k).hasOutput →
        ∃ r' frame',
          MediaReader.getNextFrame exPlayEnv 3 (fun _ => 0) exVideoReader emptyFrame =
            .ok (true, r', frame'))) ∧
    (exPlayEnv.media.polls 0).endOfStream ∧ (exPlayEnv.media.polls 2).hasOutput ∧
    ∃ r' frame',
      MediaReader.getNextFrame exPlayEnv 3 (fun _ => 0) exVideoReader emptyFrame =
        .ok (true, r', frame') ∧
      [ServiceCall.queueInputBuffer 5 0 0, ServiceCall.seekTo 0] <:+: r'.svcCalls ∧
      r'.m_frameBuffer = [7, 8, 9] ∧ frame'.data = some [7, 8, 9] ∧ frame'.timestamp = 80 :=
  ⟨by decide, getNextFrame_video_loops exPlayEnv 3 (fun _ => 0) exVideoReader emptyFrame
    (by decide) (by decide) (by decide) (by decide) (by decide), by decide, by decide,
    { exVideoReader with
        m_currentPosition := 80, m_frameBuffer := [7, 8, 9], svcCursor := 3,
        svcCalls := [.releaseOutputBuffer 1, .advance, .queueInputBuffer 6 10 80,
          .queueInputBuffer 5 0 0, .seekTo 0] },
    { data := some [7, 8, 9], size := 3, width := 4, height := 2, format := 1, stride := 4,
      timestamp := 80 }, by decide, by decide, by decide, by decide, by decide⟩

/-- C25 as stated fails: scaling the 2x1 RGB24 frame `exBlend` (values 127 and 128) to
4x1 gives for byte 0 of the output pixel (1,0) the weights 1/2 and 0 and the blend value
(127 + 128)/2 = 127.5; the nearest integer is 128, the code stores 127. -/
theorem scaleFrame_truncates_counterexample :
    ValidPacked exBlend ∧ srcFrac 2 4 1 = 1 / 2 ∧ srcFrac 1 1 0 = 0 ∧
    bilinear 127 128 127 128 (1 / 2) 0 = 255 / 2 ∧
    ∃ out, FrameUtils.scaleFrame (fun _ => 0) exBlend emptyFrame 4 1 = .ok (true, out) ∧
      exBlend.pixelByte 0 0 0 = 127 ∧ exBlend.pixelByte 1 0 0 = 128 ∧
      out.pixelByte 1 0 0 = 127 := by
  have f1 : srcFrac 2 4 1 = 1 / 2 := by
    rw [srcFrac_two_four 1 (by norm_num) (by norm_num)]; norm_num
  have f0 : srcFrac 1 1 0 = 0 := srcFrac_same 1 0 (by norm_num) (by norm_num) (by norm_num)
  have hb : bilinear 127 128 127 128 (1 / 2) 0 = 255 / 2 := by
    rw [bilinear_half_zero_mean 127 128 127 128 (by norm_num) (by norm_num)]
    norm_num
  refine ⟨validPacked_exBlend, f1, f0, hb, ?_⟩
  obtain ⟨d, e1, _, e3⟩ := scaleFrame_bounded_run (fun _ => 0) exBlend emptyFrame 4 1
    validPacked_exBlend (by decide) (by decide) (by norm_num) (by norm_num) (by norm_num)
    (by norm_num) (by decide)
  refine ⟨_, e1, by decide, by decide, ?_⟩
  have a := e3 1 0 0 (by norm_num) (by norm_num) (by norm_num) (by norm_num) (by norm_num)
    (by decide)
  have c0 : srcCoord0 2 4 1 = 0 := by
    rw [srcCoord0_two_four 1 (by norm_num) (by norm_num)]; rfl
  have c1 : srcCoord1 2 4 1 = 1 := by unfold srcCoord1; rw [c0]; rfl
  have r0 : srcCoord0 1 1 0 = 0 := srcCoord0_same 1 0 (by norm_num) (by norm_num) (by norm_num)
  have r1 : srcCoord1 1 1 0 = 0 := by unfold srcCoord1; rw [r0]; rfl
  have hv : scaleSample exBlend.bytes 2 1 3 4 1 1 0 0 = 127 := by
    unfold scaleSample
    rw [c0, c1, r0, r1, f1, f0]
    have p0 : peek exBlend.bytes ((0 * 2 + 0) * 3 + 0) = 127 := by decide
    have p1 : peek exBlend.bytes ((0 * 2 + 1) * 3 + 0) = 128 := by decide
    rw [p0, p1, hb]
    have : floatToInt (255 / 2 : ℚ) = 127 := by
      rw [floatToInt_of_nonneg _ (by norm_num), Int.floor_eq_iff]
      constructor <;> norm_num
    rw [this]
    decide
  show peek d (0 * (4 * bytesPerPixel exBlend.format) + 1 * bytesPerPixel exBlend.format + 0)
    = 127
  have i : 0 * (4 * bytesPerPixel exBlend.format) + 1 * bytesPerPixel exBlend.format + 0 =
      (0 * 4 + 1) * bytesPerPixel exBlend.format + 0 := by ring
  rw [i, a]
  exact hv

/-- C25, amended: for every valid tightly packed RGB24/RGBA32 source with width and
height below 2^24 and target dimensions in 1..2^22 (target size below 2^31 bytes),
`scaleFrame` succeeds and each output channel is the bilinear blend of the four
neighbouring source samples, `bilinear`, computed in single precision with the weights
(1-xFrac)(1-yFrac), xFrac(1-yFrac), (1-xFrac)yFrac, xFrac*yFrac, where
srcX = x*(srcW/targetW), srcY = y*(srcH/targetH) and xFrac, yFrac are their fractions;
the blend is truncated to an integer (`floatToInt`, not rounded) and clamped to
[0,255]. -/
theorem scaleFrame_bilinear (fresh : Nat → Nat) (src dst : FrameData) (tw th : Int)
    (h : ValidPacked src) (hw : src.width < 2 ^ 24) (hh : src.height < 2 ^ 24)
    (htw0 : 0 < tw) (htw : tw ≤ 2 ^ 22) (hth0 : 0 < th) (hth : th ≤ 2 ^ 22)
    (hsz : tw * bytesPerPixel src.format * th < 2 ^ 31) :
    ∃ out, FrameUtils.scaleFrame fresh src dst tw th = .ok (true, out) ∧
      out.width = tw ∧ out.height = th ∧ out.format = src.format ∧
      out.stride = tw * bytesPerPixel src.format ∧
      ∀ x y c, 0 ≤ x → x < tw → 0 ≤ y → y < th → 0 ≤ c → c < bytesPerPixel src.format →
        out.pixelByte x y c =
          clamp (floatToInt (bilinear
            (src.pixelByte (srcCoord0 src.width tw x) (srcCoord0 src.height th y) c)
            (src.pixelByte (srcCoord1 src.width tw x) (srcCoord0 src.height th y) c)
            (src.pixelByte (srcCoord0 src.width tw x) (srcCoord1 src.height th y) c)
            (src.pixelByte (srcCoord1 src.width tw x) (srcCoord1 src.height th y) c)
            (srcFrac src.width tw x) (srcFrac src.height th y))) := by
  obtain ⟨d, e1, _, e3⟩ := scaleFrame_bounded_run fresh src dst tw th h hw hh htw0 htw hth0 hth
    hsz
  refine ⟨_, e1, rfl, rfl, rfl, rfl, ?_⟩
  intro x y c hx0 hx1 hy0 hy1 hc0 hc1
  have a := e3 x y c hx0 hx1 hy0 hy1 hc0 hc1
  have hs : src.stride = src.width * bytesPerPixel src.format := h.2.2.2.2.1
  have px : ∀ sx sy : Int, src.pixelByte sx sy c =
      peek src.bytes ((sy * src.width + sx) * bytesPerPixel src.format + c) := by
    intro sx sy
    unfold FrameData.pixelByte
    rw [hs]
    congr 1
    ring
  rw [px, px, px, px]
  show peek d (y * (tw * bytesPerPixel src.format) + x * bytesPerPixel src.format + c) = _
  have i : y * (tw * bytesPerPixel src.format) + x * bytesPerPixel src.format + c =
      (y * tw + x) * bytesPerPixel src.format + c := by ring
  rw [i, a]
  rfl

theorem scaleFrame_bilinear_witness :
    (ValidPacked exBlend ∧ exBlend.width < 2 ^ 24 ∧ exBlend.height < 2 ^ 24 ∧ (0 : Int) < 4 ∧
      (4 : Int) ≤ 2 ^ 22 ∧ (0 : Int) < 1 ∧ (1 : Int) ≤ 2 ^ 22 ∧
      4 * bytesPerPixel exBlend.format * 1 < 2 ^ 31) ∧
    ∃ out, FrameUtils.scaleFrame (fun _ => 0) exBlend emptyFrame 4 1 = .ok (true, out) ∧
      out.width = 4 ∧ out.height = 1 ∧ out.format = exBlend.format ∧
      out.stride = 4 * bytesPerPixel exBlend.format ∧
      ∀ x y c, 0 ≤ x → x < 4 → 0 ≤ y → y < 1 → 0 ≤ c → c < bytesPerPixel exBlend.format →
        out.pixelByte x y c =
          clamp (floatToInt (bilinear
            (exBlend.pixelByte (srcCoord0 exBlend.width 4 x) (srcCoord0 exBlend.height 1 y) c)
            (exBlend.pixelByte (srcCoord1 exBlend.width 4 x) (srcCoord0 exBlend.height 1 y) c)
            (exBlend.pixelByte (srcCoord0 exBlend.width 4 x) (srcCoord1 exBlend.height 1 y) c)
            (exBlend.pixelByte (srcCoord1 exBlend.width 4 x) (srcCoord1 exBlend.height 1 y) c)
            (srcFrac exBlend.width 4 x) (srcFrac exBlend.height 1 y))) :=
  ⟨by decide, scaleFrame_bilinear (fun _ => 0) exBlend emptyFrame 4 1 (by decide) (by decide)
    (by decide) (by decide) (by decide) (by decide) (by decide) (by decide)⟩

/-- C26, at a failing input: scaling the valid RGB24 frame `exHuge`, one row of
16777220 pixels, to 16777220 x 1 pixels.  For the last destination column x = 16777219
the conversion of x to `float` gives 16777220, so the source column computed is 16777220,
equal to the width, and the first sample is read at byte 16777220 * 3, outside the source
buffer of that many bytes. -/
theorem scaleFrame_reads_outside_source :
    ValidPacked exHuge ∧ exHuge.width = 16777220 ∧
    srcCoord0 exHuge.width 16777220 16777219 = 16777220 ∧
    ∀ (fresh : Nat → Nat) (dst : FrameData),
      FrameUtils.scaleFrame fresh exHuge dst 16777220 1 = .error .outOfBounds :=
  ⟨validPacked_exHuge, rfl, srcCoord0_wide_last,
    fun fresh dst => scaleFrame_wide_fault fresh exHuge dst validPacked_exHuge rfl rfl rfl⟩

/-- C27, at a failing input: for the valid source `exHuge` of 16777220 x 1 pixels and
the target 16777219 x 1 the scaled box that `matchResolution` computes is
(16777220, 1): it is wider than the target, because the target width 16777219 is
converted to the `float` 16777220.  The call itself ends in `scaleFrame`, which reads
outside the source buffer. -/
theorem scaledBox_exceeds_target :
    ValidPacked exHuge ∧ scaledBox exHuge.width exHuge.height 16777219 1 = (16777220, 1) ∧
    ¬ ((scaledBox exHuge.width exHuge.height 16777219 1).1 ≤ 16777219) ∧
    ∀ (fresh1 fresh2 : Nat → Nat) (dst : FrameData),
      FrameUtils.matchResolution fresh1 fresh2 exHuge dst 16777219 1 true =
        .error .outOfBounds := by
  have hbox : scaledBox exHuge.width exHuge.height 16777219 1 = (16777220, 1) :=
    scaledBox_wide_row
  refine ⟨validPacked_exHuge, hbox, by rw [hbox]; norm_num, ?_⟩
  intro fresh1 fresh2 dst
  have hsc := scaleFrame_wide_fault fresh1 exHuge emptyFrame validPacked_exHuge rfl rfl rfl
  have hsw : (if fdiv (intToFloat exHuge.width) (intToFloat exHuge.height) >
        fdiv (intToFloat 16777219) (intToFloat 1) then (16777219 : Int)
      else floatToInt (fmul (intToFloat 1)
        (fdiv (intToFloat exHuge.width) (intToFloat exHuge.height)))) = 16777220 :=
    congrArg Prod.fst hbox
  have hsh : (if fdiv (intToFloat exHuge.width) (intToFloat exHuge.height) >
        fdiv (intToFloat 16777219) (intToFloat 1) then
        floatToInt (fdiv (intToFloat 16777219)
          (fdiv (intToFloat exHuge.width) (intToFloat exHuge.height)))
      else (1 : Int)) = 1 := congrArg Prod.snd hbox
  have hbn : 0 ≤ fdiv (intToFloat 16777219) (intToFloat 1) :=
    fdiv_nonneg _ _ (intToFloat_nonneg _ (by norm_num)) (intToFloat_nonneg _ (by norm_num))
  have hnf : ¬ (fdiv (intToFloat exHuge.width) (intToFloat exHuge.height) >
        fdiv (intToFloat 16777219) (intToFloat 1) ∧
      fdiv (intToFloat exHuge.width) (intToFloat exHuge.height) = 0) := by
    rintro ⟨h1, h2⟩
    rw [h2] at h1
    exact absurd h1 (not_lt.mpr hbn)
  have hd : exHuge.data = some (List.replicate 50331660 0) := rfl
  have hs0 : exHuge.size ≠ 0 := by decide
  have hne : ¬ (exHuge.width = 16777219 ∧ exHuge.height = 1) := by decide
  have hz : ¬ (exHuge.height = 0 ∨ (1 : Int) = 0) := by decide
  simp only [FrameUtils.matchResolution, hd, hs0, if_false, hne, Bool.not_true,
    Bool.false_eq_true, hnf, hsw, hsh]
  rw [if_neg hz, hsc]
  rfl

/-- C28 as stated fails: `exPadded` is a 2x2 RGB24 frame whose rows are 8 bytes apart
(stride 8, two padding bytes of value 99 after each row).  `flipHorizontal` and
`rotate90CW` address its rows as 6 bytes apart: in the flipped frame byte 1 of pixel (0,1)
is the padding byte 99, not byte 1 of the source pixel (1,1), which is 11; and byte 0 of
pixel (0,0) of the rotated frame is 99, not byte 0 of the source pixel (0,1), which is
7. -/
theorem transforms_read_padding_counterexample :
    exPadded.stride = 8 ∧ exPadded.width * bytesPerPixel exPadded.format = 6 ∧
    (∃ out, FrameUtils.flipHorizontal exPadded = .ok (true, out) ∧
      out.pixelByte 0 1 1 = 99 ∧ exPadded.pixelByte 1 1 1 = 11) ∧
    (∃ out, FrameUtils.rotate90CW (fun _ => 0) exPadded emptyFrame = .ok (true, out) ∧
      out.pixelByte 0 0 0 = 99 ∧ exPadded.pixelByte 0 1 0 = 7) :=
  ⟨by decide, by decide,
   ⟨{ exPadded with data := some [4, 5, 6, 1, 2, 3, 8, 9, 10, 99, 99, 7, 11, 12, 99, 99] },
     by decide, by decide, by decide⟩,
   ⟨{ emptyFrame with data := some [99, 99, 7, 1, 2, 3, 8, 9, 10, 4, 5, 6], size := 12,
                      width := 2, height := 2, format := 3, stride := 6 },
     by decide, by decide, by decide⟩⟩

/-- C28, amended: the frame transforms do not use the stride of the source frame.  For
every valid RGB24/RGBA32 frame whose rows may be padded (stride >= width*bpp,
size = stride*height), `rotate90CW`, `rotate90CCW` and `flipHorizontal` succeed and take
the source pixel (x,y) from the bytes at offset (y*width + x)*bpp, and `scaleFrame` takes
its four samples from there (source dimensions below 2^24, target dimensions in 1..2^22,
target size below 2^31 bytes); the rotations and `scaleFrame` give the result the stride
of its width*bpp, `flipHorizontal` leaves the field as it was, and no result depends on
the value of the field.  When stride > width*bpp and height >= 2, the byte taken for
byte 0 of the source pixel (0,1) is the byte that follows the last pixel of row 0, a
padding byte: padding is read as pixel data. -/
theorem transforms_address_by_width (fresh : Nat → Nat) (src dst : FrameData) (stride : Int)
    (h : ValidPadded src) :
    (∃ out, FrameUtils.rotate90CW fresh src dst = .ok (true, out) ∧
      out.width = src.height ∧ out.height = src.width ∧
      out.stride = src.height * bytesPerPixel src.format ∧
      (∀ x y c, 0 ≤ x → x < src.width → 0 ≤ y → y < src.height → 0 ≤ c →
        c < bytesPerPixel src.format →
        out.pixelByte (src.height - 1 - y) x c =
          peek src.bytes ((y * src.width + x) * bytesPerPixel src.format + c)) ∧
      (src.width * bytesPerPixel src.format < src.stride → 1 < src.height →
        out.pixelByte (src.height - 2) 0 0 = src.pixelByte src.width 0 0)) ∧
    (∃ out, FrameUtils.rotate90CCW fresh src dst = .ok (true, out) ∧
      out.width = src.height ∧ out.height = src.width ∧
      out.stride = src.height * bytesPerPixel src.format ∧
      ∀ x y c, 0 ≤ x → x < src.width → 0 ≤ y → y < src.height → 0 ≤ c →
        c < bytesPerPixel src.format →
        out.pixelByte y (src.width - 1 - x) c =
          peek src.bytes ((y * src.width + x) * bytesPerPixel src.format + c)) ∧
    (∃ d, FrameUtils.flipHorizontal src = .ok (true, { src with data := some d }) ∧
      d.length = src.bytes.length ∧
      ∀ x y c, 0 ≤ x → x < src.width → 0 ≤ y → y < src.height → 0 ≤ c →
        c < bytesPerPixel src.format →
        peek d ((y * src.width + x) * bytesPerPixel src.format + c) =
          peek src.bytes
            ((y * src.width + (src.width - 1 - x)) * bytesPerPixel src.format + c)) ∧
    (∀ tw th : Int, src.width < 2 ^ 24 → src.height < 2 ^ 24 → 0 < tw → tw ≤ 2 ^ 22 →
      0 < th → th ≤ 2 ^ 22 → tw * bytesPerPixel src.format * th < 2 ^ 31 →
      ∃ out, FrameUtils.scaleFrame fresh src dst tw th = .ok (true, out) ∧
        out.width = tw ∧ out.height = th ∧ out.stride = tw * bytesPerPixel src.format ∧
        ∀ x y c, 0 ≤ x → x < tw → 0 ≤ y → y < th → 0 ≤ c → c < bytesPerPixel src.format →
          out.pixelByte x y c =
            clamp (floatToInt (bilinear
              (peek src.bytes ((srcCoord0 src.height th y * src.width +
                srcCoord0 src.width tw x) * bytesPerPixel src.format + c))
              (peek src.bytes ((srcCoord0 src.height th y * src.width +
                srcCoord1 src.width tw x) * bytesPerPixel src.format + c))
              (peek src.bytes ((srcCoord1 src.height th y * src.width +
                srcCoord0 src.width tw x) * bytesPerPixel src.format + c))
              (peek src.bytes ((srcCoord1 src.height th y * src.width +
                srcCoord1 src.width tw x) * bytesPerPixel src.format + c))
              (srcFrac src.width tw x) (srcFrac src.height th y)))) ∧
    (∀ tw th : Int,
      FrameUtils.scaleFrame fresh { src with stride := stride } dst tw th =
        FrameUtils.scaleFrame fresh src dst tw th) ∧
    FrameUtils.flipHorizontal { src with stride := stride } =
      (FrameUtils.flipHorizontal src).map (fun p => (p.1, { p.2 with stride := stride })) ∧
    FrameUtils.rotate90CW fresh { src with stride := stride } dst =
      FrameUtils.rotate90CW fresh src dst ∧
    FrameUtils.rotate90CCW fresh { src with stride := stride } dst =
      FrameUtils.rotate90CCW fresh src dst := by
  have hb := bytesPerPixel_pos src.format
  refine ⟨?_, ?_, ?_, ?_, fun tw th => rfl, stride_flip src stride, rfl, rfl⟩
  · obtain ⟨d, e1, _, e3⟩ := rotate90CW_padded_run fresh src dst h
    have key : ∀ x y c, 0 ≤ x → x < src.width → 0 ≤ y → y < src.height → 0 ≤ c →
        c < bytesPerPixel src.format →
        FrameData.pixelByte
          { dst with width := src.height, height := src.width, format := src.format,
                     stride := src.height * bytesPerPixel src.format,
                     size := toSizeT (src.height * bytesPerPixel src.format * src.width),
                     data := some d } (src.height - 1 - y) x c =
          peek src.bytes ((y * src.width + x) * bytesPerPixel src.format + c) := by
      intro x y c hx0 hx1 hy0 hy1 hc0 hc1
      rw [← e3 x y c hx0 hx1 hy0 hy1 hc0 hc1]
      show peek d (x * (src.height * bytesPerPixel src.format) +
        (src.height - 1 - y) * bytesPerPixel src.format + c) = _
      congr 1
      ring
    refine ⟨_, e1, rfl, rfl, rfl, key, ?_⟩
    intro _ hh2
    have a := key 0 1 0 (le_refl _) h.2.2.1 (by norm_num) hh2 (le_refl _) hb
    have e : src.height - 1 - 1 = src.height - 2 := by ring
    rw [e] at a
    rw [a]
    unfold FrameData.pixelByte
    congr 1
    ring
  · obtain ⟨d, e1, _, e3⟩ := rotate90CCW_padded_run fresh src dst h
    refine ⟨_, e1, rfl, rfl, rfl, ?_⟩
    intro x y c hx0 hx1 hy0 hy1 hc0 hc1
    rw [← e3 x y c hx0 hx1 hy0 hy1 hc0 hc1]
    show peek d ((src.width - 1 - x) * (src.height * bytesPerPixel src.format) +
      y * bytesPerPixel src.format + c) = _
    congr 1
    ring
  · exact flipHorizontal_padded_run src h
  · intro tw th hw hh htw0 htw hth0 hth hsz
    obtain ⟨d, e1, _, e3⟩ := scaleFrame_padded_bounded_run fresh src dst tw th h hw hh htw0
      htw hth0 hth hsz
    refine ⟨_, e1, rfl, rfl, rfl, ?_⟩
    intro x y c hx0 hx1 hy0 hy1 hc0 hc1
    have a := e3 x y c hx0 hx1 hy0 hy1 hc0 hc1
    show peek d (y * (tw * bytesPerPixel src.format) + x * bytesPerPixel src.format + c) = _
    have i : y * (tw * bytesPerPixel src.format) + x * bytesPerPixel src.format + c =
        (y * tw + x) * bytesPerPixel src.format + c := by ring
    rw [i, a]
    rfl

theorem transforms_address_by_width_witness :
    ValidPadded exPadded ∧
    ((∃ out, FrameUtils.rotate90CW (fun _ => 0) exPadded emptyFrame = .ok (true, out) ∧
      out.width = exPadded.height ∧ out.height = exPadded.width ∧
      out.stride = exPadded.height * bytesPerPixel exPadded.format ∧
      (∀ x y c, 0 ≤ x → x < exPadded.width → 0 ≤ y → y < exPadded.height → 0 ≤ c →
        c < bytesPerPixel exPadded.format →
        out.pixelByte (exPadded.height - 1 - y) x c =
          peek exPadded.bytes ((y * exPadded.width + x) * bytesPerPixel exPadded.format + c)) ∧
      (exPadded.width * bytesPerPixel exPadded.format < exPadded.stride → 1 < exPadded.height →
        out.pixelByte (exPadded.height - 2) 0 0 = exPadded.pixelByte exPadded.width 0 0)) ∧
    (∃ out, FrameUtils.rotate90CCW (fun _ => 0) exPadded emptyFrame = .ok (true, out) ∧
      out.width = exPadded.height ∧ out.height = exPadded.width ∧
      out.stride = exPadded.height * bytesPerPixel exPadded.format ∧
      ∀ x y c, 0 ≤ x → x < exPadded.width → 0 ≤ y → y < exPadded.height → 0 ≤ c →
        c < bytesPerPixel exPadded.format →
        out.pixelByte y (exPadded.width - 1 - x) c =
          peek exPadded.bytes ((y * exPadded.width + x) * bytesPerPixel exPadded.format + c)) ∧
    (∃ d, FrameUtils.flipHorizontal exPadded = .ok (true, { exPadded with data := some d }) ∧
      d.length = exPadded.bytes.length ∧
      ∀ x y c, 0 ≤ x → x < exPadded.width → 0 ≤ y → y < exPadded.height → 0 ≤ c →
        c < bytesPerPixel exPadded.format →
        peek d ((y * exPadded.width + x) * bytesPerPixel exPadded.format + c) =
          peek exPadded.bytes
            ((y * exPadded.width + (exPadded.width - 1 - x)) * bytesPerPixel exPadded.format + c)) ∧
    (∀ tw th : Int, exPadded.width < 2 ^ 24 → exPadded.height < 2 ^ 24 → 0 < tw → tw ≤ 2 ^ 22 →
      0 < th → th ≤ 2 ^ 22 → tw * bytesPerPixel exPadded.format * th < 2 ^ 31 →
      ∃ out, FrameUtils.scaleFrame (fun _ => 0) exPadded emptyFrame tw th = .ok (true, out) ∧
        out.width = tw ∧ out.height = th ∧ out.stride = tw * bytesPerPixel exPadded.format ∧
        ∀ x y c, 0 ≤ x → x < tw → 0 ≤ y → y < th → 0 ≤ c → c < bytesPerPixel exPadded.format →
          out.pixelByte x y c =
            clamp (floatToInt (bilinear
              (peek exPadded.bytes ((srcCoord0 exPadded.height th y * exPadded.width +
                srcCoord0 exPadded.width tw x) * bytesPerPixel exPadded.format + c))
              (peek exPadded.bytes ((srcCoord0 exPadded.height th y * exPadded.width +
                srcCoord1 exPadded.width tw x) * bytesPerPixel exPadded.format + c))
              (peek exPadded.bytes ((srcCoord1 exPadded.height th y * exPadded.width +
                srcCoord0 exPadded.width tw x) * bytesPerPixel exPadded.format + c))
              (peek exPadded.bytes ((srcCoord1 exPadded.height th y * exPadded.width +
                srcCoord1 exPadded.width tw x) * bytesPerPixel exPadded.format + c))
              (srcFrac exPadded.width tw x) (srcFrac exPadded.height th y)))) ∧
    (∀ tw th : Int,
      FrameUtils.scaleFrame (fun _ => 0) { exPadded with stride := 6 } emptyFrame tw th =
        FrameUtils.scaleFrame (fun _ => 0) exPadded emptyFrame tw th) ∧
    FrameUtils.flipHorizontal { exPadded with stride := 6 } =
      (FrameUtils.flipHorizontal exPadded).map (fun p => (p.1, { p.2 with stride := 6 })) ∧
    FrameUtils.rotate90CW (fun _ => 0) { exPadded with stride := 6 } emptyFrame =
      FrameUtils.rotate90CW (fun _ => 0) exPadded emptyFrame ∧
    FrameUtils.rotate90CCW (fun _ => 0) { exPadded with stride := 6 } emptyFrame =
      FrameUtils.rotate90CCW (fun _ => 0) exPadded emptyFrame) ∧
    (∃ out, FrameUtils.scaleFrame (fun _ => 0) exPadded emptyFrame 4 2 = .ok (true, out) ∧
      out.width = 4 ∧ out.height = 2 ∧ out.stride = 4 * bytesPerPixel exPadded.format ∧
      ∀ x y c, 0 ≤ x → x < 4 → 0 ≤ y → y < 2 → 0 ≤ c → c < bytesPerPixel exPadded.format →
        out.pixelByte x y c =
          clamp (floatToInt (bilinear
            (peek exPadded.bytes ((srcCoord0 exPadded.height 2 y * exPadded.width +
              srcCoord0 exPadded.width 4 x) * bytesPerPixel exPadded.format + c))
            (peek exPadded.bytes ((srcCoord0 exPadded.height 2 y * exPadded.width +
              srcCoord1 exPadded.width 4 x) * bytesPerPixel exPadded.format + c))
            (peek exPadded.bytes ((srcCoord1 exPadded.height 2 y * exPadded.width +
              srcCoord0 exPadded.width 4 x) * bytesPerPixel exPadded.format + c))
            (peek exPadded.bytes ((srcCoord1 exPadded.height 2 y * exPadded.width +
              srcCoord1 exPadded.width 4 x) * bytesPerPixel exPadded.format + c))
            (srcFrac exPadded.width 4 x) (srcFrac exPadded.height 2 y)))) ∧
    exPadded.width * bytesPerPixel exPadded.format < exPadded.stride ∧ 1 < exPadded.height ∧
    exPadded.pixelByte exPadded.width 0 0 = 99 ∧ exPadded.pixelByte 0 1 0 = 7 :=
  ⟨by decide, transforms_address_by_width (fun _ => 0) exPadded emptyFrame 6 (by decide),
   (transforms_address_by_width (fun _ => 0) exPadded emptyFrame 6 (by decide)).2.2.2.1 4 2
     (by decide) (by decide) (by decide) (by decide) (by decide) (by decide) (by decide),
   by decide, by decide, by decide, by decide⟩

/-- C29, refuted for every input: `open` never returns, whatever the path, the files and
the state of the reader, because it locks the mutex and then calls `close()`, which locks
it again; and `getNextFrame` on any Ready still-image source whose mutex is free never
returns, because it locks the mutex and then calls `getPhotoFrame()`.  `close()`,
`getPhotoFrame()`, `seek()` and `reset()` called with the mutex free do return. -/
theorem reader_locks_mutex_twice (env : Env) (fuel : Nat) (path : String)
    (fresh : Nat → Nat) (r : MediaReader) (frame : FrameData) (timestampUs : Int) :
    MediaReader.open env fuel path r = .error .deadlock ∧
    MediaReader.getNextFrame env fuel fresh
      { r with m_mutex := false, m_ready := true, m_isVideo := false } frame =
      .error .deadlock ∧
    (∃ c, MediaReader.close { r with m_mutex := false } = .ok c) ∧
    (∃ res, MediaReader.getPhotoFrame fresh { r with m_mutex := false } frame = .ok res) ∧
    (∃ res, MediaReader.seek timestampUs { r with m_mutex := false } = .ok res) ∧
    (∃ c, MediaReader.reset { r with m_mutex := false } = .ok c) := by
  refine ⟨open_blocks env fuel path r, getNextFrame_still_blocks _ _ _ _ _ rfl rfl rfl,
    ?_, ?_, ?_, ?_⟩
  · obtain ⟨c, h, _⟩ := close_run { r with m_mutex := false } rfl
    exact ⟨c, h⟩
  · unfold MediaReader.getPhotoFrame MediaReader.lockGuard
    simp only [Bool.false_eq_true, if_false, ok_bind]
    split
    · exact ⟨_, rfl⟩
    · rw [memcpy_all _ _ (by rw [length_newArray])]
      exact ⟨_, rfl⟩
  · unfold MediaReader.seek MediaReader.lockGuard
    simp only [Bool.false_eq_true, if_false, ok_bind]
    split <;> exact ⟨_, rfl⟩
  · unfold MediaReader.reset MediaReader.seek MediaReader.lockGuard
    simp only [Bool.false_eq_true, if_false, ok_bind]
    split <;> exact ⟨_, rfl⟩

/-- C30, at failing inputs: for a 1x1 RGB24 frame `convertFormat` allocates 1*1*3/2 = 1
byte for NV21 or YUV420Planar and the conversion writes the chroma byte at index 1, one
past the end; for a 1x1 NV21 frame of 1 byte the conversion to RGB24 reads the chroma
byte at index 1, one past the end of the source.  In each case the access is outside the
buffer. -/
theorem convertFormat_odd_dimensions_fault :
    exOdd.width = 1 ∧ exOdd.height = 1 ∧ FrameUtils.calcNv21Size 1 1 = 1 ∧
    FrameUtils.calcYuv420Size 1 1 = 1 ∧
    FrameUtils.convertFormat (fun _ => 0) exOdd emptyFrame 0 = .error .outOfBounds ∧
    FrameUtils.convertFormat (fun _ => 0) exOdd emptyFrame 1 = .error .outOfBounds ∧
    FrameUtils.convertFormat (fun _ => 0) exOddNv21 emptyFrame 3 = .error .outOfBounds :=
  ⟨by decide, by decide, by decide, by decide, by decide, by decide,
    convertFormat_odd_nv21_fault⟩

/-- C31, at a failing input: the file `silent.mp4` has one video track that gives no frame
rate, and no audio track.  A new reader that goes through `close()` and `openVideo` on it
(the steps of `open`, which itself never returns) reports no audio and 30 frames per
second.  A reader that had `song.mp4` open before (an audio track, then a video track of 25
frames per second) and goes through the same steps reports audio and 25 frames per
second: `close()` resets neither `m_hasAudio` nor `m_frameRate`.  The other attributes
agree. -/
theorem reopened_reader_keeps_attributes :
    MediaReader.open exLibraryEnv 1 "silent.mp4" MediaReader.new = .error .deadlock ∧
    (∃ n d, MediaReader.close MediaReader.new = .ok n ∧
      MediaReader.openVideo exLibraryEnv 1 "silent.mp4" n = .ok (true, d) ∧
      d.isReady = true ∧ d.isVideo = true ∧ d.hasAudio = false ∧ d.getFrameRate = 30 ∧
      d.getWidth = 8 ∧ d.getHeight = 6 ∧ d.getDuration = 500 ∧ d.getCurrentPosition = 0) ∧
    (∃ n a b c, MediaReader.close MediaReader.new = .ok n ∧
      MediaReader.openVideo exLibraryEnv 1 "song.mp4" n = .ok (true, a) ∧
      MediaReader.close a = .ok b ∧
      MediaReader.openVideo exLibraryEnv 1 "silent.mp4" b = .ok (true, c) ∧
      c.isReady = true ∧ c.isVideo = true ∧ c.hasAudio = true ∧ c.getFrameRate = 25 ∧
      c.getWidth = 8 ∧ c.getHeight = 6 ∧ c.getDuration = 500 ∧ c.getCurrentPosition = 0) :=
  ⟨by decide,
   ⟨MediaReader.new,
    { MediaReader.new with
        m_ready := true, m_isVideo := true, m_width := 8, m_height := 6, m_duration := 500,
        m_frameBuffer := [7, 8, 9], m_mediaExtractor := true, m_mediaCodec := true,
        m_trackIndex := 0, svcCursor := 1,
        svcCalls := [.releaseOutputBuffer 1, .advance, .queueInputBuffer 6 10 0,
          .selectTrack 0] },
    by decide, by decide, by decide, by decide, by decide, by decide, by decide, by decide,
    by decide, by decide⟩,
   ⟨MediaReader.new,
    { MediaReader.new with
        m_ready := true, m_isVideo := true, m_hasAudio := true, m_width := 4, m_height := 2,
        m_frameRate := 25, m_duration := 1000, m_frameBuffer := [7, 8, 9],
        m_mediaExtractor := true, m_mediaCodec := true, m_trackIndex := 1, svcCursor := 1,
        svcCalls := [.releaseOutputBuffer 1, .advance, .queueInputBuffer 6 10 0,
          .selectTrack 1] },
    { MediaReader.new with
        m_isVideo := true, m_hasAudio := true, m_frameRate := 25, svcCursor := 1,
        svcCalls := [.extractorDelete, .codecDelete, .codecStop, .releaseOutputBuffer 1,
          .advance, .queueInputBuffer 6 10 0, .selectTrack 1] },
    { MediaReader.new with
        m_ready := true, m_isVideo := true, m_hasAudio := true, m_width := 8, m_height := 6,
        m_frameRate := 25, m_duration := 500, m_frameBuffer := [7, 8, 9],
        m_mediaExtractor := true, m_mediaCodec := true, m_trackIndex := 0, svcCursor := 2,
        svcCalls := [.releaseOutputBuffer 1, .advance, .queueInputBuffer 6 10 0,
          .selectTrack 0, .extractorDelete, .codecDelete, .codecStop,
          .releaseOutputBuffer 1, .advance, .queueInputBuffer 6 10 0, .selectTrack 1] },
    by decide, by decide, by decide, by decide, by decide, by decide, by decide, by decide,
    by decide, by decide, by decide, by decide⟩⟩

/-- C32, at a failing input: the file `empty.bmp` has valid headers of 24 bits per pixel
with width 0 and height 2.  `loadBmpImage` accepts it (`open` on it never returns): the
reader is Ready with width 0, height 2 and an empty image buffer, and `getPhotoFrame` on
this reader returns failure. -/
theorem loadBmpImage_accepts_empty_image :
    MediaReader.open exEmptyBmpEnv 0 "empty.bmp" MediaReader.new = .error .deadlock ∧
    (bmpInfoHeader exEmptyBmp).width = 0 ∧ (bmpInfoHeader exEmptyBmp).height = 2 ∧
    ∃ r, MediaReader.loadBmpImage exEmptyBmpEnv "empty.bmp" MediaReader.new = .ok (true, r) ∧
      r.isReady = true ∧ r.getWidth = 0 ∧ r.getHeight = 2 ∧ r.m_imageData = [] ∧
      MediaReader.getPhotoFrame (fun _ => 0) r emptyFrame = .ok (false, r, emptyFrame) :=
  ⟨by decide, by decide, by decide,
   { MediaReader.new with m_ready := true, m_width := 0, m_height := 2 },
   by decide, by decide, by decide, by decide, by decide, by decide⟩

/-- C33: `nv21ToRgb` re-centres the stored chroma bytes.  For positive dimensions, a source
buffer that holds every byte the loop reads and a destination of `w*h*3` bytes, the call
succeeds and each pixel `(i, j)` gets R = clamp((298C + 409E + 128) >> 8),
G = clamp((298C - 100D - 208E + 128) >> 8), B = clamp((298C + 516D + 128) >> 8) with
C = Y - 16, D = U - 128, E = V - 128, where Y is the luma byte at `j*w + i` and V, U are
the stored chroma bytes of the pixel's block; when the stored pair is U = V = 128 the
pixel is grey, R = G = B. -/
theorem nv21ToRgb_recentres_chroma (nv21 out0 : Buf) (w h : Int) (hw : 0 < w) (hh : 0 < h)
    (hnv : w * h + ((h - 1) / 2 * w + (w - 1 - (w - 1) % 2) + 1) < (nv21.length : Int))
    (hout : (out0.length : Int) = w * h * 3) :
    ∃ out, FrameUtils.nv21ToRgb (some nv21) (some out0) w h = .ok (true, some out) ∧
      ∀ i j, 0 ≤ i → i < w → 0 ≤ j → j < h →
        peek out ((j * w + i) * 3) =
          clamp ((298 * ((peek nv21 (j * w + i) : Int) - 16) +
            409 * ((peek nv21 (w * h + (j / 2 * w + (i - i % 2))) : Int) - 128) + 128)
              >>> (8 : Nat)) ∧
        peek out ((j * w + i) * 3 + 1) =
          clamp ((298 * ((peek nv21 (j * w + i) : Int) - 16) -
            100 * ((peek nv21 (w * h + (j / 2 * w + (i - i % 2) + 1)) : Int) - 128) -
            208 * ((peek nv21 (w * h + (j / 2 * w + (i - i % 2))) : Int) - 128) + 128)
              >>> (8 : Nat)) ∧
        peek out ((j * w + i) * 3 + 2) =
          clamp ((298 * ((peek nv21 (j * w + i) : Int) - 16) +
            516 * ((peek nv21 (w * h + (j / 2 * w + (i - i % 2) + 1)) : Int) - 128) + 128)
              >>> (8 : Nat)) ∧
        (peek nv21 (w * h + (j / 2 * w + (i - i % 2) + 1)) = 128 →
          peek nv21 (w * h + (j / 2 * w + (i - i % 2))) = 128 →
          peek out ((j * w + i) * 3) = peek out ((j * w + i) * 3 + 1) ∧
          peek out ((j * w + i) * 3 + 1) = peek out ((j * w + i) * 3 + 2)) := by
  obtain ⟨out, e1, _, e3⟩ := nv21ToRgb_run_any nv21 out0 w h hw hh hnv hout
  refine ⟨out, e1, ?_⟩
  intro i j hi0 hi1 hj0 hj1
  obtain ⟨p1, p2, p3⟩ := e3 i j hi0 hi1 hj0 hj1
  refine ⟨p1, p2, p3, ?_⟩
  intro hu hv
  rw [p1, p2, p3, hu, hv]
  norm_num

theorem nv21ToRgb_recentres_chroma_witness :
    ((0 : Int) < 2 ∧ (0 : Int) < 2 ∧
      (2 : Int) * 2 + ((2 - 1) / 2 * 2 + (2 - 1 - (2 - 1) % 2) + 1) <
        (exGreyNv21.length : Int) ∧
      ((List.replicate 12 0).length : Int) = 2 * 2 * 3) ∧
    ∃ out, FrameUtils.nv21ToRgb (some exGreyNv21) (some (List.replicate 12 0)) 2 2 =
        .ok (true, some out) ∧
      ∀ i j, 0 ≤ i → i < 2 → 0 ≤ j → j < 2 →
        peek out ((j * 2 + i) * 3) =
          clamp ((298 * ((peek exGreyNv21 (j * 2 + i) : Int) - 16) +
            409 * ((peek exGreyNv21 (2 * 2 + (j / 2 * 2 + (i - i % 2))) : Int) - 128) + 128)
              >>> (8 : Nat)) ∧
        peek out ((j * 2 + i) * 3 + 1) =
          clamp ((298 * ((peek exGreyNv21 (j * 2 + i) : Int) - 16) -
            100 * ((peek exGreyNv21 (2 * 2 + (j / 2 * 2 + (i - i % 2) + 1)) : Int) - 128) -
            208 * ((peek exGreyNv21 (2 * 2 + (j / 2 * 2 + (i - i % 2))) : Int) - 128) + 128)
              >>> (8 : Nat)) ∧
        peek out ((j * 2 + i) * 3 + 2) =
          clamp ((298 * ((peek exGreyNv21 (j * 2 + i) : Int) - 16) +
            516 * ((peek exGreyNv21 (2 * 2 + (j / 2 * 2 + (i - i % 2) + 1)) : Int) - 128) + 128)
              >>> (8 : Nat)) ∧
        (peek exGreyNv21 (2 * 2 + (j / 2 * 2 + (i - i % 2) + 1)) = 128 →
          peek exGreyNv21 (2 * 2 + (j / 2 * 2 + (i - i % 2))) = 128 →
          peek out ((j * 2 + i) * 3) = peek out ((j * 2 + i) * 3 + 1) ∧
          peek out ((j * 2 + i) * 3 + 1) = peek out ((j * 2 + i) * 3 + 2)) :=
  ⟨by decide, nv21ToRgb_recentres_chroma exGreyNv21 (List.replicate 12 0) 2 2 (by decide)
    (by decide) (by decide) (by decide)⟩

/-- C34: for all R, G, B in [0,255] the values the RGB to YUV formulas of `rgbToNv21` and
`rgbToYuv420` compute satisfy 16 <= Y <= 235, 16 <= U <= 240 and 16 <= V <= 240, and
`clamp` returns each of them unchanged. -/
theorem rgb_to_yuv_within_range (r g b : Nat) (hr : r < 256) (hg : g < 256) (hb : b < 256) :
    (16 ≤ ((66 * (r : Int) + 129 * g + 25 * b + 128) >>> (8 : Nat)) + 16 ∧
      ((66 * (r : Int) + 129 * g + 25 * b + 128) >>> (8 : Nat)) + 16 ≤ 235 ∧
      (clamp (((66 * (r : Int) + 129 * g + 25 * b + 128) >>> (8 : Nat)) + 16) : Int) =
        ((66 * (r : Int) + 129 * g + 25 * b + 128) >>> (8 : Nat)) + 16) ∧
    (16 ≤ ((-38 * (r : Int) - 74 * g + 112 * b + 128) >>> (8 : Nat)) + 128 ∧
      ((-38 * (r : Int) - 74 * g + 112 * b + 128) >>> (8 : Nat)) + 128 ≤ 240 ∧
      (clamp (((-38 * (r : Int) - 74 * g + 112 * b + 128) >>> (8 : Nat)) + 128) : Int) =
        ((-38 * (r : Int) - 74 * g + 112 * b + 128) >>> (8 : Nat)) + 128) ∧
    (16 ≤ ((112 * (r : Int) - 94 * g - 18 * b + 128) >>> (8 : Nat)) + 128 ∧
      ((112 * (r : Int) - 94 * g - 18 * b + 128) >>> (8 : Nat)) + 128 ≤ 240 ∧
      (clamp (((112 * (r : Int) - 94 * g - 18 * b + 128) >>> (8 : Nat)) + 128) : Int) =
        ((112 * (r : Int) - 94 * g - 18 * b + 128) >>> (8 : Nat)) + 128) := by
  simp only [shr8, fdiv256]
  refine ⟨⟨?_, ?_, ?_⟩, ⟨?_, ?_, ?_⟩, ⟨?_, ?_, ?_⟩⟩
  any_goals (apply clamp_of_range <;> omega)
  all_goals omega

theorem rgb_to_yuv_within_range_witness :
    ((255 : Nat) < 256 ∧ (0 : Nat) < 256 ∧ (0 : Nat) < 256) ∧
    (16 ≤ ((66 * ((255 : Nat) : Int) + 129 * (0 : Nat) + 25 * (0 : Nat) + 128) >>> (8 : Nat)) + 16 ∧
      ((66 * ((255 : Nat) : Int) + 129 * (0 : Nat) + 25 * (0 : Nat) + 128) >>> (8 : Nat)) + 16 ≤ 235 ∧
      (clamp (((66 * ((255 : Nat) : Int) + 129 * (0 : Nat) + 25 * (0 : Nat) + 128) >>> (8 : Nat)) + 16) : Int) =
        ((66 * ((255 : Nat) : Int) + 129 * (0 : Nat) + 25 * (0 : Nat) + 128) >>> (8 : Nat)) + 16) ∧
    (16 ≤ ((-38 * ((255 : Nat) : Int) - 74 * (0 : Nat) + 112 * (0 : Nat) + 128) >>> (8 : Nat)) + 128 ∧
      ((-38 * ((255 : Nat) : Int) - 74 * (0 : Nat) + 112 * (0 : Nat) + 128) >>> (8 : Nat)) + 128 ≤ 240 ∧
      (clamp (((-38 * ((255 : Nat) : Int) - 74 * (0 : Nat) + 112 * (0 : Nat) + 128) >>> (8 : Nat)) + 128) : Int) =
        ((-38 * ((255 : Nat) : Int) - 74 * (0 : Nat) + 112 * (0 : Nat) + 128) >>> (8 : Nat)) + 128) ∧
    (16 ≤ ((112 * ((255 : Nat) : Int) - 94 * (0 : Nat) - 18 * (0 : Nat) + 128) >>> (8 : Nat)) + 128 ∧
      ((112 * ((255 : Nat) : Int) - 94 * (0 : Nat) - 18 * (0 : Nat) + 128) >>> (8 : Nat)) + 128 ≤ 240 ∧
      (clamp (((112 * ((255 : Nat) : Int) - 94 * (0 : Nat) - 18 * (0 : Nat) + 128) >>> (8 : Nat)) + 128) : Int) =
        ((112 * ((255 : Nat) : Int) - 94 * (0 : Nat) - 18 * (0 : Nat) + 128) >>> (8 : Nat)) + 128) :=
  ⟨by decide, rgb_to_yuv_within_range 255 0 0 (by decide) (by decide) (by decide)⟩

/-- C35 as stated fails: `exWhite` is a 1x1 RGB24 frame of the solid colour white.  Scaled
to 3x1, the four samples blended for byte 0 of the output pixel (1,0) are all 255, the
weight is xFrac = float(1/3), the blend computed in single precision is
16711679/65536 = 254.99998..., and the byte stored is 254: below the least of the four
samples, and not the solid colour. -/
theorem scaleFrame_darkens_solid_counterexample :
    ValidPacked exWhite ∧ BytesOk exWhite ∧
    scaleNeighbours exWhite 3 1 1 0 0 = [255, 255, 255, 255] ∧
    srcFrac exWhite.width 3 1 = 11184811 / 33554432 ∧ srcFrac exWhite.height 1 0 = 0 ∧
    bilinear 255 255 255 255 (11184811 / 33554432) 0 = 16711679 / 65536 ∧
    ∃ out, FrameUtils.scaleFrame (fun _ => 0) exWhite emptyFrame 3 1 = .ok (true, out) ∧
      out.pixelByte 1 0 0 = 254 := by
  have c0 : srcCoord0 exWhite.width 3 1 = 0 := srcCoord0_white
  have c1 : srcCoord1 exWhite.width 3 1 = 0 := by unfold srcCoord1; rw [c0]; rfl
  have r0 : srcCoord0 exWhite.height 1 0 = 0 :=
    srcCoord0_same 1 0 (by norm_num) (by norm_num) (by norm_num)
  have r1 : srcCoord1 exWhite.height 1 0 = 0 := by unfold srcCoord1; rw [r0]; rfl
  have f0 : srcFrac exWhite.height 1 0 = 0 :=
    srcFrac_same 1 0 (by norm_num) (by norm_num) (by norm_num)
  have hn : scaleNeighbours exWhite 3 1 1 0 0 = [255, 255, 255, 255] := by
    unfold scaleNeighbours
    rw [c0, c1, r0, r1]
    decide
  refine ⟨validPacked_exWhite, by decide, hn, srcFrac_white, f0, bilinear_white, ?_⟩
  obtain ⟨d, e1, _, e3⟩ := scaleFrame_bounded_run (fun _ => 0) exWhite emptyFrame 3 1
    validPacked_exWhite (by decide) (by decide) (by norm_num) (by norm_num) (by norm_num)
    (by norm_num) (by decide)
  refine ⟨_, e1, ?_⟩
  have a := e3 1 0 0 (by norm_num) (by norm_num) (by norm_num) (by norm_num) (by norm_num)
    (by decide)
  have hv : scaleSample exWhite.bytes exWhite.width exWhite.height
      (bytesPerPixel exWhite.format) 3 1 1 0 0 = 254 := by
    have fx : srcFrac exWhite.width 3 1 = 11184811 / 33554432 := srcFrac_white
    unfold scaleSample
    rw [c0, c1, r0, f0, fx]
    have p0 : peek exWhite.bytes ((0 * exWhite.width + 0) * bytesPerPixel exWhite.format + 0)
        = 255 := by decide
    rw [r1, p0, bilinear_white]
    have : floatToInt (16711679 / 65536 : ℚ) = 254 := by
      rw [floatToInt_of_nonneg _ (by norm_num), Int.floor_eq_iff]
      constructor <;> norm_num
    rw [this]
    decide
  show peek d (0 * (3 * bytesPerPixel exWhite.format) + 1 * bytesPerPixel exWhite.format + 0)
    = 254
  have i : 0 * (3 * bytesPerPixel exWhite.format) + 1 * bytesPerPixel exWhite.format + 0 =
      (0 * 3 + 1) * bytesPerPixel exWhite.format + 0 := by ring
  rw [i, a]
  exact hv

/-- C35, amended: for every valid tightly packed RGB24/RGBA32 source whose bytes are below
256, with width and height below 2^24 and target dimensions in 1..2^22 (target size
below 2^31 bytes), `scaleFrame` succeeds and every output channel value `v` satisfies
`lo - 1 <= v <= hi` for the least `lo` and the greatest `hi` of the four source samples it
blends; the value is the truncated blend itself, so the [0,255] clamp does not change it;
and when the four samples are one colour `k`, the result is `k` or `k - 1`. -/
theorem scaleFrame_within_samples (fresh : Nat → Nat) (src dst : FrameData) (tw th : Int)
    (h : ValidPacked src) (hb : BytesOk src) (hw : src.width < 2 ^ 24)
    (hh : src.height < 2 ^ 24) (htw0 : 0 < tw) (htw : tw ≤ 2 ^ 22) (hth0 : 0 < th)
    (hth : th ≤ 2 ^ 22) (hsz : tw * bytesPerPixel src.format * th < 2 ^ 31) :
    ∃ out, FrameUtils.scaleFrame fresh src dst tw th = .ok (true, out) ∧
      out.width = tw ∧ out.height = th ∧ out.format = src.format ∧
      ∀ x y c, 0 ≤ x → x < tw → 0 ≤ y → y < th → 0 ≤ c → c < bytesPerPixel src.format →
        (∃ lo ∈ scaleNeighbours src tw th x y c, lo ≤ out.pixelByte x y c + 1) ∧
        (∃ hi ∈ scaleNeighbours src tw th x y c, out.pixelByte x y c ≤ hi) ∧
        (out.pixelByte x y c : Int) = floatToInt (bilinear
            (src.pixelByte (srcCoord0 src.width tw x) (srcCoord0 src.height th y) c)
            (src.pixelByte (srcCoord1 src.width tw x) (srcCoord0 src.height th y) c)
            (src.pixelByte (srcCoord0 src.width tw x) (srcCoord1 src.height th y) c)
            (src.pixelByte (srcCoord1 src.width tw x) (srcCoord1 src.height th y) c)
            (srcFrac src.width tw x) (srcFrac src.height th y)) ∧
        ∀ k, (∀ s ∈ scaleNeighbours src tw th x y c, s = k) →
          out.pixelByte x y c = k ∨ out.pixelByte x y c + 1 = k := by
  obtain ⟨d, e1, _, e3⟩ := scaleFrame_bounded_run fresh src dst tw th h hw hh htw0 htw hth0 hth
    hsz
  refine ⟨_, e1, rfl, rfl, rfl, ?_⟩
  intro x y c hx0 hx1 hy0 hy1 hc0 hc1
  have a := e3 x y c hx0 hx1 hy0 hy1 hc0 hc1
  have hs : src.stride = src.width * bytesPerPixel src.format := h.2.2.2.2.1
  have px : ∀ sx sy : Int, src.pixelByte sx sy c =
      peek src.bytes ((sy * src.width + sx) * bytesPerPixel src.format + c) := by
    intro sx sy
    unfold FrameData.pixelByte
    rw [hs]
    congr 1
    ring
  have hout : FrameData.pixelByte
      { dst with width := tw, height := th, format := src.format,
                 stride := tw * bytesPerPixel src.format,
                 size := toSizeT (tw * bytesPerPixel src.format * th), data := some d } x y c =
      clamp (floatToInt (bilinear
        (src.pixelByte (srcCoord0 src.width tw x) (srcCoord0 src.height th y) c)
        (src.pixelByte (srcCoord1 src.width tw x) (srcCoord0 src.height th y) c)
        (src.pixelByte (srcCoord0 src.width tw x) (srcCoord1 src.height th y) c)
        (src.pixelByte (srcCoord1 src.width tw x) (srcCoord1 src.height th y) c)
        (srcFrac src.width tw x) (srcFrac src.height th y))) := by
    rw [px, px, px, px]
    show peek d (y * (tw * bytesPerPixel src.format) + x * bytesPerPixel src.format + c) = _
    have i : y * (tw * bytesPerPixel src.format) + x * bytesPerPixel src.format + c =
        (y * tw + x) * bytesPerPixel src.format + c := by ring
    rw [i, a]
    rfl
  have l00 : src.pixelByte (srcCoord0 src.width tw x) (srcCoord0 src.height th y) c < 256 :=
    peek_lt _ hb _
  have l01 : src.pixelByte (srcCoord1 src.width tw x) (srcCoord0 src.height th y) c < 256 :=
    peek_lt _ hb _
  have l10 : src.pixelByte (srcCoord0 src.width tw x) (srcCoord1 src.height th y) c < 256 :=
    peek_lt _ hb _
  have l11 : src.pixelByte (srcCoord1 src.width tw x) (srcCoord1 src.height th y) c < 256 :=
    peek_lt _ hb _
  obtain ⟨xf0, xf1⟩ := srcFrac_unit src.width tw x h.2.2.1 hw htw0 htw hx0 hx1
  obtain ⟨yf0, yf1⟩ := srcFrac_unit src.height th y h.2.2.2.1 hh hth0 hth hy0 hy1
  unfold scaleNeighbours
  rw [hout]
  generalize src.pixelByte (srcCoord0 src.width tw x) (srcCoord0 src.height th y) c = s00
    at l00 ⊢
  generalize src.pixelByte (srcCoord1 src.width tw x) (srcCoord0 src.height th y) c = s01
    at l01 ⊢
  generalize src.pixelByte (srcCoord0 src.width tw x) (srcCoord1 src.height th y) c = s10
    at l10 ⊢
  generalize src.pixelByte (srcCoord1 src.width tw x) (srcCoord1 src.height th y) c = s11
    at l11 ⊢
  obtain ⟨m, M, hm, hM, b1, b2, b3, b4⟩ := four_bounds s00 s01 s10 s11
  have hM256 : M < 256 := by
    simp only [List.mem_cons, List.mem_singleton, List.not_mem_nil, or_false] at hM
    omega
  obtain ⟨g1, g2, g3⟩ := bilinear_between s00 s01 s10 s11 m M hM256 b1 b2 b3 b4
    (srcFrac src.width tw x) (srcFrac src.height th y) xf0 xf1 yf0 yf1
  generalize floatToInt (bilinear s00 s01 s10 s11 (srcFrac src.width tw x)
    (srcFrac src.height th y)) = F at g1 g2 g3 ⊢
  refine ⟨⟨m, hm, ?_⟩, ⟨M, hM, ?_⟩, g3, ?_⟩
  · have : (m : ℤ) ≤ (clamp F : ℤ) + 1 := by omega
    exact_mod_cast this
  · have : (clamp F : ℤ) ≤ (M : ℤ) := by omega
    exact_mod_cast this
  · intro k hk
    have hmk := hk m hm
    have hMk := hk M hM
    have : (clamp F : ℤ) = k ∨ (clamp F : ℤ) + 1 = k := by omega
    rcases this with t | t
    · left; exact_mod_cast t
    · right; exact_mod_cast t

theorem scaleFrame_within_samples_witness :
    (ValidPacked exWhite ∧ BytesOk exWhite ∧ exWhite.width < 2 ^ 24 ∧
      exWhite.height < 2 ^ 24 ∧ (0 : Int) < 3 ∧ (3 : Int) ≤ 2 ^ 22 ∧ (0 : Int) < 1 ∧
      (1 : Int) ≤ 2 ^ 22 ∧ 3 * bytesPerPixel exWhite.format * 1 < 2 ^ 31) ∧
    ∃ out, FrameUtils.scaleFrame (fun _ => 0) exWhite emptyFrame 3 1 = .ok (true, out) ∧
      out.width = 3 ∧ out.height = 1 ∧ out.format = exWhite.format ∧
      ∀ x y c, 0 ≤ x → x < 3 → 0 ≤ y → y < 1 → 0 ≤ c → c < bytesPerPixel exWhite.format →
        (∃ lo ∈ scaleNeighbours exWhite 3 1 x y c, lo ≤ out.pixelByte x y c + 1) ∧
        (∃ hi ∈ scaleNeighbours exWhite 3 1 x y c, out.pixelByte x y c ≤ hi) ∧
        (out.pixelByte x y c : Int) = floatToInt (bilinear
            (exWhite.pixelByte (srcCoord0 exWhite.width 3 x) (srcCoord0 exWhite.height 1 y) c)
            (exWhite.pixelByte (srcCoord1 exWhite.width 3 x) (srcCoord0 exWhite.height 1 y) c)
            (exWhite.pixelByte (srcCoord0 exWhite.width 3 x) (srcCoord1 exWhite.height 1 y) c)
            (exWhite.pixelByte (srcCoord1 exWhite.width 3 x) (srcCoord1 exWhite.height 1 y) c)
            (srcFrac exWhite.width 3 x) (srcFrac exWhite.height 1 y)) ∧
        ∀ k, (∀ s ∈ scaleNeighbours exWhite 3 1 x y c, s = k) →
          out.pixelByte x y c = k ∨ out.pixelByte x y c + 1 = k :=
  ⟨by decide, scaleFrame_within_samples (fun _ => 0) exWhite emptyFrame 3 1 (by decide)
    (by decide) (by decide) (by decide) (by decide) (by decide) (by decide) (by decide)
    (by decide)⟩

/-- C36, at a failing input: `exHuge` is a valid tightly packed RGB24 frame of
16777220 x 1 pixels, all bytes 0.  `scaleFrame` to its own dimensions does not return a
copy: it reads outside the source buffer, while `matchResolution` with the same target
dimensions takes the copy path and returns the frame's dimensions, format, stride, size
and bytes. -/
theorem scaleFrame_same_size_wide_fault :
    ValidPacked exHuge ∧ BytesOk exHuge ∧
    (∀ (fresh : Nat → Nat) (dst : FrameData),
      FrameUtils.scaleFrame fresh exHuge dst exHuge.width exHuge.height =
        .error .outOfBounds) ∧
    ∀ (fresh1 fresh2 : Nat → Nat) (dst : FrameData) (maintainAspect : Bool),
      FrameUtils.matchResolution fresh1 fresh2 exHuge dst exHuge.width exHuge.height
          maintainAspect =
        .ok (true, { dst with width := exHuge.width, height := exHuge.height,
                              format := exHuge.format, stride := exHuge.stride,
                              size := exHuge.size, data := exHuge.data }) :=
  ⟨validPacked_exHuge, bytesOk_exHuge,
   fun fresh dst => scaleFrame_wide_fault fresh exHuge dst validPacked_exHuge rfl rfl rfl,
   fun fresh1 fresh2 dst b => matchResolution_same_size fresh1 fresh2 exHuge dst
     validPacked_exHuge b⟩

/-- C37 as stated fails: for the valid 1x2 RGB24 frame `exPortrait` and the target 1x1 the
scaled box is (0, 1): scaleWidth = (int)(1 * 0.5) = 0.  `matchResolution` returns success
with a 1x1 frame whose three bytes are 0: only black padding, no pixel of the source, whose
bytes are all different from 0. -/
theorem matchResolution_empty_box_counterexample :
    ValidPacked exPortrait ∧ exPortrait.bytes = [10, 20, 30, 40, 50, 60] ∧
    scaledBox exPortrait.width exPortrait.height 1 1 = (0, 1) ∧
    ¬ (1 ≤ (scaledBox exPortrait.width exPortrait.height 1 1).1) ∧
    ∃ out, FrameUtils.matchResolution (fun _ => 0) (fun _ => 7) exPortrait emptyFrame 1 1
        true = .ok (true, out) ∧
      out.width = 1 ∧ out.height = 1 ∧ out.bytes.length = 3 ∧
      ∀ c, 0 ≤ c → c < 3 → out.pixelByte 0 0 c = 0 := by
  have hbox : scaledBox exPortrait.width exPortrait.height 1 1 = (0, 1) := scaledBox_portrait
  refine ⟨validPacked_exPortrait, rfl, hbox, by rw [hbox]; norm_num, ?_⟩
  have hY : ∀ y : Int, 0 ≤ y → y < 1 →
      0 ≤ srcCoord0 exPortrait.height 1 y ∧ srcCoord0 exPortrait.height 1 y < exPortrait.height := by
    intro y hy0 hy1
    have : y = 0 := by omega
    subst this
    have e : srcCoord0 exPortrait.height 1 0 = 0 := by
      unfold srcCoord0 fmul
      rw [intToFloat_small 0 (by norm_num)]
      simp [f32_zero, floatToInt]
    rw [e]
    decide
  obtain ⟨sd, s1, _, _⟩ := scaleFrame_run (fun _ => 0) exPortrait emptyFrame 0 1
    validPacked_exPortrait (by norm_num) (by norm_num) (by decide)
    (fun x hx0 hx1 => by omega) hY
  have hsc : FrameUtils.scaleFrame (fun _ => 0) exPortrait emptyFrame
      (scaledBox exPortrait.width exPortrait.height 1 1).1
      (scaledBox exPortrait.width exPortrait.height 1 1).2 =
      .ok (true, { emptyFrame with
        width := 0, height := 1, format := exPortrait.format,
        stride := 0 * bytesPerPixel exPortrait.format,
        size := toSizeT (0 * bytesPerPixel exPortrait.format * 1), data := some sd }) := by
    rw [hbox]; exact s1
  obtain ⟨d, m1, m2, _, m4⟩ := matchResolution_aspect_run (fun _ => 0) (fun _ => 7) exPortrait
    emptyFrame _ 1 1 validPacked_exPortrait (by decide) (by norm_num) (by norm_num)
    (by decide) hsc (by rw [hbox]; norm_num)
  refine ⟨_, m1, rfl, rfl, ?_, ?_⟩
  · show d.length = 3
    have e : bytesPerPixel exPortrait.format = 3 := rfl
    rw [e] at m2
    omega
  · intro c hc0 hc1
    have := m4 0 0 c (by norm_num) (by norm_num) (by norm_num) (by norm_num) hc0 hc1
      (by rw [hbox]; norm_num)
    show peek d (0 * (1 * bytesPerPixel exPortrait.format) + 0 * bytesPerPixel exPortrait.format + c) = 0
    have i : 0 * (1 * bytesPerPixel exPortrait.format) + 0 * bytesPerPixel exPortrait.format + c =
        (0 * 1 + 0) * bytesPerPixel exPortrait.format + c := by ring
    rw [i]
    exact this

/-- C37, amended: the scaled box of `matchResolution` can be empty (see the
counterexample).  For every valid tightly packed RGB24/RGBA32 frame of size w x h with
w, h below 2^23 and every target tw x th different from (w,h) with tw, th in 1..2^22 and
tw*th*bpp below 2^31, if w <= tw*h and 2*h <= th*w then the scaled box (sw,sh) has
1 <= sw <= tw and 1 <= sh <= th with sw = tw or sh = th, `matchResolution` with
`maintainAspect = true` succeeds, and with ox = (tw-sw)/2, oy = (th-sh)/2 the pixel
(ox+x, oy+y) of the result is the pixel (x,y) that `scaleFrame` computes for the box:
the result contains scaled source content. -/
theorem matchResolution_box_nonempty (fresh1 fresh2 : Nat → Nat) (src dst : FrameData)
    (tw th : Int) (h : ValidPacked src) (hne : ¬ (src.width = tw ∧ src.height = th))
    (hw : src.width < 2 ^ 23) (hh : src.height < 2 ^ 23)
    (htw0 : 0 < tw) (htw : tw ≤ 2 ^ 22) (hth0 : 0 < th) (hth : th ≤ 2 ^ 22)
    (hsz : tw * bytesPerPixel src.format * th < 2 ^ 31)
    (hwide : src.width ≤ tw * src.height) (htall : 2 * src.height ≤ th * src.width) :
    1 ≤ (scaledBox src.width src.height tw th).1 ∧
    (scaledBox src.width src.height tw th).1 ≤ tw ∧
    1 ≤ (scaledBox src.width src.height tw th).2 ∧
    (scaledBox src.width src.height tw th).2 ≤ th ∧
    ((scaledBox src.width src.height tw th).1 = tw ∨
      (scaledBox src.width src.height tw th).2 = th) ∧
    ∃ out, FrameUtils.matchResolution fresh1 fresh2 src dst tw th true = .ok (true, out) ∧
      out.width = tw ∧ out.height = th ∧ out.format = src.format ∧
      ∀ x y c, 0 ≤ x → x < (scaledBox src.width src.height tw th).1 → 0 ≤ y →
        y < (scaledBox src.width src.height tw th).2 → 0 ≤ c → c < bytesPerPixel src.format →
        out.pixelByte ((tw - (scaledBox src.width src.height tw th).1) / 2 + x)
            ((th - (scaledBox src.width src.height tw th).2) / 2 + y) c =
          scaleSample src.bytes src.width src.height (bytesPerPixel src.format)
            (scaledBox src.width src.height tw th).1 (scaledBox src.width src.height tw th).2
            x y c := by
  have hw0 := h.2.2.1
  have hh0 := h.2.2.2.1
  have hbp := bytesPerPixel_pos src.format
  obtain ⟨f1, f2, f3, f4, f5⟩ := scaledBox_fits src.width src.height tw th hw0 hw hh0 hh htw0
    (by omega) hth0 (by omega)
  obtain ⟨n1, n2⟩ := scaledBox_nonempty src.width src.height tw th hw0 hw hh0 hh htw0
    (by omega) hth0 (by omega) hwide htall
  generalize hsw : (scaledBox src.width src.height tw th).1 = sw at *
  generalize hsh : (scaledBox src.width src.height tw th).2 = sh at *
  have hsz2 : sw * bytesPerPixel src.format * sh < 2 ^ 31 := by
    have a1 : sw * bytesPerPixel src.format ≤ tw * bytesPerPixel src.format :=
      mul_le_mul_of_nonneg_right f2 (by omega)
    have a2 : sw * bytesPerPixel src.format * sh ≤ tw * bytesPerPixel src.format * th :=
      mul_le_mul a1 f4 (by omega) (by positivity)
    omega
  obtain ⟨sd, s1, s2, s3⟩ := scaleFrame_bounded_run fresh1 src emptyFrame sw sh h (by omega)
    (by omega) (by omega) (by omega) (by omega) (by omega) hsz2
  have hsc : FrameUtils.scaleFrame fresh1 src emptyFrame
      (scaledBox src.width src.height tw th).1 (scaledBox src.width src.height tw th).2 =
      .ok (true, { emptyFrame with
        width := sw, height := sh, format := src.format,
        stride := sw * bytesPerPixel src.format,
        size := toSizeT (sw * bytesPerPixel src.format * sh), data := some sd }) := by
    rw [hsw, hsh]; exact s1
  obtain ⟨d, m1, m2, m3, _⟩ := matchResolution_aspect_run fresh1 fresh2 src dst _ tw th h hne
    htw0 hth0 hsz hsc (by rw [hsw, hsh]; exact ⟨f1, f2, f3, f4⟩)
  refine ⟨n1, f2, n2, f4, f5, _, m1, rfl, rfl, rfl, ?_⟩
  intro x y c hx0 hx1 hy0 hy1 hc0 hc1
  have a := m3 x y c hx0 (by rw [hsw]; exact hx1) hy0 (by rw [hsh]; exact hy1) hc0 hc1
  rw [hsw, hsh] at a
  have b := s3 x y c hx0 hx1 hy0 hy1 hc0 hc1
  show peek d (((th - sh) / 2 + y) * (tw * bytesPerPixel src.format) +
    ((tw - sw) / 2 + x) * bytesPerPixel src.format + c) = _
  have i : ((th - sh) / 2 + y) * (tw * bytesPerPixel src.format) +
      ((tw - sw) / 2 + x) * bytesPerPixel src.format + c =
      ((y + (th - sh) / 2) * tw + ((tw - sw) / 2 + x)) * bytesPerPixel src.format + c := by
    ring
  rw [i, a]
  exact b

theorem matchResolution_box_nonempty_witness :
    (ValidPacked exCorners ∧ ¬ (exCorners.width = 4 ∧ exCorners.height = 2) ∧
      exCorners.width < 2 ^ 23 ∧ exCorners.height < 2 ^ 23 ∧ (0 : Int) < 4 ∧
      (4 : Int) ≤ 2 ^ 22 ∧ (0 : Int) < 2 ∧ (2 : Int) ≤ 2 ^ 22 ∧
      4 * bytesPerPixel exCorners.format * 2 < 2 ^ 31 ∧
      exCorners.width ≤ 4 * exCorners.height ∧ 2 * exCorners.height ≤ 2 * exCorners.width) ∧
    1 ≤ (scaledBox exCorners.width exCorners.height 4 2).1 ∧
    (scaledBox exCorners.width exCorners.height 4 2).1 ≤ 4 ∧
    1 ≤ (scaledBox exCorners.width exCorners.height 4 2).2 ∧
    (scaledBox exCorners.width exCorners.height 4 2).2 ≤ 2 ∧
    ((scaledBox exCorners.width exCorners.height 4 2).1 = 4 ∨
      (scaledBox exCorners.width exCorners.height 4 2).2 = 2) ∧
    ∃ out, FrameUtils.matchResolution (fun _ => 0) (fun _ => 0) exCorners emptyFrame 4 2
        true = .ok (true, out) ∧
      out.width = 4 ∧ out.height = 2 ∧ out.format = exCorners.format ∧
      ∀ x y c, 0 ≤ x → x < (scaledBox exCorners.width exCorners.height 4 2).1 → 0 ≤ y →
        y < (scaledBox exCorners.width exCorners.height 4 2).2 → 0 ≤ c →
        c < bytesPerPixel exCorners.format →
        out.pixelByte ((4 - (scaledBox exCorners.width exCorners.height 4 2).1) / 2 + x)
            ((2 - (scaledBox exCorners.width exCorners.height 4 2).2) / 2 + y) c =
          scaleSample exCorners.bytes exCorners.width exCorners.height
            (bytesPerPixel exCorners.format)
            (scaledBox exCorners.width exCorners.height 4 2).1
            (scaledBox exCorners.width exCorners.height 4 2).2 x y c :=
  ⟨by decide, matchResolution_box_nonempty (fun _ => 0) (fun _ => 0) exCorners emptyFrame 4 2
    (by decide) (by decide) (by decide) (by decide) (by decide) (by decide) (by decide)
    (by decide) (by decide) (by decide) (by decide)⟩

/-- C38: for every valid tightly packed RGB24/RGBA32 frame, `rotate90CW` applied twice
succeeds and yields a frame with the same width, height, format and pixel bytes (and so
the same size and stride) as `rotate180` applied once to the frame. -/
theorem rotate90CW_twice_eq_rotate180 (fresh1 fresh2 : Nat → Nat) (src dst1 dst2 : FrameData)
    (h : ValidPacked src) :
    ∃ r1 r2 r, FrameUtils.rotate90CW fresh1 src dst1 = .ok (true, r1) ∧
      FrameUtils.rotate90CW fresh2 r1 dst2 = .ok (true, r2) ∧
      FrameUtils.rotate180 src = .ok (true, r) ∧
      r2.width = r.width ∧ r2.height = r.height ∧ r2.format = r.format ∧
      r2.data = r.data ∧ r2.size = r.size ∧ r2.stride = r.stride := by
  obtain ⟨r1, a1, a2, a3, a4, _, av, _, a7⟩ := rotate90CW_run fresh1 src dst1 h
  obtain ⟨r2, b1, b2, b3, b4, _, bv, _, b7⟩ := rotate90CW_run fresh2 r1 dst2 av
  obtain ⟨d, c1, c2, c3⟩ := rotate180_run src h
  have cv := validPacked_setData src d h c2
  have hw : r2.width = src.width := by rw [b2, a3]
  have hh : r2.height = src.height := by rw [b3, a2]
  have hf : r2.format = src.format := by rw [b4, a4]
  have hb := bytesPerPixel_pos src.format
  obtain ⟨_, _, hw0, hh0, hst, _⟩ := h
  have := packed_ext { src with data := some d } r2 cv bv hw hh hf (by
    intro x y c hx0 hx1 hy0 hy1 hc0 hc1
    have hx1' : x < src.width := hx1
    have hy1' : y < src.height := hy1
    have hc1' : c < bytesPerPixel src.format := hc1
    have e1 := a7 (src.width - 1 - x) (src.height - 1 - y) c (by omega) (by omega) (by omega)
      (by omega) hc0 hc1'
    have e0 : src.height - 1 - (src.height - 1 - y) = y := by omega
    rw [e0] at e1
    have e2 := b7 y (src.width - 1 - x) c hy0 (by rw [a2]; exact hy1') (by omega)
      (by rw [a3]; omega) hc0 (by rw [a4]; exact hc1')
    rw [a3] at e2
    have e3 : src.width - 1 - (src.width - 1 - x) = x := by omega
    rw [e3] at e2
    rw [e2, e1]
    have hp : y * src.width + x < src.width * src.height := by nlinarith
    have hp0 : 0 ≤ y * src.width + x := by positivity
    have e4 := c3 (y * src.width + x) c hp0 hp hc0 hc1'
    show src.pixelByte (src.width - 1 - x) (src.height - 1 - y) c =
      peek d (y * src.stride + x * bytesPerPixel src.format + c)
    have i1 : y * src.stride + x * bytesPerPixel src.format + c =
        (y * src.width + x) * bytesPerPixel src.format + c := by rw [hst]; ring
    rw [i1, e4]
    unfold FrameData.pixelByte
    congr 1
    rw [hst]; ring)
  exact ⟨r1, r2, _, a1, b1, c1, hw, hh, hf, this.1, this.2.1, this.2.2⟩

theorem rotate90CW_twice_eq_rotate180_witness :
    ValidPacked exFrameRgba ∧
    ∃ r1 r2 r, FrameUtils.rotate90CW (fun _ => 0) exFrameRgba emptyFrame = .ok (true, r1) ∧
      FrameUtils.rotate90CW (fun _ => 0) r1 emptyFrame = .ok (true, r2) ∧
      FrameUtils.rotate180 exFrameRgba = .ok (true, r) ∧
      r2.width = r.width ∧ r2.height = r.height ∧ r2.format = r.format ∧
      r2.data = r.data ∧ r2.size = r.size ∧ r2.stride = r.stride :=
  ⟨by decide, rotate90CW_twice_eq_rotate180 (fun _ => 0) (fun _ => 0) exFrameRgba emptyFrame
    emptyFrame (by decide)⟩

/-- C39: for every valid tightly packed RGB24/RGBA32 frame, `applyFrontCameraTransform`
applied twice succeeds and yields a frame with the width, height, format and pixel bytes
(and so the size and stride) of the original. -/
theorem applyFrontCameraTransform_involution (fresh1 fresh2 fresh3 fresh4 : Nat → Nat)
    (src dst1 dst2 : FrameData) (h : ValidPacked src) :
    ∃ r1 r2, FrameUtils.applyFrontCameraTransform fresh1 fresh2 src dst1 = .ok (true, r1) ∧
      FrameUtils.applyFrontCameraTransform fresh3 fresh4 r1 dst2 = .ok (true, r2) ∧
      r2.width = src.width ∧ r2.height = src.height ∧ r2.format = src.format ∧
      r2.data = src.data ∧ r2.size = src.size ∧ r2.stride = src.stride := by
  obtain ⟨_, r1, _, _, a1, a2, a3, a4, av, a7⟩ :=
    applyFrontCameraTransform_run fresh1 fresh2 src dst1 h
  obtain ⟨_, r2, _, _, b1, b2, b3, b4, bv, b7⟩ :=
    applyFrontCameraTransform_run fresh3 fresh4 r1 dst2 av
  have hw : r2.width = src.width := by rw [b2, a3]
  have hh : r2.height = src.height := by rw [b3, a2]
  have hf : r2.format = src.format := by rw [b4, a4]
  have := packed_ext src r2 h bv hw hh hf (by
    intro x y c hx0 hx1 hy0 hy1 hc0 hc1
    have e1 := a7 x y c hx0 hx1 hy0 hy1 hc0 hc1
    have e2 := b7 (src.height - 1 - y) (src.width - 1 - x) c (by omega) (by rw [a2]; omega)
      (by omega) (by rw [a3]; omega) hc0 (by rw [a4]; exact hc1)
    rw [a2, a3] at e2
    have e3 : src.width - 1 - (src.width - 1 - x) = x := by omega
    have e4 : src.height - 1 - (src.height - 1 - y) = y := by omega
    rw [e3, e4] at e2
    rw [e2, e1])
  exact ⟨r1, r2, a1, b1, hw, hh, hf, this.1, this.2.1, this.2.2⟩

theorem applyFrontCameraTransform_involution_witness :
    ValidPacked exFrame ∧
    ∃ r1 r2, FrameUtils.applyFrontCameraTransform (fun _ => 0) (fun _ => 0) exFrame emptyFrame =
        .ok (true, r1) ∧
      FrameUtils.applyFrontCameraTransform (fun _ => 0) (fun _ => 0) r1 emptyFrame =
        .ok (true, r2) ∧
      r2.width = exFrame.width ∧ r2.height = exFrame.height ∧ r2.format = exFrame.format ∧
      r2.data = exFrame.data ∧ r2.size = exFrame.size ∧ r2.stride = exFrame.stride :=
  ⟨by decide, applyFrontCameraTransform_involution (fun _ => 0) (fun _ => 0) (fun _ => 0)
    (fun _ => 0) exFrame emptyFrame emptyFrame (by decide)⟩

end DroidFakeCam
